import Mathlib

/-!
STM32_SSD1351: a shallow embedding of the firmware and its checked properties.

The definitions below are translated function by function from
`src/spi_oled.c` (Blue Pill, monochrome 128x32 frame),
`src/BlackPill/spi_oled.c` (Black Pill, 128x128 colour frame),
`src/RisibleRadar/RisibleRadar.c` (the radar game) and the two image
converters `src/pbm2oled.c` and `src/BluePill/pbm2oled.c`.

Conventions.
* C globals and the locals of `main` become fields of explicit state records.
* `uint8_t`, `uint16_t`, `uint32_t` values are natural numbers; a reduction
  `% 2 ^ w` is written wherever the C value could wrap.
* A spin-wait loop that no sequential code can leave (`while (head == tail);`)
  makes the function return `none`.
* Code shared verbatim by both boards (UART ring buffers, clock interrupt
  handlers) lives in `SpiOled`; board specific code in `SpiOled.BluePill`
  and `SpiOled.BlackPill`.
-/

namespace SpiOled

/-! ## UART ring buffers (`struct UART_RX_BUFFER`, `struct UART_TX_BUFFER`) -/

def UART_RX_BUFFER_SIZE : Nat := 128
def UART_RX_BUFFER_MASK : Nat := UART_RX_BUFFER_SIZE - 1
def UART_TX_BUFFER_SIZE : Nat := 128
def UART_TX_BUFFER_MASK : Nat := UART_TX_BUFFER_SIZE - 1

/-- The receive ring: `head` and `tail` are `uint8_t`, `buf` maps an index to
the byte stored there. -/
structure UART_RX_BUFFER where
  head : Nat
  tail : Nat
  buf : Nat → Nat

/-- The transmit ring, same layout as the receive ring. -/
structure UART_TX_BUFFER where
  head : Nat
  tail : Nat
  buf : Nat → Nat

/-- The pair of rings `U1Buf`, with the two pieces of USART1 hardware the
transmit path touches: the TXEIE bit of `CR1` and the bytes written to `DR`
(oldest first). -/
structure UART_BUFFER where
  tx : UART_TX_BUFFER
  rx : UART_RX_BUFFER
  CR1_TXEIE : Bool
  DR_written : List Nat

/-- Store into `buf[i]`. -/
def bufStore (buf : Nat → Nat) (i v : Nat) : Nat → Nat :=
  fun j => if j = i then v else buf j

/-- The receive branch of `USART1_IRQHandler` (taken when `SR & RXNE`):
`dr` is the value read from `USART1->DR`, truncated to the `uint8_t ch`. -/
def USART1_IRQHandler_rx (dr : Nat) (rx : UART_RX_BUFFER) : UART_RX_BUFFER :=
  let tmphead := (rx.head + 1) &&& UART_RX_BUFFER_MASK
  let ch := dr % 256
  if tmphead = rx.tail then
    rx
  else
    { rx with head := tmphead, buf := bufStore rx.buf tmphead ch }

/-- The transmit branch of `USART1_IRQHandler` (taken when `SR & TXE`). -/
def USART1_IRQHandler_tx (u : UART_BUFFER) : UART_BUFFER :=
  if u.tx.head ≠ u.tx.tail then
    let tmptail := (u.tx.tail + 1) &&& UART_TX_BUFFER_MASK
    { u with tx := { u.tx with tail := tmptail },
             DR_written := u.DR_written ++ [u.tx.buf tmptail] }
  else
    { u with CR1_TXEIE := false }

/-- The whole handler `USART1_IRQHandler`; `rxne`, `txe` are the two status
bits of `USART1->SR` it tests and `dr` the value a read of `DR` gives. -/
def USART1_IRQHandler (rxne txe : Bool) (dr : Nat) (u : UART_BUFFER) : UART_BUFFER :=
  let u1 := if rxne then { u with rx := USART1_IRQHandler_rx dr u.rx } else u
  if txe then USART1_IRQHandler_tx u1 else u1

/-- The function `UART1RxAvailable`. -/
def UART1RxAvailable (rx : UART_RX_BUFFER) : Bool :=
  rx.head != rx.tail

/-- The function `UART1RxByte`: `none` when the wait loop `while (head == tail);`
is entered with an empty ring (it then spins until an interrupt stores a byte). -/
def UART1RxByte (rx : UART_RX_BUFFER) : Option (Nat × UART_RX_BUFFER) :=
  let tmptail := (rx.tail + 1) &&& UART_RX_BUFFER_MASK
  if rx.head = rx.tail then
    none
  else
    some (rx.buf tmptail, { rx with tail := tmptail })

/-- The function `UART1TxByte`: `none` when the wait loop `while (tmphead == tail);`
is entered with a full ring. -/
def UART1TxByte (data : Nat) (u : UART_BUFFER) : Option UART_BUFFER :=
  let tmphead := (u.tx.head + 1) &&& UART_TX_BUFFER_MASK
  if tmphead = u.tx.tail then
    none
  else
    some { u with tx := { u.tx with buf := bufStore u.tx.buf tmphead (data % 256),
                                    head := tmphead },
                  CR1_TXEIE := true }

/-- The receive ring as `initUARTs` leaves it: `head = tail = 0`. -/
def rxInit (buf : Nat → Nat) : UART_RX_BUFFER :=
  { head := 0, tail := 0, buf := buf }

/-! ### Histories of the receive ring -/

/-- One event on the receive ring: the interrupt handler's receive branch
running with `dr` in the data register, or a call of `UART1RxByte`. -/
inductive RxOp where
  | push (dr : Nat)
  | pop
  deriving DecidableEq, Repr

/-- A receive ring together with the history that led to it: the bytes the
receive branch stored (`accepted`) and the bytes `UART1RxByte` returned
(`popped`), both oldest first. -/
structure RxTrace where
  rx : UART_RX_BUFFER
  accepted : List Nat
  popped : List Nat

/-- The receive branch discards the byte: its test `tmphead == U1Buf.rx.tail`. -/
def rxDropped (rx : UART_RX_BUFFER) : Bool :=
  ((rx.head + 1) &&& UART_RX_BUFFER_MASK) == rx.tail

/-- Run one event. A `pop` on an empty ring has no result: `UART1RxByte`
would wait, so such a history is not one in which pops are made only when
`UART1RxAvailable` holds. -/
def rxStep (t : RxTrace) : RxOp → Option RxTrace
  | .push dr =>
      some { rx := USART1_IRQHandler_rx dr t.rx,
             accepted := if rxDropped t.rx then t.accepted else t.accepted ++ [dr % 256],
             popped := t.popped }
  | .pop =>
      match UART1RxByte t.rx with
      | none => none
      | some (b, rx') => some { rx := rx', accepted := t.accepted, popped := t.popped ++ [b] }

/-- Run a sequence of events, oldest first. -/
def rxRun : List RxOp → RxTrace → Option RxTrace
  | [], t => some t
  | op :: ops, t =>
      match rxStep t op with
      | none => none
      | some t' => rxRun ops t'

/-- The history starting at the initialised ring. -/
def rxStart (buf : Nat → Nat) : RxTrace :=
  { rx := rxInit buf, accepted := [], popped := [] }

/-- Number of bytes held by the ring: `(head - tail) mod 128`. -/
def rxCount (rx : UART_RX_BUFFER) : Nat :=
  (rx.head + UART_RX_BUFFER_SIZE - rx.tail) % UART_RX_BUFFER_SIZE

/-- The bytes held by the ring, oldest first: `buf[tail+1], ..., buf[head]`
(indices mod 128). -/
def rxContents (rx : UART_RX_BUFFER) : List Nat :=
  (List.range (rxCount rx)).map (fun i => rx.buf ((rx.tail + 1 + i) % UART_RX_BUFFER_SIZE))

end SpiOled

namespace SpiOled

/-- Every pop of the history is made in a state where `UART1RxAvailable`
is true. -/
def popsWhenAvailable : List RxOp → RxTrace → Bool
  | [], _ => true
  | op :: ops, t =>
      (op != RxOp.pop || UART1RxAvailable t.rx) &&
        (match rxStep t op with
         | none => false
         | some t' => popsWhenAvailable ops t')

end SpiOled

namespace SpiOled

/-! ## Software clock (`Milliseconds`, `Tick`, `RtcTick`, `Hour`, `Minute`, `Second`) -/

/-- The globals written by the two timer interrupt handlers, the
`static uint8_t flag` of `SysTick_Handler`, and the two hardware bits the
handlers drive: the update flag `UIF` of `TIM4->SR` and the level of pin PC14. -/
structure Clock where
  Milliseconds : Nat
  Tick : Nat
  RtcTick : Nat
  Hour : Nat
  Minute : Nat
  Second : Nat
  flag : Nat
  TIM4_SR_UIF : Bool
  PC14 : Bool

/-- The clock at reset: every global is zero initialised. -/
def clockBoot : Clock :=
  { Milliseconds := 0, Tick := 0, RtcTick := 0, Hour := 0, Minute := 0, Second := 0,
    flag := 0, TIM4_SR_UIF := false, PC14 := false }

/-- The handler `TIM4_IRQHandler`, the one-second tick. The increments are on
`uint8_t` globals. -/
def TIM4_IRQHandler (c : Clock) : Clock :=
  let c := { c with TIM4_SR_UIF := false }
  let c :=
    if c.Second ≥ 59 then
      let c :=
        if c.Minute ≥ 59 then
          let c :=
            if c.Hour ≥ 23 then
              { c with Hour := 0 }
            else
              { c with Hour := (c.Hour + 1) % 256 }
          { c with Minute := 0 }
        else
          { c with Minute := (c.Minute + 1) % 256 }
      { c with Second := 0 }
    else
      { c with Second := (c.Second + 1) % 256 }
  { c with RtcTick := 1 }

/-- The function `millis`. -/
def millis (c : Clock) : Nat :=
  c.Milliseconds

/-- The handler `SysTick_Handler`, the one-millisecond tick. `Milliseconds`
is a `uint32_t`. -/
def SysTick_Handler (c : Clock) : Clock :=
  let c := { c with Milliseconds := (c.Milliseconds + 1) % 2 ^ 32 }
  let c := { c with Tick := 1 }
  let c := if c.flag ≠ 0 then { c with PC14 := false } else { c with PC14 := true }
  { c with flag := if c.flag ≠ 0 then 0 else 1 }

end SpiOled

namespace SpiOled

/-! ## Enumerations and helpers shared by both boards -/

/-- The display modes, `enum MODE`. -/
inductive MODE where
  | MANUAL_MODE
  | AUTO_HMS_MODE
  | AUTO_HEX_MODE
  deriving DecidableEq, Repr

/-- The states of the command parser, `enum STATE`. -/
inductive STATE where
  | NOT_SETTING_TIME
  | SETTING_TIME_1
  | SETTING_TIME_2
  | SETTING_TIME_3
  | SETTING_TIME_4
  | SETTING_TIME_5
  | SETTING_TIME_6
  deriving DecidableEq, Repr

/-- Conversion of an `int` to `unsigned int` (32 bits), as done when an `int`
expression is passed to a parameter of type `unsigned int`. -/
def u32 (i : Int) : Nat :=
  (i % 4294967296).toNat

/-- Conversion of an `int` to `uint8_t`. -/
def u8 (i : Int) : Nat :=
  (i % 256).toNat

/-- The C library test `isdigit` on a byte (C locale). -/
def isdigit (ch : Nat) : Bool :=
  decide ('0'.toNat ≤ ch ∧ ch ≤ '9'.toNat)

/-- The values an `int` loop variable takes in `for (v = lo; v <= hi; v++)`. -/
def intRange (lo hi : Int) : List Int :=
  (List.range (hi + 1 - lo).toNat).map (fun (k : Nat) => lo + (k : Int))

/-- The values an `unsigned int` loop variable takes in
`for (v = lo; v <= hi; v++)`. The bound `hi = UINT_MAX`, for which the C loop
does not end, is not represented. -/
def uintRange (lo hi : Nat) : List Nat :=
  List.range' lo (hi + 1 - lo)

/-- What the firmware sends to the panel: a flush of rows `y1..y2` of the
frame buffer by `updscreen`, or an image sent directly by `sendImg`. -/
inductive DisplayOp where
  | updscreen (y1 y2 : Nat)
  | sendImg (x1 y1 wd ht : Nat)
  deriving DecidableEq, Repr

namespace BlackPill

/-! ## Black Pill: colour frame buffer (`src/BlackPill/spi_oled.c`) -/

def MAXX : Nat := 128
def MAXY : Nat := 128

def DIGIT_WIDTH : Int := 21
def DIGIT_HEIGHT : Int := 32
def DIGIT_STRIDE : Int := 210

def SSD1351_BLACK : Nat := 0x0000
def SSD1351_RED : Nat := 0x001f
def SSD1351_GREEN : Nat := 0x07e0
def SSD1351_BLUE : Nat := 0xf800
def SSD1351_CYAN : Nat := SSD1351_BLUE ||| SSD1351_GREEN
def SSD1351_MAGENTA : Nat := SSD1351_RED ||| SSD1351_BLUE
def SSD1351_YELLOW : Nat := SSD1351_RED ||| SSD1351_GREEN
def SSD1351_WHITE : Nat := SSD1351_RED ||| SSD1351_GREEN ||| SSD1351_BLUE
def SSD1351_GREY50 : Nat := 0x000f ||| 0x03e0 ||| 0x7800
def SSD1351_GREY25 : Nat := 0x0007 ||| 0x01e0 ||| 0x3800

def VFD_COLOUR : Nat := SSD1351_CYAN
def LED_COLOUR : Nat := SSD1351_RED
def PANAPLEX_COLOUR : Nat := SSD1351_RED ||| 0x03e0
def PETROL_STATION_COLOUR : Nat := SSD1351_RED

/-- The digit styles of the Black Pill build, `enum STYLE`. -/
inductive STYLE where
  | PANAPLEX_STYLE
  | LED_BAR_STYLE
  | LED_DOT_STYLE
  | VFD_STYLE
  | PETROL_STATION_STYLE
  deriving DecidableEq, Repr

/-- The array `uint16_t Frame[MAXY][MAXX]` seen as the memory that starts at
`&Frame[0][0]`: cell `y * MAXX + x` is `Frame[y][x]`. Cells from
`MAXY * MAXX` on are the memory that follows the array. -/
abbrev Frame := Nat → Nat

/-- The assignment `Frame[y][x] = c` with unsigned indices. -/
def frameStore (f : Frame) (y x c : Nat) : Frame :=
  fun k => if k = y * MAXX + x then c else f k

/-- The assignment `Frame[y][x] = c` with `int` indices; a negative offset
addresses memory before the array, which is not part of the frame. -/
def frameStoreInt (f : Frame) (y x : Int) (c : Nat) : Frame :=
  fun k => if (k : Int) = y * (MAXX : Int) + x then c else f k

/-- The function `greyFrame`: a one-pixel checkerboard over the whole frame. -/
def greyFrame (f : Frame) : Frame :=
  (List.range (MAXY / 2)).foldl (fun f r2 =>
    let r := 2 * r2
    let f := (List.range (MAXX / 2)).foldl (fun f c2 =>
      let c := 2 * c2
      frameStore (frameStore f r c SSD1351_BLACK) r (c + 1) SSD1351_WHITE) f
    (List.range (MAXX / 2)).foldl (fun f c2 =>
      let c := 2 * c2
      frameStore (frameStore f (r + 1) c SSD1351_WHITE) (r + 1) (c + 1) SSD1351_BLACK) f) f

/-- The function `setPixel`. -/
def setPixel (x y c : Nat) (f : Frame) : Frame :=
  if x < MAXX ∧ y < MAXY then frameStore f y x c else f

/-- The function `setVline`: no bounds check. -/
def setVline (x y1 y2 c : Nat) (f : Frame) : Frame :=
  (uintRange y1 y2).foldl (fun f y => frameStore f y x c) f

/-- The function `setHline`: no bounds check. -/
def setHline (x1 x2 y c : Nat) (f : Frame) : Frame :=
  (uintRange x1 x2).foldl (fun f x => frameStore f y x c) f

/-- The function `setRect`; its `int` arguments are converted to `unsigned int`. -/
def setRect (x1 y1 x2 y2 : Int) (c : Nat) (f : Frame) : Frame :=
  let f := setHline (u32 x1) (u32 x2) (u32 y1) c f
  let f := setVline (u32 x2) (u32 y1) (u32 y2) c f
  let f := setHline (u32 x1) (u32 x2) (u32 y2) c f
  setVline (u32 x1) (u32 y1) (u32 y2) c f

/-- The function `fillRect`. -/
def fillRect (x1 y1 x2 y2 : Int) (ec fc : Nat) (f : Frame) : Frame :=
  let f := (intRange y1 y2).foldl (fun f y => setHline (u32 x1) (u32 x2) (u32 y) fc f) f
  let f := setHline (u32 x1) (u32 x2) (u32 y1) ec f
  let f := setVline (u32 x2) (u32 y1) (u32 y2) ec f
  let f := setHline (u32 x1) (u32 x2) (u32 y2) ec f
  setVline (u32 x1) (u32 y1) (u32 y2) ec f

/-- The function `renderBitmap`; `bitmap k` is the byte at offset `k` from the
pointer `bitmap`. -/
def renderBitmap (x1 y1 wd ht : Int) (bitmap : Int → Nat) (stride : Int) (fg bg : Nat)
    (f : Frame) : Frame :=
  let x2 := x1 + wd - 1
  let y2 := y1 + ht - 1
  (List.range (y2 + 1 - y1).toNat).foldl (fun (f : Frame) (i : Nat) =>
    let y := y1 + (i : Int)
    let row : Int → Nat := fun j => bitmap (stride * ((i : Int) / 8) + j)
    (List.range (x2 + 1 - x1).toNat).foldl (fun (f : Frame) (j : Nat) =>
      let x := x1 + (j : Int)
      if (row (j : Int) &&& ((1 : Nat) <<< (i % 8))) ≠ 0 then
        frameStoreInt f y x fg
      else
        frameStoreInt f y x bg) f) f

def WD : Int := 15
def GY : Int := 13

/-- The function `drawLed`. -/
def drawLed (x0 x y : Int) (c : Nat) (f : Frame) : Frame :=
  let x := x * 4
  let y := y * 4
  let x := x + x0
  let y := y + 3
  let f := setHline (u32 x) (u32 (x + 2)) (u32 (y + 0)) c f
  let f := setHline (u32 x) (u32 (x + 2)) (u32 (y + 1)) c f
  setHline (u32 x) (u32 (x + 2)) (u32 (y + 2)) c f

end BlackPill

end SpiOled

namespace SpiOled

/-- The named segments of a digit: `A`..`N`, the decimal point `DP` and the
colon `CN`; segment `X` is drawn by the function `drawSegX`. -/
inductive Segment where
  | A | B | C | D | E | F | G | H | I | J | K | L | M | N | DP | CN
  deriving DecidableEq, Repr

namespace BlackPill

/-- The function `drawSegA`. -/
def drawSegA (x : Int) (style : STYLE) (c : Nat) (f : Frame) : Frame :=
  match style with
  | .PANAPLEX_STYLE =>
      let f := setHline (u32 x) (u32 (x + WD)) (u32 0) c f
      let f := setHline (u32 x) (u32 (x + WD)) (u32 1) c f
      f
  | .LED_BAR_STYLE =>
      let f := setHline (u32 (x + 3)) (u32 (x + WD - 3)) (u32 0) c f
      let f := setHline (u32 (x + 3)) (u32 (x + WD - 3)) (u32 1) c f
      let f := setHline (u32 (x + 3)) (u32 (x + WD - 3)) (u32 2) c f
      f
  | .LED_DOT_STYLE =>
      let f := drawLed x 1 0 c f
      let f := drawLed x 2 0 c f
      f
  | .VFD_STYLE =>
      let f := setHline (u32 (x + 1)) (u32 (x + WD - 1)) (u32 0) c f
      let f := setHline (u32 (x + 2)) (u32 (x + WD - 2)) (u32 1) c f
      let f := setHline (u32 (x + 3)) (u32 (x + WD - 3)) (u32 2) c f
      f
  | .PETROL_STATION_STYLE => f

/-- The function `drawSegB`. -/
def drawSegB (x : Int) (style : STYLE) (c : Nat) (f : Frame) : Frame :=
  match style with
  | .PANAPLEX_STYLE =>
      let f := setVline (u32 (x + WD)) (u32 0) (u32 GY) c f
      let f := setVline (u32 (x + WD - 1)) (u32 0) (u32 GY) c f
      f
  | .LED_BAR_STYLE =>
      let f := setVline (u32 (x + WD)) (u32 3) (u32 14) c f
      let f := setVline (u32 (x + WD - 1)) (u32 3) (u32 14) c f
      let f := setVline (u32 (x + WD - 2)) (u32 3) (u32 14) c f
      f
  | .LED_DOT_STYLE =>
      let f := drawLed x 3 1 c f
      let f := drawLed x 3 2 c f
      f
  | .VFD_STYLE =>
      let f := setVline (u32 (x + WD)) (u32 1) (u32 13) c f
      let f := setVline (u32 (x + WD - 1)) (u32 2) (u32 14) c f
      let f := setVline (u32 (x + WD - 2)) (u32 3) (u32 13) c f
      f
  | .PETROL_STATION_STYLE => f

/-- The function `drawSegC`. -/
def drawSegC (x : Int) (style : STYLE) (c : Nat) (f : Frame) : Frame :=
  match style with
  | .PANAPLEX_STYLE =>
      let f := setVline (u32 (x + WD)) (u32 GY) (u32 31) c f
      let f := setVline (u32 (x + WD - 1)) (u32 GY) (u32 31) c f
      f
  | .LED_BAR_STYLE =>
      let f := setVline (u32 (x + WD)) (u32 18) (u32 28) c f
      let f := setVline (u32 (x + WD - 1)) (u32 18) (u32 28) c f
      let f := setVline (u32 (x + WD - 2)) (u32 18) (u32 28) c f
      f
  | .LED_DOT_STYLE =>
      let f := drawLed x 3 4 c f
      let f := drawLed x 3 5 c f
      f
  | .VFD_STYLE =>
      let f := setVline (u32 (x + WD)) (u32 19) (u32 30) c f
      let f := setVline (u32 (x + WD - 1)) (u32 18) (u32 29) c f
      let f := setVline (u32 (x + WD - 2)) (u32 19) (u32 28) c f
      f
  | .PETROL_STATION_STYLE => f

/-- The function `drawSegD`. -/
def drawSegD (x : Int) (style : STYLE) (c : Nat) (f : Frame) : Frame :=
  match style with
  | .PANAPLEX_STYLE =>
      let f := setHline (u32 x) (u32 (x + WD)) (u32 31) c f
      let f := setHline (u32 x) (u32 (x + WD)) (u32 30) c f
      f
  | .LED_BAR_STYLE =>
      let f := setHline (u32 (x + 3)) (u32 (x + WD - 3)) (u32 31) c f
      let f := setHline (u32 (x + 3)) (u32 (x + WD - 3)) (u32 30) c f
      let f := setHline (u32 (x + 3)) (u32 (x + WD - 3)) (u32 29) c f
      f
  | .LED_DOT_STYLE =>
      let f := drawLed x 1 6 c f
      let f := drawLed x 2 6 c f
      f
  | .VFD_STYLE =>
      let f := setHline (u32 (x + 1)) (u32 (x + WD - 1)) (u32 31) c f
      let f := setHline (u32 (x + 2)) (u32 (x + WD - 2)) (u32 30) c f
      let f := setHline (u32 (x + 3)) (u32 (x + WD - 3)) (u32 29) c f
      f
  | .PETROL_STATION_STYLE => f

/-- The function `drawSegE`. -/
def drawSegE (x : Int) (style : STYLE) (c : Nat) (f : Frame) : Frame :=
  match style with
  | .PANAPLEX_STYLE =>
      let f := setVline (u32 (x + 0)) (u32 GY) (u32 31) c f
      let f := setVline (u32 (x + 1)) (u32 GY) (u32 31) c f
      f
  | .LED_BAR_STYLE =>
      let f := setVline (u32 (x + 0)) (u32 18) (u32 28) c f
      let f := setVline (u32 (x + 1)) (u32 18) (u32 28) c f
      let f := setVline (u32 (x + 2)) (u32 18) (u32 28) c f
      f
  | .LED_DOT_STYLE =>
      let f := drawLed x 0 4 c f
      let f := drawLed x 0 5 c f
      f
  | .VFD_STYLE =>
      let f := setVline (u32 (x + 0)) (u32 17) (u32 30) c f
      let f := setVline (u32 (x + 1)) (u32 18) (u32 29) c f
      let f := setVline (u32 (x + 2)) (u32 19) (u32 28) c f
      f
  | .PETROL_STATION_STYLE => f

/-- The function `drawSegF`. -/
def drawSegF (x : Int) (style : STYLE) (c : Nat) (f : Frame) : Frame :=
  match style with
  | .PANAPLEX_STYLE =>
      let f := setVline (u32 (x + 0)) (u32 0) (u32 GY) c f
      let f := setVline (u32 (x + 1)) (u32 0) (u32 GY) c f
      f
  | .LED_BAR_STYLE =>
      let f := setVline (u32 (x + 0)) (u32 3) (u32 14) c f
      let f := setVline (u32 (x + 1)) (u32 3) (u32 14) c f
      let f := setVline (u32 (x + 2)) (u32 3) (u32 14) c f
      f
  | .LED_DOT_STYLE =>
      let f := drawLed x 0 1 c f
      let f := drawLed x 0 2 c f
      f
  | .VFD_STYLE =>
      let f := setVline (u32 (x + 0)) (u32 1) (u32 15) c f
      let f := setVline (u32 (x + 1)) (u32 2) (u32 14) c f
      let f := setVline (u32 (x + 2)) (u32 3) (u32 13) c f
      f
  | .PETROL_STATION_STYLE => f

/-- The function `drawSegG`. -/
def drawSegG (x : Int) (style : STYLE) (c : Nat) (f : Frame) : Frame :=
  match style with
  | .PANAPLEX_STYLE =>
      let f := setHline (u32 x) (u32 (x + WD)) (u32 GY) c f
      let f := setHline (u32 x) (u32 (x + WD)) (u32 (GY + 1)) c f
      f
  | .LED_BAR_STYLE =>
      let f := setHline (u32 (x + 3)) (u32 (x + WD - 3)) (u32 15) c f
      let f := setHline (u32 (x + 3)) (u32 (x + WD - 3)) (u32 16) c f
      let f := setHline (u32 (x + 3)) (u32 (x + WD - 3)) (u32 17) c f
      f
  | .LED_DOT_STYLE =>
      let f := drawLed x 1 3 c f
      let f := drawLed x 2 3 c f
      f
  | .VFD_STYLE =>
      let f := setHline (u32 (x + 2)) (u32 (x + WD - 2)) (u32 15) c f
      let f := setHline (u32 (x + 1)) (u32 (x + WD - 1)) (u32 16) c f
      let f := setHline (u32 (x + 2)) (u32 (x + WD - 2)) (u32 17) c f
      f
  | .PETROL_STATION_STYLE => f

/-- The function `drawSegH`. -/
def drawSegH (x : Int) (style : STYLE) (c : Nat) (f : Frame) : Frame :=
  match style with
  | .PANAPLEX_STYLE =>
      let f := setHline (u32 (x + WD)) (u32 (x + WD + 3)) (u32 GY) c f
      let f := setHline (u32 (x + WD)) (u32 (x + WD + 3)) (u32 (GY + 1)) c f
      f
  | .LED_BAR_STYLE =>
      let f := setHline (u32 (x + WD + 1)) (u32 (x + WD + 3)) (u32 15) c f
      let f := setHline (u32 (x + WD + 1)) (u32 (x + WD + 3)) (u32 16) c f
      let f := setHline (u32 (x + WD + 1)) (u32 (x + WD + 3)) (u32 17) c f
      f
  | .LED_DOT_STYLE =>
      let f := drawLed x 4 3 c f
      f
  | .VFD_STYLE =>
      let f := setHline (u32 (x + WD)) (u32 (x + WD + 3)) (u32 15) c f
      let f := setHline (u32 (x + WD - 1)) (u32 (x + WD + 3)) (u32 16) c f
      let f := setHline (u32 (x + WD)) (u32 (x + WD + 3)) (u32 17) c f
      f
  | .PETROL_STATION_STYLE => f

/-- The function `drawSegI`. -/
def drawSegI (x : Int) (style : STYLE) (c : Nat) (f : Frame) : Frame :=
  match style with
  | .PANAPLEX_STYLE => f
  | .LED_BAR_STYLE => f
  | .LED_DOT_STYLE =>
      let f := drawLed x 0 0 c f
      f
  | .VFD_STYLE => f
  | .PETROL_STATION_STYLE => f

/-- The function `drawSegJ`. -/
def drawSegJ (x : Int) (style : STYLE) (c : Nat) (f : Frame) : Frame :=
  match style with
  | .PANAPLEX_STYLE => f
  | .LED_BAR_STYLE => f
  | .LED_DOT_STYLE =>
      let f := drawLed x 3 0 c f
      f
  | .VFD_STYLE => f
  | .PETROL_STATION_STYLE => f

/-- The function `drawSegK`. -/
def drawSegK (x : Int) (style : STYLE) (c : Nat) (f : Frame) : Frame :=
  match style with
  | .PANAPLEX_STYLE => f
  | .LED_BAR_STYLE => f
  | .LED_DOT_STYLE =>
      let f := drawLed x 3 3 c f
      f
  | .VFD_STYLE => f
  | .PETROL_STATION_STYLE => f

/-- The function `drawSegL`. -/
def drawSegL (x : Int) (style : STYLE) (c : Nat) (f : Frame) : Frame :=
  match style with
  | .PANAPLEX_STYLE => f
  | .LED_BAR_STYLE => f
  | .LED_DOT_STYLE =>
      let f := drawLed x 3 6 c f
      f
  | .VFD_STYLE => f
  | .PETROL_STATION_STYLE => f

/-- The function `drawSegM`. -/
def drawSegM (x : Int) (style : STYLE) (c : Nat) (f : Frame) : Frame :=
  match style with
  | .PANAPLEX_STYLE => f
  | .LED_BAR_STYLE => f
  | .LED_DOT_STYLE =>
      let f := drawLed x 0 6 c f
      f
  | .VFD_STYLE => f
  | .PETROL_STATION_STYLE => f

/-- The function `drawSegN`. -/
def drawSegN (x : Int) (style : STYLE) (c : Nat) (f : Frame) : Frame :=
  match style with
  | .PANAPLEX_STYLE => f
  | .LED_BAR_STYLE => f
  | .LED_DOT_STYLE =>
      let f := drawLed x 0 3 c f
      f
  | .VFD_STYLE => f
  | .PETROL_STATION_STYLE => f

/-- The function `drawSegDP`. -/
def drawSegDP (x : Int) (style : STYLE) (c : Nat) (f : Frame) : Frame :=
  match style with
  | .PANAPLEX_STYLE =>
      let f := setHline (u32 (x + WD + 2)) (u32 (x + WD + 4)) (u32 29) c f
      let f := setHline (u32 (x + WD + 2)) (u32 (x + WD + 4)) (u32 30) c f
      let f := setHline (u32 (x + WD + 2)) (u32 (x + WD + 4)) (u32 31) c f
      f
  | .LED_BAR_STYLE =>
      let f := setHline (u32 (x + WD + 2)) (u32 (x + WD + 4)) (u32 29) c f
      let f := setHline (u32 (x + WD + 2)) (u32 (x + WD + 4)) (u32 30) c f
      let f := setHline (u32 (x + WD + 2)) (u32 (x + WD + 4)) (u32 31) c f
      f
  | .LED_DOT_STYLE =>
      let f := drawLed x 4 6 c f
      f
  | .VFD_STYLE =>
      let f := setHline (u32 (x + WD + 2)) (u32 (x + WD + 4)) (u32 29) c f
      let f := setHline (u32 (x + WD + 2)) (u32 (x + WD + 4)) (u32 30) c f
      let f := setHline (u32 (x + WD + 2)) (u32 (x + WD + 4)) (u32 31) c f
      f
  | .PETROL_STATION_STYLE =>
      let f := setHline (u32 (x + WD + 2)) (u32 (x + WD + 4)) (u32 29) c f
      let f := setHline (u32 (x + WD + 2)) (u32 (x + WD + 4)) (u32 30) c f
      let f := setHline (u32 (x + WD + 2)) (u32 (x + WD + 4)) (u32 31) c f
      f

/-- The function `drawSegCN`. -/
def drawSegCN (x : Int) (style : STYLE) (c : Nat) (f : Frame) : Frame :=
  match style with
  | .PANAPLEX_STYLE =>
      let f := setHline (u32 (x + WD + 2)) (u32 (x + WD + 3)) (u32 9) c f
      let f := setHline (u32 (x + WD + 2)) (u32 (x + WD + 3)) (u32 10) c f
      let f := setHline (u32 (x + WD + 2)) (u32 (x + WD + 3)) (u32 17) c f
      let f := setHline (u32 (x + WD + 2)) (u32 (x + WD + 3)) (u32 18) c f
      f
  | .LED_BAR_STYLE =>
      let f := setHline (u32 (x + WD + 2)) (u32 (x + WD + 4)) (u32 11) c f
      let f := setHline (u32 (x + WD + 2)) (u32 (x + WD + 4)) (u32 12) c f
      let f := setHline (u32 (x + WD + 2)) (u32 (x + WD + 4)) (u32 13) c f
      let f := setHline (u32 (x + WD + 2)) (u32 (x + WD + 4)) (u32 19) c f
      let f := setHline (u32 (x + WD + 2)) (u32 (x + WD + 4)) (u32 20) c f
      let f := setHline (u32 (x + WD + 2)) (u32 (x + WD + 4)) (u32 21) c f
      f
  | .LED_DOT_STYLE =>
      let f := drawLed x 4 2 c f
      let f := drawLed x 4 4 c f
      f
  | .VFD_STYLE =>
      let f := setHline (u32 (x + WD + 2)) (u32 (x + WD + 4)) (u32 11) c f
      let f := setHline (u32 (x + WD + 2)) (u32 (x + WD + 4)) (u32 12) c f
      let f := setHline (u32 (x + WD + 2)) (u32 (x + WD + 4)) (u32 13) c f
      let f := setHline (u32 (x + WD + 2)) (u32 (x + WD + 4)) (u32 19) c f
      let f := setHline (u32 (x + WD + 2)) (u32 (x + WD + 4)) (u32 20) c f
      let f := setHline (u32 (x + WD + 2)) (u32 (x + WD + 4)) (u32 21) c f
      f
  | .PETROL_STATION_STYLE =>
      let f := setHline (u32 (x + WD + 2)) (u32 (x + WD + 4)) (u32 11) c f
      let f := setHline (u32 (x + WD + 2)) (u32 (x + WD + 4)) (u32 12) c f
      let f := setHline (u32 (x + WD + 2)) (u32 (x + WD + 4)) (u32 13) c f
      let f := setHline (u32 (x + WD + 2)) (u32 (x + WD + 4)) (u32 19) c f
      let f := setHline (u32 (x + WD + 2)) (u32 (x + WD + 4)) (u32 20) c f
      let f := setHline (u32 (x + WD + 2)) (u32 (x + WD + 4)) (u32 21) c f
      f
/-- The call `drawSegX(x, style, c)` for the segment `X`. -/
def drawSeg (s : Segment) (x : Int) (style : STYLE) (c : Nat) (f : Frame) : Frame :=
  match s with
  | .A => drawSegA x style c f
  | .B => drawSegB x style c f
  | .C => drawSegC x style c f
  | .D => drawSegD x style c f
  | .E => drawSegE x style c f
  | .F => drawSegF x style c f
  | .G => drawSegG x style c f
  | .H => drawSegH x style c f
  | .I => drawSegI x style c f
  | .J => drawSegJ x style c f
  | .K => drawSegK x style c f
  | .L => drawSegL x style c f
  | .M => drawSegM x style c f
  | .N => drawSegN x style c f
  | .DP => drawSegDP x style c f
  | .CN => drawSegCN x style c f

/-- The `switch (digit)` of `renderHexDigit`: the `drawSegX` calls made for
`digit` in `style`, in the order of the source. A digit with no `case` makes
no call. -/
def renderHexDigitCalls (digit : Int) (style : STYLE) : List Segment :=
  match digit with
  | 0 => [.A, .B, .C, .D, .E, .F, .K, .N]
  | 1 => [.B, .C, .J, .K, .L]
  | 2 => [.A, .B, .D, .E, .G, .I, .L, .M]
  | 3 => [.A, .B, .C, .D, .G, .I, .M]
  | 4 => [.B, .C, .F, .G, .H, .I, .J, .K, .L]
  | 5 => [.A, .C, .D, .F, .G, .I, .J, .M]
  | 6 => [.A, .C, .D, .E, .F, .G, .J, .N]
  | 7 => [.A, .B, .C, .F, .I, .J, .K, .L]
  | 8 => [.A, .B, .C, .D, .E, .F, .G]
  | 9 => [.A, .B, .C, .D, .F, .G, .K, .M]
  | 0xA => [.A, .B, .C, .E, .F, .G, .K, .L, .M, .N]
  | 0xB =>
      [.C, .D, .E, .F, .G] ++
        (if style = .LED_DOT_STYLE then [.A, .B, .I, .M, .N] else [])
  | 0xC => [.A, .D, .E, .F, .J, .L, .N]
  | 0xD =>
      if style = .LED_DOT_STYLE then
        [.A, .B, .C, .D, .E, .F, .I, .K, .M, .N]
      else
        [.B, .C, .D, .E, .G]
  | 0xE => [.A, .D, .E, .F, .G, .I, .J, .L, .M, .N]
  | 0xF => [.A, .E, .F, .G, .I, .J, .M, .N]
  | _ => []

/-- Draw a sequence of segments, first to last. -/
def drawSegs (segs : List Segment) (x : Int) (style : STYLE) (c : Nat) (f : Frame) : Frame :=
  segs.foldl (fun f s => drawSeg s x style c f) f

/-- The function `renderHexDigit`. `PetrolDigits k` is the byte at offset `k`
of the glyph atlas `PetrolDigits` (declared in `petrol.h`). -/
def renderHexDigit (PetrolDigits : Int → Nat) (x digit : Int) (style : STYLE) (c : Nat)
    (f : Frame) : Frame :=
  if style = .PETROL_STATION_STYLE then
    renderBitmap x 0 DIGIT_WIDTH DIGIT_HEIGHT
      (fun k => PetrolDigits (digit * DIGIT_WIDTH + k)) DIGIT_STRIDE c SSD1351_BLACK f
  else
    drawSegs (renderHexDigitCalls digit style) x style c f

/-- The function `renderClockDisplay`; `Hour`, `Minute`, `Second` are the
clock globals. -/
def renderClockDisplay (PetrolDigits : Int → Nat) (clock : Clock) (width : Int)
    (style : STYLE) (c : Nat) (f : Frame) : Frame :=
  let f := renderHexDigit PetrolDigits (0 * width) ((clock.Hour : Int) / 10) style c f
  let f := renderHexDigit PetrolDigits (1 * width) ((clock.Hour : Int) % 10) style c f
  let f := renderHexDigit PetrolDigits (2 * width) ((clock.Minute : Int) / 10) style c f
  let f := renderHexDigit PetrolDigits (3 * width) ((clock.Minute : Int) % 10) style c f
  let f := renderHexDigit PetrolDigits (4 * width) ((clock.Second : Int) / 10) style c f
  renderHexDigit PetrolDigits (5 * width) ((clock.Second : Int) % 10) style c f

end BlackPill

end SpiOled

namespace SpiOled

namespace BlackPill

/-! ## Black Pill: the main loop -/

/-- The bitmap tables the firmware includes from headers: `OLEDImage`
(`image.h`) and `PetrolDigits` (`petrol.h`), each as the bytes at an offset
from the start of the array. -/
structure Assets where
  OLEDImage : Int → Nat
  PetrolDigits : Int → Nat

/-- The globals and the locals of `main`. `frame` is the array `Frame`,
`display` the sequence of transfers to the panel (oldest first), `PC13` the
level of the LED pin, `end_` the local `end`. Console output (`printf`) is
not represented. -/
structure Main where
  clock : Clock
  uart : UART_BUFFER
  frame : Frame
  display : List DisplayOp
  PC13 : Bool
  end_ : Nat
  colon : Nat
  flag : Nat
  digit : Int
  x : Int
  style : STYLE
  colour : Nat
  displayMode : MODE
  state : STATE
  hour : Int
  minute : Int
  second : Int

/-- The local `const int width = WD + 6`. -/
def width : Int := WD + 6

/-- The call `memset(Frame, 0, n)` for `n` bytes covering `cells` whole
`uint16_t` cells. -/
def memsetFrame (cells : Nat) (f : Frame) : Frame :=
  fun k => if k < cells then 0 else f k

/-- The number of cells of `Frame`: `sizeof (Frame)` is twice this. -/
def frameCells : Nat := MAXY * MAXX

/-- A call of `updscreen(y1, y2)`: rows `y1..y2` are sent to the panel. -/
def updscreen (y1 y2 : Nat) (m : Main) : Main :=
  { m with display := m.display ++ [DisplayOp.updscreen y1 y2] }

/-- The state in which `main` enters its loop when no interrupt has been
taken yet: the initialisers of the locals, `greyFrame`, the first
`updscreen`, and `end = millis() + 500u`. -/
def mainBoot : Main :=
  { clock := clockBoot,
    uart := { tx := { head := 0, tail := 0, buf := fun _ => 0 },
              rx := rxInit (fun _ => 0), CR1_TXEIE := false, DR_written := [] },
    frame := greyFrame (fun _ => 0),
    display := [DisplayOp.updscreen 0 (MAXY - 1)],
    PC13 := false,
    end_ := 500,
    colon := 0xffffffff,
    flag := 0,
    digit := 0,
    x := 0 * width,
    style := .VFD_STYLE,
    colour := VFD_COLOUR,
    displayMode := .MANUAL_MODE,
    state := .NOT_SETTING_TIME,
    hour := 0, minute := 0, second := 0 }

/-- The body of `if (Tick) { ... }` in the main loop. -/
def serviceTick (m : Main) : Main :=
  if m.clock.Tick ≠ 0 then
    let m :=
      if millis m.clock ≥ m.end_ then
        let m := { m with end_ := (millis m.clock + 500) % 2 ^ 32 }
        let m := if m.flag ≠ 0 then { m with PC13 := false } else { m with PC13 := true }
        { m with flag := if m.flag ≠ 0 then 0 else 1 }
      else m
    let m :=
      if m.displayMode = .AUTO_HMS_MODE ∧ millis m.clock ≥ m.colon then
        let m := { m with frame := drawSegCN (1 * width) m.style m.colour m.frame }
        let m := { m with frame := drawSegCN (3 * width) m.style m.colour m.frame }
        let m := updscreen 0 31 m
        { m with colon := (m.colon + 600) % 2 ^ 32 }
      else m
    { m with clock := { m.clock with Tick := 0 } }
  else m

/-- The body of `if (RtcTick) { ... }` in the main loop. -/
def serviceRtcTick (a : Assets) (m : Main) : Main :=
  if m.clock.RtcTick ≠ 0 then
    let m :=
      if m.displayMode = .AUTO_HMS_MODE then
        let m := { m with frame := memsetFrame (frameCells / 4) m.frame }
        let m := { m with frame :=
          renderClockDisplay a.PetrolDigits m.clock width m.style m.colour m.frame }
        let m := updscreen 0 31 m
        { m with colon := (millis m.clock + 500) % 2 ^ 32 }
      else m
    { m with clock := { m.clock with RtcTick := 0 } }
  else m

/-- The commands `'0'`..`'9'`, `'a'`..`'f'`: `renderHexDigit(x, d, style, colour)`
followed by `updscreen(0, 31)`. -/
def renderCommand (a : Assets) (d : Int) (m : Main) : Main :=
  updscreen 0 31
    { m with frame := renderHexDigit a.PetrolDigits m.x d m.style m.colour m.frame }

/-- The commands `'g'`..`'l'`: `digit = d; x = digit * width;`. -/
def selectDigit (d : Int) (m : Main) : Main :=
  let m := { m with digit := d }
  { m with x := m.digit * width }

/-- The inner `switch (ch)` of the main loop, executed in state
`NOT_SETTING_TIME`. A byte with no `case` does nothing. -/
def command (a : Assets) (ch : Nat) (m : Main) : Main :=
  if ch = 'r'.toNat ∨ ch = 'R'.toNat then
    updscreen 0 (MAXY - 1)
      { m with frame := setRect 0 0 ((MAXX : Int) - 1) ((MAXY : Int) - 1) SSD1351_WHITE m.frame }
  else if ch = 'q'.toNat ∨ ch = 'Q'.toNat then
    let f := setVline (MAXX / 4) 0 (MAXY - 1) SSD1351_WHITE m.frame
    let f := setVline (MAXX / 2) 0 (MAXY - 1) SSD1351_WHITE f
    let f := setVline ((MAXX * 3) / 4) 0 (MAXY - 1) SSD1351_WHITE f
    let f := setHline 0 (MAXX - 1) (MAXY / 4) SSD1351_WHITE f
    let f := setHline 0 (MAXX - 1) (MAXY / 2) SSD1351_WHITE f
    let f := setHline 0 (MAXX - 1) ((MAXY * 3) / 4) SSD1351_WHITE f
    updscreen 0 (MAXY - 1) { m with frame := f }
  else if ch = 'g'.toNat then selectDigit 0 m
  else if ch = 'h'.toNat then selectDigit 1 m
  else if ch = 'i'.toNat then selectDigit 2 m
  else if ch = 'j'.toNat then selectDigit 3 m
  else if ch = 'k'.toNat then selectDigit 4 m
  else if ch = 'l'.toNat then selectDigit 5 m
  else if ch = '0'.toNat then renderCommand a 0 m
  else if ch = '1'.toNat then renderCommand a 1 m
  else if ch = '2'.toNat then renderCommand a 2 m
  else if ch = '3'.toNat then renderCommand a 3 m
  else if ch = '4'.toNat then renderCommand a 4 m
  else if ch = '5'.toNat then renderCommand a 5 m
  else if ch = '6'.toNat then renderCommand a 6 m
  else if ch = '7'.toNat then renderCommand a 7 m
  else if ch = '8'.toNat then renderCommand a 8 m
  else if ch = '9'.toNat then renderCommand a 9 m
  else if ch = 'a'.toNat ∨ ch = 'A'.toNat then renderCommand a 0xA m
  else if ch = 'b'.toNat ∨ ch = 'B'.toNat then renderCommand a 0xB m
  else if ch = 'c'.toNat ∨ ch = 'C'.toNat then renderCommand a 0xC m
  else if ch = 'd'.toNat ∨ ch = 'D'.toNat then renderCommand a 0xD m
  else if ch = 'e'.toNat ∨ ch = 'E'.toNat then renderCommand a 0xE m
  else if ch = 'f'.toNat ∨ ch = 'F'.toNat then renderCommand a 0xF m
  else if ch = 'o'.toNat ∨ ch = 'O'.toNat then
    let f := renderBitmap 0 32 128 32 a.OLEDImage 128 SSD1351_BLUE SSD1351_GREY25 m.frame
    let f := renderBitmap 0 64 128 32 a.OLEDImage 128 SSD1351_YELLOW SSD1351_GREY50 f
    updscreen 32 127 { m with frame := f }
  else if ch = 0x0D then
    updscreen 64 95
      { m with frame := renderBitmap 0 64 128 DIGIT_HEIGHT a.PetrolDigits DIGIT_STRIDE
                          SSD1351_GREEN SSD1351_BLACK m.frame }
  else if ch = ']'.toNat then
    { m with display := m.display ++ [DisplayOp.sendImg 32 64 64 64] }
  else if ch = '.'.toNat then
    updscreen 0 31 { m with frame := drawSegDP m.x m.style m.colour m.frame }
  else if ch = ':'.toNat then
    updscreen 0 31 { m with frame := drawSegCN m.x m.style m.colour m.frame }
  else if ch = 's'.toNat then
    { m with state := .SETTING_TIME_1 }
  else if ch = 't'.toNat then
    let m := { m with frame := memsetFrame (frameCells / 4) m.frame }
    let m := { m with frame :=
      renderClockDisplay a.PetrolDigits m.clock width m.style m.colour m.frame }
    let m := { m with frame := drawSegCN (1 * width) m.style m.colour m.frame }
    let m := { m with frame := drawSegCN (3 * width) m.style m.colour m.frame }
    let m := updscreen 0 31 m
    { m with colon := (millis m.clock + 1100) % 2 ^ 32 }
  else if ch = 'm'.toNat ∨ ch = 'M'.toNat then
    { m with displayMode := .MANUAL_MODE }
  else if ch = 'n'.toNat ∨ ch = 'N'.toNat then
    { m with style := .PETROL_STATION_STYLE, colour := PETROL_STATION_COLOUR }
  else if ch = 'u'.toNat ∨ ch = 'U'.toNat then
    { m with displayMode := .AUTO_HMS_MODE }
  else if ch = 'v'.toNat ∨ ch = 'V'.toNat then
    { m with style := .VFD_STYLE, colour := VFD_COLOUR }
  else if ch = 'w'.toNat ∨ ch = 'W'.toNat then
    { m with style := .LED_DOT_STYLE, colour := LED_COLOUR }
  else if ch = 'x'.toNat ∨ ch = 'X'.toNat then
    { m with style := .PANAPLEX_STYLE, colour := PANAPLEX_COLOUR }
  else if ch = 'y'.toNat ∨ ch = 'Y'.toNat then
    { m with style := .LED_BAR_STYLE, colour := LED_COLOUR }
  else if ch = 'z'.toNat ∨ ch = 'Z'.toNat then
    updscreen 0 (MAXY - 1) { m with frame := memsetFrame frameCells m.frame }
  else m

/-- The `switch (state)` of the main loop for a received byte `ch`
(a `uint8_t`): the body of `if (UART1RxAvailable()) { ... }` after
`ch = UART1RxByte()`. The assignments `Hour = hour` etc. convert `int` to
`uint8_t`. -/
def processByte (a : Assets) (ch : Nat) (m : Main) : Main :=
  match m.state with
  | .SETTING_TIME_1 =>
      if isdigit ch then
        { m with hour := ((ch : Int) - ('0'.toNat : Int)) * 10, state := .SETTING_TIME_2 }
      else
        { m with state := .NOT_SETTING_TIME }
  | .SETTING_TIME_2 =>
      if isdigit ch then
        { m with hour := m.hour + ((ch : Int) - ('0'.toNat : Int)), state := .SETTING_TIME_3 }
      else
        { m with state := .NOT_SETTING_TIME }
  | .SETTING_TIME_3 =>
      if isdigit ch then
        { m with minute := ((ch : Int) - ('0'.toNat : Int)) * 10, state := .SETTING_TIME_4 }
      else
        { m with state := .NOT_SETTING_TIME }
  | .SETTING_TIME_4 =>
      if isdigit ch then
        { m with minute := m.minute + ((ch : Int) - ('0'.toNat : Int)),
                 state := .SETTING_TIME_5 }
      else
        { m with state := .NOT_SETTING_TIME }
  | .SETTING_TIME_5 =>
      if isdigit ch then
        { m with second := ((ch : Int) - ('0'.toNat : Int)) * 10, state := .SETTING_TIME_6 }
      else
        { m with state := .NOT_SETTING_TIME }
  | .SETTING_TIME_6 =>
      if isdigit ch then
        let m := { m with second := m.second + ((ch : Int) - ('0'.toNat : Int)),
                          state := .NOT_SETTING_TIME }
        { m with clock := { m.clock with Hour := u8 m.hour, Minute := u8 m.minute,
                                         Second := u8 m.second } }
      else
        { m with state := .NOT_SETTING_TIME }
  | .NOT_SETTING_TIME => command a ch m

/-- The body of `if (UART1RxAvailable()) { ... }`: take one byte from the
receive ring and process it. -/
def serviceUart (a : Assets) (m : Main) : Main :=
  if UART1RxAvailable m.uart.rx then
    match UART1RxByte m.uart.rx with
    | some (ch, rx) => processByte a ch { m with uart := { m.uart with rx := rx } }
    | none => m
  else m

/-- One iteration of `while (1) { ... }`, with no interrupt taken inside it. -/
def mainLoop (a : Assets) (m : Main) : Main :=
  serviceUart a (serviceRtcTick a (serviceTick m))

/-- Feed a sequence of received bytes to the interpreter, first to last. -/
def feed (a : Assets) (bytes : List Nat) (m : Main) : Main :=
  bytes.foldl (fun m ch => processByte a ch m) m

/-- What can happen to the clock and the interpreter: the one-second interrupt
`TIM4_IRQHandler`, or a received byte reaching the interpreter. -/
inductive Event where
  | rtcTick
  | byte (ch : Nat)
  deriving DecidableEq, Repr

/-- Run one event. -/
def stepEvent (a : Assets) (m : Main) : Event → Main
  | .rtcTick => { m with clock := TIM4_IRQHandler m.clock }
  | .byte ch => processByte a ch m

/-- Run a sequence of events, first to last. -/
def runEvents (a : Assets) (evs : List Event) (m : Main) : Main :=
  evs.foldl (stepEvent a) m

end BlackPill

end SpiOled

namespace SpiOled

namespace BluePill

/-! ## Blue Pill: monochrome frame buffer (`src/spi_oled.c`) -/

def MAXX : Nat := 128
def MAXY : Nat := 32
def MAXROWS : Nat := 4

/-- The digit styles of the Blue Pill build, `enum STYLE`. -/
inductive STYLE where
  | PANAPLEX_STYLE
  | LED_BAR_STYLE
  | LED_DOT_STYLE
  | VFD_STYLE
  deriving DecidableEq, Repr

/-- The array `uint8_t Frame[MAXROWS][MAXX]` seen as the memory that starts at
`&Frame[0][0]`: cell `row * MAXX + x` is `Frame[row][x]`, and bit `y % 8` of
`Frame[y / 8][x]` is the pixel `(x, y)`. Cells from `MAXROWS * MAXX` on are
the memory that follows the array. -/
abbrev Frame := Nat → Nat

/-- The assignment `Frame[row][x] = v`. -/
def frameStore (f : Frame) (row x v : Nat) : Frame :=
  fun k => if k = row * MAXX + x then v else f k

/-- The assignment `Frame[row][x] |= b` on a `uint8_t` cell. -/
def frameOr (f : Frame) (row x b : Nat) : Frame :=
  fun k => if k = row * MAXX + x then (f k ||| b) % 256 else f k

/-- The assignment `Frame[row][x] &= b` on a `uint8_t` cell, `b` being the
low eight bits of the mask. -/
def frameAnd (f : Frame) (row x b : Nat) : Frame :=
  fun k => if k = row * MAXX + x then f k &&& b else f k

/-- The function `greyFrame`. -/
def greyFrame (f : Frame) : Frame :=
  (List.range MAXROWS).foldl (fun f r =>
    (List.range (MAXX / 2)).foldl (fun f c2 =>
      let c := 2 * c2
      frameStore (frameStore f r c 0xaa) r (c + 1) 0x55) f) f

/-- The function `setPixel`. -/
def setPixel (x y : Nat) (f : Frame) : Frame :=
  if x < MAXX ∧ y < MAXY then frameOr f (y / 8) x (1 <<< (y &&& 7)) else f

/-- The function `clrPixel`; `~(1 << (y & 7))` restricted to the eight bits of
the cell is `0xFF ^ (1 << (y & 7))`. -/
def clrPixel (x y : Nat) (f : Frame) : Frame :=
  if x < MAXX ∧ y < MAXY then frameAnd f (y / 8) x (0xFF ^^^ (1 <<< (y &&& 7))) else f

/-- The function `setVline`. -/
def setVline (x y1 y2 : Nat) (f : Frame) : Frame :=
  (uintRange y1 y2).foldl (fun f y => setPixel x y f) f

/-- The function `clrVline`. -/
def clrVline (x y1 y2 : Nat) (f : Frame) : Frame :=
  (uintRange y1 y2).foldl (fun f y => clrPixel x y f) f

/-- The function `setHline`: no bounds check. -/
def setHline (x1 x2 y : Nat) (f : Frame) : Frame :=
  let row := y / 8
  let b := (1 <<< (y &&& 7)) % 256
  (uintRange x1 x2).foldl (fun f x => frameOr f row x b) f

/-- The function `clrHline`: no bounds check. -/
def clrHline (x1 x2 y : Nat) (f : Frame) : Frame :=
  let row := y / 8
  let b := 0xFF ^^^ (1 <<< (y &&& 7))
  (uintRange x1 x2).foldl (fun f x => frameAnd f row x b) f

/-- The function `setRect`; its `int` arguments are converted to `unsigned int`. -/
def setRect (x1 y1 x2 y2 : Int) (f : Frame) : Frame :=
  let f := setHline (u32 x1) (u32 x2) (u32 y1) f
  let f := setVline (u32 x2) (u32 y1) (u32 y2) f
  let f := setHline (u32 x1) (u32 x2) (u32 y2) f
  setVline (u32 x1) (u32 y1) (u32 y2) f

/-- The function `fillRect`. -/
def fillRect (x1 y1 x2 y2 ec fc : Int) (f : Frame) : Frame :=
  let f := (intRange y1 y2).foldl (fun f y =>
    if fc = 0 then clrHline (u32 x1) (u32 x2) (u32 y) f
    else if fc = 1 then setHline (u32 x1) (u32 x2) (u32 y) f
    else f) f
  if ec = 1 then
    let f := setHline (u32 x1) (u32 x2) (u32 y1) f
    let f := setVline (u32 x2) (u32 y1) (u32 y2) f
    let f := setHline (u32 x1) (u32 x2) (u32 y2) f
    setVline (u32 x1) (u32 y1) (u32 y2) f
  else if ec = 0 then
    let f := clrHline (u32 x1) (u32 x2) (u32 y1) f
    let f := clrVline (u32 x2) (u32 y1) (u32 y2) f
    let f := clrHline (u32 x1) (u32 x2) (u32 y2) f
    clrVline (u32 x1) (u32 y1) (u32 y2) f
  else f

def WD : Int := 15
def GY : Int := 13

/-- The function `drawLed`. -/
def drawLed (x0 x y : Int) (f : Frame) : Frame :=
  let x := x * 4
  let y := y * 4
  let x := x + x0
  let y := y + 3
  let f := setHline (u32 x) (u32 (x + 2)) (u32 (y + 0)) f
  let f := setHline (u32 x) (u32 (x + 2)) (u32 (y + 1)) f
  setHline (u32 x) (u32 (x + 2)) (u32 (y + 2)) f

/-- The function `drawSegA`. -/
def drawSegA (x : Int) (style : STYLE) (f : Frame) : Frame :=
  match style with
  | .PANAPLEX_STYLE =>
      let f := setHline (u32 x) (u32 (x + WD)) (u32 0) f
      let f := setHline (u32 x) (u32 (x + WD)) (u32 1) f
      f
  | .LED_BAR_STYLE =>
      let f := setHline (u32 (x + 3)) (u32 (x + WD - 3)) (u32 0) f
      let f := setHline (u32 (x + 3)) (u32 (x + WD - 3)) (u32 1) f
      let f := setHline (u32 (x + 3)) (u32 (x + WD - 3)) (u32 2) f
      f
  | .LED_DOT_STYLE =>
      let f := drawLed x 1 0 f
      let f := drawLed x 2 0 f
      f
  | .VFD_STYLE =>
      let f := setHline (u32 (x + 1)) (u32 (x + WD - 1)) (u32 0) f
      let f := setHline (u32 (x + 2)) (u32 (x + WD - 2)) (u32 1) f
      let f := setHline (u32 (x + 3)) (u32 (x + WD - 3)) (u32 2) f
      f

/-- The function `drawSegB`. -/
def drawSegB (x : Int) (style : STYLE) (f : Frame) : Frame :=
  match style with
  | .PANAPLEX_STYLE =>
      let f := setVline (u32 (x + WD)) (u32 0) (u32 GY) f
      let f := setVline (u32 (x + WD - 1)) (u32 0) (u32 GY) f
      f
  | .LED_BAR_STYLE =>
      let f := setVline (u32 (x + WD)) (u32 3) (u32 14) f
      let f := setVline (u32 (x + WD - 1)) (u32 3) (u32 14) f
      let f := setVline (u32 (x + WD - 2)) (u32 3) (u32 14) f
      f
  | .LED_DOT_STYLE =>
      let f := drawLed x 3 1 f
      let f := drawLed x 3 2 f
      f
  | .VFD_STYLE =>
      let f := setVline (u32 (x + WD)) (u32 1) (u32 13) f
      let f := setVline (u32 (x + WD - 1)) (u32 2) (u32 14) f
      let f := setVline (u32 (x + WD - 2)) (u32 3) (u32 13) f
      f

/-- The function `drawSegC`. -/
def drawSegC (x : Int) (style : STYLE) (f : Frame) : Frame :=
  match style with
  | .PANAPLEX_STYLE =>
      let f := setVline (u32 (x + WD)) (u32 GY) (u32 31) f
      let f := setVline (u32 (x + WD - 1)) (u32 GY) (u32 31) f
      f
  | .LED_BAR_STYLE =>
      let f := setVline (u32 (x + WD)) (u32 18) (u32 28) f
      let f := setVline (u32 (x + WD - 1)) (u32 18) (u32 28) f
      let f := setVline (u32 (x + WD - 2)) (u32 18) (u32 28) f
      f
  | .LED_DOT_STYLE =>
      let f := drawLed x 3 4 f
      let f := drawLed x 3 5 f
      f
  | .VFD_STYLE =>
      let f := setVline (u32 (x + WD)) (u32 19) (u32 30) f
      let f := setVline (u32 (x + WD - 1)) (u32 18) (u32 29) f
      let f := setVline (u32 (x + WD - 2)) (u32 19) (u32 28) f
      f

/-- The function `drawSegD`. -/
def drawSegD (x : Int) (style : STYLE) (f : Frame) : Frame :=
  match style with
  | .PANAPLEX_STYLE =>
      let f := setHline (u32 x) (u32 (x + WD)) (u32 31) f
      let f := setHline (u32 x) (u32 (x + WD)) (u32 30) f
      f
  | .LED_BAR_STYLE =>
      let f := setHline (u32 (x + 3)) (u32 (x + WD - 3)) (u32 31) f
      let f := setHline (u32 (x + 3)) (u32 (x + WD - 3)) (u32 30) f
      let f := setHline (u32 (x + 3)) (u32 (x + WD - 3)) (u32 29) f
      f
  | .LED_DOT_STYLE =>
      let f := drawLed x 1 6 f
      let f := drawLed x 2 6 f
      f
  | .VFD_STYLE =>
      let f := setHline (u32 (x + 1)) (u32 (x + WD - 1)) (u32 31) f
      let f := setHline (u32 (x + 2)) (u32 (x + WD - 2)) (u32 30) f
      let f := setHline (u32 (x + 3)) (u32 (x + WD - 3)) (u32 29) f
      f

/-- The function `drawSegE`. -/
def drawSegE (x : Int) (style : STYLE) (f : Frame) : Frame :=
  match style with
  | .PANAPLEX_STYLE =>
      let f := setVline (u32 (x + 0)) (u32 GY) (u32 31) f
      let f := setVline (u32 (x + 1)) (u32 GY) (u32 31) f
      f
  | .LED_BAR_STYLE =>
      let f := setVline (u32 (x + 0)) (u32 18) (u32 28) f
      let f := setVline (u32 (x + 1)) (u32 18) (u32 28) f
      let f := setVline (u32 (x + 2)) (u32 18) (u32 28) f
      f
  | .LED_DOT_STYLE =>
      let f := drawLed x 0 4 f
      let f := drawLed x 0 5 f
      f
  | .VFD_STYLE =>
      let f := setVline (u32 (x + 0)) (u32 17) (u32 30) f
      let f := setVline (u32 (x + 1)) (u32 18) (u32 29) f
      let f := setVline (u32 (x + 2)) (u32 19) (u32 28) f
      f

/-- The function `drawSegF`. -/
def drawSegF (x : Int) (style : STYLE) (f : Frame) : Frame :=
  match style with
  | .PANAPLEX_STYLE =>
      let f := setVline (u32 (x + 0)) (u32 0) (u32 GY) f
      let f := setVline (u32 (x + 1)) (u32 0) (u32 GY) f
      f
  | .LED_BAR_STYLE =>
      let f := setVline (u32 (x + 0)) (u32 3) (u32 14) f
      let f := setVline (u32 (x + 1)) (u32 3) (u32 14) f
      let f := setVline (u32 (x + 2)) (u32 3) (u32 14) f
      f
  | .LED_DOT_STYLE =>
      let f := drawLed x 0 1 f
      let f := drawLed x 0 2 f
      f
  | .VFD_STYLE =>
      let f := setVline (u32 (x + 0)) (u32 1) (u32 15) f
      let f := setVline (u32 (x + 1)) (u32 2) (u32 14) f
      let f := setVline (u32 (x + 2)) (u32 3) (u32 13) f
      f

/-- The function `drawSegG`. -/
def drawSegG (x : Int) (style : STYLE) (f : Frame) : Frame :=
  match style with
  | .PANAPLEX_STYLE =>
      let f := setHline (u32 x) (u32 (x + WD)) (u32 GY) f
      let f := setHline (u32 x) (u32 (x + WD)) (u32 (GY + 1)) f
      f
  | .LED_BAR_STYLE =>
      let f := setHline (u32 (x + 3)) (u32 (x + WD - 3)) (u32 15) f
      let f := setHline (u32 (x + 3)) (u32 (x + WD - 3)) (u32 16) f
      let f := setHline (u32 (x + 3)) (u32 (x + WD - 3)) (u32 17) f
      f
  | .LED_DOT_STYLE =>
      let f := drawLed x 1 3 f
      let f := drawLed x 2 3 f
      f
  | .VFD_STYLE =>
      let f := setHline (u32 (x + 2)) (u32 (x + WD - 2)) (u32 15) f
      let f := setHline (u32 (x + 1)) (u32 (x + WD - 1)) (u32 16) f
      let f := setHline (u32 (x + 2)) (u32 (x + WD - 2)) (u32 17) f
      f

/-- The function `drawSegH`. -/
def drawSegH (x : Int) (style : STYLE) (f : Frame) : Frame :=
  match style with
  | .PANAPLEX_STYLE =>
      let f := setHline (u32 (x + WD)) (u32 (x + WD + 3)) (u32 GY) f
      let f := setHline (u32 (x + WD)) (u32 (x + WD + 3)) (u32 (GY + 1)) f
      f
  | .LED_BAR_STYLE =>
      let f := setHline (u32 (x + WD + 1)) (u32 (x + WD + 3)) (u32 15) f
      let f := setHline (u32 (x + WD + 1)) (u32 (x + WD + 3)) (u32 16) f
      let f := setHline (u32 (x + WD + 1)) (u32 (x + WD + 3)) (u32 17) f
      f
  | .LED_DOT_STYLE =>
      let f := drawLed x 4 3 f
      f
  | .VFD_STYLE =>
      let f := setHline (u32 (x + WD)) (u32 (x + WD + 3)) (u32 15) f
      let f := setHline (u32 (x + WD - 1)) (u32 (x + WD + 3)) (u32 16) f
      let f := setHline (u32 (x + WD)) (u32 (x + WD + 3)) (u32 17) f
      f

/-- The function `drawSegI`. -/
def drawSegI (x : Int) (style : STYLE) (f : Frame) : Frame :=
  match style with
  | .PANAPLEX_STYLE => f
  | .LED_BAR_STYLE => f
  | .LED_DOT_STYLE =>
      let f := drawLed x 0 0 f
      f
  | .VFD_STYLE => f

/-- The function `drawSegJ`. -/
def drawSegJ (x : Int) (style : STYLE) (f : Frame) : Frame :=
  match style with
  | .PANAPLEX_STYLE => f
  | .LED_BAR_STYLE => f
  | .LED_DOT_STYLE =>
      let f := drawLed x 3 0 f
      f
  | .VFD_STYLE => f

/-- The function `drawSegK`. -/
def drawSegK (x : Int) (style : STYLE) (f : Frame) : Frame :=
  match style with
  | .PANAPLEX_STYLE => f
  | .LED_BAR_STYLE => f
  | .LED_DOT_STYLE =>
      let f := drawLed x 3 3 f
      f
  | .VFD_STYLE => f

/-- The function `drawSegL`. -/
def drawSegL (x : Int) (style : STYLE) (f : Frame) : Frame :=
  match style with
  | .PANAPLEX_STYLE => f
  | .LED_BAR_STYLE => f
  | .LED_DOT_STYLE =>
      let f := drawLed x 3 6 f
      f
  | .VFD_STYLE => f

/-- The function `drawSegM`. -/
def drawSegM (x : Int) (style : STYLE) (f : Frame) : Frame :=
  match style with
  | .PANAPLEX_STYLE => f
  | .LED_BAR_STYLE => f
  | .LED_DOT_STYLE =>
      let f := drawLed x 0 6 f
      f
  | .VFD_STYLE => f

/-- The function `drawSegN`. -/
def drawSegN (x : Int) (style : STYLE) (f : Frame) : Frame :=
  match style with
  | .PANAPLEX_STYLE => f
  | .LED_BAR_STYLE => f
  | .LED_DOT_STYLE =>
      let f := drawLed x 0 3 f
      f
  | .VFD_STYLE => f

/-- The function `drawSegDP`. -/
def drawSegDP (x : Int) (style : STYLE) (f : Frame) : Frame :=
  match style with
  | .PANAPLEX_STYLE =>
      let f := setHline (u32 (x + WD + 2)) (u32 (x + WD + 4)) (u32 29) f
      let f := setHline (u32 (x + WD + 2)) (u32 (x + WD + 4)) (u32 30) f
      let f := setHline (u32 (x + WD + 2)) (u32 (x + WD + 4)) (u32 31) f
      f
  | .LED_BAR_STYLE =>
      let f := setHline (u32 (x + WD + 2)) (u32 (x + WD + 4)) (u32 29) f
      let f := setHline (u32 (x + WD + 2)) (u32 (x + WD + 4)) (u32 30) f
      let f := setHline (u32 (x + WD + 2)) (u32 (x + WD + 4)) (u32 31) f
      f
  | .LED_DOT_STYLE =>
      let f := drawLed x 4 6 f
      f
  | .VFD_STYLE =>
      let f := setHline (u32 (x + WD + 2)) (u32 (x + WD + 4)) (u32 29) f
      let f := setHline (u32 (x + WD + 2)) (u32 (x + WD + 4)) (u32 30) f
      let f := setHline (u32 (x + WD + 2)) (u32 (x + WD + 4)) (u32 31) f
      f

/-- The function `drawSegCN`. -/
def drawSegCN (x : Int) (style : STYLE) (f : Frame) : Frame :=
  match style with
  | .PANAPLEX_STYLE =>
      let f := setHline (u32 (x + WD + 2)) (u32 (x + WD + 3)) (u32 9) f
      let f := setHline (u32 (x + WD + 2)) (u32 (x + WD + 3)) (u32 10) f
      let f := setHline (u32 (x + WD + 2)) (u32 (x + WD + 3)) (u32 17) f
      let f := setHline (u32 (x + WD + 2)) (u32 (x + WD + 3)) (u32 18) f
      f
  | .LED_BAR_STYLE =>
      let f := setHline (u32 (x + WD + 2)) (u32 (x + WD + 4)) (u32 11) f
      let f := setHline (u32 (x + WD + 2)) (u32 (x + WD + 4)) (u32 12) f
      let f := setHline (u32 (x + WD + 2)) (u32 (x + WD + 4)) (u32 13) f
      let f := setHline (u32 (x + WD + 2)) (u32 (x + WD + 4)) (u32 19) f
      let f := setHline (u32 (x + WD + 2)) (u32 (x + WD + 4)) (u32 20) f
      let f := setHline (u32 (x + WD + 2)) (u32 (x + WD + 4)) (u32 21) f
      f
  | .LED_DOT_STYLE =>
      let f := drawLed x 4 2 f
      let f := drawLed x 4 4 f
      f
  | .VFD_STYLE =>
      let f := setHline (u32 (x + WD + 2)) (u32 (x + WD + 4)) (u32 11) f
      let f := setHline (u32 (x + WD + 2)) (u32 (x + WD + 4)) (u32 12) f
      let f := setHline (u32 (x + WD + 2)) (u32 (x + WD + 4)) (u32 13) f
      let f := setHline (u32 (x + WD + 2)) (u32 (x + WD + 4)) (u32 19) f
      let f := setHline (u32 (x + WD + 2)) (u32 (x + WD + 4)) (u32 20) f
      let f := setHline (u32 (x + WD + 2)) (u32 (x + WD + 4)) (u32 21) f
      f
/-- The call `drawSegX(x, style)` for the segment `X`. -/
def drawSeg (s : Segment) (x : Int) (style : STYLE) (f : Frame) : Frame :=
  match s with
  | .A => drawSegA x style f
  | .B => drawSegB x style f
  | .C => drawSegC x style f
  | .D => drawSegD x style f
  | .E => drawSegE x style f
  | .F => drawSegF x style f
  | .G => drawSegG x style f
  | .H => drawSegH x style f
  | .I => drawSegI x style f
  | .J => drawSegJ x style f
  | .K => drawSegK x style f
  | .L => drawSegL x style f
  | .M => drawSegM x style f
  | .N => drawSegN x style f
  | .DP => drawSegDP x style f
  | .CN => drawSegCN x style f

/-- The `switch (digit)` of `renderHexDigit`: the `drawSegX` calls made for
`digit` in `style`, in the order of the source. A digit with no `case` makes
no call. -/
def renderHexDigitCalls (digit : Int) (style : STYLE) : List Segment :=
  match digit with
  | 0 => [.A, .B, .C, .D, .E, .F, .K, .N]
  | 1 => [.B, .C, .J, .K, .L]
  | 2 => [.A, .B, .D, .E, .G, .I, .L, .M]
  | 3 => [.A, .B, .C, .D, .G, .I, .M]
  | 4 => [.B, .C, .F, .G, .H, .I, .J, .K, .L]
  | 5 => [.A, .C, .D, .F, .G, .I, .J, .M]
  | 6 => [.A, .C, .D, .E, .F, .G, .J, .N]
  | 7 => [.A, .B, .C, .F, .I, .J, .K, .L]
  | 8 => [.A, .B, .C, .D, .E, .F, .G]
  | 9 => [.A, .B, .C, .D, .F, .G, .K, .M]
  | 0xA => [.A, .B, .C, .E, .F, .G, .K, .L, .M, .N]
  | 0xB =>
      [.C, .D, .E, .F, .G] ++
        (if style = .LED_DOT_STYLE then [.A, .B, .I, .M, .N] else [])
  | 0xC => [.A, .D, .E, .F, .J, .L, .N]
  | 0xD =>
      if style = .LED_DOT_STYLE then
        [.A, .B, .C, .D, .E, .F, .I, .K, .M, .N]
      else
        [.B, .C, .D, .E, .G]
  | 0xE => [.A, .D, .E, .F, .G, .I, .J, .L, .M, .N]
  | 0xF => [.A, .E, .F, .G, .I, .J, .M, .N]
  | _ => []

/-- Draw a sequence of segments, first to last. -/
def drawSegs (segs : List Segment) (x : Int) (style : STYLE) (f : Frame) : Frame :=
  segs.foldl (fun f s => drawSeg s x style f) f

/-- The function `renderHexDigit`. -/
def renderHexDigit (x digit : Int) (style : STYLE) (f : Frame) : Frame :=
  drawSegs (renderHexDigitCalls digit style) x style f

/-- The function `renderClockDisplay`; `Hour`, `Minute`, `Second` are the
clock globals. -/
def renderClockDisplay (clock : Clock) (width : Int) (style : STYLE) (f : Frame) : Frame :=
  let f := renderHexDigit (0 * width) ((clock.Hour : Int) / 10) style f
  let f := renderHexDigit (1 * width) ((clock.Hour : Int) % 10) style f
  let f := renderHexDigit (2 * width) ((clock.Minute : Int) / 10) style f
  let f := renderHexDigit (3 * width) ((clock.Minute : Int) % 10) style f
  let f := renderHexDigit (4 * width) ((clock.Second : Int) / 10) style f
  renderHexDigit (5 * width) ((clock.Second : Int) % 10) style f

/-! ## Blue Pill: the main loop -/

/-- The globals and the locals of `main`. `frame` is the array `Frame`,
`display` the sequence of transfers to the panel (oldest first), `PC13` the
level of the LED pin, `end_` the local `end`. Console output (`printf`) is
not represented. -/
structure Main where
  clock : Clock
  uart : UART_BUFFER
  frame : Frame
  display : List DisplayOp
  PC13 : Bool
  end_ : Nat
  colon : Nat
  flag : Nat
  digit : Int
  x : Int
  style : STYLE
  displayMode : MODE
  state : STATE
  hour : Int
  minute : Int
  second : Int

/-- The local `const int width = WD + 6`. -/
def width : Int := WD + 6

/-- The number of cells of `Frame`, which is also `sizeof (Frame)`. -/
def frameCells : Nat := MAXROWS * MAXX

/-- The call `memset(Frame, 0, n)`. -/
def memsetFrame (n : Nat) (f : Frame) : Frame :=
  fun k => if k < n then 0 else f k

/-- A call of `updscreen()`: the whole frame, rows `0..MAXY - 1`, is sent to
the panel. -/
def updscreen (m : Main) : Main :=
  { m with display := m.display ++ [DisplayOp.updscreen 0 (MAXY - 1)] }

/-- The state in which `main` enters its loop when no interrupt has been
taken yet: the initialisers of the locals, `greyFrame`, the first
`updscreen`, and `end = millis() + 500u`. -/
def mainBoot : Main :=
  { clock := clockBoot,
    uart := { tx := { head := 0, tail := 0, buf := fun _ => 0 },
              rx := rxInit (fun _ => 0), CR1_TXEIE := false, DR_written := [] },
    frame := greyFrame (fun _ => 0),
    display := [DisplayOp.updscreen 0 (MAXY - 1)],
    PC13 := false,
    end_ := 500,
    colon := 0xffffffff,
    flag := 0,
    digit := 0,
    x := 0 * width,
    style := .VFD_STYLE,
    displayMode := .MANUAL_MODE,
    state := .NOT_SETTING_TIME,
    hour := 0, minute := 0, second := 0 }

/-- The body of `if (Tick) { ... }` in the main loop. -/
def serviceTick (m : Main) : Main :=
  if m.clock.Tick ≠ 0 then
    let m :=
      if millis m.clock ≥ m.end_ then
        let m := { m with end_ := (millis m.clock + 500) % 2 ^ 32 }
        let m := if m.flag ≠ 0 then { m with PC13 := false } else { m with PC13 := true }
        { m with flag := if m.flag ≠ 0 then 0 else 1 }
      else m
    let m :=
      if m.displayMode = .AUTO_HMS_MODE ∧ millis m.clock ≥ m.colon then
        let m := { m with frame := drawSegCN (1 * width) m.style m.frame }
        let m := { m with frame := drawSegCN (3 * width) m.style m.frame }
        let m := updscreen m
        { m with colon := (m.colon + 600) % 2 ^ 32 }
      else m
    { m with clock := { m.clock with Tick := 0 } }
  else m

/-- The body of `if (RtcTick) { ... }` in the main loop. -/
def serviceRtcTick (m : Main) : Main :=
  if m.clock.RtcTick ≠ 0 then
    let m :=
      if m.displayMode = .AUTO_HMS_MODE then
        let m := { m with frame := memsetFrame frameCells m.frame }
        let m := { m with frame := renderClockDisplay m.clock width m.style m.frame }
        let m := updscreen m
        { m with colon := (millis m.clock + 500) % 2 ^ 32 }
      else m
    { m with clock := { m.clock with RtcTick := 0 } }
  else m

/-- The commands `'0'`..`'9'`, `'a'`..`'f'`: `renderHexDigit(x, d, style)`
followed by `updscreen()`. -/
def renderCommand (d : Int) (m : Main) : Main :=
  updscreen { m with frame := renderHexDigit m.x d m.style m.frame }

/-- The commands `'g'`..`'l'`: `digit = d; x = digit * width;`. -/
def selectDigit (d : Int) (m : Main) : Main :=
  let m := { m with digit := d }
  { m with x := m.digit * width }

/-- The inner `switch (ch)` of the main loop, executed in state
`NOT_SETTING_TIME`. A byte with no `case` does nothing. -/
def command (ch : Nat) (m : Main) : Main :=
  if ch = 'r'.toNat ∨ ch = 'R'.toNat then
    updscreen { m with frame := setRect 0 0 ((MAXX : Int) - 1) ((MAXY : Int) - 1) m.frame }
  else if ch = 'q'.toNat ∨ ch = 'Q'.toNat then
    let f := setVline (MAXX / 4) 0 (MAXY - 1) m.frame
    let f := setVline (MAXX / 2) 0 (MAXY - 1) f
    let f := setVline ((MAXX * 3) / 4) 0 (MAXY - 1) f
    updscreen { m with frame := f }
  else if ch = 'g'.toNat then selectDigit 0 m
  else if ch = 'h'.toNat then selectDigit 1 m
  else if ch = 'i'.toNat then selectDigit 2 m
  else if ch = 'j'.toNat then selectDigit 3 m
  else if ch = 'k'.toNat then selectDigit 4 m
  else if ch = 'l'.toNat then selectDigit 5 m
  else if ch = '0'.toNat then renderCommand 0 m
  else if ch = '1'.toNat then renderCommand 1 m
  else if ch = '2'.toNat then renderCommand 2 m
  else if ch = '3'.toNat then renderCommand 3 m
  else if ch = '4'.toNat then renderCommand 4 m
  else if ch = '5'.toNat then renderCommand 5 m
  else if ch = '6'.toNat then renderCommand 6 m
  else if ch = '7'.toNat then renderCommand 7 m
  else if ch = '8'.toNat then renderCommand 8 m
  else if ch = '9'.toNat then renderCommand 9 m
  else if ch = 'a'.toNat ∨ ch = 'A'.toNat then renderCommand 0xA m
  else if ch = 'b'.toNat ∨ ch = 'B'.toNat then renderCommand 0xB m
  else if ch = 'c'.toNat ∨ ch = 'C'.toNat then renderCommand 0xC m
  else if ch = 'd'.toNat ∨ ch = 'D'.toNat then renderCommand 0xD m
  else if ch = 'e'.toNat ∨ ch = 'E'.toNat then renderCommand 0xE m
  else if ch = 'f'.toNat ∨ ch = 'F'.toNat then renderCommand 0xF m
  else if ch = 'o'.toNat ∨ ch = 'O'.toNat then
    updscreen m
  else if ch = '.'.toNat then
    updscreen { m with frame := drawSegDP m.x m.style m.frame }
  else if ch = ':'.toNat then
    updscreen { m with frame := drawSegCN m.x m.style m.frame }
  else if ch = 's'.toNat then
    { m with state := .SETTING_TIME_1 }
  else if ch = 't'.toNat then
    let m := { m with frame := memsetFrame frameCells m.frame }
    let m := { m with frame := renderClockDisplay m.clock width m.style m.frame }
    let m := { m with frame := drawSegCN (1 * width) m.style m.frame }
    let m := { m with frame := drawSegCN (3 * width) m.style m.frame }
    let m := updscreen m
    { m with colon := (millis m.clock + 1100) % 2 ^ 32 }
  else if ch = 'm'.toNat ∨ ch = 'M'.toNat then
    { m with displayMode := .MANUAL_MODE }
  else if ch = 'u'.toNat ∨ ch = 'U'.toNat then
    { m with displayMode := .AUTO_HMS_MODE }
  else if ch = 'v'.toNat ∨ ch = 'V'.toNat then
    { m with style := .VFD_STYLE }
  else if ch = 'w'.toNat ∨ ch = 'W'.toNat then
    { m with style := .LED_DOT_STYLE }
  else if ch = 'x'.toNat ∨ ch = 'X'.toNat then
    { m with style := .PANAPLEX_STYLE }
  else if ch = 'y'.toNat ∨ ch = 'Y'.toNat then
    { m with style := .LED_BAR_STYLE }
  else if ch = 'z'.toNat ∨ ch = 'Z'.toNat then
    updscreen { m with frame := memsetFrame frameCells m.frame }
  else m

/-- The `switch (state)` of the main loop for a received byte `ch`
(a `uint8_t`): the body of `if (UART1RxAvailable()) { ... }` after
`ch = UART1RxByte()`. The assignments `Hour = hour` etc. convert `int` to
`uint8_t`. -/
def processByte (ch : Nat) (m : Main) : Main :=
  match m.state with
  | .SETTING_TIME_1 =>
      if isdigit ch then
        { m with hour := ((ch : Int) - ('0'.toNat : Int)) * 10, state := .SETTING_TIME_2 }
      else
        { m with state := .NOT_SETTING_TIME }
  | .SETTING_TIME_2 =>
      if isdigit ch then
        { m with hour := m.hour + ((ch : Int) - ('0'.toNat : Int)), state := .SETTING_TIME_3 }
      else
        { m with state := .NOT_SETTING_TIME }
  | .SETTING_TIME_3 =>
      if isdigit ch then
        { m with minute := ((ch : Int) - ('0'.toNat : Int)) * 10, state := .SETTING_TIME_4 }
      else
        { m with state := .NOT_SETTING_TIME }
  | .SETTING_TIME_4 =>
      if isdigit ch then
        { m with minute := m.minute + ((ch : Int) - ('0'.toNat : Int)),
                 state := .SETTING_TIME_5 }
      else
        { m with state := .NOT_SETTING_TIME }
  | .SETTING_TIME_5 =>
      if isdigit ch then
        { m with second := ((ch : Int) - ('0'.toNat : Int)) * 10, state := .SETTING_TIME_6 }
      else
        { m with state := .NOT_SETTING_TIME }
  | .SETTING_TIME_6 =>
      if isdigit ch then
        let m := { m with second := m.second + ((ch : Int) - ('0'.toNat : Int)),
                          state := .NOT_SETTING_TIME }
        { m with clock := { m.clock with Hour := u8 m.hour, Minute := u8 m.minute,
                                         Second := u8 m.second } }
      else
        { m with state := .NOT_SETTING_TIME }
  | .NOT_SETTING_TIME => command ch m

/-- The body of `if (UART1RxAvailable()) { ... }`: take one byte from the
receive ring and process it. -/
def serviceUart (m : Main) : Main :=
  if UART1RxAvailable m.uart.rx then
    match UART1RxByte m.uart.rx with
    | some (ch, rx) => processByte ch { m with uart := { m.uart with rx := rx } }
    | none => m
  else m

/-- One iteration of `while (1) { ... }`, with no interrupt taken inside it. -/
def mainLoop (m : Main) : Main :=
  serviceUart (serviceRtcTick (serviceTick m))

/-- Feed a sequence of received bytes to the interpreter, first to last. -/
def feed (bytes : List Nat) (m : Main) : Main :=
  bytes.foldl (fun m ch => processByte ch m) m

end BluePill

end SpiOled

namespace SpiOled

/-! ## Auxiliary predicates used in the statements -/

/-- The value of a parser state as the C enumeration constant. -/
def stateIndex : STATE → Nat
  | .NOT_SETTING_TIME => 0
  | .SETTING_TIME_1 => 1
  | .SETTING_TIME_2 => 2
  | .SETTING_TIME_3 => 3
  | .SETTING_TIME_4 => 4
  | .SETTING_TIME_5 => 5
  | .SETTING_TIME_6 => 6

/-- Invariant of a receive history: indices in range and the accepted bytes
are the popped bytes followed by the bytes still held. -/
def RxInv (t : RxTrace) : Prop :=
  t.rx.head < 128 ∧ t.rx.tail < 128 ∧ t.accepted = t.popped ++ rxContents t.rx

namespace BlackPill

/-- An asset set whose tables are all zero, used as a concrete input. -/
def blankAssets : Assets :=
  { OLEDImage := fun _ => 0, PetrolDigits := fun _ => 0 }

/-- The byte `ch`, arriving in state `m`, does not complete a time-set
sequence with an out-of-range field: either it is not the sixth digit, or the
hour, minute and second about to be stored are at most 23, 59 and 59. -/
def commitInRange (m : Main) (ch : Nat) : Bool :=
  if m.state = .SETTING_TIME_6 ∧ isdigit ch = true then
    decide (u8 m.hour ≤ 23 ∧ u8 m.minute ≤ 59 ∧
      u8 (m.second + ((ch : Int) - ('0'.toNat : Int))) ≤ 59)
  else
    true

/-- Every time-set sequence completed during the run of `evs` from `m` stores
an in-range time. -/
def commitsInRange (a : Assets) : List Event → Main → Bool
  | [], _ => true
  | Event.rtcTick :: evs, m => commitsInRange a evs (stepEvent a m Event.rtcTick)
  | Event.byte ch :: evs, m =>
      commitInRange m ch && commitsInRange a evs (stepEvent a m (Event.byte ch))

/-- Invariant of the interpreter used for the bound 99: the clock fields and
the three `int` locals are at most 99, and a local holding only its tens digit
is at most 90. -/
def Inv99 (m : Main) : Prop :=
  m.clock.Hour ≤ 99 ∧ m.clock.Minute ≤ 99 ∧ m.clock.Second ≤ 99 ∧
  0 ≤ m.hour ∧ m.hour ≤ 99 ∧ 0 ≤ m.minute ∧ m.minute ≤ 99 ∧
  0 ≤ m.second ∧ m.second ≤ 99 ∧
  (m.state = .SETTING_TIME_2 → m.hour ≤ 90) ∧
  (m.state = .SETTING_TIME_4 → m.minute ≤ 90) ∧
  (m.state = .SETTING_TIME_6 → m.second ≤ 90)

end BlackPill

end SpiOled


namespace SpiOled

namespace BlackPill

/-- The bytes that have a `case` label in the inner `switch (ch)` of `main`
(the dispatch table of the Idle state). -/
def commandBytes : List Nat :=
  ['r'.toNat, 'R'.toNat, 'q'.toNat, 'Q'.toNat, 'g'.toNat, 'h'.toNat, 'i'.toNat, 'j'.toNat,
   'k'.toNat, 'l'.toNat, '0'.toNat, '1'.toNat, '2'.toNat, '3'.toNat, '4'.toNat, '5'.toNat,
   '6'.toNat, '7'.toNat, '8'.toNat, '9'.toNat, 'a'.toNat, 'A'.toNat, 'b'.toNat, 'B'.toNat,
   'c'.toNat, 'C'.toNat, 'd'.toNat, 'D'.toNat, 'e'.toNat, 'E'.toNat, 'f'.toNat, 'F'.toNat,
   'o'.toNat, 'O'.toNat, 0x0D, ']'.toNat, '.'.toNat, ':'.toNat, 's'.toNat, 't'.toNat,
   'm'.toNat, 'M'.toNat, 'n'.toNat, 'N'.toNat, 'u'.toNat, 'U'.toNat, 'v'.toNat, 'V'.toNat,
   'w'.toNat, 'W'.toNat, 'x'.toNat, 'X'.toNat, 'y'.toNat, 'Y'.toNat, 'z'.toNat, 'Z'.toNat]

end BlackPill

namespace BluePill

/-- The bytes that have a `case` label in the inner `switch (ch)` of `main`
(the dispatch table of the Idle state). -/
def commandBytes : List Nat :=
  ['r'.toNat, 'R'.toNat, 'q'.toNat, 'Q'.toNat, 'g'.toNat, 'h'.toNat, 'i'.toNat, 'j'.toNat,
   'k'.toNat, 'l'.toNat, '0'.toNat, '1'.toNat, '2'.toNat, '3'.toNat, '4'.toNat, '5'.toNat,
   '6'.toNat, '7'.toNat, '8'.toNat, '9'.toNat, 'a'.toNat, 'A'.toNat, 'b'.toNat, 'B'.toNat,
   'c'.toNat, 'C'.toNat, 'd'.toNat, 'D'.toNat, 'e'.toNat, 'E'.toNat, 'f'.toNat, 'F'.toNat,
   'o'.toNat, 'O'.toNat, '.'.toNat, ':'.toNat, 's'.toNat, 't'.toNat,
   'm'.toNat, 'M'.toNat, 'u'.toNat, 'U'.toNat, 'v'.toNat, 'V'.toNat,
   'w'.toNat, 'W'.toNat, 'x'.toNat, 'X'.toNat, 'y'.toNat, 'Y'.toNat, 'z'.toNat, 'Z'.toNat]

end BluePill

end SpiOled

/-! ## Risible Radar (`src/RisibleRadar/RisibleRadar.c`): frame buffer -/

namespace RisibleRadar

open SpiOled

def MAXX : Nat := 128
def MAXY : Nat := 128

def SSD1351_BLACK : Nat := 0x0000
def SSD1351_RED : Nat := 0x001f
def SSD1351_GREEN : Nat := 0x07e0
def SSD1351_BLUE : Nat := 0xf800
def SSD1351_WHITE : Nat := SSD1351_RED ||| SSD1351_GREEN ||| SSD1351_BLUE

/-- The array `uint16_t Frame[MAXY][MAXX]` seen as the memory that starts at
`&Frame[0][0]`: cell `y * MAXX + x` is `Frame[y][x]`. Cells from
`MAXY * MAXX` on are the memory that follows the array. -/
abbrev Frame := Nat → Nat

/-- The assignment `Frame[y][x] = c` with unsigned indices. -/
def frameStore (f : Frame) (y x c : Nat) : Frame :=
  fun k => if k = y * MAXX + x then c else f k

/-- The function `drawPixel`. -/
def drawPixel (x y c : Nat) (f : Frame) : Frame :=
  if x < MAXX ∧ y < MAXY then frameStore f y x c else f

/-- The function `drawVline`: no bounds check. -/
def drawVline (x y1 y2 c : Nat) (f : Frame) : Frame :=
  (uintRange y1 y2).foldl (fun f y => frameStore f y x c) f

/-- The function `drawHline`: no bounds check. -/
def drawHline (x1 x2 y c : Nat) (f : Frame) : Frame :=
  (uintRange x1 x2).foldl (fun f x => frameStore f y x c) f

end RisibleRadar

/-! ## Risible Radar: game state and game logic

The `float` fields `bearing` and `range` hold rational numbers (every finite
`float` is one). The two arithmetic operations `findNewEchoes` and
`reCalculateBearings` perform on them (`bearing - (float)r`, `bearing += 360.0`)
and the quotient `frange / 3.0` are taken without rounding; the results of the
C library calls `atan2` and `sqrt` are parameters (`Libm`). Drawing calls write
only the frame buffer and the panel and are not part of the game state. -/

namespace RisibleRadar

open SpiOled

def ADC_RANGE : Int := 4096
def ADC_CENTRE : Int := ADC_RANGE / 2
def ADC_DEADBAND : Int := ADC_RANGE / 8

def CENX : Nat := MAXX / 2
def CENY : Nat := MAXY / 2

def SCANNER_RADIUS : Int := 33

def NTARGETS : Nat := 10
def NECHOES : Nat := 10

def DEFGAMEDURATION : Nat := 40
def MAXGAMEDURATION : Nat := 60

def MAXPLAYX : Nat := MAXX * 2
def MAXPLAYY : Nat := MAXY * 2

def NORTH : Int := 1
def SOUTH : Int := 2
def EAST : Int := 3
def WEST : Int := 4

/-- An echo on the scope, `struct echo_t`. -/
structure echo_t where
  x : Nat
  y : Nat
  age : Int
  rad : Int

/-- A radar target, `struct target_t`. The one-bit fields `active`, `rings`,
`axes`, `time` are kept as truth values. -/
structure target_t where
  x : Nat
  y : Nat
  bearing : ℚ
  range : ℚ
  siz : Nat
  active : Bool
  rings : Bool
  axes : Bool
  time : Bool

/-- A position, `struct coord_t`. -/
structure coord_t where
  x : Nat
  y : Nat

/-- The globals of the game (`Echo`, `Target`, `Player`, `Gather_y`,
`GameDuration`, `Rings`, `Axes`) and the `static unsigned int sweeps` of
`game_loop`. The arrays map an index to its element. -/
structure Game where
  Echo : Nat → echo_t
  Target : Nat → target_t
  Player : coord_t
  Gather_y : Int
  GameDuration : Nat
  Rings : Bool
  Axes : Bool
  sweeps : Nat

/-- The assignment `arr[i] = v`. -/
def arraySet {α : Type} (arr : Nat → α) (i : Nat) (v : α) : Nat → α :=
  fun j => if j = i then v else arr j

/-- The assignment `Target[i] = v`. -/
def setTarget (g : Game) (i : Nat) (v : target_t) : Game :=
  { g with Target := arraySet g.Target i v }

/-- The assignment `Echo[e] = v`. -/
def setEcho (g : Game) (e : Nat) (v : echo_t) : Game :=
  { g with Echo := arraySet g.Echo e v }

/-- Conversion of a `float` to `int`: the fraction is discarded. -/
def floatToInt (q : ℚ) : Int :=
  if 0 ≤ q then ⌊q⌋ else ⌈q⌉

/-- Conversion of an `unsigned int` to `int` (32 bits, two's complement). -/
def toInt32 (n : Nat) : Int :=
  if n % 4294967296 < 2147483648 then ((n % 4294967296 : Nat) : Int)
  else ((n % 4294967296 : Nat) : Int) - 4294967296

/-- The unsigned difference `a - b` converted to `int`, as in
`const int dx = Target[i].x - Player.x`. -/
def udiff (a b : Nat) : Int :=
  toInt32 (u32 ((a : Int) - (b : Int)))

/-- The two C library functions the game logic calls, with the conversion of
their result to `float`: `atan2deg dy dx` is `atan2(dy, dx) * RADTODEG` and
`sqrt n` is `sqrt(n)`. -/
structure Libm where
  atan2deg : Int → Int → ℚ
  sqrt : Int → ℚ

/-- The body of the loop of `reCalculateBearings` for target `i`. -/
def reCalculateBearing (L : Libm) (g : Game) (i : Nat) : Game :=
  if (g.Target i).active then
    let dx := udiff (g.Target i).x g.Player.x
    let dy := udiff (g.Target i).y g.Player.y
    let g := setTarget g i { g.Target i with bearing := L.atan2deg dy dx }
    let g := setTarget g i { g.Target i with range := L.sqrt ((dx * dx) + (dy * dy)) }
    if (g.Target i).bearing < 0 then
      setTarget g i { g.Target i with bearing := (g.Target i).bearing + 360 }
    else g
  else g

/-- The function `reCalculateBearings`. -/
def reCalculateBearings (L : Libm) (g : Game) : Game :=
  (List.range NTARGETS).foldl (reCalculateBearing L) g

/-- The function `findEchoSlot`. -/
def findEchoSlot (g : Game) : Nat :=
  match (List.range NECHOES).find? (fun e => decide ((g.Echo e).age ≤ 0)) with
  | some e => e
  | none => 0

/-- The block "Make a new echo" of `findNewEchoes` for target `t`. -/
def makeEcho (g : Game) (t : Nat) : Game :=
  let e := findEchoSlot g
  let g := setEcho g e
    { g.Echo e with x := u32 ((CENX : Int) + (((g.Target t).x : Int) - (g.Player.x : Int))) }
  let g := setEcho g e
    { g.Echo e with y := u32 ((CENY : Int) + (((g.Target t).y : Int) - (g.Player.y : Int))) }
  let g := setEcho g e { g.Echo e with age := 90 }
  setEcho g e { g.Echo e with rad := ((g.Target t).siz : Int) }

/-- The block "Pick it up?" of `findNewEchoes` for target `t`:
`Target[t].active = false; Target[t].y = Gather_y; Gather_y += 6;`. -/
def pickUp (g : Game) (t : Nat) : Game :=
  let g := setTarget g t { g.Target t with active := false }
  let g := setTarget g t { g.Target t with y := u32 g.Gather_y }
  { g with Gather_y := g.Gather_y + 6 }

/-- The first `if` inside `if (Target[t].active)` in `findNewEchoes`: the
bearing test, the range test, the new echo and the pickup. The test
`abs(Target[t].bearing - (float)r) < 6.0` uses the integer `abs` of
`stdlib.h`, so its argument is first converted to `int`. -/
def echoPart (r : Int) (frange pickup : ℚ) (g : Game) (t : Nat) : Game :=
  if ((floatToInt ((g.Target t).bearing - (r : ℚ))).natAbs : ℚ) < 6 then
    if (g.Target t).range < frange then
      let g := makeEcho g t
      if (g.Target t).range < pickup then pickUp g t else g
    else g
  else g

/-- The second `if` inside `if (Target[t].active)` in `findNewEchoes`: the
bonuses of a target within pickup range, whatever its bearing. -/
def bonusPart (pickup : ℚ) (g : Game) (t : Nat) : Game :=
  if (g.Target t).range < pickup then
    let g := if (g.Target t).rings then { g with Rings := true } else g
    let g := if (g.Target t).axes then { g with Axes := true } else g
    if (g.Target t).time then
      let g :=
        if g.GameDuration < MAXGAMEDURATION then
          { g with GameDuration := (g.GameDuration + 5) % 4294967296 }
        else g
      setTarget g t { g.Target t with time := false }
    else g
  else g

/-- The body of the loop of `findNewEchoes` for target `t`; `frange` and
`pickup` are the two `const float` locals. -/
def findNewEcho (r : Int) (frange pickup : ℚ) (g : Game) (t : Nat) : Game :=
  if (g.Target t).active then
    bonusPart pickup (echoPart r frange pickup g t) t
  else g

/-- The function `findNewEchoes`. -/
def findNewEchoes (r range nt : Int) (g : Game) : Game :=
  let frange : ℚ := (range : ℚ)
  let pickup : ℚ := frange / 3
  (List.range nt.toNat).foldl (findNewEcho r frange pickup) g

/-- The direction computed by `getPlayerMove` from the two joystick readings
`x = analogRead(1)` and `y = analogRead(8)`. -/
def getPlayerMove (x y : Int) : Int :=
  let dir : Int := 0
  let dir :=
    if x < ADC_CENTRE - ADC_DEADBAND then WEST
    else if x > ADC_CENTRE + ADC_DEADBAND then EAST
    else dir
  let dir :=
    if y < ADC_CENTRE - ADC_DEADBAND then NORTH
    else if y > ADC_CENTRE + ADC_DEADBAND then SOUTH
    else dir
  dir

/-- The function `movePlayer`; `Player.x` and `Player.y` are `unsigned int`. -/
def movePlayer (dir : Int) (g : Game) : Game :=
  if dir = NORTH then
    if g.Player.y > 0 then { g with Player := { g.Player with y := g.Player.y - 1 } } else g
  else if dir = SOUTH then
    if g.Player.y < MAXPLAYY - 1 then
      { g with Player := { g.Player with y := (g.Player.y + 1) % 4294967296 } }
    else g
  else if dir = WEST then
    if g.Player.x > 0 then { g with Player := { g.Player with x := g.Player.x - 1 } } else g
  else if dir = EAST then
    if g.Player.x < MAXPLAYX - 1 then
      { g with Player := { g.Player with x := (g.Player.x + 1) % 4294967296 } }
    else g
  else g

/-- The body of the loop `for (e = 0; e < NECHOES; e++)` of `game_loop`:
`Echo[e].age--` (the echo is drawn first when its age is positive). -/
def ageEcho (g : Game) (e : Nat) : Game :=
  setEcho g e { g.Echo e with age := (g.Echo e).age - 1 }

/-- One pass through the body of `for (r = 0; r < 360; r += 3)` in
`game_loop`, for sweep angle `r` and joystick readings `adc`. -/
def game_tick (L : Libm) (adc : Int × Int) (r : Int) (g : Game) : Game :=
  let g :=
    if g.sweeps < g.GameDuration then
      let dir := getPlayerMove adc.1 adc.2
      if dir ≠ 0 then
        reCalculateBearings L (movePlayer dir g)
      else g
    else g
  let g := findNewEchoes r SCANNER_RADIUS NTARGETS g
  let g := (List.range NECHOES).foldl ageEcho g
  if r = 180 then { g with sweeps := (g.sweeps + 1) % 4294967296 } else g

/-- The function `game_loop`: 120 ticks, `r = 0, 3, ..., 357`, then
`sweeps++`. `adc k` are the joystick readings taken in tick `k`. -/
def game_loop (L : Libm) (adc : Nat → Int × Int) (g : Game) : Game :=
  let g := (List.range 120).foldl
    (fun g k => game_tick L (adc k) (3 * (k : Int)) g) g
  { g with sweeps := (g.sweeps + 1) % 4294967296 }

end RisibleRadar

namespace RisibleRadar

/-- The state in which `findNewEchoes` examines target `t`: the passes of its
loop for the targets `0..t-1` are done. -/
def findNewEchoesBefore (r range : Int) (t : Nat) (g : Game) : Game :=
  (List.range t).foldl (findNewEcho r (range : ℚ) ((range : ℚ) / 3)) g

/-- A game state used as a concrete input: the player in the middle of the
playfield, every target active, of size 2, without bonus, at the player's
position with bearing 0 and range 0, no echo, and the initial values of the
other globals. -/
def sampleGame : Game :=
  { Echo := fun _ => { x := 0, y := 0, age := 0, rad := 0 },
    Target := fun _ => { x := 256, y := 256, bearing := 0, range := 0, siz := 2,
                         active := true, rings := false, axes := false, time := false },
    Player := { x := MAXPLAYX / 2, y := MAXPLAYY / 2 },
    Gather_y := 3,
    GameDuration := DEFGAMEDURATION,
    Rings := false,
    Axes := false,
    sweeps := 0 }

/-- A stand-in for the C library used as a concrete input: both functions
return 0. -/
def zeroLibm : Libm :=
  { atan2deg := fun _ _ => 0, sqrt := fun _ => 0 }

end RisibleRadar

namespace SpiOled

namespace BlackPill

/-- A state used as a concrete input: the main loop in AUTO_HMS_MODE right
after the first one-second interrupt, with the frame buffer holding `f`. -/
def autoTickState (f : Frame) : Main :=
  { mainBoot with frame := f, displayMode := .AUTO_HMS_MODE,
                  clock := TIM4_IRQHandler clockBoot }

end BlackPill

namespace BluePill

/-- A state used as a concrete input: the main loop in AUTO_HMS_MODE right
after the first one-second interrupt, with the frame buffer holding `f`. -/
def autoTickState (f : Frame) : Main :=
  { mainBoot with frame := f, displayMode := .AUTO_HMS_MODE,
                  clock := TIM4_IRQHandler clockBoot }

end BluePill

end SpiOled

/-! ## The SPI link to the panel (both boards)

`spi_cs`, `spi_dc`, `spi_txd`, `oledCmd`, `oledCmd2b` are the same in
`src/spi_oled.c` and `src/BlackPill/spi_oled.c`. The peripheral is taken to
complete every transfer, so that the two wait loops on `SPI1->SR` after a
write to `SPI1->DR` end; what the model keeps of a transfer is the write. -/

namespace SpiOled

/-- One write to `SPI1->DR` as the panel sees it: the levels of the chip
select pin (PA4) and of the data/command pin (PA12), whether the SPI is in
16-bit mode (`SPI_CR1_DFF`), and the value written. -/
structure SpiWrite where
  cs : Bool
  dc : Bool
  dff : Bool
  data : Nat
  deriving DecidableEq, Repr

/-- The frame buffer together with the SPI side of the panel: the array
`Frame` as flat memory, the two pins, the `DFF` bit of `SPI1->CR1` and the
writes to `SPI1->DR` so far, oldest first. -/
structure Link where
  frame : Nat → Nat
  CS : Bool
  DC : Bool
  DFF : Bool
  DR_written : List SpiWrite

/-- The function `spi_cs`. -/
def spi_cs (cs : Int) (l : Link) : Link :=
  if cs ≠ 0 then { l with CS := true } else { l with CS := false }

/-- The function `spi_dc`. -/
def spi_dc (dc : Int) (l : Link) : Link :=
  if dc ≠ 0 then { l with DC := true } else { l with DC := false }

/-- The assignment `SPI1->DR = data` followed by the two wait loops and the
read of `SPI1->DR`. -/
def writeDR (data : Nat) (l : Link) : Link :=
  { l with DR_written := l.DR_written ++ [{ cs := l.CS, dc := l.DC, dff := l.DFF, data := data }] }

/-- The function `spi_txd`; `data` is a `uint8_t` parameter. The received
byte it returns is not used by any caller modelled here. -/
def spi_txd (data : Nat) (l : Link) : Link :=
  writeDR (data % 256) l

/-- The function `oledCmd`. -/
def oledCmd (c : Nat) (l : Link) : Link :=
  let l := spi_dc 0 l
  let l := spi_cs 0 l
  let l := spi_txd c l
  let l := spi_cs 1 l
  spi_dc 1 l

/-- The function `oledCmd2b`. -/
def oledCmd2b (c b1 b2 : Nat) (l : Link) : Link :=
  let l := spi_dc 0 l
  let l := spi_cs 0 l
  let l := spi_txd c l
  let l := spi_dc 1 l
  let l := spi_txd b1 l
  let l := spi_txd b2 l
  spi_cs 1 l

def SSD1351_SETCOLUMN : Nat := 0x15
def SSD1351_SETROW : Nat := 0x75
def SSD1351_WRITERAM : Nat := 0x5C

namespace BlackPill

namespace Wire

/-- The function `updscreen` of the Black Pill at the level of the SPI link;
`y1` and `y2` are `uint8_t`. Each pass of the inner loop writes `Frame[y][x]`
to `SPI1->DR`. -/
def updscreen (y1 y2 : Nat) (l : Link) : Link :=
  let l := oledCmd2b SSD1351_SETCOLUMN 0 (MAXX - 1) l
  let l := oledCmd2b SSD1351_SETROW y1 y2 l
  let l := oledCmd SSD1351_WRITERAM l
  let l := { l with DFF := true }
  let l := spi_cs 0 l
  let l := (uintRange y1 y2).foldl (fun l y =>
    (List.range MAXX).foldl (fun l x => writeDR (l.frame (y * MAXX + x)) l) l) l
  let l := spi_cs 1 l
  { l with DFF := false }

end Wire

end BlackPill

namespace BluePill

namespace Wire

/-- The function `updscreen` of the Blue Pill at the level of the SPI link:
the whole 128x32 frame, one word per pixel, `0xffff` for a set bit. -/
def updscreen (l : Link) : Link :=
  let x1 := 0
  let x2 := MAXX - 1
  let y1 := 0
  let y2 := MAXY - 1
  let l := oledCmd2b SSD1351_SETCOLUMN x1 x2 l
  let l := oledCmd2b SSD1351_SETROW y1 y2 l
  let l := oledCmd SSD1351_WRITERAM l
  let l := { l with DFF := true }
  let l := spi_cs 0 l
  let l := (List.range MAXY).foldl (fun l r =>
    (List.range MAXX).foldl (fun l c =>
      let pixel := if (l.frame ((r / 8) * MAXX + c) &&& (1 <<< (r % 8))) ≠ 0 then 0xffff
                   else 0x0000
      writeDR pixel l) l) l
  let l := spi_cs 1 l
  { l with DFF := false }

end Wire

end BluePill

/-! ## Auxiliary definitions used in the statements about the flush -/

/-- The seven command and parameter bytes `updscreen` sends before the pixel
data, for rows `y1..y2` and an SPI that was in mode `dff`. -/
def flushHeader (dff : Bool) (y1 y2 : Nat) : List SpiWrite :=
  [{ cs := false, dc := false, dff := dff, data := 0x15 },
   { cs := false, dc := true, dff := dff, data := 0 },
   { cs := false, dc := true, dff := dff, data := 127 },
   { cs := false, dc := false, dff := dff, data := 0x75 },
   { cs := false, dc := true, dff := dff, data := y1 % 256 },
   { cs := false, dc := true, dff := dff, data := y2 % 256 },
   { cs := false, dc := false, dff := dff, data := 0x5C }]

/-- A 16-bit pixel word on the link: chip selected, data mode, 16-bit mode. -/
def pixelWrite (w : Nat) : SpiWrite :=
  { cs := false, dc := true, dff := true, data := w }

/-- The words of rows `y1..y2`, row by row and left to right across the full
width of 128 pixels; `word x y` is the word of pixel `(x, y)`. -/
def rowMajor (y1 y2 : Nat) (word : Nat → Nat → Nat) : List Nat :=
  (List.range' y1 (y2 + 1 - y1)).flatMap (fun y => (List.range 128).map (fun x => word x y))

end SpiOled

namespace SpiOled

/-- The words of a flush of rows `y1..y2` of the colour frame `f`: the value
of each pixel, row by row and left to right. -/
def colourWords (y1 y2 : Nat) (f : Nat → Nat) : List Nat :=
  rowMajor y1 y2 (fun x y => f (y * 128 + x))

/-- The words of a flush of the monochrome frame `f`: for pixel `(c, r)`,
`0xffff` when bit `r mod 8` of `Frame[r / 8][c]` is set and `0x0000`
otherwise, row by row and left to right. -/
def monoWords (f : Nat → Nat) : List Nat :=
  rowMajor 0 31 (fun c r => if (f ((r / 8) * 128 + c)).testBit (r % 8) then 0xffff else 0x0000)

end SpiOled

namespace SpiOled

namespace BluePill

/-! ## Auxiliary definitions used in the statements about lines -/

/-- Calling `op(x, y)` for every `x` in `x1..x2`, in ascending order. -/
def pixelsAcross (op : Nat → Nat → Frame → Frame) (x1 x2 y : Nat) (f : Frame) : Frame :=
  (List.range' x1 (x2 + 1 - x1)).foldl (fun f x => op x y f) f

/-- Calling `op(x, y)` for every `y` in `y1..y2`, in ascending order. -/
def pixelsDown (op : Nat → Nat → Frame → Frame) (x y1 y2 : Nat) (f : Frame) : Frame :=
  (List.range' y1 (y2 + 1 - y1)).foldl (fun f y => op x y f) f

end BluePill

end SpiOled

namespace RisibleRadar

/-- The assignment `Frame[y][x] = c` with `int` indices; a negative offset
addresses memory before the array, which is not part of the frame. -/
def frameStoreInt (f : Frame) (y x : Int) (c : Nat) : Frame :=
  fun k => if (k : Int) = y * (MAXX : Int) + x then c else f k

/-- The function `renderBitmap`; `bitmap k` is the byte at offset `k` from the
pointer `bitmap`. -/
def renderBitmap (x1 y1 wd ht : Int) (bitmap : Int → Nat) (stride : Int) (fg bg : Nat)
    (f : Frame) : Frame :=
  let x2 := x1 + wd - 1
  let y2 := y1 + ht - 1
  (List.range (y2 + 1 - y1).toNat).foldl (fun (f : Frame) (i : Nat) =>
    let y := y1 + (i : Int)
    let row : Int → Nat := fun j => bitmap (stride * ((i : Int) / 8) + j)
    (List.range (x2 + 1 - x1).toNat).foldl (fun (f : Frame) (j : Nat) =>
      let x := x1 + (j : Int)
      if (row (j : Int) &&& ((1 : Nat) <<< (i % 8))) ≠ 0 then
        frameStoreInt f y x fg
      else
        frameStoreInt f y x bg) f) f

end RisibleRadar

namespace SpiOled

namespace BlackPill

/-! ## Auxiliary definitions used in the statement about style and colour -/

/-- The default colour of a style: VFD is cyan, LED-dot and LED-bar are red,
Panaplex is `RED | 0x03e0`, petrol-station is red. -/
def defaultColour : STYLE → Nat
  | .VFD_STYLE => SSD1351_CYAN
  | .LED_DOT_STYLE => SSD1351_RED
  | .LED_BAR_STYLE => SSD1351_RED
  | .PANAPLEX_STYLE => SSD1351_RED ||| 0x03e0
  | .PETROL_STATION_STYLE => SSD1351_RED

/-- The current colour is the default colour of the current style. -/
def stylePaired (m : Main) : Prop :=
  m.colour = defaultColour m.style

end BlackPill

end SpiOled

namespace RisibleRadar

/-- A game state used as a concrete input: all ten echo slots are live, slot
0 holding the newest echo (age 89) and slot 1 the oldest (age 1); the only
active target is target 0, at the player's position with bearing 0 and
range 0. -/
def crowdedGame : Game :=
  { Echo := fun e => { x := 10 + e, y := 20, age := if e = 0 then 89 else (e : Int), rad := 1 },
    Target := fun t => { x := 256, y := 256, bearing := 0, range := 0, siz := 2,
                         active := decide (t = 0), rings := false, axes := false,
                         time := false },
    Player := { x := 256, y := 256 },
    Gather_y := 3,
    GameDuration := DEFGAMEDURATION,
    Rings := false,
    Axes := false,
    sweeps := 0 }

end RisibleRadar

/-! ## The PBM converters (`src/pbm2oled.c`, `src/BluePill/pbm2oled.c`)

The file is a list of bytes. `fgets` and `fread` are modelled on it; the
result of `sscanf` is a parameter, as are the result of `fopen` and the
indeterminate initial content of the local `lin`. A `return (0)` or
`return (false)` of `readPBM` is `none`. Output to `stderr` is not
represented. -/

namespace Pbm2oled

/-- What the C library gives `readPBM`: the bytes of the file `name` (`none`
when `fopen` returns `NULL`), the initial content of the local array `lin` as
a string, and the two values that `sscanf(lin, "%d %d", &xsize, &ysize)`
leaves in `xsize` and `ysize` for a given string `lin`. -/
structure Stdio where
  fopen : Option (List Nat)
  lin0 : List Nat
  sscanf : List Nat → Int × Int

/-- The characters `fgets` stores for a stream `fp` when at most `k`
characters fit: up to and including the first newline. -/
def takeLine : Nat → List Nat → List Nat
  | 0, _ => []
  | _, [] => []
  | k + 1, c :: fp => if c = 10 then [c] else c :: takeLine k fp

/-- The call `fgets(lin, size, fp)`: the new content of `lin` as a string and
the rest of the stream. At end of file `lin` is left as it was. -/
def fgets (size : Nat) (lin fp : List Nat) : List Nat × List Nat :=
  if fp = [] then (lin, fp)
  else (takeLine (size - 1) fp, fp.drop (takeLine (size - 1) fp).length)

/-- The character `lin[k]` of a string: 0 at and after its end. -/
def charAt (lin : List Nat) (k : Nat) : Nat :=
  lin.getD k 0

/-- The conversion of an `int` to `size_t` (64 bits). -/
def size_t (i : Int) : Nat :=
  (i % 18446744073709551616).toNat

/-- The frame buffer, the local `buf` and the stream during the data loop of
`readPBM`. `frame` is the array `Frame` as flat memory, cell
`row * MAXX + x` being `Frame[row][x]`. -/
structure Reader where
  frame : Nat → Nat
  buf : Nat → Nat
  fp : List Nat

/-- The call `fread(buf, 1, n, fp)`: the number of bytes read and the new
`buf` and stream. -/
def fread (n : Nat) (s : Reader) : Nat × Reader :=
  ((s.fp.take n).length,
   { s with buf := fun k => if k < (s.fp.take n).length then (s.fp.take n).getD k 0 else s.buf k,
            fp := s.fp.drop n })

/-- The call `memset(buf, 0, sizeof (buf))` for a `buf` of `n` bytes. -/
def memsetBuf (n : Nat) (buf : Nat → Nat) : Nat → Nat :=
  fun k => if k < n then 0 else buf k

/-- A loop whose body can return from the function: `none` as soon as a pass
gives `none`. -/
def loopOpt {σ α : Type} (body : σ → α → Option σ) : List α → σ → Option σ
  | [], s => some s
  | a :: l, s =>
    match body s a with
    | none => none
    | some s' => loopOpt body l s'

/-- The values of `y` in `for (y = 0; y < ysize; y += 8)`. -/
def groupStarts (ysize : Int) : List Nat :=
  (List.range ((ysize + 7) / 8).toNat).map (fun k => 8 * k)

/-! ### `src/pbm2oled.c`: the 128x32 converter -/

def MAXX : Nat := 128
def MAXY : Nat := 32
def MAXROWS : Nat := 4

/-- The loop `for (x = 0; x < MAXX; x++) Frame[y / 8][x] = 0;`. -/
def clearRow (y : Nat) (f : Nat → Nat) : Nat → Nat :=
  (List.range MAXX).foldl (fun f x => fun k => if k = (y / 8) * MAXX + x then 0 else f k) f

/-- The loop `for (x = 0; x < MAXX; x++)` that packs the row held in `buf`
into bit `i` of `Frame[y / 8][x]`; the cells are `unsigned char`. -/
def packRow (y i : Nat) (s : Reader) : Reader :=
  { s with frame := (List.range MAXX).foldl (fun f x =>
      if (s.buf (x / 8) &&& (1 <<< (7 - (x % 8)))) = 0 then
        fun k => if k = (y / 8) * MAXX + x then (f k ||| (1 <<< i)) % 256 else f k
      else f) s.frame }

/-- The body of `for (i = 0; i < 8; i++)`: read `MAXX / 8` bytes, then pack
them. -/
def readRow (y i : Nat) (s : Reader) : Option Reader :=
  let nb : Int := ((fread (MAXX / 8) s).1 : Int)
  let s := (fread (MAXX / 8) s).2
  if nb ≠ ((MAXX / 8 : Nat) : Int) then
    if nb = 0 ∧ (MAXY : Int) ≤ (y : Int) + (i : Int) then
      some (packRow y i { s with buf := memsetBuf MAXX s.buf })
    else
      none
  else
    some (packRow y i s)

/-- The body of `for (y = 0; y < ysize; y += 8)`. -/
def readGroup (s : Reader) (y : Nat) : Option Reader :=
  loopOpt (fun s i => readRow y i s) (List.range 8) { s with frame := clearRow y s.frame }

/-- The function `readPBM` up to the data loop: the header checks. The result
is `xsize`, `ysize` and the stream positioned at the binary data. -/
def readHeader (io : Stdio) : Option (Int × Int × List Nat) :=
  match io.fopen with
  | none => none
  | some fp =>
    let lin := (fgets 256 io.lin0 fp).1
    let fp := (fgets 256 io.lin0 fp).2
    if charAt lin 0 ≠ 'P'.toNat then none
    else if charAt lin 1 ≠ '4'.toNat then none
    else
      let lin2 := (fgets 256 lin fp).1
      let fp2 := (fgets 256 lin fp).2
      let lin3 := if charAt lin2 0 = '#'.toNat then (fgets 256 lin2 fp2).1 else lin2
      let fp3 := if charAt lin2 0 = '#'.toNat then (fgets 256 lin2 fp2).2 else fp2
      let xsize := (io.sscanf lin3).1
      let ysize := (io.sscanf lin3).2
      if xsize > (MAXX : Int) then none
      else some (xsize, ysize, fp3)

/-- The function `readPBM`; `frame` and `buf` are the contents of `Frame` and
of the local `buf` at the call. `some` is `return (1)`, with the frame buffer
it leaves. -/
def readPBM (io : Stdio) (frame buf : Nat → Nat) : Option (Nat → Nat) :=
  match readHeader io with
  | none => none
  | some (_, ysize, fp) =>
    match loopOpt readGroup (groupStarts ysize) { frame := frame, buf := buf, fp := fp } with
    | none => none
    | some s => some s.frame

namespace BluePill

/-! ### `src/BluePill/pbm2oled.c`: the converter for images up to 256x256 -/

def MAXX : Nat := 256
def MAXY : Nat := 256
def MAXROWS : Nat := MAXY / 8

/-- The loop `for (x = 0; x < MAXX; x++) Frame[y / 8][x] = 0;`. -/
def clearRow (y : Nat) (f : Nat → Nat) : Nat → Nat :=
  (List.range MAXX).foldl (fun f x => fun k => if k = (y / 8) * MAXX + x then 0 else f k) f

/-- The loop `for (x = 0; x < xsize; x++)` that packs the row held in `buf`
into bit `i` of `Frame[y / 8][x]`; the cells are `uint8_t`. -/
def packRow (xsize : Int) (y i : Nat) (s : Reader) : Reader :=
  { s with frame := (List.range xsize.toNat).foldl (fun f x =>
      if (s.buf (x / 8) &&& (1 <<< (7 - (x % 8)))) = 0 then
        fun k => if k = (y / 8) * MAXX + x then (f k ||| (1 <<< i)) % 256 else f k
      else f) s.frame }

/-- The body of `for (i = 0; i < 8; i++)`: read `pbmlen` bytes, then pack
them. -/
def readRow (xsize pbmlen : Int) (y i : Nat) (s : Reader) : Option Reader :=
  let nb : Int := ((fread (size_t pbmlen) s).1 : Int)
  let s := (fread (size_t pbmlen) s).2
  if nb ≠ pbmlen then
    if nb = 0 ∧ (MAXY : Int) ≤ (y : Int) + (i : Int) then
      some (packRow xsize y i { s with buf := memsetBuf MAXX s.buf })
    else
      none
  else
    some (packRow xsize y i s)

/-- The body of `for (y = 0; y < ysize; y += 8)`. -/
def readGroup (xsize pbmlen : Int) (s : Reader) (y : Nat) : Option Reader :=
  loopOpt (fun s i => readRow xsize pbmlen y i s) (List.range 8)
    { s with frame := clearRow y s.frame }

/-- The local `pbmlen`: the number of bytes of a row of the image; `/` and
`%` are those of C. -/
def pbmlenOf (xsize : Int) : Int :=
  if Int.tmod xsize 8 = 0 then Int.tdiv xsize 8 else Int.tdiv xsize 8 + 1

/-- The function `readPBM` up to the data loop: the header checks. The result
is `xsize`, `ysize` and the stream positioned at the binary data. -/
def readHeader (io : Stdio) : Option (Int × Int × List Nat) :=
  match io.fopen with
  | none => none
  | some fp =>
    let lin := (fgets 256 io.lin0 fp).1
    let fp := (fgets 256 io.lin0 fp).2
    if charAt lin 0 ≠ 'P'.toNat then none
    else if charAt lin 1 ≠ '4'.toNat then none
    else
      let lin2 := (fgets 256 lin fp).1
      let fp2 := (fgets 256 lin fp).2
      let lin3 := if charAt lin2 0 = '#'.toNat then (fgets 256 lin2 fp2).1 else lin2
      let fp3 := if charAt lin2 0 = '#'.toNat then (fgets 256 lin2 fp2).2 else fp2
      let xsize := (io.sscanf lin3).1
      let ysize := (io.sscanf lin3).2
      if xsize > (MAXX : Int) then none
      else if ysize > (MAXY : Int) then none
      else some (xsize, ysize, fp3)

/-- What `readPBM` leaves when it returns `true`: the frame buffer and the
values stored through `htp` and `wdp`. -/
structure Image where
  frame : Nat → Nat
  ht : Int
  wd : Int

/-- The function `readPBM`, called with non-null `htp` and `wdp`; `frame` and
`buf` are the contents of `Frame` and of the local `buf` at the call. `some`
is `return (true)`. -/
def readPBM (io : Stdio) (frame buf : Nat → Nat) : Option Image :=
  match readHeader io with
  | none => none
  | some (xsize, ysize, fp) =>
    match loopOpt (readGroup xsize (pbmlenOf xsize)) (groupStarts ysize)
        { frame := frame, buf := buf, fp := fp } with
    | none => none
    | some s => some { frame := s.frame, ht := ysize, wd := xsize }

end BluePill

/-! ### Auxiliary definitions used in the statements about the converters -/

/-- Byte `k` of row `r` of the binary data `data` whose rows are `len` bytes
long; 0 past the end of the data. -/
def rowByte (data : List Nat) (len r k : Nat) : Nat :=
  data.getD (r * len + k) 0

/-- Pixel `(x, r)` of the input, MSB first: bit `7 - x mod 8` of byte `x / 8`
of row `r`. -/
def inputBit (data : List Nat) (len r x : Nat) : Bool :=
  (rowByte data len r (x / 8)).testBit (7 - x % 8)

/-! ### The data loop of both converters

The same loop with the constants that differ between the two programs as
parameters: the row stride `maxx`, the row limit `maxy` of the end-of-file
test, the number `len` of bytes read per row and the number `cols` of columns
packed. It is used to reason about both programs at once. -/

namespace Core

def clearRow (maxx y : Nat) (f : Nat → Nat) : Nat → Nat :=
  (List.range maxx).foldl (fun f x => fun k => if k = (y / 8) * maxx + x then 0 else f k) f

def packRow (maxx cols y i : Nat) (s : Reader) : Reader :=
  { s with frame := (List.range cols).foldl (fun f x =>
      if (s.buf (x / 8) &&& (1 <<< (7 - (x % 8)))) = 0 then
        fun k => if k = (y / 8) * maxx + x then (f k ||| (1 <<< i)) % 256 else f k
      else f) s.frame }

def readRow (maxx maxy n : Nat) (len : Int) (cols y i : Nat) (s : Reader) : Option Reader :=
  let nb : Int := ((fread n s).1 : Int)
  let s := (fread n s).2
  if nb ≠ len then
    if nb = 0 ∧ (maxy : Int) ≤ (y : Int) + (i : Int) then
      some (packRow maxx cols y i { s with buf := memsetBuf maxx s.buf })
    else
      none
  else
    some (packRow maxx cols y i s)

def readGroup (maxx maxy n : Nat) (len : Int) (cols : Nat) (s : Reader) (y : Nat) :
    Option Reader :=
  loopOpt (fun s i => readRow maxx maxy n len cols y i s) (List.range 8)
    { s with frame := clearRow maxx y s.frame }

def readData (maxx maxy n : Nat) (len : Int) (cols : Nat) (ysize : Int) (s : Reader) :
    Option Reader :=
  loopOpt (readGroup maxx maxy n len cols) (groupStarts ysize) s

/-- The state of the row loop of the group at `y` after `i` rows: the stream
is at row `R0 + i`, bit `j < i` of each cell of the group holds the inverted
pixel of row `R0 + j`, the higher bits are clear, and the cells outside the
packed columns are those of `f0`. -/
def RowInv (maxx L cols : Nat) (data : List Nat) (y R0 : Nat) (f0 : Nat → Nat) (i : Nat)
    (s : Reader) : Prop :=
  s.fp = data.drop ((R0 + i) * L) ∧
  (∀ x, x < cols → ∀ j, (s.frame ((y / 8) * maxx + x)).testBit j
    = (decide (j < i) && !inputBit data L (R0 + j) x)) ∧
  (∀ k, ¬ ((y / 8) * maxx ≤ k ∧ k < (y / 8) * maxx + cols) → s.frame k = f0 k)

end Core

/-- A small image used as a concrete input: 8x8, rows of one byte, the row
`r` holding the byte `r`, after the header `P4`, newline, a size line. -/
def sampleStdio : Stdio :=
  { fopen := some ['P'.toNat, '4'.toNat, 10, '8'.toNat, ' '.toNat, '8'.toNat, 10,
                   0, 1, 2, 3, 4, 5, 6, 7],
    lin0 := [],
    sscanf := fun _ => (8, 8) }

/-- An image used as a concrete input for the 128x32 converter: 128x8, every
byte of the data being `0x0f`, after the header `P4`, newline, a comment
line, a size line. -/
def sampleStdioWide : Stdio :=
  { fopen := some (['P'.toNat, '4'.toNat, 10, '#'.toNat, 10,
                    '1'.toNat, '2'.toNat, '8'.toNat, ' '.toNat, '8'.toNat, 10]
                   ++ List.replicate 128 0x0f),
    lin0 := [],
    sscanf := fun _ => (128, 8) }

end Pbm2oled
namespace SpiOled

namespace BlackPill

/-- The cell `k` of the frame memory holds a pixel of the digit slot that
starts at column `x`: its row `k / MAXX` is in 0..31 and its column
`k % MAXX` is in `x .. x + 20`. -/
def inSlot (x k : Nat) : Prop :=
  k / MAXX ≤ 31 ∧ x ≤ k % MAXX ∧ k % MAXX ≤ x + 20

instance (x k : Nat) : Decidable (inSlot x k) := by
  unfold inSlot
  infer_instance

end BlackPill

namespace BluePill

/-- The cell `k` of the frame memory holds pixels of the digit slot that
starts at column `x`: its cell row `k / MAXX` is one of the four rows
(pixel rows 0..31) and its column `k % MAXX` is in `x .. x + 20`. -/
def inSlot (x k : Nat) : Prop :=
  k / MAXX < MAXROWS ∧ x ≤ k % MAXX ∧ k % MAXX ≤ x + 20

instance (x k : Nat) : Decidable (inSlot x k) := by
  unfold inSlot
  infer_instance

end BluePill

end SpiOled

namespace RisibleRadar

open SpiOled

/-! ## Risible Radar: set-up, the ticks of `game_loop`, and the echoes drawn -/

/-- The globals as the program starts: `Gather_y = 3`,
`GameDuration = DEFGAMEDURATION`, `Rings = Axes = false`, `sweeps = 0`, and
the arrays `Echo`, `Target` and the struct `Player` zero-initialised. -/
def initialGlobals : Game :=
  { Echo := fun _ => { x := 0, y := 0, age := 0, rad := 0 },
    Target := fun _ => { x := 0, y := 0, bearing := 0, range := 0, siz := 0,
                         active := false, rings := false, axes := false, time := false },
    Player := { x := 0, y := 0 },
    Gather_y := 3,
    GameDuration := DEFGAMEDURATION,
    Rings := false,
    Axes := false,
    sweeps := 0 }

/-- The body of the loop `for (i = 0; i < NTARGETS; i++)` of `game_setup`;
`rx`, `ry`, `rs` are the values returned by the three calls of `random`. -/
def setupTarget (rx ry rs : Int) (g : Game) (i : Nat) : Game :=
  let g := setTarget g i { g.Target i with x := u32 rx }
  let g := setTarget g i { g.Target i with y := u32 ry }
  let g := setTarget g i { g.Target i with active := true }
  let g := setTarget g i { g.Target i with rings := false }
  let g := setTarget g i { g.Target i with axes := false }
  let g := setTarget g i { g.Target i with time := false }
  setTarget g i { g.Target i with siz := u8 rs }

/-- The block "Place the 'bonus' targets somewhere" of `game_setup`; `i1` to
`i4` are the values returned by the four calls `random(0, NTARGETS - 1)`, each
in `0..NTARGETS - 1`. -/
def placeBonuses (i1 i2 i3 i4 : Nat) (g : Game) : Game :=
  let g := setTarget g i1 { g.Target i1 with rings := true }
  let g := setTarget g i2 { g.Target i2 with axes := true }
  let g := setTarget g i3 { g.Target i3 with time := true }
  setTarget g i4 { g.Target i4 with time := true }

/-- The block "Start the player in centre of playfield" of `game_setup`. -/
def placePlayer (g : Game) : Game :=
  let g := { g with Player := { g.Player with x := MAXPLAYX / 2 } }
  { g with Player := { g.Player with y := MAXPLAYY / 2 } }

/-- The function `game_setup`, without its drawing. `rnd k` is the value
returned by call number `k` of `random`: calls `3 i`, `3 i + 1`, `3 i + 2`
place target `i`, calls 30..33 choose the bonus targets. -/
def game_setup (L : Libm) (rnd : Nat → Int) (g : Game) : Game :=
  let g := (List.range NTARGETS).foldl (fun g i =>
    setupTarget (rnd (3 * i)) (rnd (3 * i + 1)) (rnd (3 * i + 2)) g i) g
  let g := placeBonuses (rnd 30).toNat (rnd 31).toNat (rnd 32).toNat (rnd 33).toNat g
  let g := placePlayer g
  reCalculateBearings L g

/-- The block `if (sweeps < GameDuration) { dir = getPlayerMove(); ... }` of
the loop body of `game_loop`. -/
def tickMove (L : Libm) (adc : Int × Int) (g : Game) : Game :=
  if g.sweeps < g.GameDuration then
    let dir := getPlayerMove adc.1 adc.2
    if dir ≠ 0 then
      reCalculateBearings L (movePlayer dir g)
    else g
  else g

/-- The state in which the echo loop of a tick starts: the movement block and
`findNewEchoes(r, SCANNER_RADIUS, NTARGETS)` are done. -/
def tickScan (L : Libm) (adc : Int × Int) (r : Int) (g : Game) : Game :=
  findNewEchoes r SCANNER_RADIUS NTARGETS (tickMove L adc g)

/-- The loop `for (e = 0; e < NECHOES; e++)` of `game_loop` with its drawing:
for each slot, `circle(Echo[e].x, Echo[e].y, Echo[e].rad, ...)` is called when
`Echo[e].age > 0`, then `Echo[e].age--`. The result is the state after the
loop and the slots for which `circle` was called, in order. -/
def ageEchoes (g : Game) : Game × List Nat :=
  (List.range NECHOES).foldl (fun (s : Game × List Nat) e =>
    (ageEcho s.1 e, if (s.1.Echo e).age > 0 then s.2 ++ [e] else s.2)) (g, [])

/-- The echo slots drawn in the tick with joystick readings `adc` and sweep
angle `r` that starts in state `g`. -/
def echoesDrawn (L : Libm) (adc : Int × Int) (r : Int) (g : Game) : List Nat :=
  (ageEchoes (tickScan L adc r g)).2

/-- The state after the first `n` ticks of successive calls of `game_loop`
(`while (1) game_loop();` in `main`) that start in state `g`: tick `k` is
pass `k % 120` of call `k / 120`, with sweep angle `3 * (k % 120)`, and the
`sweeps++` that ends a call follows its pass 119. `adc k` are the joystick
readings of tick `k`. -/
def runTicks (L : Libm) (adc : Nat → Int × Int) : Nat → Game → Game
  | 0, g => g
  | n + 1, g =>
    let g := game_tick L (adc n) (3 * ((n % 120 : Nat) : Int)) (runTicks L adc n g)
    if n % 120 = 119 then { g with sweeps := (g.sweeps + 1) % 4294967296 } else g

/-- The joystick readings and sweep angle of tick `k`. -/
def sweepAngle (k : Nat) : Int := 3 * ((k % 120 : Nat) : Int)

/-- The angular distance between two directions given in degrees, measured
around the 360-degree circle, for `b` and `r` in `[0, 360)`. -/
def angularDistance (b r : ℚ) : ℚ :=
  min |b - r| (360 - |b - r|)

/-- The bonuses of target `t` are settled in `g`: if the target is active and
within pickup range, then its range-rings and axes bonuses are already
enabled and it carries no time bonus any more. -/
def bonusSettledAt (g : Game) (t : Nat) : Prop :=
  (g.Target t).active = true → (g.Target t).range < (SCANNER_RADIUS : ℚ) / 3 →
    ((g.Target t).rings = true → g.Rings = true) ∧
    ((g.Target t).axes = true → g.Axes = true) ∧
    (g.Target t).time = false

/-- The bonuses of every target are settled. -/
def bonusSettled (g : Game) : Prop :=
  ∀ t, t < NTARGETS → bonusSettledAt g t

/-- The test that makes `findNewEchoes(r, SCANNER_RADIUS, NTARGETS)` pick up
target `t`: active, bearing within 6 degrees of `r`, and within pickup
range. -/
def pickupDue (r : Int) (g : Game) (t : Nat) : Prop :=
  (g.Target t).active = true ∧ |(g.Target t).bearing - (r : ℚ)| < 6 ∧
    (g.Target t).range < (SCANNER_RADIUS : ℚ) / 3

/-- A game state used as a concrete input: as `sampleGame`, but every target
has bearing 358 and range 20. -/
def wrapGame : Game :=
  { sampleGame with
    Target := fun _ => { x := 256, y := 256, bearing := 358, range := 20, siz := 2,
                         active := true, rings := false, axes := false, time := false } }

/-- A game state used as a concrete input: as `sampleGame`, but every target
carries the time bonus. -/
def bonusGame : Game :=
  { sampleGame with
    Target := fun _ => { x := 256, y := 256, bearing := 0, range := 0, siz := 2,
                         active := true, rings := false, axes := false, time := true } }

end RisibleRadar

namespace RisibleRadar

open SpiOled

end RisibleRadar

namespace RisibleRadar

open SpiOled

/-! ## Risible Radar: lines and circles

`drawLine` and `circle` take `int` coordinates and an `int` colour and pass
them to `drawPixel` and `drawHline`, whose parameters are `unsigned int` and
`uint16_t`. The `int` arithmetic is taken without overflow. -/

/-- Conversion of an `int` to `uint16_t`. -/
def u16 (i : Int) : Nat :=
  (i % 65536).toNat

/-- The C library function `abs` on an `int`. -/
def absInt (i : Int) : Int :=
  if i < 0 then -i else i

/-- The loop `while (y < yend) { y++; if (d < 0) d += i1; else { x += xinc;
d += i2; } drawPixel(x, y, c); }` of `drawLine` (and, with the roles of `x`
and `y` exchanged, its twin `while (x < xend)`): `major` is the coordinate
that advances by one in every pass, `minor` the one that advances by `inc`
when `d >= 0`, and `plot major minor` is the call of `drawPixel`. -/
def lineLoop {σ : Type} (plot : Int → Int → σ → σ) (i1 i2 inc stop : Int) :
    Nat → Int → Int → Int → σ → σ
  | 0, _, _, _, s => s
  | n + 1, major, minor, d, s =>
    if major < stop then
      let major := major + 1
      if d < 0 then
        lineLoop plot i1 i2 inc stop n major minor (d + i1) (plot major minor s)
      else
        lineLoop plot i1 i2 inc stop n major (minor + inc) (d + i2)
          (plot major (minor + inc) s)
    else s

/-- The function `drawLine`, generic in what a call of `drawPixel(x, y, c)`
does (`plot x y`). The two `while` loops make `yend - y` and `xend - x` passes,
which is the fuel given to `lineLoop`. -/
def drawLineWith {σ : Type} (plot : Int → Int → σ → σ) (x1 y1 x2 y2 : Int) (s : σ) : σ :=
  let dx := absInt (x2 - x1)
  let dy := absInt (y2 - y1)
  let swap : Bool := decide (((y1 > y2) ∧ (dx < dy)) ∨ ((x1 > x2) ∧ (dx > dy)))
  let y1' := if swap then y2 else y1
  let y2' := if swap then y1 else y2
  let x1' := if swap then x2 else x1
  let x2' := if swap then x1 else x2
  if dy > dx then
    let d := (2 * dx) - dy
    let i1 := 2 * dx
    let i2 := 2 * (dx - dy)
    let x := if y1' > y2' then x2' else x1'
    let y := if y1' > y2' then y2' else y1'
    let yend := if y1' > y2' then y1' else y2'
    let xinc : Int := if x1' > x2' then -1 else 1
    let s := plot x y s
    lineLoop (fun y x => plot x y) i1 i2 xinc yend (yend - y).toNat y x d s
  else
    let d := (2 * dy) - dx
    let i1 := 2 * dy
    let i2 := 2 * (dy - dx)
    let x := if x1' > x2' then x2' else x1'
    let y := if x1' > x2' then y2' else y1'
    let xend := if x1' > x2' then x1' else x2'
    let yinc : Int := if y1' > y2' then -1 else 1
    let s := plot x y s
    lineLoop plot i1 i2 yinc xend (xend - x).toNat x y d s

/-- The function `drawLine` on the frame buffer. -/
def drawLine (x1 y1 x2 y2 c : Int) (f : Frame) : Frame :=
  drawLineWith (fun x y f => drawPixel (u32 x) (u32 y) (u16 c) f) x1 y1 x2 y2 f

/-- The arguments `(x, y)` of the calls of `drawPixel` that
`drawLine(x1, y1, x2, y2, c)` makes, in order. -/
def drawLineCalls (x1 y1 x2 y2 : Int) : List (Int × Int) :=
  drawLineWith (fun x y l => l ++ [(x, y)]) x1 y1 x2 y2 []

/-- The function `cfill`. -/
def cfill (x0 y0 x y c : Int) (f : Frame) : Frame :=
  let f := drawHline (u32 (x0 - x)) (u32 (x0 + x)) (u32 (y0 + y)) (u16 c) f
  let f := drawHline (u32 (x0 - x)) (u32 (x0 + x)) (u32 (y0 - y)) (u16 c) f
  let f := drawHline (u32 (x0 - y)) (u32 (x0 + y)) (u32 (y0 + x)) (u16 c) f
  drawHline (u32 (x0 - y)) (u32 (x0 + y)) (u32 (y0 - x)) (u16 c) f

/-- The arguments `(x, y)` of the four calls of `drawPixel` in `cpts4`. -/
def cpts4Calls (x0 y0 x y : Int) : List (Int × Int) :=
  [(x0 + x, y0 + y), (x0 - x, y0 + y), (x0 + x, y0 - y), (x0 - x, y0 - y)]

/-- The function `cpts4`. -/
def cpts4 (x0 y0 x y c : Int) (f : Frame) : Frame :=
  let f := drawPixel (u32 (x0 + x)) (u32 (y0 + y)) (u16 c) f
  let f := drawPixel (u32 (x0 - x)) (u32 (y0 + y)) (u16 c) f
  let f := drawPixel (u32 (x0 + x)) (u32 (y0 - y)) (u16 c) f
  drawPixel (u32 (x0 - x)) (u32 (y0 - y)) (u16 c) f

/-- The arguments `(x, y)` of the eight calls of `drawPixel` in `cpts8`. -/
def cpts8Calls (x0 y0 x y : Int) : List (Int × Int) :=
  cpts4Calls x0 y0 x y ++ cpts4Calls x0 y0 y x

/-- The function `cpts8`. -/
def cpts8 (x0 y0 x y c : Int) (f : Frame) : Frame :=
  let f := cpts4 x0 y0 x y c f
  cpts4 x0 y0 y x c f

/-- One of the two passes of `circle`, from the values of `x`, `y`, `d` on:
`while (x < y) { plot(x, y); if (d < 0) d += (4 * x) + 6; else { d += (4 *
(x - y)) + 10; y--; } x++; } if (x == y) plot(x, y);`, where `plot` is `cfill`
or `cpts8`. Each test of `x < y` takes one unit of fuel; `none` means the
fuel ran out before the loop ended. -/
def circlePass {σ : Type} (plot : Int → Int → σ → σ) : Nat → Int → Int → Int → σ → Option σ
  | 0, _, _, _, _ => none
  | n + 1, x, y, d, s =>
    if x < y then
      let s := plot x y s
      if d < 0 then
        circlePass plot n (x + 1) y (d + ((4 * x) + 6)) s
      else
        circlePass plot n (x + 1) (y - 1) (d + ((4 * (x - y)) + 10)) s
    else
      some (if x = y then plot x y s else s)

/-- The function `circle`; `fuel` bounds the number of tests of `x < y` in
each of its two loops. -/
def circle (fuel : Nat) (x0 y0 r ec fc : Int) (f : Frame) : Option Frame :=
  let filled : Option Frame :=
    if fc ≥ 0 then
      circlePass (fun x y f => cfill x0 y0 x y fc f) fuel 0 r (3 - (2 * r)) f
    else some f
  match filled with
  | none => none
  | some f => circlePass (fun x y f => cpts8 x0 y0 x y ec f) fuel 0 r (3 - (2 * r)) f

/-- The pairs `(x, y)` for which a pass of `circle` with radius `r` calls its
plotting function, in order. -/
def circleSteps (fuel : Nat) (r : Int) : Option (List (Int × Int)) :=
  circlePass (fun x y l => l ++ [(x, y)]) fuel 0 r (3 - (2 * r)) []

/-- The arguments `(x, y)` of the calls of `drawPixel` made by the edge pass
of `circle(x0, y0, r, ec, fc)`, in order. -/
def circleEdgeCalls (fuel : Nat) (x0 y0 r : Int) : Option (List (Int × Int)) :=
  (circleSteps fuel r).map (fun l => l.flatMap (fun p => cpts8Calls x0 y0 p.1 p.2))

/-- The cell `k` of the frame memory is the cell of a pixel of the square
`[x0 - r, x0 + r] x [y0 - r, y0 + r]`. -/
def inSquare (x0 y0 r : Int) (k : Nat) : Prop :=
  y0 - r ≤ ((k / MAXX : Nat) : Int) ∧ ((k / MAXX : Nat) : Int) ≤ y0 + r ∧
  x0 - r ≤ ((k % MAXX : Nat) : Int) ∧ ((k % MAXX : Nat) : Int) ≤ x0 + r

end RisibleRadar

namespace RisibleRadar

open SpiOled

/-- Two distinct pixels that differ by at most one in each coordinate: the
second is one of the eight neighbours of the first. -/
def neighbours8 (p q : Int × Int) : Prop :=
  p ≠ q ∧ |q.1 - p.1| ≤ 1 ∧ |q.2 - p.2| ≤ 1

instance (p q : Int × Int) : Decidable (neighbours8 p q) := by
  unfold neighbours8
  infer_instance

end RisibleRadar

namespace RisibleRadar

open SpiOled

instance (r : Int) (g : Game) (t : Nat) : Decidable (pickupDue r g t) := by
  unfold pickupDue
  infer_instance

end RisibleRadar

namespace Pbm2oled

/-- The binary data of a 64x64 image used as a concrete input: 64 rows of 8
bytes; pixel (0, 1), the most significant bit of byte 8, is 1 and every other
pixel is 0. -/
def image64 : List Nat :=
  List.replicate 8 0 ++ 0x80 :: List.replicate 503 0

/-- A file used as a concrete input: the header `P4`, newline, the size line
`64 64`, then the 512 bytes of `image64`. -/
def sampleStdio64 : Stdio :=
  { fopen := some (['P'.toNat, '4'.toNat, 10,
                    '6'.toNat, '4'.toNat, ' '.toNat, '6'.toNat, '4'.toNat, 10] ++ image64),
    lin0 := [],
    sscanf := fun _ => (64, 64) }

end Pbm2oled

/-! ## Theorems -/

namespace SpiOled

/-! ## Receive ring: auxiliary facts -/

theorem land_rx_mask (n : Nat) : n &&& UART_RX_BUFFER_MASK = n % 128 :=
  Nat.and_pow_two_sub_one_eq_mod n 7

theorem land_tx_mask (n : Nat) : n &&& UART_TX_BUFFER_MASK = n % 128 :=
  Nat.and_pow_two_sub_one_eq_mod n 7

theorem rxCount_push (head tail : Nat) (buf : Nat → Nat) (ch : Nat)
    (hh : head < 128) (ht : tail < 128) (hne : (head + 1) % 128 ≠ tail) :
    rxCount ⟨(head + 1) % 128, tail, bufStore buf ((head + 1) % 128) ch⟩
      = rxCount ⟨head, tail, buf⟩ + 1 := by
  simp only [rxCount, UART_RX_BUFFER_SIZE]
  omega

theorem rxContents_push (head tail : Nat) (buf : Nat → Nat) (ch : Nat)
    (hh : head < 128) (ht : tail < 128) (hne : (head + 1) % 128 ≠ tail) :
    rxContents ⟨(head + 1) % 128, tail, bufStore buf ((head + 1) % 128) ch⟩
      = rxContents ⟨head, tail, buf⟩ ++ [ch] := by
  unfold rxContents
  rw [rxCount_push head tail buf ch hh ht hne, List.range_succ, List.map_append]
  congr 1
  · apply List.map_congr_left
    intro i hi
    have hi' : i < rxCount ⟨head, tail, buf⟩ := List.mem_range.mp hi
    simp only [rxCount, UART_RX_BUFFER_SIZE] at hi'
    simp only [bufStore, UART_RX_BUFFER_SIZE]
    rw [if_neg]
    omega
  · simp only [List.map_cons, List.map_nil, bufStore, rxCount, UART_RX_BUFFER_SIZE]
    rw [if_pos]
    omega

theorem rxContents_pop (head tail : Nat) (buf : Nat → Nat)
    (hh : head < 128) (ht : tail < 128) (hne : head ≠ tail) :
    rxContents ⟨head, tail, buf⟩
      = buf ((tail + 1) % 128) :: rxContents ⟨head, (tail + 1) % 128, buf⟩ := by
  unfold rxContents
  have hc : rxCount ⟨head, tail, buf⟩ = rxCount ⟨head, (tail + 1) % 128, buf⟩ + 1 := by
    simp only [rxCount, UART_RX_BUFFER_SIZE]
    omega
  rw [hc, List.range_succ_eq_map, List.map_cons, List.map_map]
  congr 1
  apply List.map_congr_left
  intro i _
  simp only [Function.comp, UART_RX_BUFFER_SIZE]
  congr 1
  omega

end SpiOled

namespace SpiOled

theorem rxInv_start (buf : Nat → Nat) : RxInv (rxStart buf) := by
  refine ⟨by simp [rxStart, rxInit], by simp [rxStart, rxInit], ?_⟩
  simp [rxStart, rxInit, rxContents, rxCount, UART_RX_BUFFER_SIZE]

theorem rxInv_step (t t' : RxTrace) (op : RxOp) (hinv : RxInv t)
    (h : rxStep t op = some t') : RxInv t' := by
  obtain ⟨hh, ht, hacc⟩ := hinv
  obtain ⟨⟨head, tail, buf⟩, accepted, popped⟩ := t
  simp only at hh ht hacc
  cases op with
  | push dr =>
    simp only [rxStep, Option.some.injEq] at h
    subst h
    by_cases hfull : (head + 1) % 128 = tail
    · have hd : rxDropped ⟨head, tail, buf⟩ = true := by
        simp [rxDropped, land_rx_mask, hfull]
      have hx : USART1_IRQHandler_rx dr ⟨head, tail, buf⟩ = ⟨head, tail, buf⟩ := by
        simp [USART1_IRQHandler_rx, land_rx_mask, hfull]
      simp only [hd, hx, if_true]
      exact ⟨hh, ht, hacc⟩
    · have hd : rxDropped ⟨head, tail, buf⟩ = false := by
        simp [rxDropped, land_rx_mask, hfull]
      have hx : USART1_IRQHandler_rx dr ⟨head, tail, buf⟩
          = ⟨(head + 1) % 128, tail, bufStore buf ((head + 1) % 128) (dr % 256)⟩ := by
        simp [USART1_IRQHandler_rx, land_rx_mask, hfull]
      simp only [hd, hx]
      refine ⟨Nat.mod_lt _ (by decide), ht, ?_⟩
      simp only [rxContents_push head tail buf (dr % 256) hh ht hfull, hacc]
      simp
  | pop =>
    by_cases hne : head = tail
    · simp [rxStep, UART1RxByte, hne] at h
    · simp only [rxStep, UART1RxByte, hne, if_false, land_rx_mask, Option.some.injEq] at h
      subst h
      refine ⟨hh, Nat.mod_lt _ (by decide), ?_⟩
      simp only [hacc, rxContents_pop head tail buf hh ht hne]
      simp

theorem rxInv_run (ops : List RxOp) (t t' : RxTrace) (hinv : RxInv t)
    (h : rxRun ops t = some t') : RxInv t' := by
  induction ops generalizing t with
  | nil =>
    simp only [rxRun, Option.some.injEq] at h
    exact h ▸ hinv
  | cons op ops ih =>
    simp only [rxRun] at h
    cases hs : rxStep t op with
    | none => simp [hs] at h
    | some t1 =>
      simp only [hs] at h
      exact ih t1 (rxInv_step t t1 op hinv hs) h

theorem rxRun_of_popsWhenAvailable (ops : List RxOp) (t : RxTrace)
    (h : popsWhenAvailable ops t = true) : ∃ t', rxRun ops t = some t' := by
  induction ops generalizing t with
  | nil => exact ⟨t, rfl⟩
  | cons op ops ih =>
    simp only [popsWhenAvailable, Bool.and_eq_true] at h
    cases hs : rxStep t op with
    | none => simp [hs] at h
    | some t1 =>
      simp only [hs] at h
      obtain ⟨t', ht'⟩ := ih t1 h.2
      exact ⟨t', by simp [rxRun, hs, ht']⟩

/-- C1. The receive ring is FIFO: in every history of pushes (receive branch
of `USART1_IRQHandler`) and pops (`UART1RxByte`) that starts at the
initialised ring and makes each pop only when `UART1RxAvailable` is true,
every pop returns, and the bytes popped are, in order, a prefix of the
bytes the pushes stored; what remains of the stored bytes is exactly the
content of the ring. -/
theorem rx_ring_fifo (buf : Nat → Nat) (ops : List RxOp)
    (h : popsWhenAvailable ops (rxStart buf) = true) :
    ∃ t, rxRun ops (rxStart buf) = some t ∧ t.popped <+: t.accepted ∧
      t.accepted = t.popped ++ rxContents t.rx := by
  obtain ⟨t, ht⟩ := rxRun_of_popsWhenAvailable ops (rxStart buf) h
  have hinv := rxInv_run ops (rxStart buf) t (rxInv_start buf) ht
  exact ⟨t, ht, ⟨rxContents t.rx, hinv.2.2.symm⟩, hinv.2.2⟩

theorem rx_ring_fifo_witness :
    popsWhenAvailable [RxOp.push 0x73, RxOp.push 0x131, RxOp.pop, RxOp.push 0x32, RxOp.pop]
        (rxStart (fun _ => 0)) = true ∧
    ∃ t, rxRun [RxOp.push 0x73, RxOp.push 0x131, RxOp.pop, RxOp.push 0x32, RxOp.pop]
        (rxStart (fun _ => 0)) = some t ∧ t.popped <+: t.accepted ∧
      t.accepted = t.popped ++ rxContents t.rx :=
  ⟨by decide, rx_ring_fifo (fun _ => 0) _ (by decide)⟩

/-- C2. A push into a full receive ring drops the byte: whenever
`((head + 1) & 127) == tail`, the receive branch of `USART1_IRQHandler`
returns the ring unchanged (head, tail and every element of buf), for every
value of the data register; the whole handler leaves the receive ring as it
was. -/
theorem rx_push_full_drops (rx : UART_RX_BUFFER) (dr : Nat)
    (hfull : (rx.head + 1) &&& 127 = rx.tail) :
    (USART1_IRQHandler_rx dr rx).head = rx.head ∧
    (USART1_IRQHandler_rx dr rx).tail = rx.tail ∧
    (∀ i, (USART1_IRQHandler_rx dr rx).buf i = rx.buf i) ∧
    USART1_IRQHandler_rx dr rx = rx ∧
    (∀ (u : UART_BUFFER) (txe : Bool), u.rx = rx →
      (USART1_IRQHandler true txe dr u).rx = rx) := by
  have hx : USART1_IRQHandler_rx dr rx = rx := by
    unfold USART1_IRQHandler_rx
    simp only [UART_RX_BUFFER_MASK, UART_RX_BUFFER_SIZE]
    rw [if_pos hfull]
  refine ⟨by rw [hx], by rw [hx], fun i => by rw [hx], hx, ?_⟩
  intro u txe hu
  subst hu
  cases txe
  · simp [USART1_IRQHandler, hx]
  · simp only [USART1_IRQHandler, if_true, USART1_IRQHandler_tx, hx]
    split <;> rfl

theorem rx_push_full_drops_witness :
    ((⟨126, 127, fun i => i⟩ : UART_RX_BUFFER).head + 1) &&& 127 = 127 ∧
    USART1_IRQHandler_rx 0x41 ⟨126, 127, fun i => i⟩ = ⟨126, 127, fun i => i⟩ :=
  ⟨by decide, (rx_push_full_drops ⟨126, 127, fun i => i⟩ 0x41 (by decide)).2.2.2.1⟩

end SpiOled

namespace SpiOled

theorem rx_push_eq_self_iff (rx : UART_RX_BUFFER) (dr : Nat) :
    USART1_IRQHandler_rx dr rx = rx ↔ (rx.head + 1) % 128 = rx.tail := by
  unfold USART1_IRQHandler_rx
  simp only [land_rx_mask]
  constructor
  · intro h
    by_contra hne
    rw [if_neg hne] at h
    have hhead := congrArg UART_RX_BUFFER.head h
    simp only at hhead
    omega
  · intro h
    rw [if_pos h]

/-- C3. Representation invariant of the receive ring: in every state reached
from initialisation (head = tail = 0) by pushes and pops-when-available,
head < 128 and tail < 128; the number of stored bytes (accepted and not yet
popped) equals (head - tail) mod 128 and is at most 127; `UART1RxAvailable`
is true exactly when that number is non-zero and head = tail exactly when it
is zero; and a push is dropped (the receive branch returns the ring
unchanged) exactly when the number is 127. -/
theorem rx_ring_invariant (buf : Nat → Nat) (ops : List RxOp) (t : RxTrace)
    (h : rxRun ops (rxStart buf) = some t) :
    t.rx.head < 128 ∧ t.rx.tail < 128 ∧
    t.popped.length ≤ t.accepted.length ∧
    ((t.accepted.length - t.popped.length : Nat) : Int)
      = ((t.rx.head : Int) - (t.rx.tail : Int)) % 128 ∧
    t.accepted.length - t.popped.length ≤ 127 ∧
    (UART1RxAvailable t.rx = true ↔ t.accepted.length - t.popped.length ≠ 0) ∧
    (t.rx.head = t.rx.tail ↔ t.accepted.length - t.popped.length = 0) ∧
    (rxDropped t.rx = true ↔ t.accepted.length - t.popped.length = 127) ∧
    (∀ dr, USART1_IRQHandler_rx dr t.rx = t.rx ↔
      t.accepted.length - t.popped.length = 127) := by
  obtain ⟨hh, ht, hacc⟩ := rxInv_run ops (rxStart buf) t (rxInv_start buf) h
  have hlen : t.accepted.length = t.popped.length + rxCount t.rx := by
    rw [hacc, List.length_append]
    simp [rxContents]
  have hcount : rxCount t.rx = (t.rx.head + 128 - t.rx.tail) % 128 := rfl
  have hdrop : ∀ dr, USART1_IRQHandler_rx dr t.rx = t.rx ↔
      t.accepted.length - t.popped.length = 127 := by
    intro dr
    rw [rx_push_eq_self_iff]
    omega
  refine ⟨hh, ht, by omega, by omega, by omega, ?_, by omega, ?_, hdrop⟩
  · simp only [UART1RxAvailable, bne_iff_ne, ne_eq]
    omega
  · simp only [rxDropped, land_rx_mask, beq_iff_eq]
    omega

theorem rx_ring_invariant_witness :
    ∃ t, rxRun [RxOp.push 0x67, RxOp.push 0x35, RxOp.pop] (rxStart (fun _ => 0)) = some t ∧
      t.rx.head < 128 ∧ t.rx.tail < 128 ∧ t.popped.length ≤ t.accepted.length :=
  ⟨_, rfl,
    (rx_ring_invariant (fun _ => 0) [RxOp.push 0x67, RxOp.push 0x35, RxOp.pop] _ rfl).1,
    (rx_ring_invariant (fun _ => 0) [RxOp.push 0x67, RxOp.push 0x35, RxOp.pop] _ rfl).2.1,
    (rx_ring_invariant (fun _ => 0) [RxOp.push 0x67, RxOp.push 0x35, RxOp.pop] _ rfl).2.2.1⟩

end SpiOled

namespace SpiOled

/-! ## Clock -/

theorem TIM4_step (c : Clock) (hs : c.Second ≤ 59) (hm : c.Minute ≤ 59) (hh : c.Hour ≤ 23) :
    3600 * (TIM4_IRQHandler c).Hour + 60 * (TIM4_IRQHandler c).Minute
        + (TIM4_IRQHandler c).Second
      = (3600 * c.Hour + 60 * c.Minute + c.Second + 1) % 86400 ∧
    (TIM4_IRQHandler c).Second ≤ 59 ∧ (TIM4_IRQHandler c).Minute ≤ 59 ∧
    (TIM4_IRQHandler c).Hour ≤ 23 := by
  unfold TIM4_IRQHandler
  by_cases h1 : c.Second ≥ 59
  · by_cases h2 : c.Minute ≥ 59
    · by_cases h3 : c.Hour ≥ 23
      · simp only [h1, h2, h3, if_true]
        omega
      · simp only [h1, h2, h3, if_true, if_false]
        omega
    · simp only [h1, h2, if_true, if_false]
      omega
  · simp only [h1, if_false]
    omega

theorem TIM4_RtcTick (c : Clock) : (TIM4_IRQHandler c).RtcTick = 1 := rfl

theorem TIM4_iterate (c : Clock) (hs : c.Second ≤ 59) (hm : c.Minute ≤ 59) (hh : c.Hour ≤ 23)
    (n : Nat) :
    3600 * (TIM4_IRQHandler^[n] c).Hour + 60 * (TIM4_IRQHandler^[n] c).Minute
        + (TIM4_IRQHandler^[n] c).Second
      = (3600 * c.Hour + 60 * c.Minute + c.Second + n) % 86400 ∧
    (TIM4_IRQHandler^[n] c).Second ≤ 59 ∧ (TIM4_IRQHandler^[n] c).Minute ≤ 59 ∧
    (TIM4_IRQHandler^[n] c).Hour ≤ 23 := by
  induction n with
  | zero =>
    simp only [Function.iterate_zero, id_eq]
    omega
  | succ k ih =>
    rw [Function.iterate_succ_apply']
    obtain ⟨ih1, ih2, ih3, ih4⟩ := ih
    obtain ⟨s1, s2, s3, s4⟩ := TIM4_step (TIM4_IRQHandler^[k] c) ih2 ih3 ih4
    refine ⟨?_, s2, s3, s4⟩
    rw [s1, ih1]
    omega

/-- C5. The handler `TIM4_IRQHandler` (tickSecond) is the successor of a
24-hour clock: from a state with second <= 59, minute <= 59 and hour <= 23,
n calls give the hour, minute and second of the time of day
(3600*hour + 60*minute + second + n) mod 86400, all three again in range;
so 60 calls from 0:0:0 give minute = 1 and second = 0, and 24*3600 calls
give hour = 0; and every call sets RtcTick to 1. -/
theorem tickSecond_is_clock_successor (c : Clock) (n : Nat)
    (hs : c.Second ≤ 59) (hm : c.Minute ≤ 59) (hh : c.Hour ≤ 23) :
    (TIM4_IRQHandler^[n] c).Hour
      = (3600 * c.Hour + 60 * c.Minute + c.Second + n) % 86400 / 3600 ∧
    (TIM4_IRQHandler^[n] c).Minute
      = (3600 * c.Hour + 60 * c.Minute + c.Second + n) % 86400 / 60 % 60 ∧
    (TIM4_IRQHandler^[n] c).Second
      = (3600 * c.Hour + 60 * c.Minute + c.Second + n) % 86400 % 60 ∧
    3600 * (TIM4_IRQHandler^[n] c).Hour + 60 * (TIM4_IRQHandler^[n] c).Minute
        + (TIM4_IRQHandler^[n] c).Second
      = (3600 * c.Hour + 60 * c.Minute + c.Second + n) % 86400 ∧
    (c.Hour = 0 ∧ c.Minute = 0 ∧ c.Second = 0 →
      (TIM4_IRQHandler^[60] c).Minute = 1 ∧ (TIM4_IRQHandler^[60] c).Second = 0 ∧
      (TIM4_IRQHandler^[24 * 3600] c).Hour = 0) ∧
    (TIM4_IRQHandler (TIM4_IRQHandler^[n] c)).RtcTick = 1 ∧
    (∀ d : Clock, (TIM4_IRQHandler d).RtcTick = 1) := by
  obtain ⟨h1, h2, h3, h4⟩ := TIM4_iterate c hs hm hh n
  refine ⟨by omega, by omega, by omega, h1, ?_, rfl, fun _ => rfl⟩
  rintro ⟨z1, z2, z3⟩
  obtain ⟨a1, a2, a3, a4⟩ := TIM4_iterate c hs hm hh 60
  obtain ⟨b1, b2, b3, b4⟩ := TIM4_iterate c hs hm hh (24 * 3600)
  rw [z1, z2, z3] at a1 b1
  refine ⟨by omega, by omega, by omega⟩

theorem tickSecond_is_clock_successor_witness :
    clockBoot.Second ≤ 59 ∧ clockBoot.Minute ≤ 59 ∧ clockBoot.Hour ≤ 23 ∧
    (TIM4_IRQHandler^[3661] clockBoot).Hour = 1 ∧
    (TIM4_IRQHandler^[3661] clockBoot).Minute = 1 ∧
    (TIM4_IRQHandler^[3661] clockBoot).Second = 1 :=
  ⟨by decide, by decide, by decide,
    (tickSecond_is_clock_successor clockBoot 3661 (by decide) (by decide) (by decide)).1,
    (tickSecond_is_clock_successor clockBoot 3661 (by decide) (by decide) (by decide)).2.1,
    (tickSecond_is_clock_successor clockBoot 3661 (by decide) (by decide) (by decide)).2.2.1⟩

theorem SysTick_step (c : Clock) :
    (SysTick_Handler c).Milliseconds = (c.Milliseconds + 1) % 2 ^ 32 ∧
    (SysTick_Handler c).Tick = 1 ∧
    (SysTick_Handler c).Hour = c.Hour ∧
    (SysTick_Handler c).Minute = c.Minute ∧
    (SysTick_Handler c).Second = c.Second ∧
    (SysTick_Handler c).RtcTick = c.RtcTick := by
  unfold SysTick_Handler
  by_cases h : c.flag = 0 <;> simp [h]

theorem SysTick_iterate (c : Clock) (n : Nat) :
    (SysTick_Handler^[n + 1] c).Milliseconds = (c.Milliseconds + (n + 1)) % 2 ^ 32 ∧
    (SysTick_Handler^[n + 1] c).Tick = 1 ∧
    (SysTick_Handler^[n + 1] c).Hour = c.Hour ∧
    (SysTick_Handler^[n + 1] c).Minute = c.Minute ∧
    (SysTick_Handler^[n + 1] c).Second = c.Second ∧
    (SysTick_Handler^[n + 1] c).RtcTick = c.RtcTick := by
  induction n with
  | zero =>
    simp only [Function.iterate_succ, Function.iterate_zero, Function.comp, id_eq]
    exact SysTick_step c
  | succ k ih =>
    rw [Function.iterate_succ_apply']
    obtain ⟨i1, i2, i3, i4, i5, i6⟩ := ih
    obtain ⟨e1, e2, e3, e4, e5, e6⟩ := SysTick_step (SysTick_Handler^[k + 1] c)
    refine ⟨?_, e2, by rw [e3, i3], by rw [e4, i4], by rw [e5, i5], by rw [e6, i6]⟩
    rw [e1, i1]
    omega

/-- C6. For every state, 1000 calls of `SysTick_Handler` (tickMillisecond)
increase Milliseconds by exactly 1000 modulo 2^32, leave Tick equal to 1, and
leave Hour, Minute, Second and RtcTick unchanged. -/
theorem tickMillisecond_thousand (c : Clock) :
    (SysTick_Handler^[1000] c).Milliseconds = (c.Milliseconds + 1000) % 2 ^ 32 ∧
    (SysTick_Handler^[1000] c).Tick = 1 ∧
    (SysTick_Handler^[1000] c).Hour = c.Hour ∧
    (SysTick_Handler^[1000] c).Minute = c.Minute ∧
    (SysTick_Handler^[1000] c).Second = c.Second ∧
    (SysTick_Handler^[1000] c).RtcTick = c.RtcTick :=
  SysTick_iterate c 999

end SpiOled

namespace SpiOled

/-! ## Command interpreter: time setting -/

theorem isdigit_iff (ch : Nat) : isdigit ch = true ↔ 48 ≤ ch ∧ ch ≤ 57 := by
  simp [isdigit]

theorem isdigit_add (d : Nat) (h : d ≤ 9) : isdigit ('0'.toNat + d) = true := by
  rw [isdigit_iff]
  simp only [Char.reduceToNat]
  omega

namespace BlackPill

theorem command_s (a : Assets) (m : Main) :
    command a 's'.toNat m = { m with state := .SETTING_TIME_1 } := by
  simp [command]

theorem processByte_s (a : Assets) (m : Main) (h : m.state = .NOT_SETTING_TIME) :
    processByte a 's'.toNat m = { m with state := .SETTING_TIME_1 } := by
  unfold processByte
  rw [h]
  exact command_s a m

/-- C7. Time-set commit: from the Idle parser state, the byte 's' followed by
six ASCII decimal digits d1..d6 (no RTC tick in between) ends in the Idle
state with Hour = 10*d1 + d2, Minute = 10*d3 + d4 and Second = 10*d5 + d6,
whatever the digits are: no range check is made, so values up to 99 are
stored as they are. -/
theorem time_set_commit (a : Assets) (m : Main) (d1 d2 d3 d4 d5 d6 : Nat)
    (hidle : m.state = .NOT_SETTING_TIME)
    (h1 : d1 ≤ 9) (h2 : d2 ≤ 9) (h3 : d3 ≤ 9) (h4 : d4 ≤ 9) (h5 : d5 ≤ 9) (h6 : d6 ≤ 9) :
    (feed a ['s'.toNat, '0'.toNat + d1, '0'.toNat + d2, '0'.toNat + d3, '0'.toNat + d4,
        '0'.toNat + d5, '0'.toNat + d6] m).state = .NOT_SETTING_TIME ∧
    (feed a ['s'.toNat, '0'.toNat + d1, '0'.toNat + d2, '0'.toNat + d3, '0'.toNat + d4,
        '0'.toNat + d5, '0'.toNat + d6] m).clock.Hour = 10 * d1 + d2 ∧
    (feed a ['s'.toNat, '0'.toNat + d1, '0'.toNat + d2, '0'.toNat + d3, '0'.toNat + d4,
        '0'.toNat + d5, '0'.toNat + d6] m).clock.Minute = 10 * d3 + d4 ∧
    (feed a ['s'.toNat, '0'.toNat + d1, '0'.toNat + d2, '0'.toNat + d3, '0'.toNat + d4,
        '0'.toNat + d5, '0'.toNat + d6] m).clock.Second = 10 * d5 + d6 := by
  simp only [feed, List.foldl_cons, List.foldl_nil]
  rw [processByte_s a m hidle]
  simp only [processByte, isdigit_add, h1, h2, h3, h4, h5, h6, if_true]
  refine ⟨trivial, ?_, ?_, ?_⟩
  · simp only [u8, Char.reduceToNat]; omega
  · simp only [u8, Char.reduceToNat]; omega
  · simp only [u8, Char.reduceToNat]; omega

theorem time_set_commit_witness :
    mainBoot.state = .NOT_SETTING_TIME ∧
    (feed blankAssets ['s'.toNat, '1'.toNat, '2'.toNat, '0'.toNat, '0'.toNat, '0'.toNat,
        '0'.toNat] mainBoot).state = .NOT_SETTING_TIME ∧
    (feed blankAssets ['s'.toNat, '1'.toNat, '2'.toNat, '0'.toNat, '0'.toNat, '0'.toNat,
        '0'.toNat] mainBoot).clock.Hour = 12 ∧
    (feed blankAssets ['s'.toNat, '1'.toNat, '2'.toNat, '0'.toNat, '0'.toNat, '0'.toNat,
        '0'.toNat] mainBoot).clock.Minute = 0 ∧
    (feed blankAssets ['s'.toNat, '1'.toNat, '2'.toNat, '0'.toNat, '0'.toNat, '0'.toNat,
        '0'.toNat] mainBoot).clock.Second = 0 ∧
    (feed blankAssets ['s'.toNat, '9'.toNat, '9'.toNat, '7'.toNat, '5'.toNat, '6'.toNat,
        '0'.toNat] mainBoot).clock.Hour = 99 :=
  ⟨rfl,
    (time_set_commit blankAssets mainBoot 1 2 0 0 0 0 rfl (by decide) (by decide) (by decide)
      (by decide) (by decide) (by decide)).1,
    (time_set_commit blankAssets mainBoot 1 2 0 0 0 0 rfl (by decide) (by decide) (by decide)
      (by decide) (by decide) (by decide)).2.1,
    (time_set_commit blankAssets mainBoot 1 2 0 0 0 0 rfl (by decide) (by decide) (by decide)
      (by decide) (by decide) (by decide)).2.2.1,
    (time_set_commit blankAssets mainBoot 1 2 0 0 0 0 rfl (by decide) (by decide) (by decide)
      (by decide) (by decide) (by decide)).2.2.2,
    (time_set_commit blankAssets mainBoot 9 9 7 5 6 0 rfl (by decide) (by decide) (by decide)
      (by decide) (by decide) (by decide)).2.1⟩

end BlackPill

end SpiOled

namespace SpiOled

namespace BlackPill

theorem command_clock (a : Assets) (ch : Nat) (m : Main) :
    (command a ch m).clock = m.clock := by
  simp only [command, apply_ite Main.clock, renderCommand, updscreen, selectDigit, ite_self]

theorem command_hour (a : Assets) (ch : Nat) (m : Main) :
    (command a ch m).hour = m.hour := by
  simp only [command, apply_ite Main.hour, renderCommand, updscreen, selectDigit, ite_self]

theorem command_minute (a : Assets) (ch : Nat) (m : Main) :
    (command a ch m).minute = m.minute := by
  simp only [command, apply_ite Main.minute, renderCommand, updscreen, selectDigit, ite_self]

theorem command_second (a : Assets) (ch : Nat) (m : Main) :
    (command a ch m).second = m.second := by
  simp only [command, apply_ite Main.second, renderCommand, updscreen, selectDigit, ite_self]

theorem command_state (a : Assets) (ch : Nat) (m : Main) :
    (command a ch m).state = if ch = 's'.toNat then .SETTING_TIME_1 else m.state := by
  by_cases h : ch = 's'.toNat
  · subst h
    simp [command]
  · simp only [command, apply_ite Main.state, renderCommand, updscreen, selectDigit, ite_self,
      if_neg h]

theorem processByte_idle (a : Assets) (ch : Nat) (m : Main)
    (h : m.state = .NOT_SETTING_TIME) : processByte a ch m = command a ch m := by
  unfold processByte
  rw [h]

theorem processByte_digit (a : Assets) (ch : Nat) (m : Main)
    (hs : 1 ≤ stateIndex m.state) (hs5 : stateIndex m.state ≤ 5) (hd : isdigit ch = true) :
    stateIndex (processByte a ch m).state = stateIndex m.state + 1 ∧
    (processByte a ch m).clock = m.clock := by
  unfold processByte
  cases hst : m.state <;> simp [hst, stateIndex, hd] at hs hs5 ⊢

theorem processByte_nondigit (a : Assets) (ch : Nat) (m : Main)
    (hs : 1 ≤ stateIndex m.state) (hd : isdigit ch = false) :
    (processByte a ch m).state = .NOT_SETTING_TIME ∧
    (processByte a ch m).clock = m.clock := by
  unfold processByte
  cases hst : m.state <;> simp [hst, stateIndex, hd] at hs ⊢

theorem feed_digits (a : Assets) (ds : List Nat) (m : Main)
    (hs : 1 ≤ stateIndex m.state) (hlen : stateIndex m.state + ds.length ≤ 6)
    (hds : ∀ d ∈ ds, isdigit d = true) :
    stateIndex (feed a ds m).state = stateIndex m.state + ds.length ∧
    (feed a ds m).clock = m.clock := by
  induction ds generalizing m with
  | nil => simp [feed]
  | cons d ds ih =>
    simp only [List.length_cons] at hlen
    obtain ⟨h1, h2⟩ := processByte_digit a d m hs (by omega) (hds d (List.mem_cons_self d ds))
    have ih' := ih (processByte a d m) (by omega) (by omega)
      (fun e he => hds e (List.mem_cons_of_mem d he))
    have hfeed : feed a (d :: ds) m = feed a ds (processByte a d m) := rfl
    rw [hfeed, ih'.1, ih'.2, h1, h2, List.length_cons]
    exact ⟨by omega, rfl⟩

theorem feed_append (a : Assets) (xs ys : List Nat) (m : Main) :
    feed a (xs ++ ys) m = feed a ys (feed a xs m) := by
  simp [feed, List.foldl_append]

theorem time_set_abort_black (a : Assets) (m : Main) (ds : List Nat) (b : Nat)
    (hidle : m.state = .NOT_SETTING_TIME) (hk : ds.length ≤ 5)
    (hds : ∀ d ∈ ds, isdigit d = true) (hb : isdigit b = false) :
    (feed a ('s'.toNat :: ds ++ [b]) m).state = .NOT_SETTING_TIME ∧
    (feed a ('s'.toNat :: ds ++ [b]) m).clock = m.clock := by
  have h0 : feed a ('s'.toNat :: ds ++ [b]) m
      = processByte a b (feed a ds (processByte a 's'.toNat m)) := by
    rw [show 's'.toNat :: ds ++ [b] = ['s'.toNat] ++ (ds ++ [b]) from rfl]
    rw [feed_append, feed_append]
    rfl
  rw [h0, processByte_s a m hidle]
  obtain ⟨h1, h2⟩ := feed_digits a ds { m with state := .SETTING_TIME_1 }
    (by simp [stateIndex]) (by simp only [stateIndex]; omega) hds
  obtain ⟨h3, h4⟩ := processByte_nondigit a b (feed a ds { m with state := .SETTING_TIME_1 })
    (by rw [h1]; simp [stateIndex]) hb
  exact ⟨h3, by rw [h4, h2]⟩

theorem feed_zero_idle (a : Assets) (m : Main) (h : m.state = .NOT_SETTING_TIME) :
    (processByte a '0'.toNat m).state = .NOT_SETTING_TIME ∧
    (processByte a '0'.toNat m).clock = m.clock := by
  rw [processByte_idle a _ m h, command_state, command_clock]
  exact ⟨by simp [h], rfl⟩

theorem time_set_abort_example_black (a : Assets) (m : Main)
    (hidle : m.state = .NOT_SETTING_TIME) :
    (feed a ['s'.toNat, '1'.toNat, 'a'.toNat, '0'.toNat, '0'.toNat, '0'.toNat, '0'.toNat]
      m).state = .NOT_SETTING_TIME ∧
    (feed a ['s'.toNat, '1'.toNat, 'a'.toNat, '0'.toNat, '0'.toNat, '0'.toNat, '0'.toNat]
      m).clock = m.clock := by
  obtain ⟨h1, h2⟩ := time_set_abort_black a m ['1'.toNat] 'a'.toNat hidle (by simp)
    (by simp [isdigit]) (by simp [isdigit])
  have e : feed a ['s'.toNat, '1'.toNat, 'a'.toNat, '0'.toNat, '0'.toNat, '0'.toNat, '0'.toNat] m
      = processByte a '0'.toNat (processByte a '0'.toNat (processByte a '0'.toNat
          (processByte a '0'.toNat (feed a ('s'.toNat :: ['1'.toNat] ++ ['a'.toNat]) m)))) := rfl
  rw [e]
  obtain ⟨a1, a2⟩ := feed_zero_idle a _ h1
  obtain ⟨b1, b2⟩ := feed_zero_idle a _ a1
  obtain ⟨c1, c2⟩ := feed_zero_idle a _ b1
  obtain ⟨d1, d2⟩ := feed_zero_idle a _ c1
  exact ⟨d1, by rw [d2, c2, b2, a2, h2]⟩

end BlackPill

end SpiOled

namespace SpiOled

namespace BluePill

theorem command_s_blue (m : Main) :
    command 's'.toNat m = { m with state := .SETTING_TIME_1 } := by
  simp [command]

theorem processByte_s_blue (m : Main) (h : m.state = .NOT_SETTING_TIME) :
    processByte 's'.toNat m = { m with state := .SETTING_TIME_1 } := by
  unfold processByte
  rw [h]
  exact command_s_blue m

theorem command_clock_blue (ch : Nat) (m : Main) :
    (command ch m).clock = m.clock := by
  simp only [command, apply_ite Main.clock, renderCommand, updscreen, selectDigit, ite_self]

theorem command_hour_blue (ch : Nat) (m : Main) :
    (command ch m).hour = m.hour := by
  simp only [command, apply_ite Main.hour, renderCommand, updscreen, selectDigit, ite_self]

theorem command_minute_blue (ch : Nat) (m : Main) :
    (command ch m).minute = m.minute := by
  simp only [command, apply_ite Main.minute, renderCommand, updscreen, selectDigit, ite_self]

theorem command_second_blue (ch : Nat) (m : Main) :
    (command ch m).second = m.second := by
  simp only [command, apply_ite Main.second, renderCommand, updscreen, selectDigit, ite_self]

theorem command_state_blue (ch : Nat) (m : Main) :
    (command ch m).state = if ch = 's'.toNat then .SETTING_TIME_1 else m.state := by
  by_cases h : ch = 's'.toNat
  · subst h
    simp [command]
  · simp only [command, apply_ite Main.state, renderCommand, updscreen, selectDigit, ite_self,
      if_neg h]

theorem processByte_idle_blue (ch : Nat) (m : Main)
    (h : m.state = .NOT_SETTING_TIME) : processByte ch m = command ch m := by
  unfold processByte
  rw [h]

theorem processByte_digit_blue (ch : Nat) (m : Main)
    (hs : 1 ≤ stateIndex m.state) (hs5 : stateIndex m.state ≤ 5) (hd : isdigit ch = true) :
    stateIndex (processByte ch m).state = stateIndex m.state + 1 ∧
    (processByte ch m).clock = m.clock := by
  unfold processByte
  cases hst : m.state <;> simp [hst, stateIndex, hd] at hs hs5 ⊢

theorem processByte_nondigit_blue (ch : Nat) (m : Main)
    (hs : 1 ≤ stateIndex m.state) (hd : isdigit ch = false) :
    (processByte ch m).state = .NOT_SETTING_TIME ∧
    (processByte ch m).clock = m.clock := by
  unfold processByte
  cases hst : m.state <;> simp [hst, stateIndex, hd] at hs ⊢

theorem feed_digits_blue (ds : List Nat) (m : Main)
    (hs : 1 ≤ stateIndex m.state) (hlen : stateIndex m.state + ds.length ≤ 6)
    (hds : ∀ d ∈ ds, isdigit d = true) :
    stateIndex (feed ds m).state = stateIndex m.state + ds.length ∧
    (feed ds m).clock = m.clock := by
  induction ds generalizing m with
  | nil => simp [feed]
  | cons d ds ih =>
    simp only [List.length_cons] at hlen
    obtain ⟨h1, h2⟩ := processByte_digit_blue d m hs (by omega) (hds d (List.mem_cons_self d ds))
    have ih' := ih (processByte d m) (by omega) (by omega)
      (fun e he => hds e (List.mem_cons_of_mem d he))
    have hfeed : feed (d :: ds) m = feed ds (processByte d m) := rfl
    rw [hfeed, ih'.1, ih'.2, h1, h2, List.length_cons]
    exact ⟨by omega, rfl⟩

theorem feed_append_blue (xs ys : List Nat) (m : Main) :
    feed (xs ++ ys) m = feed ys (feed xs m) := by
  simp [feed, List.foldl_append]

theorem time_set_abort_blue (m : Main) (ds : List Nat) (b : Nat)
    (hidle : m.state = .NOT_SETTING_TIME) (hk : ds.length ≤ 5)
    (hds : ∀ d ∈ ds, isdigit d = true) (hb : isdigit b = false) :
    (feed ('s'.toNat :: ds ++ [b]) m).state = .NOT_SETTING_TIME ∧
    (feed ('s'.toNat :: ds ++ [b]) m).clock = m.clock := by
  have h0 : feed ('s'.toNat :: ds ++ [b]) m
      = processByte b (feed ds (processByte 's'.toNat m)) := by
    rw [show 's'.toNat :: ds ++ [b] = ['s'.toNat] ++ (ds ++ [b]) from rfl]
    rw [feed_append_blue, feed_append_blue]
    rfl
  rw [h0, processByte_s_blue m hidle]
  obtain ⟨h1, h2⟩ := feed_digits_blue ds { m with state := .SETTING_TIME_1 }
    (by simp [stateIndex]) (by simp only [stateIndex]; omega) hds
  obtain ⟨h3, h4⟩ := processByte_nondigit_blue b (feed ds { m with state := .SETTING_TIME_1 })
    (by rw [h1]; simp [stateIndex]) hb
  exact ⟨h3, by rw [h4, h2]⟩

theorem feed_zero_idle_blue (m : Main) (h : m.state = .NOT_SETTING_TIME) :
    (processByte '0'.toNat m).state = .NOT_SETTING_TIME ∧
    (processByte '0'.toNat m).clock = m.clock := by
  rw [processByte_idle_blue _ m h, command_state_blue, command_clock_blue]
  exact ⟨by simp [h], rfl⟩

theorem time_set_abort_example_blue (m : Main)
    (hidle : m.state = .NOT_SETTING_TIME) :
    (feed ['s'.toNat, '1'.toNat, 'a'.toNat, '0'.toNat, '0'.toNat, '0'.toNat, '0'.toNat]
      m).state = .NOT_SETTING_TIME ∧
    (feed ['s'.toNat, '1'.toNat, 'a'.toNat, '0'.toNat, '0'.toNat, '0'.toNat, '0'.toNat]
      m).clock = m.clock := by
  obtain ⟨h1, h2⟩ := time_set_abort_blue m ['1'.toNat] 'a'.toNat hidle (by simp)
    (by simp [isdigit]) (by simp [isdigit])
  have e : feed ['s'.toNat, '1'.toNat, 'a'.toNat, '0'.toNat, '0'.toNat, '0'.toNat, '0'.toNat] m
      = processByte '0'.toNat (processByte '0'.toNat (processByte '0'.toNat
          (processByte '0'.toNat (feed ('s'.toNat :: ['1'.toNat] ++ ['a'.toNat]) m)))) := rfl
  rw [e]
  obtain ⟨a1, a2⟩ := feed_zero_idle_blue _ h1
  obtain ⟨b1, b2⟩ := feed_zero_idle_blue _ a1
  obtain ⟨c1, c2⟩ := feed_zero_idle_blue _ b1
  obtain ⟨d1, d2⟩ := feed_zero_idle_blue _ c1
  exact ⟨d1, by rw [d2, c2, b2, a2, h2]⟩

end BluePill

end SpiOled

namespace SpiOled

/-- C8. Time-set abort is atomic, on both boards: from the Idle state, 's'
followed by k decimal digits (k in 0..5) and then a byte b that is not a
decimal digit leaves Hour, Minute and Second unchanged and returns the parser
to Idle; in particular after "s1a0000" the clock is unchanged and the parser
is Idle. -/
theorem time_set_abort (a : BlackPill.Assets) (m : BlackPill.Main) (n : BluePill.Main)
    (ds : List Nat) (b : Nat)
    (hm : m.state = .NOT_SETTING_TIME) (hn : n.state = .NOT_SETTING_TIME)
    (hk : ds.length ≤ 5) (hds : ∀ d ∈ ds, isdigit d = true) (hb : isdigit b = false) :
    ((BlackPill.feed a ('s'.toNat :: ds ++ [b]) m).state = .NOT_SETTING_TIME ∧
     (BlackPill.feed a ('s'.toNat :: ds ++ [b]) m).clock.Hour = m.clock.Hour ∧
     (BlackPill.feed a ('s'.toNat :: ds ++ [b]) m).clock.Minute = m.clock.Minute ∧
     (BlackPill.feed a ('s'.toNat :: ds ++ [b]) m).clock.Second = m.clock.Second) ∧
    ((BluePill.feed ('s'.toNat :: ds ++ [b]) n).state = .NOT_SETTING_TIME ∧
     (BluePill.feed ('s'.toNat :: ds ++ [b]) n).clock.Hour = n.clock.Hour ∧
     (BluePill.feed ('s'.toNat :: ds ++ [b]) n).clock.Minute = n.clock.Minute ∧
     (BluePill.feed ('s'.toNat :: ds ++ [b]) n).clock.Second = n.clock.Second) ∧
    ((BlackPill.feed a ['s'.toNat, '1'.toNat, 'a'.toNat, '0'.toNat, '0'.toNat, '0'.toNat,
        '0'.toNat] m).state = .NOT_SETTING_TIME ∧
     (BlackPill.feed a ['s'.toNat, '1'.toNat, 'a'.toNat, '0'.toNat, '0'.toNat, '0'.toNat,
        '0'.toNat] m).clock = m.clock) ∧
    ((BluePill.feed ['s'.toNat, '1'.toNat, 'a'.toNat, '0'.toNat, '0'.toNat, '0'.toNat,
        '0'.toNat] n).state = .NOT_SETTING_TIME ∧
     (BluePill.feed ['s'.toNat, '1'.toNat, 'a'.toNat, '0'.toNat, '0'.toNat, '0'.toNat,
        '0'.toNat] n).clock = n.clock) := by
  obtain ⟨h1, h2⟩ := BlackPill.time_set_abort_black a m ds b hm hk hds hb
  obtain ⟨h3, h4⟩ := BluePill.time_set_abort_blue n ds b hn hk hds hb
  exact ⟨⟨h1, by rw [h2], by rw [h2], by rw [h2]⟩, ⟨h3, by rw [h4], by rw [h4], by rw [h4]⟩,
    BlackPill.time_set_abort_example_black a m hm, BluePill.time_set_abort_example_blue n hn⟩

theorem time_set_abort_witness :
    BlackPill.mainBoot.state = .NOT_SETTING_TIME ∧
    BluePill.mainBoot.state = .NOT_SETTING_TIME ∧
    isdigit 'x'.toNat = false ∧
    (BlackPill.feed BlackPill.blankAssets
      ('s'.toNat :: ['2'.toNat, '3'.toNat, '5'.toNat] ++ ['x'.toNat])
      BlackPill.mainBoot).state = .NOT_SETTING_TIME ∧
    (BlackPill.feed BlackPill.blankAssets
      ('s'.toNat :: ['2'.toNat, '3'.toNat, '5'.toNat] ++ ['x'.toNat])
      BlackPill.mainBoot).clock.Hour = BlackPill.mainBoot.clock.Hour ∧
    (BluePill.feed ('s'.toNat :: ['2'.toNat, '3'.toNat, '5'.toNat] ++ ['x'.toNat])
      BluePill.mainBoot).state = .NOT_SETTING_TIME :=
  ⟨rfl, rfl, by decide,
    (time_set_abort BlackPill.blankAssets BlackPill.mainBoot BluePill.mainBoot
      ['2'.toNat, '3'.toNat, '5'.toNat] 'x'.toNat rfl rfl (by decide) (by decide)
      (by decide)).1.1,
    (time_set_abort BlackPill.blankAssets BlackPill.mainBoot BluePill.mainBoot
      ['2'.toNat, '3'.toNat, '5'.toNat] 'x'.toNat rfl rfl (by decide) (by decide)
      (by decide)).1.2.1,
    (time_set_abort BlackPill.blankAssets BlackPill.mainBoot BluePill.mainBoot
      ['2'.toNat, '3'.toNat, '5'.toNat] 'x'.toNat rfl rfl (by decide) (by decide)
      (by decide)).2.1.1⟩

end SpiOled

namespace SpiOled

theorem TIM4_le99 (c : Clock) (hh : c.Hour ≤ 99) (hm : c.Minute ≤ 99) (hs : c.Second ≤ 99) :
    (TIM4_IRQHandler c).Hour ≤ 99 ∧ (TIM4_IRQHandler c).Minute ≤ 99 ∧
    (TIM4_IRQHandler c).Second ≤ 99 := by
  unfold TIM4_IRQHandler
  by_cases h1 : c.Second ≥ 59
  · by_cases h2 : c.Minute ≥ 59
    · by_cases h3 : c.Hour ≥ 23
      · simp only [h1, h2, h3, if_true]
        omega
      · simp only [h1, h2, h3, if_true, if_false]
        omega
    · simp only [h1, h2, if_true, if_false]
      omega
  · simp only [h1, if_false]
    omega

theorem isdigit_bounds (ch : Nat) (h : isdigit ch = true) :
    0 ≤ (ch : Int) - ('0'.toNat : Int) ∧ (ch : Int) - ('0'.toNat : Int) ≤ 9 := by
  rw [isdigit_iff] at h
  simp only [Char.reduceToNat]
  omega

namespace BlackPill

theorem inv99_boot : Inv99 mainBoot := by
  simp [Inv99, mainBoot, clockBoot]

theorem inv99_step (a : Assets) (m : Main) (e : Event) (h : Inv99 m) :
    Inv99 (stepEvent a m e) := by
  obtain ⟨hH, hM, hS, h0, h1, m0, m1, s0, s1, t2, t4, t6⟩ := h
  cases e with
  | rtcTick =>
    obtain ⟨a1, a2, a3⟩ := TIM4_le99 m.clock hH hM hS
    exact ⟨a1, a2, a3, h0, h1, m0, m1, s0, s1, t2, t4, t6⟩
  | byte ch =>
    simp only [stepEvent]
    cases hst : m.state with
    | NOT_SETTING_TIME =>
      rw [processByte_idle a ch m hst]
      unfold Inv99
      rw [command_clock, command_hour, command_minute, command_second, command_state, hst]
      refine ⟨hH, hM, hS, h0, h1, m0, m1, s0, s1, ?_, ?_, ?_⟩ <;>
        (split <;> simp)
    | SETTING_TIME_1 =>
      unfold processByte Inv99
      by_cases hd : isdigit ch = true
      · have hb := isdigit_bounds ch hd
        simp only [hst, hd, if_true]
        refine ⟨hH, hM, hS, by omega, by omega, m0, m1, s0, s1, ?_, ?_, ?_⟩
        · intro _; omega
        · simp
        · simp
      · simp only [hst, hd]
        refine ⟨hH, hM, hS, h0, h1, m0, m1, s0, s1, ?_, ?_, ?_⟩ <;> simp
    | SETTING_TIME_2 =>
      unfold processByte Inv99
      have t2' := t2 hst
      by_cases hd : isdigit ch = true
      · have hb := isdigit_bounds ch hd
        simp only [hst, hd, if_true]
        refine ⟨hH, hM, hS, by omega, by omega, m0, m1, s0, s1, ?_, ?_, ?_⟩ <;> simp
      · simp only [hst, hd]
        refine ⟨hH, hM, hS, h0, h1, m0, m1, s0, s1, ?_, ?_, ?_⟩ <;> simp
    | SETTING_TIME_3 =>
      unfold processByte Inv99
      by_cases hd : isdigit ch = true
      · have hb := isdigit_bounds ch hd
        simp only [hst, hd, if_true]
        refine ⟨hH, hM, hS, h0, h1, by omega, by omega, s0, s1, ?_, ?_, ?_⟩
        · simp
        · intro _; omega
        · simp
      · simp only [hst, hd]
        refine ⟨hH, hM, hS, h0, h1, m0, m1, s0, s1, ?_, ?_, ?_⟩ <;> simp
    | SETTING_TIME_4 =>
      unfold processByte Inv99
      have t4' := t4 hst
      by_cases hd : isdigit ch = true
      · have hb := isdigit_bounds ch hd
        simp only [hst, hd, if_true]
        refine ⟨hH, hM, hS, h0, h1, by omega, by omega, s0, s1, ?_, ?_, ?_⟩ <;> simp
      · simp only [hst, hd]
        refine ⟨hH, hM, hS, h0, h1, m0, m1, s0, s1, ?_, ?_, ?_⟩ <;> simp
    | SETTING_TIME_5 =>
      unfold processByte Inv99
      by_cases hd : isdigit ch = true
      · have hb := isdigit_bounds ch hd
        simp only [hst, hd, if_true]
        refine ⟨hH, hM, hS, h0, h1, m0, m1, by omega, by omega, ?_, ?_, ?_⟩
        · simp
        · simp
        · intro _; omega
      · simp only [hst, hd]
        refine ⟨hH, hM, hS, h0, h1, m0, m1, s0, s1, ?_, ?_, ?_⟩ <;> simp
    | SETTING_TIME_6 =>
      unfold processByte Inv99
      have t6' := t6 hst
      by_cases hd : isdigit ch = true
      · have hb := isdigit_bounds ch hd
        simp only [hst, hd, if_true]
        refine ⟨?_, ?_, ?_, h0, h1, m0, m1, by omega, by omega, ?_, ?_, ?_⟩
        · simp only [u8]; omega
        · simp only [u8]; omega
        · simp only [u8]; omega
        · simp
        · simp
        · simp
      · simp only [hst, hd]
        refine ⟨hH, hM, hS, h0, h1, m0, m1, s0, s1, ?_, ?_, ?_⟩ <;> simp

theorem inv99_run (a : Assets) (evs : List Event) (m : Main) (h : Inv99 m) :
    Inv99 (runEvents a evs m) := by
  induction evs generalizing m with
  | nil => exact h
  | cons e evs ih => exact ih (stepEvent a m e) (inv99_step a m e h)

theorem valid_step_byte (a : Assets) (m : Main) (ch : Nat)
    (hv : m.clock.Second ≤ 59 ∧ m.clock.Minute ≤ 59 ∧ m.clock.Hour ≤ 23)
    (hc : commitInRange m ch = true) :
    (processByte a ch m).clock.Second ≤ 59 ∧ (processByte a ch m).clock.Minute ≤ 59 ∧
    (processByte a ch m).clock.Hour ≤ 23 := by
  by_cases h6 : m.state = .SETTING_TIME_6 ∧ isdigit ch = true
  · simp only [commitInRange, h6, and_self, if_true, decide_eq_true_eq] at hc
    unfold processByte
    simp only [h6.1, h6.2, if_true]
    exact ⟨hc.2.2, hc.2.1, hc.1⟩
  · have hclock : (processByte a ch m).clock = m.clock := by
      cases hst : m.state with
      | NOT_SETTING_TIME => rw [processByte_idle a ch m hst, command_clock]
      | SETTING_TIME_6 =>
        have hd : isdigit ch = false := by
          cases hdd : isdigit ch
          · rfl
          · exact absurd ⟨hst, hdd⟩ h6
        unfold processByte
        simp [hst, hd]
      | _ =>
        unfold processByte
        cases hdd : isdigit ch <;> simp [hst, hdd]
    rw [hclock]
    exact hv

theorem valid_run (a : Assets) (evs : List Event) (m : Main)
    (hv : m.clock.Second ≤ 59 ∧ m.clock.Minute ≤ 59 ∧ m.clock.Hour ≤ 23)
    (hc : commitsInRange a evs m = true) :
    (runEvents a evs m).clock.Second ≤ 59 ∧ (runEvents a evs m).clock.Minute ≤ 59 ∧
    (runEvents a evs m).clock.Hour ≤ 23 := by
  induction evs generalizing m with
  | nil => exact hv
  | cons e evs ih =>
    cases e with
    | rtcTick =>
      simp only [commitsInRange] at hc
      obtain ⟨_, s2, s3, s4⟩ := TIM4_step m.clock hv.1 hv.2.1 hv.2.2
      exact ih (stepEvent a m Event.rtcTick) ⟨s2, s3, s4⟩ hc
    | byte ch =>
      simp only [commitsInRange, Bool.and_eq_true] at hc
      exact ih (stepEvent a m (Event.byte ch)) (valid_step_byte a m ch hv hc.1) hc.2

/-- C9 as stated fails: from boot the input "s999999" stores hour 99, minute
99 and second 99. -/
theorem clock_bounds_counterexample :
    (runEvents blankAssets
      [Event.byte 's'.toNat, Event.byte '9'.toNat, Event.byte '9'.toNat, Event.byte '9'.toNat,
       Event.byte '9'.toNat, Event.byte '9'.toNat, Event.byte '9'.toNat] mainBoot).clock.Hour = 99 ∧
    (runEvents blankAssets
      [Event.byte 's'.toNat, Event.byte '9'.toNat, Event.byte '9'.toNat, Event.byte '9'.toNat,
       Event.byte '9'.toNat, Event.byte '9'.toNat, Event.byte '9'.toNat]
      mainBoot).clock.Minute = 99 ∧
    (runEvents blankAssets
      [Event.byte 's'.toNat, Event.byte '9'.toNat, Event.byte '9'.toNat, Event.byte '9'.toNat,
       Event.byte '9'.toNat, Event.byte '9'.toNat, Event.byte '9'.toNat]
      mainBoot).clock.Second = 99 ∧
    ¬ ((runEvents blankAssets
      [Event.byte 's'.toNat, Event.byte '9'.toNat, Event.byte '9'.toNat, Event.byte '9'.toNat,
       Event.byte '9'.toNat, Event.byte '9'.toNat, Event.byte '9'.toNat]
      mainBoot).clock.Hour ≤ 23) := by
  decide

/-- C9, amended. In every state reached from boot (0:0:0) by RTC ticks
(`TIM4_IRQHandler`) and interpreter input bytes, second, minute and hour are
each at most 99; and second is in [0,59], minute in [0,59] and hour in [0,23]
provided every time-set sequence completed on the way stored an hour of at
most 23, a minute of at most 59 and a second of at most 59. -/
theorem clock_bounds_amended (a : Assets) (evs : List Event) :
    ((runEvents a evs mainBoot).clock.Second ≤ 99 ∧
     (runEvents a evs mainBoot).clock.Minute ≤ 99 ∧
     (runEvents a evs mainBoot).clock.Hour ≤ 99) ∧
    (commitsInRange a evs mainBoot = true →
      (runEvents a evs mainBoot).clock.Second ≤ 59 ∧
      (runEvents a evs mainBoot).clock.Minute ≤ 59 ∧
      (runEvents a evs mainBoot).clock.Hour ≤ 23) := by
  have h := inv99_run a evs mainBoot inv99_boot
  refine ⟨⟨h.2.2.1, h.2.1, h.1⟩, fun hc => ?_⟩
  exact valid_run a evs mainBoot (by simp [mainBoot, clockBoot]) hc

theorem clock_bounds_amended_witness :
    commitsInRange blankAssets
      [Event.byte 's'.toNat, Event.byte '2'.toNat, Event.byte '3'.toNat, Event.byte '5'.toNat,
       Event.byte '9'.toNat, Event.byte '5'.toNat, Event.byte '9'.toNat, Event.rtcTick]
      mainBoot = true ∧
    (runEvents blankAssets
      [Event.byte 's'.toNat, Event.byte '2'.toNat, Event.byte '3'.toNat, Event.byte '5'.toNat,
       Event.byte '9'.toNat, Event.byte '5'.toNat, Event.byte '9'.toNat, Event.rtcTick]
      mainBoot).clock.Hour ≤ 23 :=
  ⟨by decide,
    ((clock_bounds_amended blankAssets
      [Event.byte 's'.toNat, Event.byte '2'.toNat, Event.byte '3'.toNat, Event.byte '5'.toNat,
       Event.byte '9'.toNat, Event.byte '5'.toNat, Event.byte '9'.toNat, Event.rtcTick]).2
      (by decide)).2.2⟩

end BlackPill

end SpiOled

namespace SpiOled

/-! ## Segment renderer -/

set_option maxRecDepth 100000 in
/-- C10 as stated fails on the Black Pill: in the petrol-station style
`renderHexDigit` with digit 8 blits a glyph (here from an all-zero atlas, so
the pixel at the origin becomes the background colour 0), while drawing
segments A to G in that style leaves the frame as it was (the pixel keeps its
value 7). -/
theorem render8_petrol_counterexample :
    BlackPill.renderHexDigit (fun _ => 0) 0 8 .PETROL_STATION_STYLE BlackPill.SSD1351_RED
      (fun _ => 7) 0 = 0 ∧
    BlackPill.drawSegG 0 .PETROL_STATION_STYLE BlackPill.SSD1351_RED
      (BlackPill.drawSegF 0 .PETROL_STATION_STYLE BlackPill.SSD1351_RED
        (BlackPill.drawSegE 0 .PETROL_STATION_STYLE BlackPill.SSD1351_RED
          (BlackPill.drawSegD 0 .PETROL_STATION_STYLE BlackPill.SSD1351_RED
            (BlackPill.drawSegC 0 .PETROL_STATION_STYLE BlackPill.SSD1351_RED
              (BlackPill.drawSegB 0 .PETROL_STATION_STYLE BlackPill.SSD1351_RED
                (BlackPill.drawSegA 0 .PETROL_STATION_STYLE BlackPill.SSD1351_RED
                  (fun _ => 7))))))) 0 = 7 := by
  constructor
  · decide
  · rfl

/-- C10, amended. For every segment style (every style of the Blue Pill;
every style but petrol-station on the Black Pill), every x position and every
colour, `renderHexDigit` with digit 8 draws exactly segments A, B, C, D, E, F
and G: the frame after the call is the frame after `drawSegA` ... `drawSegG`
in that style, and none of the segments H to N, the decimal point or the
colon is among the calls made. -/
theorem render8_segments (PetrolDigits : Int → Nat) (x : Int) (c : Nat)
    (style : BlackPill.STYLE) (f : BlackPill.Frame)
    (style' : BluePill.STYLE) (g : BluePill.Frame)
    (hstyle : style ≠ .PETROL_STATION_STYLE) :
    (BlackPill.renderHexDigit PetrolDigits x 8 style c f
      = BlackPill.drawSegG x style c (BlackPill.drawSegF x style c
          (BlackPill.drawSegE x style c (BlackPill.drawSegD x style c
            (BlackPill.drawSegC x style c (BlackPill.drawSegB x style c
              (BlackPill.drawSegA x style c f)))))) ∧
     BlackPill.renderHexDigitCalls 8 style = [.A, .B, .C, .D, .E, .F, .G] ∧
     ∀ s ∈ [Segment.H, .I, .J, .K, .L, .M, .N, .DP, .CN],
       s ∉ BlackPill.renderHexDigitCalls 8 style) ∧
    (BluePill.renderHexDigit x 8 style' g
      = BluePill.drawSegG x style' (BluePill.drawSegF x style'
          (BluePill.drawSegE x style' (BluePill.drawSegD x style'
            (BluePill.drawSegC x style' (BluePill.drawSegB x style'
              (BluePill.drawSegA x style' g)))))) ∧
     BluePill.renderHexDigitCalls 8 style' = [.A, .B, .C, .D, .E, .F, .G] ∧
     ∀ s ∈ [Segment.H, .I, .J, .K, .L, .M, .N, .DP, .CN],
       s ∉ BluePill.renderHexDigitCalls 8 style') := by
  refine ⟨⟨?_, rfl, ?_⟩, ⟨rfl, rfl, ?_⟩⟩
  · unfold BlackPill.renderHexDigit
    rw [if_neg hstyle]
    rfl
  · have : BlackPill.renderHexDigitCalls 8 style = [.A, .B, .C, .D, .E, .F, .G] := rfl
    rw [this]
    decide
  · have : BluePill.renderHexDigitCalls 8 style' = [.A, .B, .C, .D, .E, .F, .G] := rfl
    rw [this]
    decide

theorem render8_segments_witness :
    BlackPill.STYLE.VFD_STYLE ≠ BlackPill.STYLE.PETROL_STATION_STYLE ∧
    BlackPill.renderHexDigit (fun _ => 0) 21 8 .VFD_STYLE BlackPill.VFD_COLOUR (fun _ => 0)
      = BlackPill.drawSegG 21 .VFD_STYLE BlackPill.VFD_COLOUR
          (BlackPill.drawSegF 21 .VFD_STYLE BlackPill.VFD_COLOUR
            (BlackPill.drawSegE 21 .VFD_STYLE BlackPill.VFD_COLOUR
              (BlackPill.drawSegD 21 .VFD_STYLE BlackPill.VFD_COLOUR
                (BlackPill.drawSegC 21 .VFD_STYLE BlackPill.VFD_COLOUR
                  (BlackPill.drawSegB 21 .VFD_STYLE BlackPill.VFD_COLOUR
                    (BlackPill.drawSegA 21 .VFD_STYLE BlackPill.VFD_COLOUR
                      (fun _ => 0))))))) :=
  ⟨by decide,
    (render8_segments (fun _ => 0) 21 BlackPill.VFD_COLOUR .VFD_STYLE (fun _ => 0)
      .LED_DOT_STYLE (fun _ => 0) (by decide)).1.1⟩

end SpiOled

namespace SpiOled

/-! ## Segment renderer: digit 1 and the digit-to-segment table -/

set_option maxRecDepth 100000 in
/-- C11 as stated fails on the Black Pill: in the petrol-station style
`renderHexDigit` with digit 1 blits a glyph (here from an all-zero atlas, so
the pixel at column 21 of row 0 becomes the background colour 0), while
drawing segments B, C, J, K and L in that style leaves the frame as it was
(the pixel keeps its value 9). -/
theorem render1_petrol_counterexample :
    BlackPill.renderHexDigit (fun _ => 0) 21 1 .PETROL_STATION_STYLE BlackPill.SSD1351_GREEN
      (fun _ => 9) 21 = 0 ∧
    BlackPill.drawSegL 21 .PETROL_STATION_STYLE BlackPill.SSD1351_GREEN
      (BlackPill.drawSegK 21 .PETROL_STATION_STYLE BlackPill.SSD1351_GREEN
        (BlackPill.drawSegJ 21 .PETROL_STATION_STYLE BlackPill.SSD1351_GREEN
          (BlackPill.drawSegC 21 .PETROL_STATION_STYLE BlackPill.SSD1351_GREEN
            (BlackPill.drawSegB 21 .PETROL_STATION_STYLE BlackPill.SSD1351_GREEN
              (fun _ => 9))))) 21 = 9 := by
  constructor
  · decide
  · rfl

/-- C11, amended. For every segment style (every style of the Blue Pill;
every style but petrol-station on the Black Pill), every x position and every
colour, rendering digit 1 with `renderHexDigit` makes no call of `drawSegA`,
and the resulting frame is the frame produced by drawing segments B, C, J, K
and L, in that order, in that style. -/
theorem render1_segments (PetrolDigits : Int → Nat) (x : Int) (c : Nat)
    (style : BlackPill.STYLE) (f : BlackPill.Frame)
    (style' : BluePill.STYLE) (g : BluePill.Frame)
    (hstyle : style ≠ .PETROL_STATION_STYLE) :
    (Segment.A ∉ BlackPill.renderHexDigitCalls 1 style ∧
     BlackPill.renderHexDigitCalls 1 style = [.B, .C, .J, .K, .L] ∧
     BlackPill.renderHexDigit PetrolDigits x 1 style c f
      = BlackPill.drawSegL x style c (BlackPill.drawSegK x style c
          (BlackPill.drawSegJ x style c (BlackPill.drawSegC x style c
            (BlackPill.drawSegB x style c f))))) ∧
    (Segment.A ∉ BluePill.renderHexDigitCalls 1 style' ∧
     BluePill.renderHexDigitCalls 1 style' = [.B, .C, .J, .K, .L] ∧
     BluePill.renderHexDigit x 1 style' g
      = BluePill.drawSegL x style' (BluePill.drawSegK x style'
          (BluePill.drawSegJ x style' (BluePill.drawSegC x style'
            (BluePill.drawSegB x style' g))))) := by
  have e1 : BlackPill.renderHexDigitCalls 1 style = [.B, .C, .J, .K, .L] := rfl
  have e2 : BluePill.renderHexDigitCalls 1 style' = [.B, .C, .J, .K, .L] := rfl
  refine ⟨⟨?_, e1, ?_⟩, ⟨?_, e2, rfl⟩⟩
  · rw [e1]
    decide
  · unfold BlackPill.renderHexDigit
    rw [if_neg hstyle]
    rfl
  · rw [e2]
    decide

theorem render1_segments_witness :
    BlackPill.STYLE.LED_DOT_STYLE ≠ BlackPill.STYLE.PETROL_STATION_STYLE ∧
    Segment.A ∉ BlackPill.renderHexDigitCalls 1 .LED_DOT_STYLE ∧
    Segment.A ∉ BluePill.renderHexDigitCalls 1 .PANAPLEX_STYLE :=
  ⟨by decide,
    (render1_segments (fun _ => 0) 42 BlackPill.LED_COLOUR .LED_DOT_STYLE (fun _ => 0)
      .PANAPLEX_STYLE (fun _ => 0) (by decide)).1.1,
    (render1_segments (fun _ => 0) 42 BlackPill.LED_COLOUR .LED_DOT_STYLE (fun _ => 0)
      .PANAPLEX_STYLE (fun _ => 0) (by decide)).2.1⟩

theorem calls_style_free_blue (d : Int) (h11 : d ≠ 0xB) (h13 : d ≠ 0xD)
    (s s' : BluePill.STYLE) :
    BluePill.renderHexDigitCalls d s = BluePill.renderHexDigitCalls d s' := by
  unfold BluePill.renderHexDigitCalls
  split <;> first | rfl | exact absurd rfl h11 | exact absurd rfl h13

theorem calls_style_free_black (d : Int) (h11 : d ≠ 0xB) (h13 : d ≠ 0xD)
    (s s' : BlackPill.STYLE) :
    BlackPill.renderHexDigitCalls d s = BlackPill.renderHexDigitCalls d s' := by
  unfold BlackPill.renderHexDigitCalls
  split <;> first | rfl | exact absurd rfl h11 | exact absurd rfl h13

theorem calls_not_dot_blue (d : Int) (s s' : BluePill.STYLE)
    (hs : s ≠ .LED_DOT_STYLE) (hs' : s' ≠ .LED_DOT_STYLE) :
    BluePill.renderHexDigitCalls d s = BluePill.renderHexDigitCalls d s' := by
  unfold BluePill.renderHexDigitCalls
  split <;> simp [hs, hs']

theorem calls_not_dot_black (d : Int) (s s' : BlackPill.STYLE)
    (hs : s ≠ .LED_DOT_STYLE) (hs' : s' ≠ .LED_DOT_STYLE) :
    BlackPill.renderHexDigitCalls d s = BlackPill.renderHexDigitCalls d s' := by
  unfold BlackPill.renderHexDigitCalls
  split <;> simp [hs, hs']

/-- C12 as stated fails: for digit 0xB the LED-dot style draws segment A
(the uppercase form) and the VFD style does not, on the Blue Pill and on the
Black Pill alike. -/
theorem digit_table_counterexample :
    Segment.A ∈ BluePill.renderHexDigitCalls 0xB .LED_DOT_STYLE ∧
    Segment.A ∉ BluePill.renderHexDigitCalls 0xB .VFD_STYLE ∧
    BluePill.renderHexDigitCalls 0xD .LED_DOT_STYLE
      = [.A, .B, .C, .D, .E, .F, .I, .K, .M, .N] ∧
    BluePill.renderHexDigitCalls 0xD .VFD_STYLE = [.B, .C, .D, .E, .G] ∧
    Segment.A ∈ BlackPill.renderHexDigitCalls 0xB .LED_DOT_STYLE ∧
    Segment.A ∉ BlackPill.renderHexDigitCalls 0xB .VFD_STYLE := by
  decide

/-- C12, amended. For every digit other than 0xB and 0xD the segments that
`renderHexDigit` draws are the same in every segment style; for 0xB and 0xD
(and every other digit) they are the same in the Panaplex, LED-bar and VFD
styles, the LED-dot style alone drawing the uppercase forms of 0xB and 0xD.
Holds on both boards. -/
theorem digit_table_style_independent (d : Int) (s s' : BluePill.STYLE)
    (t t' : BlackPill.STYLE) :
    (d ≠ 0xB → d ≠ 0xD →
      BluePill.renderHexDigitCalls d s = BluePill.renderHexDigitCalls d s' ∧
      BlackPill.renderHexDigitCalls d t = BlackPill.renderHexDigitCalls d t') ∧
    (s ≠ .LED_DOT_STYLE → s' ≠ .LED_DOT_STYLE →
      BluePill.renderHexDigitCalls d s = BluePill.renderHexDigitCalls d s') ∧
    (t ≠ .LED_DOT_STYLE → t' ≠ .LED_DOT_STYLE →
      BlackPill.renderHexDigitCalls d t = BlackPill.renderHexDigitCalls d t') ∧
    BluePill.renderHexDigitCalls 0xB .LED_DOT_STYLE
      = BluePill.renderHexDigitCalls 0xB .VFD_STYLE ++ [.A, .B, .I, .M, .N] ∧
    BluePill.renderHexDigitCalls 0xD .LED_DOT_STYLE
      = [.A, .B, .C, .D, .E, .F, .I, .K, .M, .N] :=
  ⟨fun h11 h13 => ⟨calls_style_free_blue d h11 h13 s s', calls_style_free_black d h11 h13 t t'⟩,
    calls_not_dot_blue d s s', calls_not_dot_black d t t', rfl, rfl⟩

theorem digit_table_style_independent_witness :
    (4 : Int) ≠ 0xB ∧ (4 : Int) ≠ 0xD ∧
    BluePill.renderHexDigitCalls 4 .LED_DOT_STYLE
      = BluePill.renderHexDigitCalls 4 .PANAPLEX_STYLE ∧
    BluePill.renderHexDigitCalls 0xB .LED_BAR_STYLE
      = BluePill.renderHexDigitCalls 0xB .VFD_STYLE :=
  ⟨by decide, by decide,
    ((digit_table_style_independent 4 .LED_DOT_STYLE .PANAPLEX_STYLE .VFD_STYLE
      .VFD_STYLE).1 (by decide) (by decide)).1,
    (digit_table_style_independent 0xB .LED_BAR_STYLE .VFD_STYLE .VFD_STYLE
      .VFD_STYLE).2.1 (by decide) (by decide)⟩

/-! ## Command interpreter: dispatch table -/

/-- C16 as stated fails: after "g5u" from the initial state the current
digit slot is 0, not 5 (the byte 'g' selects slot 0 and the byte '5' draws
the digit 5 there). -/
theorem g5u_counterexample :
    (BlackPill.feed BlackPill.blankAssets ['g'.toNat, '5'.toNat, 'u'.toNat]
      BlackPill.mainBoot).digit = 0 ∧
    (BlackPill.feed BlackPill.blankAssets ['g'.toNat, '5'.toNat, 'u'.toNat]
      BlackPill.mainBoot).digit ≠ 5 ∧
    (BlackPill.feed BlackPill.blankAssets ['g'.toNat, '5'.toNat, 'u'.toNat]
      BlackPill.mainBoot).x = 0 := by
  decide

/-- C16, amended. From an Idle interpreter state (in particular the initial
one: Idle, Manual mode, slot 0), replaying the bytes 'g', '5', 'u' selects
digit slot 0 with x = 0 ('g'), draws the hex digit 5 in that slot and flushes
rows 0..31 ('5'), and then switches the display mode to AUTO_HMS_MODE ('u');
the parser stays Idle. Slot 5 is what the byte 'l' selects. -/
theorem g5u_replay (a : BlackPill.Assets) (m : BlackPill.Main)
    (hidle : m.state = .NOT_SETTING_TIME) :
    (BlackPill.feed a ['g'.toNat, '5'.toNat, 'u'.toNat] m).digit = 0 ∧
    (BlackPill.feed a ['g'.toNat, '5'.toNat, 'u'.toNat] m).x = 0 ∧
    (BlackPill.feed a ['g'.toNat, '5'.toNat, 'u'.toNat] m).displayMode = .AUTO_HMS_MODE ∧
    (BlackPill.feed a ['g'.toNat, '5'.toNat, 'u'.toNat] m).state = .NOT_SETTING_TIME ∧
    (BlackPill.feed a ['g'.toNat, '5'.toNat, 'u'.toNat] m).frame
      = BlackPill.renderHexDigit a.PetrolDigits 0 5 m.style m.colour m.frame ∧
    (BlackPill.feed a ['g'.toNat, '5'.toNat, 'u'.toNat] m).display
      = m.display ++ [DisplayOp.updscreen 0 31] ∧
    (BlackPill.feed a ['l'.toNat] m).digit = 5 ∧
    (BlackPill.feed a ['l'.toNat] m).x = 5 * BlackPill.width := by
  have hg : BlackPill.processByte a 'g'.toNat m = BlackPill.selectDigit 0 m := by
    rw [BlackPill.processByte_idle a _ m hidle]
    simp [BlackPill.command]
  have hl : BlackPill.processByte a 'l'.toNat m = BlackPill.selectDigit 5 m := by
    rw [BlackPill.processByte_idle a _ m hidle]
    simp [BlackPill.command]
  have h5 : ∀ n : BlackPill.Main, n.state = .NOT_SETTING_TIME →
      BlackPill.processByte a '5'.toNat n = BlackPill.renderCommand a 5 n := by
    intro n hn
    rw [BlackPill.processByte_idle a _ n hn]
    simp [BlackPill.command]
  have hu : ∀ n : BlackPill.Main, n.state = .NOT_SETTING_TIME →
      BlackPill.processByte a 'u'.toNat n = { n with displayMode := .AUTO_HMS_MODE } := by
    intro n hn
    rw [BlackPill.processByte_idle a _ n hn]
    simp [BlackPill.command]
  simp only [BlackPill.feed, List.foldl_cons, List.foldl_nil]
  rw [hg, hl, h5 _ (by simpa [BlackPill.selectDigit] using hidle),
    hu _ (by simpa [BlackPill.selectDigit, BlackPill.renderCommand, BlackPill.updscreen]
      using hidle)]
  simp [BlackPill.selectDigit, BlackPill.renderCommand, BlackPill.updscreen, hidle]

theorem g5u_replay_witness :
    BlackPill.mainBoot.state = .NOT_SETTING_TIME ∧
    (BlackPill.feed BlackPill.blankAssets ['g'.toNat, '5'.toNat, 'u'.toNat]
      BlackPill.mainBoot).displayMode = .AUTO_HMS_MODE ∧
    (BlackPill.feed BlackPill.blankAssets ['l'.toNat] BlackPill.mainBoot).digit = 5 :=
  ⟨rfl, (g5u_replay BlackPill.blankAssets BlackPill.mainBoot rfl).2.2.1,
    (g5u_replay BlackPill.blankAssets BlackPill.mainBoot rfl).2.2.2.2.2.2.1⟩

theorem command_not_in_table (a : BlackPill.Assets) (ch : Nat) (m : BlackPill.Main)
    (h : ch ∉ BlackPill.commandBytes) : BlackPill.command a ch m = m := by
  simp only [BlackPill.commandBytes, List.mem_cons, List.mem_singleton, not_or,
    List.mem_nil_iff, not_false_eq_true, and_true] at h
  unfold BlackPill.command
  simp only [h, false_or, or_self, if_false]

theorem command_not_in_table_blue (ch : Nat) (m : BluePill.Main)
    (h : ch ∉ BluePill.commandBytes) : BluePill.command ch m = m := by
  simp only [BluePill.commandBytes, List.mem_cons, List.mem_singleton, not_or,
    List.mem_nil_iff, not_false_eq_true, and_true] at h
  unfold BluePill.command
  simp only [h, false_or, or_self, if_false]

/-- C18. In the Idle parser state a byte that has no `case` in the dispatch
table is a no-op, on both boards: the whole state is returned unchanged, so
the frame buffer, the current digit slot and x, the style, the colour, the
display mode, the parser state and the clock fields are all as before. -/
theorem idle_unknown_byte_noop (a : BlackPill.Assets) (m : BlackPill.Main)
    (n : BluePill.Main) (ch ch' : Nat)
    (hm : m.state = .NOT_SETTING_TIME) (hn : n.state = .NOT_SETTING_TIME)
    (hch : ch ∉ BlackPill.commandBytes) (hch' : ch' ∉ BluePill.commandBytes) :
    (BlackPill.processByte a ch m = m ∧
     (BlackPill.processByte a ch m).frame = m.frame ∧
     (BlackPill.processByte a ch m).digit = m.digit ∧
     (BlackPill.processByte a ch m).x = m.x ∧
     (BlackPill.processByte a ch m).style = m.style ∧
     (BlackPill.processByte a ch m).colour = m.colour ∧
     (BlackPill.processByte a ch m).displayMode = m.displayMode ∧
     (BlackPill.processByte a ch m).state = m.state ∧
     (BlackPill.processByte a ch m).clock = m.clock) ∧
    (BluePill.processByte ch' n = n ∧
     (BluePill.processByte ch' n).frame = n.frame ∧
     (BluePill.processByte ch' n).digit = n.digit ∧
     (BluePill.processByte ch' n).x = n.x ∧
     (BluePill.processByte ch' n).style = n.style ∧
     (BluePill.processByte ch' n).displayMode = n.displayMode ∧
     (BluePill.processByte ch' n).state = n.state ∧
     (BluePill.processByte ch' n).clock = n.clock) := by
  have e1 : BlackPill.processByte a ch m = m := by
    rw [BlackPill.processByte_idle a ch m hm]
    exact command_not_in_table a ch m hch
  have e2 : BluePill.processByte ch' n = n := by
    rw [BluePill.processByte_idle_blue ch' n hn]
    exact command_not_in_table_blue ch' n hch'
  rw [e1, e2]
  simp

theorem idle_unknown_byte_noop_witness :
    BlackPill.mainBoot.state = .NOT_SETTING_TIME ∧
    BluePill.mainBoot.state = .NOT_SETTING_TIME ∧
    'p'.toNat ∉ BlackPill.commandBytes ∧ 'n'.toNat ∉ BluePill.commandBytes ∧
    BlackPill.processByte BlackPill.blankAssets 'p'.toNat BlackPill.mainBoot
      = BlackPill.mainBoot ∧
    BluePill.processByte 'n'.toNat BluePill.mainBoot = BluePill.mainBoot :=
  ⟨rfl, rfl, by decide, by decide,
    (idle_unknown_byte_noop BlackPill.blankAssets BlackPill.mainBoot BluePill.mainBoot
      'p'.toNat 'n'.toNat rfl rfl (by decide) (by decide)).1.1,
    (idle_unknown_byte_noop BlackPill.blankAssets BlackPill.mainBoot BluePill.mainBoot
      'p'.toNat 'n'.toNat rfl rfl (by decide) (by decide)).2.1⟩

end SpiOled

namespace SpiOled

/-! ## Frame buffer primitives -/

theorem u32_natCast (n : Nat) (h : n < 4294967296) : u32 (n : Int) = n := by
  unfold u32
  omega

theorem mem_uintRange (lo hi x : Nat) : x ∈ uintRange lo hi ↔ lo ≤ x ∧ x ≤ hi := by
  unfold uintRange
  rw [List.mem_range'_1]
  omega

theorem mem_intRange (lo hi y : Int) : y ∈ intRange lo hi ↔ lo ≤ y ∧ y ≤ hi := by
  unfold intRange
  simp only [List.mem_map, List.mem_range]
  constructor
  · rintro ⟨k, hk, rfl⟩
    omega
  · intro h
    exact ⟨(y - lo).toNat, by omega, by omega⟩

namespace BlackPill

theorem foldl_store_row (y c : Nat) (xs : List Nat) (f : Frame) (k : Nat) :
    (xs.foldl (fun f x => frameStore f y x c) f) k
      = if ∃ x ∈ xs, k = y * MAXX + x then c else f k := by
  induction xs generalizing f with
  | nil => simp
  | cons a xs ih =>
    rw [List.foldl_cons, ih]
    by_cases h1 : ∃ x ∈ xs, k = y * MAXX + x
    · have h2 : ∃ x ∈ a :: xs, k = y * MAXX + x := by
        obtain ⟨x, hx, e⟩ := h1
        exact ⟨x, List.mem_cons_of_mem a hx, e⟩
      rw [if_pos h1, if_pos h2]
    · rw [if_neg h1]
      by_cases h3 : k = y * MAXX + a
      · have h2 : ∃ x ∈ a :: xs, k = y * MAXX + x := ⟨a, List.mem_cons_self a xs, h3⟩
        rw [if_pos h2]
        simp [frameStore, h3]
      · have h2 : ¬ ∃ x ∈ a :: xs, k = y * MAXX + x := by
          rintro ⟨x, hx, e⟩
          rcases List.mem_cons.mp hx with rfl | hx'
          · exact h3 e
          · exact h1 ⟨x, hx', e⟩
        rw [if_neg h2]
        simp [frameStore, h3]

theorem foldl_store_col (x c : Nat) (ys : List Nat) (f : Frame) (k : Nat) :
    (ys.foldl (fun f y => frameStore f y x c) f) k
      = if ∃ y ∈ ys, k = y * MAXX + x then c else f k := by
  induction ys generalizing f with
  | nil => simp
  | cons a ys ih =>
    rw [List.foldl_cons, ih]
    by_cases h1 : ∃ y ∈ ys, k = y * MAXX + x
    · have h2 : ∃ y ∈ a :: ys, k = y * MAXX + x := by
        obtain ⟨y, hy, e⟩ := h1
        exact ⟨y, List.mem_cons_of_mem a hy, e⟩
      rw [if_pos h1, if_pos h2]
    · rw [if_neg h1]
      by_cases h3 : k = a * MAXX + x
      · have h2 : ∃ y ∈ a :: ys, k = y * MAXX + x := ⟨a, List.mem_cons_self a ys, h3⟩
        rw [if_pos h2]
        simp [frameStore, h3]
      · have h2 : ¬ ∃ y ∈ a :: ys, k = y * MAXX + x := by
          rintro ⟨y, hy, e⟩
          rcases List.mem_cons.mp hy with rfl | hy'
          · exact h3 e
          · exact h1 ⟨y, hy', e⟩
        rw [if_neg h2]
        simp [frameStore, h3]

/-- What `setHline` leaves in a cell: the colour in the cells
`y * MAXX + x1 .. y * MAXX + x2`, the old value elsewhere. -/
theorem setHline_apply (x1 x2 y c : Nat) (f : Frame) (k : Nat) :
    setHline x1 x2 y c f k
      = if y * MAXX + x1 ≤ k ∧ k ≤ y * MAXX + x2 then c else f k := by
  unfold setHline
  rw [foldl_store_row]
  by_cases h : y * MAXX + x1 ≤ k ∧ k ≤ y * MAXX + x2
  · rw [if_pos h, if_pos]
    exact ⟨k - y * MAXX, (mem_uintRange _ _ _).mpr (by omega), by omega⟩
  · rw [if_neg h, if_neg]
    rintro ⟨x, hx, e⟩
    rw [mem_uintRange] at hx
    omega

theorem setHline_pixel (x1 x2 y c : Nat) (f : Frame) (x' y' : Nat)
    (hx2 : x2 < 128) (hx' : x' < 128) :
    setHline x1 x2 y c f (y' * MAXX + x')
      = if y' = y ∧ x1 ≤ x' ∧ x' ≤ x2 then c else f (y' * MAXX + x') := by
  rw [setHline_apply]
  simp only [MAXX]
  by_cases h : y' = y ∧ x1 ≤ x' ∧ x' ≤ x2
  · rw [if_pos h, if_pos]
    omega
  · rw [if_neg h, if_neg]
    omega

theorem setVline_pixel (x y1 y2 c : Nat) (f : Frame) (x' y' : Nat)
    (hx : x < 128) (hx' : x' < 128) :
    setVline x y1 y2 c f (y' * MAXX + x')
      = if x' = x ∧ y1 ≤ y' ∧ y' ≤ y2 then c else f (y' * MAXX + x') := by
  unfold setVline
  rw [foldl_store_col]
  simp only [MAXX]
  by_cases h : x' = x ∧ y1 ≤ y' ∧ y' ≤ y2
  · rw [if_pos h, if_pos]
    exact ⟨y', (mem_uintRange _ _ _).mpr h.2, by rw [h.1]⟩
  · rw [if_neg h, if_neg]
    rintro ⟨yy, hy, e⟩
    rw [mem_uintRange] at hy
    omega

theorem fill_rows_pixel (x1 x2 fc : Nat) (ys : List Nat) (f : Frame) (x' y' : Nat)
    (hx2 : x2 < 128) (hx' : x' < 128) :
    (ys.foldl (fun f y => setHline x1 x2 y fc f) f) (y' * MAXX + x')
      = if y' ∈ ys ∧ x1 ≤ x' ∧ x' ≤ x2 then fc else f (y' * MAXX + x') := by
  induction ys generalizing f with
  | nil => simp
  | cons a ys ih =>
    rw [List.foldl_cons, ih, setHline_pixel x1 x2 a fc f x' y' hx2 hx']
    by_cases h1 : y' ∈ ys ∧ x1 ≤ x' ∧ x' ≤ x2
    · rw [if_pos h1, if_pos ⟨List.mem_cons_of_mem a h1.1, h1.2⟩]
    · rw [if_neg h1]
      by_cases h2 : y' = a ∧ x1 ≤ x' ∧ x' ≤ x2
      · rw [if_pos h2, if_pos]
        exact ⟨by rw [h2.1]; exact List.mem_cons_self a ys, h2.2⟩
      · rw [if_neg h2, if_neg]
        rintro ⟨hm, hb⟩
        rcases List.mem_cons.mp hm with e | hm'
        · exact h2 ⟨e, hb⟩
        · exact h1 ⟨hm', hb⟩

theorem intRange_natCast (y1 y2 : Nat) :
    intRange (y1 : Int) (y2 : Int) = (uintRange y1 y2).map (fun (n : Nat) => (n : Int)) := by
  unfold intRange uintRange
  have e : ((y2 : Int) + 1 - (y1 : Int)).toNat = y2 + 1 - y1 := by omega
  rw [e, List.range'_eq_map_range, List.map_map]
  apply List.map_congr_left
  intro k _
  simp

theorem fillRect_pixel (x1 y1 x2 y2 ec fc : Nat) (f : Frame) (x y : Nat)
    (hx1 : x1 ≤ x2) (hx2 : x2 < 128) (hy1 : y1 ≤ y2) (hy2 : y2 < 128) (hx : x < 128) :
    fillRect (x1 : Int) (y1 : Int) (x2 : Int) (y2 : Int) ec fc f (y * MAXX + x)
      = if x1 ≤ x ∧ x ≤ x2 ∧ y1 ≤ y ∧ y ≤ y2 then
          (if x = x1 ∨ x = x2 ∨ y = y1 ∨ y = y2 then ec else fc)
        else f (y * MAXX + x) := by
  have hfill : ∀ g : Frame,
      (intRange (y1 : Int) (y2 : Int)).foldl
        (fun f yy => setHline (u32 (x1 : Int)) (u32 (x2 : Int)) (u32 yy) fc f) g
      = (uintRange y1 y2).foldl (fun f yy => setHline x1 x2 yy fc f) g := by
    intro g
    rw [intRange_natCast, List.foldl_map]
    apply List.foldl_ext
    intro f' yy hyy
    rw [mem_uintRange] at hyy
    rw [u32_natCast x1 (by omega), u32_natCast x2 (by omega), u32_natCast yy (by omega)]
  unfold fillRect
  simp only [hfill]
  rw [u32_natCast x1 (by omega), u32_natCast x2 (by omega), u32_natCast y1 (by omega),
    u32_natCast y2 (by omega)]
  rw [setVline_pixel _ _ _ _ _ _ _ (by omega) hx, setHline_pixel _ _ _ _ _ _ _ hx2 hx,
    setVline_pixel _ _ _ _ _ _ _ hx2 hx, setHline_pixel _ _ _ _ _ _ _ hx2 hx,
    fill_rows_pixel _ _ _ _ _ _ _ hx2 hx]
  simp only [mem_uintRange]
  split_ifs <;> first | rfl | omega

end BlackPill

end SpiOled

namespace SpiOled

/-- C13. Colour `fillRect` postcondition (Black Pill): for 0 <= x1 <= x2 < 128
and 0 <= y1 <= y2 < 128 and all colours ec, fc, after
`fillRect(x1, y1, x2, y2, ec, fc)` every pixel on the border of the rectangle
reads ec, every pixel strictly inside reads fc, and every cell outside the
rectangle (the other pixels of the frame and the memory after it) is
unchanged. -/
theorem fillRect_postcondition (x1 y1 x2 y2 ec fc : Nat) (f : BlackPill.Frame)
    (hx1 : x1 ≤ x2) (hx2 : x2 < 128) (hy1 : y1 ≤ y2) (hy2 : y2 < 128) :
    (∀ x y, x1 ≤ x → x ≤ x2 → y1 ≤ y → y ≤ y2 → (x = x1 ∨ x = x2 ∨ y = y1 ∨ y = y2) →
      BlackPill.fillRect (x1 : Int) (y1 : Int) (x2 : Int) (y2 : Int) ec fc f
        (y * BlackPill.MAXX + x) = ec) ∧
    (∀ x y, x1 < x → x < x2 → y1 < y → y < y2 →
      BlackPill.fillRect (x1 : Int) (y1 : Int) (x2 : Int) (y2 : Int) ec fc f
        (y * BlackPill.MAXX + x) = fc) ∧
    (∀ x y, x < 128 → ¬ (x1 ≤ x ∧ x ≤ x2 ∧ y1 ≤ y ∧ y ≤ y2) →
      BlackPill.fillRect (x1 : Int) (y1 : Int) (x2 : Int) (y2 : Int) ec fc f
        (y * BlackPill.MAXX + x) = f (y * BlackPill.MAXX + x)) := by
  refine ⟨?_, ?_, ?_⟩
  · intro x y a1 a2 a3 a4 hb
    rw [BlackPill.fillRect_pixel x1 y1 x2 y2 ec fc f x y hx1 hx2 hy1 hy2 (by omega),
      if_pos ⟨a1, a2, a3, a4⟩, if_pos hb]
  · intro x y a1 a2 a3 a4
    rw [BlackPill.fillRect_pixel x1 y1 x2 y2 ec fc f x y hx1 hx2 hy1 hy2 (by omega),
      if_pos ⟨by omega, by omega, by omega, by omega⟩, if_neg (by omega)]
  · intro x y hx hout
    rw [BlackPill.fillRect_pixel x1 y1 x2 y2 ec fc f x y hx1 hx2 hy1 hy2 hx, if_neg hout]

theorem fillRect_postcondition_witness :
    (2 : Nat) ≤ 10 ∧ (10 : Nat) < 128 ∧ (3 : Nat) ≤ 8 ∧ (8 : Nat) < 128 ∧
    BlackPill.fillRect ((2 : Nat) : Int) ((3 : Nat) : Int) ((10 : Nat) : Int) ((8 : Nat) : Int)
      BlackPill.SSD1351_WHITE BlackPill.SSD1351_BLUE (fun _ => 0)
      (5 * BlackPill.MAXX + 6) = BlackPill.SSD1351_BLUE ∧
    BlackPill.fillRect ((2 : Nat) : Int) ((3 : Nat) : Int) ((10 : Nat) : Int) ((8 : Nat) : Int)
      BlackPill.SSD1351_WHITE BlackPill.SSD1351_BLUE (fun _ => 0)
      (3 * BlackPill.MAXX + 6) = BlackPill.SSD1351_WHITE :=
  ⟨by decide, by decide, by decide, by decide,
    (fillRect_postcondition 2 3 10 8 BlackPill.SSD1351_WHITE BlackPill.SSD1351_BLUE (fun _ => 0)
      (by decide) (by decide) (by decide) (by decide)).2.1 6 5 (by decide) (by decide)
      (by decide) (by decide),
    (fillRect_postcondition 2 3 10 8 BlackPill.SSD1351_WHITE BlackPill.SSD1351_BLUE (fun _ => 0)
      (by decide) (by decide) (by decide) (by decide)).1 6 3 (by decide) (by decide)
      (by decide) (by decide) (by decide)⟩

set_option maxRecDepth 100000 in
/-- C14 fails on the code. On an all-zero frame, `setHline(0, 130, 0, WHITE)`
of the Black Pill writes pixel (2, 1), a pixel of row 1;
`setVline(130, 0, 0, WHITE)` writes the same pixel, which is in column 2;
`setHline(0, 130, 0)` of the Blue Pill sets bit 0 of `Frame[1][2]`, the
pixel (2, 8); and `drawHline(0, 130, 0, WHITE)` of Risible Radar writes
pixel (2, 1). -/
theorem hline_overrun_reaches_next_row :
    BlackPill.setHline 0 130 0 BlackPill.SSD1351_WHITE (fun _ => 0)
      (1 * BlackPill.MAXX + 2) = BlackPill.SSD1351_WHITE ∧
    BlackPill.setVline 130 0 0 BlackPill.SSD1351_WHITE (fun _ => 0)
      (1 * BlackPill.MAXX + 2) = BlackPill.SSD1351_WHITE ∧
    BluePill.setHline 0 130 0 (fun _ => 0) (1 * BluePill.MAXX + 2) = 1 ∧
    RisibleRadar.drawHline 0 130 0 RisibleRadar.SSD1351_WHITE (fun _ => 0)
      (1 * RisibleRadar.MAXX + 2) = RisibleRadar.SSD1351_WHITE := by
  refine ⟨?_, ?_, ?_, ?_⟩ <;> decide

/-- C15. Out-of-range single-pixel writes are no-ops: `setPixel` and
`clrPixel` of the Blue Pill (x >= 128 or y >= 32), `setPixel` of the Black
Pill and `drawPixel` of Risible Radar (x >= 128 or y >= 128) return the frame
unchanged; this covers every coordinate that comes from a negative `int`
converted to `unsigned int`. -/
theorem pixel_out_of_range_noop (x y c : Nat) (i : Int) (f : Nat → Nat) :
    ((BluePill.MAXX ≤ x ∨ BluePill.MAXY ≤ y) →
      BluePill.setPixel x y f = f ∧ BluePill.clrPixel x y f = f) ∧
    ((BlackPill.MAXX ≤ x ∨ BlackPill.MAXY ≤ y) → BlackPill.setPixel x y c f = f) ∧
    ((RisibleRadar.MAXX ≤ x ∨ RisibleRadar.MAXY ≤ y) → RisibleRadar.drawPixel x y c f = f) ∧
    (-2147483648 ≤ i → i < 0 →
      BluePill.setPixel (u32 i) y f = f ∧ BluePill.setPixel x (u32 i) f = f ∧
      BluePill.clrPixel (u32 i) y f = f ∧ BluePill.clrPixel x (u32 i) f = f ∧
      BlackPill.setPixel (u32 i) y c f = f ∧ BlackPill.setPixel x (u32 i) c f = f ∧
      RisibleRadar.drawPixel (u32 i) y c f = f ∧
      RisibleRadar.drawPixel x (u32 i) c f = f) := by
  have blue : ∀ x y, (BluePill.MAXX ≤ x ∨ BluePill.MAXY ≤ y) →
      BluePill.setPixel x y f = f ∧ BluePill.clrPixel x y f = f := by
    intro x y h
    unfold BluePill.setPixel BluePill.clrPixel
    simp only [BluePill.MAXX, BluePill.MAXY] at h ⊢
    rw [if_neg (by omega), if_neg (by omega)]
    exact ⟨rfl, rfl⟩
  have black : ∀ x y, (BlackPill.MAXX ≤ x ∨ BlackPill.MAXY ≤ y) →
      BlackPill.setPixel x y c f = f := by
    intro x y h
    unfold BlackPill.setPixel
    simp only [BlackPill.MAXX, BlackPill.MAXY] at h ⊢
    rw [if_neg (by omega)]
  have radar : ∀ x y, (RisibleRadar.MAXX ≤ x ∨ RisibleRadar.MAXY ≤ y) →
      RisibleRadar.drawPixel x y c f = f := by
    intro x y h
    unfold RisibleRadar.drawPixel
    simp only [RisibleRadar.MAXX, RisibleRadar.MAXY] at h ⊢
    rw [if_neg (by omega)]
  refine ⟨blue x y, black x y, radar x y, ?_⟩
  intro h1 h2
  have hu : 128 ≤ u32 i := by unfold u32; omega
  exact ⟨(blue (u32 i) y (Or.inl hu)).1, (blue x (u32 i) (Or.inr (by
      simp only [BluePill.MAXY]; omega))).1,
    (blue (u32 i) y (Or.inl hu)).2, (blue x (u32 i) (Or.inr (by
      simp only [BluePill.MAXY]; omega))).2,
    black (u32 i) y (Or.inl hu), black x (u32 i) (Or.inr hu),
    radar (u32 i) y (Or.inl hu), radar x (u32 i) (Or.inr hu)⟩

theorem pixel_out_of_range_noop_witness :
    (BlackPill.MAXX ≤ 128 ∨ BlackPill.MAXY ≤ 5) ∧
    BlackPill.setPixel 128 5 BlackPill.SSD1351_RED (fun _ => 0) = (fun _ => 0) ∧
    BluePill.setPixel 3 (u32 (-1)) (fun _ => 0) = (fun _ => 0) :=
  ⟨by decide,
    (pixel_out_of_range_noop 128 5 BlackPill.SSD1351_RED (-1) (fun _ => 0)).2.1 (by decide),
    ((pixel_out_of_range_noop 3 5 BlackPill.SSD1351_RED (-1) (fun _ => 0)).2.2.2
      (by decide) (by decide)).2.1⟩

end SpiOled

namespace SpiOled

/-! ## Cell-local frame operations

A drawing operation is cell-local when the value it leaves in a cell depends
only on the value that cell had before. All drawing operations of the digit
renderer are of this kind. -/

theorem cl_foldl {α : Type} (step : (Nat → Nat) → α → (Nat → Nat)) (k : Nat)
    (hstep : ∀ (a : α) (f g : Nat → Nat), f k = g k → step f a k = step g a k)
    (l : List α) (f g : Nat → Nat) (h : f k = g k) :
    l.foldl step f k = l.foldl step g k := by
  induction l generalizing f g with
  | nil => exact h
  | cons a l ih => exact ih _ _ (hstep a f g h)

namespace BlackPill

theorem cl_frameStore (y x c : Nat) (f g : Frame) (k : Nat) (h : f k = g k) :
    frameStore f y x c k = frameStore g y x c k := by
  unfold frameStore
  split
  · rfl
  · exact h

theorem cl_frameStoreInt (y x : Int) (c : Nat) (f g : Frame) (k : Nat) (h : f k = g k) :
    frameStoreInt f y x c k = frameStoreInt g y x c k := by
  unfold frameStoreInt
  split
  · rfl
  · exact h

theorem cl_setHline (x1 x2 y c : Nat) (f g : Frame) (k : Nat) (h : f k = g k) :
    setHline x1 x2 y c f k = setHline x1 x2 y c g k := by
  unfold setHline
  exact cl_foldl _ k (fun a f g h => cl_frameStore y a c f g k h) _ f g h

theorem cl_setVline (x y1 y2 c : Nat) (f g : Frame) (k : Nat) (h : f k = g k) :
    setVline x y1 y2 c f k = setVline x y1 y2 c g k := by
  unfold setVline
  exact cl_foldl _ k (fun a f g h => cl_frameStore a x c f g k h) _ f g h

theorem cl_drawLed (x0 x y : Int) (c : Nat) (f g : Frame) (k : Nat) (h : f k = g k) :
    drawLed x0 x y c f k = drawLed x0 x y c g k := by
  unfold drawLed
  exact cl_setHline _ _ _ _ _ _ k (cl_setHline _ _ _ _ _ _ k (cl_setHline _ _ _ _ _ _ k h))

theorem cl_renderBitmap (x1 y1 wd ht : Int) (bitmap : Int → Nat) (stride : Int) (fg bg : Nat)
    (f g : Frame) (k : Nat) (h : f k = g k) :
    renderBitmap x1 y1 wd ht bitmap stride fg bg f k
      = renderBitmap x1 y1 wd ht bitmap stride fg bg g k := by
  unfold renderBitmap
  apply cl_foldl _ k _ _ f g h
  intro i f g h
  apply cl_foldl _ k _ _ f g h
  intro j f g h
  simp only
  split
  · exact cl_frameStoreInt _ _ _ f g k h
  · exact cl_frameStoreInt _ _ _ f g k h

theorem cl_drawSegA (x : Int) (style : STYLE) (c : Nat) (f g : Frame) (k : Nat)
    (h : f k = g k) : drawSegA x style c f k = drawSegA x style c g k := by
  cases style
  · simp only [drawSegA]
    exact (cl_setHline _ _ _ _ _ _ k (cl_setHline _ _ _ _ _ _ k h))
  · simp only [drawSegA]
    exact (cl_setHline _ _ _ _ _ _ k (cl_setHline _ _ _ _ _ _ k (cl_setHline _ _ _ _ _ _ k h)))
  · simp only [drawSegA]
    exact (cl_drawLed _ _ _ _ _ _ k (cl_drawLed _ _ _ _ _ _ k h))
  · simp only [drawSegA]
    exact (cl_setHline _ _ _ _ _ _ k (cl_setHline _ _ _ _ _ _ k (cl_setHline _ _ _ _ _ _ k h)))
  · simp only [drawSegA]
    exact h

theorem cl_drawSegB (x : Int) (style : STYLE) (c : Nat) (f g : Frame) (k : Nat)
    (h : f k = g k) : drawSegB x style c f k = drawSegB x style c g k := by
  cases style
  · simp only [drawSegB]
    exact (cl_setVline _ _ _ _ _ _ k (cl_setVline _ _ _ _ _ _ k h))
  · simp only [drawSegB]
    exact (cl_setVline _ _ _ _ _ _ k (cl_setVline _ _ _ _ _ _ k (cl_setVline _ _ _ _ _ _ k h)))
  · simp only [drawSegB]
    exact (cl_drawLed _ _ _ _ _ _ k (cl_drawLed _ _ _ _ _ _ k h))
  · simp only [drawSegB]
    exact (cl_setVline _ _ _ _ _ _ k (cl_setVline _ _ _ _ _ _ k (cl_setVline _ _ _ _ _ _ k h)))
  · simp only [drawSegB]
    exact h

theorem cl_drawSegC (x : Int) (style : STYLE) (c : Nat) (f g : Frame) (k : Nat)
    (h : f k = g k) : drawSegC x style c f k = drawSegC x style c g k := by
  cases style
  · simp only [drawSegC]
    exact (cl_setVline _ _ _ _ _ _ k (cl_setVline _ _ _ _ _ _ k h))
  · simp only [drawSegC]
    exact (cl_setVline _ _ _ _ _ _ k (cl_setVline _ _ _ _ _ _ k (cl_setVline _ _ _ _ _ _ k h)))
  · simp only [drawSegC]
    exact (cl_drawLed _ _ _ _ _ _ k (cl_drawLed _ _ _ _ _ _ k h))
  · simp only [drawSegC]
    exact (cl_setVline _ _ _ _ _ _ k (cl_setVline _ _ _ _ _ _ k (cl_setVline _ _ _ _ _ _ k h)))
  · simp only [drawSegC]
    exact h

theorem cl_drawSegD (x : Int) (style : STYLE) (c : Nat) (f g : Frame) (k : Nat)
    (h : f k = g k) : drawSegD x style c f k = drawSegD x style c g k := by
  cases style
  · simp only [drawSegD]
    exact (cl_setHline _ _ _ _ _ _ k (cl_setHline _ _ _ _ _ _ k h))
  · simp only [drawSegD]
    exact (cl_setHline _ _ _ _ _ _ k (cl_setHline _ _ _ _ _ _ k (cl_setHline _ _ _ _ _ _ k h)))
  · simp only [drawSegD]
    exact (cl_drawLed _ _ _ _ _ _ k (cl_drawLed _ _ _ _ _ _ k h))
  · simp only [drawSegD]
    exact (cl_setHline _ _ _ _ _ _ k (cl_setHline _ _ _ _ _ _ k (cl_setHline _ _ _ _ _ _ k h)))
  · simp only [drawSegD]
    exact h

theorem cl_drawSegE (x : Int) (style : STYLE) (c : Nat) (f g : Frame) (k : Nat)
    (h : f k = g k) : drawSegE x style c f k = drawSegE x style c g k := by
  cases style
  · simp only [drawSegE]
    exact (cl_setVline _ _ _ _ _ _ k (cl_setVline _ _ _ _ _ _ k h))
  · simp only [drawSegE]
    exact (cl_setVline _ _ _ _ _ _ k (cl_setVline _ _ _ _ _ _ k (cl_setVline _ _ _ _ _ _ k h)))
  · simp only [drawSegE]
    exact (cl_drawLed _ _ _ _ _ _ k (cl_drawLed _ _ _ _ _ _ k h))
  · simp only [drawSegE]
    exact (cl_setVline _ _ _ _ _ _ k (cl_setVline _ _ _ _ _ _ k (cl_setVline _ _ _ _ _ _ k h)))
  · simp only [drawSegE]
    exact h

theorem cl_drawSegF (x : Int) (style : STYLE) (c : Nat) (f g : Frame) (k : Nat)
    (h : f k = g k) : drawSegF x style c f k = drawSegF x style c g k := by
  cases style
  · simp only [drawSegF]
    exact (cl_setVline _ _ _ _ _ _ k (cl_setVline _ _ _ _ _ _ k h))
  · simp only [drawSegF]
    exact (cl_setVline _ _ _ _ _ _ k (cl_setVline _ _ _ _ _ _ k (cl_setVline _ _ _ _ _ _ k h)))
  · simp only [drawSegF]
    exact (cl_drawLed _ _ _ _ _ _ k (cl_drawLed _ _ _ _ _ _ k h))
  · simp only [drawSegF]
    exact (cl_setVline _ _ _ _ _ _ k (cl_setVline _ _ _ _ _ _ k (cl_setVline _ _ _ _ _ _ k h)))
  · simp only [drawSegF]
    exact h

theorem cl_drawSegG (x : Int) (style : STYLE) (c : Nat) (f g : Frame) (k : Nat)
    (h : f k = g k) : drawSegG x style c f k = drawSegG x style c g k := by
  cases style
  · simp only [drawSegG]
    exact (cl_setHline _ _ _ _ _ _ k (cl_setHline _ _ _ _ _ _ k h))
  · simp only [drawSegG]
    exact (cl_setHline _ _ _ _ _ _ k (cl_setHline _ _ _ _ _ _ k (cl_setHline _ _ _ _ _ _ k h)))
  · simp only [drawSegG]
    exact (cl_drawLed _ _ _ _ _ _ k (cl_drawLed _ _ _ _ _ _ k h))
  · simp only [drawSegG]
    exact (cl_setHline _ _ _ _ _ _ k (cl_setHline _ _ _ _ _ _ k (cl_setHline _ _ _ _ _ _ k h)))
  · simp only [drawSegG]
    exact h

theorem cl_drawSegH (x : Int) (style : STYLE) (c : Nat) (f g : Frame) (k : Nat)
    (h : f k = g k) : drawSegH x style c f k = drawSegH x style c g k := by
  cases style
  · simp only [drawSegH]
    exact (cl_setHline _ _ _ _ _ _ k (cl_setHline _ _ _ _ _ _ k h))
  · simp only [drawSegH]
    exact (cl_setHline _ _ _ _ _ _ k (cl_setHline _ _ _ _ _ _ k (cl_setHline _ _ _ _ _ _ k h)))
  · simp only [drawSegH]
    exact (cl_drawLed _ _ _ _ _ _ k h)
  · simp only [drawSegH]
    exact (cl_setHline _ _ _ _ _ _ k (cl_setHline _ _ _ _ _ _ k (cl_setHline _ _ _ _ _ _ k h)))
  · simp only [drawSegH]
    exact h

theorem cl_drawSegI (x : Int) (style : STYLE) (c : Nat) (f g : Frame) (k : Nat)
    (h : f k = g k) : drawSegI x style c f k = drawSegI x style c g k := by
  cases style
  · simp only [drawSegI]
    exact h
  · simp only [drawSegI]
    exact h
  · simp only [drawSegI]
    exact (cl_drawLed _ _ _ _ _ _ k h)
  · simp only [drawSegI]
    exact h
  · simp only [drawSegI]
    exact h

theorem cl_drawSegJ (x : Int) (style : STYLE) (c : Nat) (f g : Frame) (k : Nat)
    (h : f k = g k) : drawSegJ x style c f k = drawSegJ x style c g k := by
  cases style
  · simp only [drawSegJ]
    exact h
  · simp only [drawSegJ]
    exact h
  · simp only [drawSegJ]
    exact (cl_drawLed _ _ _ _ _ _ k h)
  · simp only [drawSegJ]
    exact h
  · simp only [drawSegJ]
    exact h

theorem cl_drawSegK (x : Int) (style : STYLE) (c : Nat) (f g : Frame) (k : Nat)
    (h : f k = g k) : drawSegK x style c f k = drawSegK x style c g k := by
  cases style
  · simp only [drawSegK]
    exact h
  · simp only [drawSegK]
    exact h
  · simp only [drawSegK]
    exact (cl_drawLed _ _ _ _ _ _ k h)
  · simp only [drawSegK]
    exact h
  · simp only [drawSegK]
    exact h

theorem cl_drawSegL (x : Int) (style : STYLE) (c : Nat) (f g : Frame) (k : Nat)
    (h : f k = g k) : drawSegL x style c f k = drawSegL x style c g k := by
  cases style
  · simp only [drawSegL]
    exact h
  · simp only [drawSegL]
    exact h
  · simp only [drawSegL]
    exact (cl_drawLed _ _ _ _ _ _ k h)
  · simp only [drawSegL]
    exact h
  · simp only [drawSegL]
    exact h

theorem cl_drawSegM (x : Int) (style : STYLE) (c : Nat) (f g : Frame) (k : Nat)
    (h : f k = g k) : drawSegM x style c f k = drawSegM x style c g k := by
  cases style
  · simp only [drawSegM]
    exact h
  · simp only [drawSegM]
    exact h
  · simp only [drawSegM]
    exact (cl_drawLed _ _ _ _ _ _ k h)
  · simp only [drawSegM]
    exact h
  · simp only [drawSegM]
    exact h

theorem cl_drawSegN (x : Int) (style : STYLE) (c : Nat) (f g : Frame) (k : Nat)
    (h : f k = g k) : drawSegN x style c f k = drawSegN x style c g k := by
  cases style
  · simp only [drawSegN]
    exact h
  · simp only [drawSegN]
    exact h
  · simp only [drawSegN]
    exact (cl_drawLed _ _ _ _ _ _ k h)
  · simp only [drawSegN]
    exact h
  · simp only [drawSegN]
    exact h

theorem cl_drawSegDP (x : Int) (style : STYLE) (c : Nat) (f g : Frame) (k : Nat)
    (h : f k = g k) : drawSegDP x style c f k = drawSegDP x style c g k := by
  cases style
  · simp only [drawSegDP]
    exact (cl_setHline _ _ _ _ _ _ k (cl_setHline _ _ _ _ _ _ k (cl_setHline _ _ _ _ _ _ k h)))
  · simp only [drawSegDP]
    exact (cl_setHline _ _ _ _ _ _ k (cl_setHline _ _ _ _ _ _ k (cl_setHline _ _ _ _ _ _ k h)))
  · simp only [drawSegDP]
    exact (cl_drawLed _ _ _ _ _ _ k h)
  · simp only [drawSegDP]
    exact (cl_setHline _ _ _ _ _ _ k (cl_setHline _ _ _ _ _ _ k (cl_setHline _ _ _ _ _ _ k h)))
  · simp only [drawSegDP]
    exact (cl_setHline _ _ _ _ _ _ k (cl_setHline _ _ _ _ _ _ k (cl_setHline _ _ _ _ _ _ k h)))

theorem cl_drawSegCN (x : Int) (style : STYLE) (c : Nat) (f g : Frame) (k : Nat)
    (h : f k = g k) : drawSegCN x style c f k = drawSegCN x style c g k := by
  cases style
  · simp only [drawSegCN]
    exact (cl_setHline _ _ _ _ _ _ k (cl_setHline _ _ _ _ _ _ k (cl_setHline _ _ _ _ _ _ k (cl_setHline _ _ _ _ _ _ k h))))
  · simp only [drawSegCN]
    exact (cl_setHline _ _ _ _ _ _ k (cl_setHline _ _ _ _ _ _ k (cl_setHline _ _ _ _ _ _ k (cl_setHline _ _ _ _ _ _ k (cl_setHline _ _ _ _ _ _ k (cl_setHline _ _ _ _ _ _ k h))))))
  · simp only [drawSegCN]
    exact (cl_drawLed _ _ _ _ _ _ k (cl_drawLed _ _ _ _ _ _ k h))
  · simp only [drawSegCN]
    exact (cl_setHline _ _ _ _ _ _ k (cl_setHline _ _ _ _ _ _ k (cl_setHline _ _ _ _ _ _ k (cl_setHline _ _ _ _ _ _ k (cl_setHline _ _ _ _ _ _ k (cl_setHline _ _ _ _ _ _ k h))))))
  · simp only [drawSegCN]
    exact (cl_setHline _ _ _ _ _ _ k (cl_setHline _ _ _ _ _ _ k (cl_setHline _ _ _ _ _ _ k (cl_setHline _ _ _ _ _ _ k (cl_setHline _ _ _ _ _ _ k (cl_setHline _ _ _ _ _ _ k h))))))

theorem cl_drawSeg (s : Segment) (x : Int) (style : STYLE) (c : Nat) (f g : Frame) (k : Nat)
    (h : f k = g k) : drawSeg s x style c f k = drawSeg s x style c g k := by
  cases s <;> simp only [drawSeg]
  · exact cl_drawSegA x style c f g k h
  · exact cl_drawSegB x style c f g k h
  · exact cl_drawSegC x style c f g k h
  · exact cl_drawSegD x style c f g k h
  · exact cl_drawSegE x style c f g k h
  · exact cl_drawSegF x style c f g k h
  · exact cl_drawSegG x style c f g k h
  · exact cl_drawSegH x style c f g k h
  · exact cl_drawSegI x style c f g k h
  · exact cl_drawSegJ x style c f g k h
  · exact cl_drawSegK x style c f g k h
  · exact cl_drawSegL x style c f g k h
  · exact cl_drawSegM x style c f g k h
  · exact cl_drawSegN x style c f g k h
  · exact cl_drawSegDP x style c f g k h
  · exact cl_drawSegCN x style c f g k h

theorem cl_renderHexDigit (P : Int → Nat) (x digit : Int) (style : STYLE) (c : Nat)
    (f g : Frame) (k : Nat) (h : f k = g k) :
    renderHexDigit P x digit style c f k = renderHexDigit P x digit style c g k := by
  unfold renderHexDigit
  split
  · exact cl_renderBitmap _ _ _ _ _ _ _ _ f g k h
  · unfold drawSegs
    exact cl_foldl _ k (fun s f g h => cl_drawSeg s x style c f g k h) _ f g h

theorem cl_renderClockDisplay (P : Int → Nat) (clock : Clock) (w : Int) (style : STYLE)
    (c : Nat) (f g : Frame) (k : Nat) (h : f k = g k) :
    renderClockDisplay P clock w style c f k = renderClockDisplay P clock w style c g k := by
  unfold renderClockDisplay
  exact cl_renderHexDigit _ _ _ _ _ _ _ k (cl_renderHexDigit _ _ _ _ _ _ _ k
    (cl_renderHexDigit _ _ _ _ _ _ _ k (cl_renderHexDigit _ _ _ _ _ _ _ k
      (cl_renderHexDigit _ _ _ _ _ _ _ k (cl_renderHexDigit _ _ _ _ _ _ _ k h)))))

theorem renderClockDisplay_hms (P : Int → Nat) (c1 c2 : Clock) (w : Int) (style : STYLE)
    (c : Nat) (f : Frame) (hH : c1.Hour = c2.Hour) (hM : c1.Minute = c2.Minute)
    (hS : c1.Second = c2.Second) :
    renderClockDisplay P c1 w style c f = renderClockDisplay P c2 w style c f := by
  unfold renderClockDisplay
  rw [hH, hM, hS]

theorem serviceRtcTick_frame (a : Assets) (m : Main)
    (hmode : m.displayMode = .AUTO_HMS_MODE) (htick : m.clock.RtcTick ≠ 0) :
    (serviceRtcTick a m).frame
      = renderClockDisplay a.PetrolDigits m.clock width m.style m.colour
          (memsetFrame (frameCells / 4) m.frame) := by
  unfold serviceRtcTick
  simp [hmode, htick, updscreen]

end BlackPill

namespace BluePill

theorem cl_frameOr_blue (row x b : Nat) (f g : Frame) (k : Nat) (h : f k = g k) :
    frameOr f row x b k = frameOr g row x b k := by
  unfold frameOr
  split
  · rw [h]
  · exact h

theorem cl_setPixel_blue (x y : Nat) (f g : Frame) (k : Nat) (h : f k = g k) :
    setPixel x y f k = setPixel x y g k := by
  unfold setPixel
  split
  · exact cl_frameOr_blue _ _ _ f g k h
  · exact h

theorem cl_setHline_blue (x1 x2 y : Nat) (f g : Frame) (k : Nat) (h : f k = g k) :
    setHline x1 x2 y f k = setHline x1 x2 y g k := by
  unfold setHline
  exact cl_foldl _ k (fun a f g h => cl_frameOr_blue _ a _ f g k h) _ f g h

theorem cl_setVline_blue (x y1 y2 : Nat) (f g : Frame) (k : Nat) (h : f k = g k) :
    setVline x y1 y2 f k = setVline x y1 y2 g k := by
  unfold setVline
  exact cl_foldl _ k (fun a f g h => cl_setPixel_blue x a f g k h) _ f g h

theorem cl_drawLed_blue (x0 x y : Int) (f g : Frame) (k : Nat) (h : f k = g k) :
    drawLed x0 x y f k = drawLed x0 x y g k := by
  unfold drawLed
  exact cl_setHline_blue _ _ _ _ _ k (cl_setHline_blue _ _ _ _ _ k
    (cl_setHline_blue _ _ _ _ _ k h))

theorem cl_drawSegA_blue (x : Int) (style : STYLE) (f g : Frame) (k : Nat)
    (h : f k = g k) : drawSegA x style f k = drawSegA x style g k := by
  cases style
  · simp only [drawSegA]
    exact (cl_setHline_blue _ _ _ _ _ k (cl_setHline_blue _ _ _ _ _ k h))
  · simp only [drawSegA]
    exact (cl_setHline_blue _ _ _ _ _ k (cl_setHline_blue _ _ _ _ _ k (cl_setHline_blue _ _ _ _ _ k h)))
  · simp only [drawSegA]
    exact (cl_drawLed_blue _ _ _ _ _ k (cl_drawLed_blue _ _ _ _ _ k h))
  · simp only [drawSegA]
    exact (cl_setHline_blue _ _ _ _ _ k (cl_setHline_blue _ _ _ _ _ k (cl_setHline_blue _ _ _ _ _ k h)))

theorem cl_drawSegB_blue (x : Int) (style : STYLE) (f g : Frame) (k : Nat)
    (h : f k = g k) : drawSegB x style f k = drawSegB x style g k := by
  cases style
  · simp only [drawSegB]
    exact (cl_setVline_blue _ _ _ _ _ k (cl_setVline_blue _ _ _ _ _ k h))
  · simp only [drawSegB]
    exact (cl_setVline_blue _ _ _ _ _ k (cl_setVline_blue _ _ _ _ _ k (cl_setVline_blue _ _ _ _ _ k h)))
  · simp only [drawSegB]
    exact (cl_drawLed_blue _ _ _ _ _ k (cl_drawLed_blue _ _ _ _ _ k h))
  · simp only [drawSegB]
    exact (cl_setVline_blue _ _ _ _ _ k (cl_setVline_blue _ _ _ _ _ k (cl_setVline_blue _ _ _ _ _ k h)))

theorem cl_drawSegC_blue (x : Int) (style : STYLE) (f g : Frame) (k : Nat)
    (h : f k = g k) : drawSegC x style f k = drawSegC x style g k := by
  cases style
  · simp only [drawSegC]
    exact (cl_setVline_blue _ _ _ _ _ k (cl_setVline_blue _ _ _ _ _ k h))
  · simp only [drawSegC]
    exact (cl_setVline_blue _ _ _ _ _ k (cl_setVline_blue _ _ _ _ _ k (cl_setVline_blue _ _ _ _ _ k h)))
  · simp only [drawSegC]
    exact (cl_drawLed_blue _ _ _ _ _ k (cl_drawLed_blue _ _ _ _ _ k h))
  · simp only [drawSegC]
    exact (cl_setVline_blue _ _ _ _ _ k (cl_setVline_blue _ _ _ _ _ k (cl_setVline_blue _ _ _ _ _ k h)))

theorem cl_drawSegD_blue (x : Int) (style : STYLE) (f g : Frame) (k : Nat)
    (h : f k = g k) : drawSegD x style f k = drawSegD x style g k := by
  cases style
  · simp only [drawSegD]
    exact (cl_setHline_blue _ _ _ _ _ k (cl_setHline_blue _ _ _ _ _ k h))
  · simp only [drawSegD]
    exact (cl_setHline_blue _ _ _ _ _ k (cl_setHline_blue _ _ _ _ _ k (cl_setHline_blue _ _ _ _ _ k h)))
  · simp only [drawSegD]
    exact (cl_drawLed_blue _ _ _ _ _ k (cl_drawLed_blue _ _ _ _ _ k h))
  · simp only [drawSegD]
    exact (cl_setHline_blue _ _ _ _ _ k (cl_setHline_blue _ _ _ _ _ k (cl_setHline_blue _ _ _ _ _ k h)))

theorem cl_drawSegE_blue (x : Int) (style : STYLE) (f g : Frame) (k : Nat)
    (h : f k = g k) : drawSegE x style f k = drawSegE x style g k := by
  cases style
  · simp only [drawSegE]
    exact (cl_setVline_blue _ _ _ _ _ k (cl_setVline_blue _ _ _ _ _ k h))
  · simp only [drawSegE]
    exact (cl_setVline_blue _ _ _ _ _ k (cl_setVline_blue _ _ _ _ _ k (cl_setVline_blue _ _ _ _ _ k h)))
  · simp only [drawSegE]
    exact (cl_drawLed_blue _ _ _ _ _ k (cl_drawLed_blue _ _ _ _ _ k h))
  · simp only [drawSegE]
    exact (cl_setVline_blue _ _ _ _ _ k (cl_setVline_blue _ _ _ _ _ k (cl_setVline_blue _ _ _ _ _ k h)))

theorem cl_drawSegF_blue (x : Int) (style : STYLE) (f g : Frame) (k : Nat)
    (h : f k = g k) : drawSegF x style f k = drawSegF x style g k := by
  cases style
  · simp only [drawSegF]
    exact (cl_setVline_blue _ _ _ _ _ k (cl_setVline_blue _ _ _ _ _ k h))
  · simp only [drawSegF]
    exact (cl_setVline_blue _ _ _ _ _ k (cl_setVline_blue _ _ _ _ _ k (cl_setVline_blue _ _ _ _ _ k h)))
  · simp only [drawSegF]
    exact (cl_drawLed_blue _ _ _ _ _ k (cl_drawLed_blue _ _ _ _ _ k h))
  · simp only [drawSegF]
    exact (cl_setVline_blue _ _ _ _ _ k (cl_setVline_blue _ _ _ _ _ k (cl_setVline_blue _ _ _ _ _ k h)))

theorem cl_drawSegG_blue (x : Int) (style : STYLE) (f g : Frame) (k : Nat)
    (h : f k = g k) : drawSegG x style f k = drawSegG x style g k := by
  cases style
  · simp only [drawSegG]
    exact (cl_setHline_blue _ _ _ _ _ k (cl_setHline_blue _ _ _ _ _ k h))
  · simp only [drawSegG]
    exact (cl_setHline_blue _ _ _ _ _ k (cl_setHline_blue _ _ _ _ _ k (cl_setHline_blue _ _ _ _ _ k h)))
  · simp only [drawSegG]
    exact (cl_drawLed_blue _ _ _ _ _ k (cl_drawLed_blue _ _ _ _ _ k h))
  · simp only [drawSegG]
    exact (cl_setHline_blue _ _ _ _ _ k (cl_setHline_blue _ _ _ _ _ k (cl_setHline_blue _ _ _ _ _ k h)))

theorem cl_drawSegH_blue (x : Int) (style : STYLE) (f g : Frame) (k : Nat)
    (h : f k = g k) : drawSegH x style f k = drawSegH x style g k := by
  cases style
  · simp only [drawSegH]
    exact (cl_setHline_blue _ _ _ _ _ k (cl_setHline_blue _ _ _ _ _ k h))
  · simp only [drawSegH]
    exact (cl_setHline_blue _ _ _ _ _ k (cl_setHline_blue _ _ _ _ _ k (cl_setHline_blue _ _ _ _ _ k h)))
  · simp only [drawSegH]
    exact (cl_drawLed_blue _ _ _ _ _ k h)
  · simp only [drawSegH]
    exact (cl_setHline_blue _ _ _ _ _ k (cl_setHline_blue _ _ _ _ _ k (cl_setHline_blue _ _ _ _ _ k h)))

theorem cl_drawSegI_blue (x : Int) (style : STYLE) (f g : Frame) (k : Nat)
    (h : f k = g k) : drawSegI x style f k = drawSegI x style g k := by
  cases style
  · simp only [drawSegI]
    exact h
  · simp only [drawSegI]
    exact h
  · simp only [drawSegI]
    exact (cl_drawLed_blue _ _ _ _ _ k h)
  · simp only [drawSegI]
    exact h

theorem cl_drawSegJ_blue (x : Int) (style : STYLE) (f g : Frame) (k : Nat)
    (h : f k = g k) : drawSegJ x style f k = drawSegJ x style g k := by
  cases style
  · simp only [drawSegJ]
    exact h
  · simp only [drawSegJ]
    exact h
  · simp only [drawSegJ]
    exact (cl_drawLed_blue _ _ _ _ _ k h)
  · simp only [drawSegJ]
    exact h

theorem cl_drawSegK_blue (x : Int) (style : STYLE) (f g : Frame) (k : Nat)
    (h : f k = g k) : drawSegK x style f k = drawSegK x style g k := by
  cases style
  · simp only [drawSegK]
    exact h
  · simp only [drawSegK]
    exact h
  · simp only [drawSegK]
    exact (cl_drawLed_blue _ _ _ _ _ k h)
  · simp only [drawSegK]
    exact h

theorem cl_drawSegL_blue (x : Int) (style : STYLE) (f g : Frame) (k : Nat)
    (h : f k = g k) : drawSegL x style f k = drawSegL x style g k := by
  cases style
  · simp only [drawSegL]
    exact h
  · simp only [drawSegL]
    exact h
  · simp only [drawSegL]
    exact (cl_drawLed_blue _ _ _ _ _ k h)
  · simp only [drawSegL]
    exact h

theorem cl_drawSegM_blue (x : Int) (style : STYLE) (f g : Frame) (k : Nat)
    (h : f k = g k) : drawSegM x style f k = drawSegM x style g k := by
  cases style
  · simp only [drawSegM]
    exact h
  · simp only [drawSegM]
    exact h
  · simp only [drawSegM]
    exact (cl_drawLed_blue _ _ _ _ _ k h)
  · simp only [drawSegM]
    exact h

theorem cl_drawSegN_blue (x : Int) (style : STYLE) (f g : Frame) (k : Nat)
    (h : f k = g k) : drawSegN x style f k = drawSegN x style g k := by
  cases style
  · simp only [drawSegN]
    exact h
  · simp only [drawSegN]
    exact h
  · simp only [drawSegN]
    exact (cl_drawLed_blue _ _ _ _ _ k h)
  · simp only [drawSegN]
    exact h

theorem cl_drawSegDP_blue (x : Int) (style : STYLE) (f g : Frame) (k : Nat)
    (h : f k = g k) : drawSegDP x style f k = drawSegDP x style g k := by
  cases style
  · simp only [drawSegDP]
    exact (cl_setHline_blue _ _ _ _ _ k (cl_setHline_blue _ _ _ _ _ k (cl_setHline_blue _ _ _ _ _ k h)))
  · simp only [drawSegDP]
    exact (cl_setHline_blue _ _ _ _ _ k (cl_setHline_blue _ _ _ _ _ k (cl_setHline_blue _ _ _ _ _ k h)))
  · simp only [drawSegDP]
    exact (cl_drawLed_blue _ _ _ _ _ k h)
  · simp only [drawSegDP]
    exact (cl_setHline_blue _ _ _ _ _ k (cl_setHline_blue _ _ _ _ _ k (cl_setHline_blue _ _ _ _ _ k h)))

theorem cl_drawSegCN_blue (x : Int) (style : STYLE) (f g : Frame) (k : Nat)
    (h : f k = g k) : drawSegCN x style f k = drawSegCN x style g k := by
  cases style
  · simp only [drawSegCN]
    exact (cl_setHline_blue _ _ _ _ _ k (cl_setHline_blue _ _ _ _ _ k (cl_setHline_blue _ _ _ _ _ k (cl_setHline_blue _ _ _ _ _ k h))))
  · simp only [drawSegCN]
    exact (cl_setHline_blue _ _ _ _ _ k (cl_setHline_blue _ _ _ _ _ k (cl_setHline_blue _ _ _ _ _ k (cl_setHline_blue _ _ _ _ _ k (cl_setHline_blue _ _ _ _ _ k (cl_setHline_blue _ _ _ _ _ k h))))))
  · simp only [drawSegCN]
    exact (cl_drawLed_blue _ _ _ _ _ k (cl_drawLed_blue _ _ _ _ _ k h))
  · simp only [drawSegCN]
    exact (cl_setHline_blue _ _ _ _ _ k (cl_setHline_blue _ _ _ _ _ k (cl_setHline_blue _ _ _ _ _ k (cl_setHline_blue _ _ _ _ _ k (cl_setHline_blue _ _ _ _ _ k (cl_setHline_blue _ _ _ _ _ k h))))))

theorem cl_drawSeg_blue (s : Segment) (x : Int) (style : STYLE) (f g : Frame) (k : Nat)
    (h : f k = g k) : drawSeg s x style f k = drawSeg s x style g k := by
  cases s <;> simp only [drawSeg]
  · exact cl_drawSegA_blue x style f g k h
  · exact cl_drawSegB_blue x style f g k h
  · exact cl_drawSegC_blue x style f g k h
  · exact cl_drawSegD_blue x style f g k h
  · exact cl_drawSegE_blue x style f g k h
  · exact cl_drawSegF_blue x style f g k h
  · exact cl_drawSegG_blue x style f g k h
  · exact cl_drawSegH_blue x style f g k h
  · exact cl_drawSegI_blue x style f g k h
  · exact cl_drawSegJ_blue x style f g k h
  · exact cl_drawSegK_blue x style f g k h
  · exact cl_drawSegL_blue x style f g k h
  · exact cl_drawSegM_blue x style f g k h
  · exact cl_drawSegN_blue x style f g k h
  · exact cl_drawSegDP_blue x style f g k h
  · exact cl_drawSegCN_blue x style f g k h

theorem cl_renderHexDigit_blue (x digit : Int) (style : STYLE)
    (f g : Frame) (k : Nat) (h : f k = g k) :
    renderHexDigit x digit style f k = renderHexDigit x digit style g k := by
  unfold renderHexDigit drawSegs
  exact cl_foldl _ k (fun s f g h => cl_drawSeg_blue s x style f g k h) _ f g h

theorem cl_renderClockDisplay_blue (clock : Clock) (w : Int) (style : STYLE)
    (f g : Frame) (k : Nat) (h : f k = g k) :
    renderClockDisplay clock w style f k = renderClockDisplay clock w style g k := by
  unfold renderClockDisplay
  exact cl_renderHexDigit_blue _ _ _ _ _ k (cl_renderHexDigit_blue _ _ _ _ _ k
    (cl_renderHexDigit_blue _ _ _ _ _ k (cl_renderHexDigit_blue _ _ _ _ _ k
      (cl_renderHexDigit_blue _ _ _ _ _ k (cl_renderHexDigit_blue _ _ _ _ _ k h)))))

theorem renderClockDisplay_hms_blue (c1 c2 : Clock) (w : Int) (style : STYLE)
    (f : Frame) (hH : c1.Hour = c2.Hour) (hM : c1.Minute = c2.Minute)
    (hS : c1.Second = c2.Second) :
    renderClockDisplay c1 w style f = renderClockDisplay c2 w style f := by
  unfold renderClockDisplay
  rw [hH, hM, hS]

theorem serviceRtcTick_frame_blue (m : Main)
    (hmode : m.displayMode = .AUTO_HMS_MODE) (htick : m.clock.RtcTick ≠ 0) :
    (serviceRtcTick m).frame
      = renderClockDisplay m.clock width m.style (memsetFrame frameCells m.frame) := by
  unfold serviceRtcTick
  simp [hmode, htick, updscreen]

end BluePill

/-- C17. AutoClock repaint leaves no stale pixels, on both boards: in
AUTO_HMS_MODE, after the main loop has serviced an RTC tick, rows 0 to 31 of
the frame buffer (cells 0..4095 of the colour frame, the whole 512-cell
monochrome frame) are the rendering of the six clock digits on an all-zero
background; they depend only on Hour, Minute, Second, the style and the
colour, so two runs that differ only in the prior frame contents give the
same rows 0 to 31. -/
theorem autoclock_repaint_no_stale (a : BlackPill.Assets) (m1 m2 : BlackPill.Main)
    (n1 n2 : BluePill.Main)
    (hmode1 : m1.displayMode = .AUTO_HMS_MODE) (hmode2 : m2.displayMode = .AUTO_HMS_MODE)
    (htick1 : m1.clock.RtcTick ≠ 0) (htick2 : m2.clock.RtcTick ≠ 0)
    (hH : m1.clock.Hour = m2.clock.Hour) (hM : m1.clock.Minute = m2.clock.Minute)
    (hS : m1.clock.Second = m2.clock.Second)
    (hstyle : m1.style = m2.style) (hcolour : m1.colour = m2.colour)
    (gmode1 : n1.displayMode = .AUTO_HMS_MODE) (gmode2 : n2.displayMode = .AUTO_HMS_MODE)
    (gtick1 : n1.clock.RtcTick ≠ 0) (gtick2 : n2.clock.RtcTick ≠ 0)
    (gH : n1.clock.Hour = n2.clock.Hour) (gM : n1.clock.Minute = n2.clock.Minute)
    (gS : n1.clock.Second = n2.clock.Second) (gstyle : n1.style = n2.style) :
    (∀ k, k < 32 * BlackPill.MAXX →
      (BlackPill.serviceRtcTick a m1).frame k
        = BlackPill.renderClockDisplay a.PetrolDigits m1.clock BlackPill.width m1.style
            m1.colour (fun _ => 0) k ∧
      (BlackPill.serviceRtcTick a m1).frame k = (BlackPill.serviceRtcTick a m2).frame k) ∧
    (∀ k, k < 4 * BluePill.MAXX →
      (BluePill.serviceRtcTick n1).frame k
        = BluePill.renderClockDisplay n1.clock BluePill.width n1.style (fun _ => 0) k ∧
      (BluePill.serviceRtcTick n1).frame k = (BluePill.serviceRtcTick n2).frame k) := by
  have black : ∀ (m : BlackPill.Main), m.displayMode = .AUTO_HMS_MODE →
      m.clock.RtcTick ≠ 0 → ∀ k, k < 32 * BlackPill.MAXX →
      (BlackPill.serviceRtcTick a m).frame k
        = BlackPill.renderClockDisplay a.PetrolDigits m.clock BlackPill.width m.style
            m.colour (fun _ => 0) k := by
    intro m hm ht k hk
    rw [BlackPill.serviceRtcTick_frame a m hm ht]
    apply BlackPill.cl_renderClockDisplay
    simp only [BlackPill.memsetFrame, BlackPill.frameCells, BlackPill.MAXX, BlackPill.MAXY]
      at hk ⊢
    rw [if_pos (by omega)]
  have blue : ∀ (n : BluePill.Main), n.displayMode = .AUTO_HMS_MODE →
      n.clock.RtcTick ≠ 0 → ∀ k, k < 4 * BluePill.MAXX →
      (BluePill.serviceRtcTick n).frame k
        = BluePill.renderClockDisplay n.clock BluePill.width n.style (fun _ => 0) k := by
    intro n hn ht k hk
    rw [BluePill.serviceRtcTick_frame_blue n hn ht]
    apply BluePill.cl_renderClockDisplay_blue
    simp only [BluePill.memsetFrame, BluePill.frameCells, BluePill.MAXX, BluePill.MAXROWS]
      at hk ⊢
    rw [if_pos (by omega)]
  refine ⟨fun k hk => ⟨black m1 hmode1 htick1 k hk, ?_⟩, fun k hk => ⟨blue n1 gmode1 gtick1 k hk, ?_⟩⟩
  · rw [black m1 hmode1 htick1 k hk, black m2 hmode2 htick2 k hk, hstyle, hcolour,
      BlackPill.renderClockDisplay_hms a.PetrolDigits m1.clock m2.clock _ _ _ _ hH hM hS]
  · rw [blue n1 gmode1 gtick1 k hk, blue n2 gmode2 gtick2 k hk, gstyle,
      BluePill.renderClockDisplay_hms_blue n1.clock n2.clock _ _ _ gH gM gS]

end SpiOled

namespace RisibleRadar

open SpiOled

/-! ## Risible Radar: target pickup -/

theorem floatToInt_abs_lt (q : ℚ) : ((floatToInt q).natAbs : ℚ) < 6 ↔ |q| < 6 := by
  have hcast : ((floatToInt q).natAbs : ℚ) < 6 ↔ (floatToInt q).natAbs < 6 := by
    exact_mod_cast Iff.rfl
  rw [hcast]
  unfold floatToInt
  split
  · rename_i h
    rw [abs_of_nonneg h]
    have h0 : 0 ≤ ⌊q⌋ := Int.floor_nonneg.mpr h
    constructor
    · intro hh
      have : ⌊q⌋ < 6 := by omega
      exact Int.floor_lt.mp this
    · intro hh
      have : ⌊q⌋ < 6 := Int.floor_lt.mpr hh
      omega
  · rename_i h
    push_neg at h
    rw [abs_of_neg h]
    have h0 : ⌈q⌉ ≤ 0 := Int.ceil_le.mpr (by exact_mod_cast h.le)
    constructor
    · intro hh
      have h1 : -6 < ⌈q⌉ := by omega
      have h2 := Int.lt_ceil.mp h1
      push_cast at h2
      linarith
    · intro hh
      have h1 : ((-6 : Int) : ℚ) < q := by push_cast; linarith
      have h2 := Int.lt_ceil.mpr h1
      omega

theorem arraySet_same {α : Type} (arr : Nat → α) (i : Nat) (v : α) :
    arraySet arr i v i = v := by
  simp [arraySet]

theorem arraySet_other {α : Type} (arr : Nat → α) (i j : Nat) (v : α) (h : j ≠ i) :
    arraySet arr i v j = arr j := by
  simp [arraySet, h]

theorem makeEcho_Target (g : Game) (t : Nat) : (makeEcho g t).Target = g.Target := rfl

theorem makeEcho_Gather_y (g : Game) (t : Nat) : (makeEcho g t).Gather_y = g.Gather_y := rfl

theorem pickUp_Target_same (g : Game) (t : Nat) :
    ((pickUp g t).Target t).active = false ∧ ((pickUp g t).Target t).y = u32 g.Gather_y ∧
    (pickUp g t).Gather_y = g.Gather_y + 6 := by
  simp [pickUp, setTarget, arraySet_same]

theorem pickUp_Target_other (g : Game) (t t' : Nat) (h : t ≠ t') :
    (pickUp g t').Target t = g.Target t := by
  simp [pickUp, setTarget, arraySet_other, h]

theorem echoPart_Target_other (r : Int) (frange pickup : ℚ) (g : Game) (t t' : Nat)
    (h : t ≠ t') : (echoPart r frange pickup g t').Target t = g.Target t := by
  unfold echoPart
  by_cases h1 : ((floatToInt ((g.Target t').bearing - (r : ℚ))).natAbs : ℚ) < 6
  · rw [if_pos h1]
    by_cases h2 : (g.Target t').range < frange
    · rw [if_pos h2]
      simp only [makeEcho_Target]
      by_cases h3 : (g.Target t').range < pickup
      · rw [if_pos h3, pickUp_Target_other _ t t' h, makeEcho_Target]
      · rw [if_neg h3, makeEcho_Target]
    · rw [if_neg h2]
  · rw [if_neg h1]

theorem bonusPart_Target_other (pickup : ℚ) (g : Game) (t t' : Nat) (h : t ≠ t') :
    (bonusPart pickup g t').Target t = g.Target t := by
  unfold bonusPart
  simp only [setTarget]
  split_ifs <;> simp [arraySet_other, h]

theorem bonusPart_keeps (pickup : ℚ) (g : Game) (t : Nat) :
    ((bonusPart pickup g t).Target t).active = (g.Target t).active ∧
    ((bonusPart pickup g t).Target t).y = (g.Target t).y ∧
    (bonusPart pickup g t).Gather_y = g.Gather_y := by
  unfold bonusPart
  simp only [setTarget]
  split_ifs <;> simp [arraySet_same]

theorem findNewEcho_target_other (r : Int) (frange pickup : ℚ) (g : Game) (t t' : Nat)
    (h : t ≠ t') : (findNewEcho r frange pickup g t').Target t = g.Target t := by
  unfold findNewEcho
  split_ifs
  · rw [bonusPart_Target_other _ _ t t' h, echoPart_Target_other _ _ _ _ t t' h]
  · rfl

/-- The pickup performed by one pass of the loop of `findNewEchoes`. -/
theorem findNewEcho_pickup (r : Int) (frange pickup : ℚ) (g : Game) (t : Nat)
    (hact : (g.Target t).active = true)
    (hbear : |(g.Target t).bearing - (r : ℚ)| < 6)
    (hclose : (g.Target t).range < frange)
    (hpick : (g.Target t).range < pickup) :
    ((findNewEcho r frange pickup g t).Target t).active = false ∧
    ((findNewEcho r frange pickup g t).Target t).y = u32 g.Gather_y ∧
    (findNewEcho r frange pickup g t).Gather_y = g.Gather_y + 6 := by
  have hb := (floatToInt_abs_lt _).mpr hbear
  have he : echoPart r frange pickup g t = pickUp (makeEcho g t) t := by
    unfold echoPart
    rw [if_pos hb, if_pos hclose]
    simp only [makeEcho_Target]
    rw [if_pos hpick]
  unfold findNewEcho
  rw [if_pos hact, he]
  obtain ⟨b1, b2, b3⟩ := bonusPart_keeps pickup (pickUp (makeEcho g t) t) t
  obtain ⟨p1, p2, p3⟩ := pickUp_Target_same (makeEcho g t) t
  rw [b1, b2, b3, p1, p2, p3, makeEcho_Gather_y]
  exact ⟨rfl, rfl, rfl⟩

end RisibleRadar

namespace RisibleRadar

open SpiOled

theorem foldl_keeps {α β : Type} (P : Game → β) (step : Game → α → Game) (l : List α)
    (g : Game) (h : ∀ (g : Game) (a : α), a ∈ l → P (step g a) = P g) :
    P (l.foldl step g) = P g := by
  induction l generalizing g with
  | nil => rfl
  | cons a l ih =>
    rw [List.foldl_cons, ih (step g a) (fun g b hb => h g b (List.mem_cons_of_mem a hb))]
    exact h g a (List.mem_cons_self a l)

theorem range_split (t n : Nat) (h : t < n) :
    List.range n = List.range t ++ t :: List.range' (t + 1) (n - t - 1) := by
  have e : n = n - t + t := by omega
  calc List.range n = List.range' 0 (n - t + t) := by rw [← e, List.range_eq_range']
    _ = List.range' 0 t ++ List.range' (0 + t) (n - t) :=
        (List.range'_append_1 0 t (n - t)).symm
    _ = List.range t ++ t :: List.range' (t + 1) (n - t - 1) := by
        rw [Nat.zero_add, show n - t = (n - t - 1) + 1 by omega, List.range'_succ,
          List.range_eq_range']
        simp

/-- The pickup as seen after the whole call of `findNewEchoes`. -/
theorem findNewEchoes_pickup (r radius nt : Int) (g : Game) (t : Nat)
    (ht : (t : Int) < nt) (hrad : 0 ≤ radius)
    (hact : (g.Target t).active = true)
    (hbear : |(g.Target t).bearing - (r : ℚ)| < 6)
    (hpick : (g.Target t).range < (radius : ℚ) / 3) :
    ((findNewEchoes r radius nt g).Target t).active = false ∧
    ((findNewEchoes r radius nt g).Target t).y
      = u32 (findNewEchoesBefore r radius t g).Gather_y ∧
    (findNewEcho r (radius : ℚ) ((radius : ℚ) / 3) (findNewEchoesBefore r radius t g) t).Gather_y
      = (findNewEchoesBefore r radius t g).Gather_y + 6 := by
  have hbefore : (findNewEchoesBefore r radius t g).Target t = g.Target t := by
    unfold findNewEchoesBefore
    apply foldl_keeps (fun g => g.Target t)
    intro g' a ha
    exact findNewEcho_target_other r _ _ g' t a (by
      have := List.mem_range.mp ha
      omega)
  have hr0 : (0 : ℚ) ≤ (radius : ℚ) := by exact_mod_cast hrad
  have hclose : (g.Target t).range < (radius : ℚ) := by linarith
  obtain ⟨h1, h2, h3⟩ := findNewEcho_pickup r (radius : ℚ) ((radius : ℚ) / 3)
    (findNewEchoesBefore r radius t g) t (by rw [hbefore]; exact hact)
    (by rw [hbefore]; exact hbear) (by rw [hbefore]; exact hclose)
    (by rw [hbefore]; exact hpick)
  have hfinal : (findNewEchoes r radius nt g).Target t
      = (findNewEcho r (radius : ℚ) ((radius : ℚ) / 3)
          (findNewEchoesBefore r radius t g) t).Target t := by
    unfold findNewEchoes findNewEchoesBefore
    simp only
    rw [range_split t nt.toNat (by omega), List.foldl_append, List.foldl_cons]
    apply foldl_keeps (fun g => g.Target t)
    intro g' a ha
    exact findNewEcho_target_other r _ _ g' t a (by
      have := (List.mem_range'_1.mp ha).1
      omega)
  rw [hfinal]
  exact ⟨h1, h2, h3⟩

theorem reCalculateBearing_target_other (L : Libm) (g : Game) (i t : Nat) (h : t ≠ i) :
    (reCalculateBearing L g i).Target t = g.Target t := by
  unfold reCalculateBearing
  simp only [setTarget]
  split_ifs <;> simp [arraySet_other, h]

end RisibleRadar

namespace RisibleRadar

open SpiOled

theorem reCalculateBearing_sweeps (L : Libm) (g : Game) (i : Nat) :
    (reCalculateBearing L g i).sweeps = g.sweeps := by
  unfold reCalculateBearing
  simp only [setTarget]
  split_ifs <;> rfl

theorem movePlayer_sweeps (dir : Int) (g : Game) : (movePlayer dir g).sweeps = g.sweeps := by
  unfold movePlayer
  split_ifs <;> rfl

theorem echoPart_sweeps (r : Int) (frange pickup : ℚ) (g : Game) (t : Nat) :
    (echoPart r frange pickup g t).sweeps = g.sweeps := by
  unfold echoPart
  by_cases h1 : ((floatToInt ((g.Target t).bearing - (r : ℚ))).natAbs : ℚ) < 6
  · rw [if_pos h1]
    by_cases h2 : (g.Target t).range < frange
    · rw [if_pos h2]
      simp only [makeEcho_Target]
      by_cases h3 : (g.Target t).range < pickup
      · rw [if_pos h3]
        rfl
      · rw [if_neg h3]
        rfl
    · rw [if_neg h2]
  · rw [if_neg h1]

theorem bonusPart_sweeps (pickup : ℚ) (g : Game) (t : Nat) :
    (bonusPart pickup g t).sweeps = g.sweeps := by
  unfold bonusPart
  simp only [setTarget]
  split_ifs <;> rfl

theorem findNewEcho_sweeps (r : Int) (frange pickup : ℚ) (g : Game) (t : Nat) :
    (findNewEcho r frange pickup g t).sweeps = g.sweeps := by
  unfold findNewEcho
  split_ifs
  · rw [bonusPart_sweeps, echoPart_sweeps]
  · rfl

theorem findNewEchoes_sweeps (r range nt : Int) (g : Game) :
    (findNewEchoes r range nt g).sweeps = g.sweeps := by
  unfold findNewEchoes
  exact foldl_keeps (fun g => g.sweeps) _ _ g (fun g' a _ => findNewEcho_sweeps r _ _ g' a)

theorem reCalculateBearings_sweeps (L : Libm) (g : Game) :
    (reCalculateBearings L g).sweeps = g.sweeps := by
  unfold reCalculateBearings
  exact foldl_keeps (fun g => g.sweeps) _ _ g (fun g' a _ => reCalculateBearing_sweeps L g' a)

/-- The only statement of the loop body of `game_loop` that writes `sweeps`
is `if (r == 180) sweeps++;`. -/
theorem game_tick_sweeps (L : Libm) (adc : Int × Int) (r : Int) (g : Game) :
    (game_tick L adc r g).sweeps
      = if r = 180 then (g.sweeps + 1) % 4294967296 else g.sweeps := by
  have hmove : (if g.sweeps < g.GameDuration then
        if getPlayerMove adc.1 adc.2 ≠ 0 then
          reCalculateBearings L (movePlayer (getPlayerMove adc.1 adc.2) g)
        else g
      else g).sweeps = g.sweeps := by
    split_ifs
    · rw [reCalculateBearings_sweeps, movePlayer_sweeps]
    · rfl
    · rfl
  have hrest : ∀ g' : Game, ((List.range NECHOES).foldl ageEcho
      (findNewEchoes r SCANNER_RADIUS NTARGETS g')).sweeps = g'.sweeps := by
    intro g'
    rw [foldl_keeps (fun g => g.sweeps) ageEcho _ _ (fun _ _ _ => rfl), findNewEchoes_sweeps]
  unfold game_tick
  simp only
  generalize (if g.sweeps < g.GameDuration then
        if getPlayerMove adc.1 adc.2 ≠ 0 then
          reCalculateBearings L (movePlayer (getPlayerMove adc.1 adc.2) g)
        else g
      else g) = g1 at hmove ⊢
  by_cases hr : r = 180
  · rw [if_pos hr, if_pos hr]
    show (((List.range NECHOES).foldl ageEcho
      (findNewEchoes r SCANNER_RADIUS NTARGETS g1)).sweeps + 1) % 4294967296 = _
    rw [hrest, hmove]
  · rw [if_neg hr, if_neg hr, hrest, hmove]

/-- C20 (the code's behaviour). Each call of `game_loop` adds 2 to the sweep
counter, modulo 2^32, whatever the game state, the joystick readings and the
C library: 1 on the tick with `r == 180` inside the loop and 1 more by the
`sweeps++` after the loop. So no call increases the counter by exactly 1. -/
theorem game_loop_sweeps_twice (L : Libm) (adc : Nat → Int × Int) (g : Game) :
    (game_loop L adc g).sweeps = (g.sweeps + 2) % 4294967296 ∧
    (game_loop L adc g).sweeps ≠ (g.sweeps + 1) % 4294967296 := by
  suffices h : (game_loop L adc g).sweeps = (g.sweeps + 2) % 4294967296 by
    refine ⟨h, ?_⟩
    rw [h]
    omega
  have hlo : ∀ (n : Nat), n ≤ 60 → ∀ g' : Game,
      ((List.range n).foldl (fun g k => game_tick L (adc k) (3 * (k : Int)) g) g').sweeps
        = g'.sweeps := by
    intro n hn g'
    apply foldl_keeps (fun g => g.sweeps)
    intro g2 k hk
    rw [game_tick_sweeps, if_neg]
    have := List.mem_range.mp hk
    omega
  have hhi : ∀ g' : Game,
      ((List.range' 61 59).foldl (fun g k => game_tick L (adc k) (3 * (k : Int)) g) g').sweeps
        = g'.sweeps := by
    intro g'
    apply foldl_keeps (fun g => g.sweeps)
    intro g2 k hk
    rw [game_tick_sweeps, if_neg]
    have := (List.mem_range'_1.mp hk).1
    omega
  unfold game_loop
  show (((List.range 120).foldl (fun g k => game_tick L (adc k) (3 * (k : Int)) g) g).sweeps
    + 1) % 4294967296 = _
  rw [range_split 60 120 (by decide), List.foldl_append, List.foldl_cons, hhi,
    game_tick_sweeps, if_pos (by norm_num), hlo 60 (le_refl 60)]
  omega

end RisibleRadar

namespace SpiOled

theorem autoclock_repaint_no_stale_witness :
    ((BlackPill.autoTickState (fun _ => 0)).displayMode = .AUTO_HMS_MODE ∧
      (BlackPill.autoTickState (fun _ => 9)).displayMode = .AUTO_HMS_MODE ∧
      (BlackPill.autoTickState (fun _ => 0)).clock.RtcTick ≠ 0 ∧
      (BlackPill.autoTickState (fun _ => 9)).clock.RtcTick ≠ 0 ∧
      (BluePill.autoTickState (fun _ => 0)).displayMode = .AUTO_HMS_MODE ∧
      (BluePill.autoTickState (fun _ => 255)).displayMode = .AUTO_HMS_MODE ∧
      (BluePill.autoTickState (fun _ => 0)).clock.RtcTick ≠ 0 ∧
      (BluePill.autoTickState (fun _ => 255)).clock.RtcTick ≠ 0) ∧
    (BlackPill.serviceRtcTick BlackPill.blankAssets
        (BlackPill.autoTickState (fun _ => 0))).frame 4095
      = (BlackPill.serviceRtcTick BlackPill.blankAssets
        (BlackPill.autoTickState (fun _ => 9))).frame 4095 ∧
    (BluePill.serviceRtcTick (BluePill.autoTickState (fun _ => 0))).frame 511
      = (BluePill.serviceRtcTick (BluePill.autoTickState (fun _ => 255))).frame 511 :=
  ⟨⟨rfl, rfl, by decide, by decide, rfl, rfl, by decide, by decide⟩,
    ((autoclock_repaint_no_stale BlackPill.blankAssets
      (BlackPill.autoTickState (fun _ => 0)) (BlackPill.autoTickState (fun _ => 9))
      (BluePill.autoTickState (fun _ => 0)) (BluePill.autoTickState (fun _ => 255))
      rfl rfl (by decide) (by decide) rfl rfl rfl rfl rfl
      rfl rfl (by decide) (by decide) rfl rfl rfl rfl).1 4095 (by decide)).2,
    ((autoclock_repaint_no_stale BlackPill.blankAssets
      (BlackPill.autoTickState (fun _ => 0)) (BlackPill.autoTickState (fun _ => 9))
      (BluePill.autoTickState (fun _ => 0)) (BluePill.autoTickState (fun _ => 255))
      rfl rfl (by decide) (by decide) rfl rfl rfl rfl rfl
      rfl rfl (by decide) (by decide) rfl rfl rfl rfl).2 511 (by decide)).2⟩

end SpiOled

namespace SpiOled

/-! ## The display flush -/

theorem and_one_shiftLeft_ne_zero (v b : Nat) : (v &&& (1 <<< b)) ≠ 0 ↔ v.testBit b = true := by
  rw [Nat.one_shiftLeft, Nat.and_two_pow]
  cases h : v.testBit b
  · simp
  · simp

theorem foldl_writeDR {α : Type} (xs : List α) (w : (Nat → Nat) → α → Nat) (l : Link) :
    xs.foldl (fun l x => writeDR (w l.frame x) l) l
      = { l with DR_written := l.DR_written ++
            xs.map (fun x => { cs := l.CS, dc := l.DC, dff := l.DFF, data := w l.frame x }) } := by
  induction xs generalizing l with
  | nil => simp
  | cons a xs ih =>
    rw [List.foldl_cons, ih]
    simp [writeDR, List.append_assoc]

theorem foldl_rows_writeDR (ys xs : List Nat) (w : (Nat → Nat) → Nat → Nat → Nat) (l : Link) :
    ys.foldl (fun l y => xs.foldl (fun l x => writeDR (w l.frame y x) l) l) l
      = { l with DR_written := l.DR_written ++
            ys.flatMap (fun y => xs.map (fun x =>
              { cs := l.CS, dc := l.DC, dff := l.DFF, data := w l.frame y x })) } := by
  induction ys generalizing l with
  | nil => simp
  | cons a ys ih =>
    rw [List.foldl_cons, foldl_writeDR xs (fun f x => w f a x) l, ih]
    simp [List.append_assoc]

theorem rows_getElem {β : Type} (n s : Nat) (row : Nat → Nat → β) (x y : Nat)
    (h1 : s ≤ y) (h2 : y < s + n) (hx : x < 128) :
    ((List.range' s n).flatMap (fun y => (List.range 128).map (fun x => row x y)))[
      (y - s) * 128 + x]? = some (row x y) := by
  induction n generalizing s with
  | zero => omega
  | succ n ih =>
    rw [List.range'_succ, List.flatMap_cons]
    by_cases hy : y = s
    · subst hy
      rw [List.getElem?_append_left (by simp; omega)]
      simp [hx]
    · rw [List.getElem?_append_right (by simp; omega)]
      have e : (y - s) * 128 + x - ((List.range 128).map (fun x => row x s)).length
          = (y - (s + 1)) * 128 + x := by
        simp
        omega
      rw [e]
      exact ih (s + 1) (by omega) (by omega)

theorem rows_length {β : Type} (n s : Nat) (row : Nat → Nat → β) :
    ((List.range' s n).flatMap (fun y => (List.range 128).map (fun x => row x y))).length
      = n * 128 := by
  induction n generalizing s with
  | zero => simp
  | succ n ih =>
    rw [List.range'_succ, List.flatMap_cons, List.length_append, ih]
    simp
    omega

theorem rowMajor_getElem (y1 y2 : Nat) (word : Nat → Nat → Nat) (x y : Nat)
    (h1 : y1 ≤ y) (h2 : y ≤ y2) (hx : x < 128) :
    (rowMajor y1 y2 word)[(y - y1) * 128 + x]? = some (word x y) := by
  unfold rowMajor
  exact rows_getElem _ _ word x y h1 (by omega) hx

theorem rowMajor_length (y1 y2 : Nat) (word : Nat → Nat → Nat) :
    (rowMajor y1 y2 word).length = (y2 + 1 - y1) * 128 := by
  unfold rowMajor
  exact rows_length _ _ word

theorem map_rowMajor (y1 y2 : Nat) (word : Nat → Nat → Nat) (g : Nat → SpiWrite) :
    (rowMajor y1 y2 word).map g
      = (List.range' y1 (y2 + 1 - y1)).flatMap
          (fun y => (List.range 128).map (fun x => g (word x y))) := by
  unfold rowMajor
  rw [List.map_flatMap]
  simp [List.map_map, Function.comp_def]

namespace BlackPill

theorem updscreen_link (y1 y2 : Nat) (l : Link) :
    Wire.updscreen y1 y2 l
      = { frame := l.frame, CS := true, DC := true, DFF := false,
          DR_written := l.DR_written ++ flushHeader l.DFF y1 y2 ++
            (rowMajor y1 y2 (fun x y => l.frame (y * MAXX + x))).map pixelWrite } := by
  unfold Wire.updscreen
  simp only [uintRange, MAXX]
  rw [foldl_rows_writeDR _ _ (fun f y x => f (y * 128 + x))]
  rw [map_rowMajor]
  simp [oledCmd2b, oledCmd, spi_cs, spi_dc, spi_txd, writeDR, flushHeader, pixelWrite,
    SSD1351_SETCOLUMN, SSD1351_SETROW, SSD1351_WRITERAM, List.append_assoc]

end BlackPill

namespace BluePill

theorem updscreen_link_blue (l : Link) :
    Wire.updscreen l
      = { frame := l.frame, CS := true, DC := true, DFF := false,
          DR_written := l.DR_written ++ flushHeader l.DFF 0 31 ++
            (rowMajor 0 31 (fun c r =>
              if (l.frame ((r / 8) * MAXX + c)).testBit (r % 8) then 0xffff else 0)).map
              pixelWrite } := by
  unfold Wire.updscreen
  simp only [MAXX, MAXY]
  rw [foldl_rows_writeDR _ _ (fun f r c =>
    if (f ((r / 8) * 128 + c) &&& (1 <<< (r % 8))) ≠ 0 then 0xffff else 0x0000)]
  rw [map_rowMajor]
  simp [oledCmd2b, oledCmd, spi_cs, spi_dc, spi_txd, writeDR, flushHeader, pixelWrite,
    SSD1351_SETCOLUMN, SSD1351_SETROW, SSD1351_WRITERAM, List.append_assoc,
    and_one_shiftLeft_ne_zero, List.range_eq_range']

end BluePill

end SpiOled

namespace SpiOled

theorem and_seven (y : Nat) : y &&& 7 = y % 8 :=
  Nat.and_pow_two_sub_one_eq_mod y 3

theorem one_shiftLeft_and_seven_lt (y : Nat) : 1 <<< (y &&& 7) < 256 := by
  rw [and_seven, Nat.one_shiftLeft]
  have h : y % 8 < 8 := Nat.mod_lt _ (by decide)
  calc 2 ^ (y % 8) < 2 ^ 8 := Nat.pow_lt_pow_right (by decide) h
    _ = 256 := by decide

/-- The bit of pixel `(c, r)` in the frame that `setPixel(x, y)` leaves from
a cleared frame. -/
theorem setPixel_zero_testBit (x y c r : Nat) (hx : x < 128) (hy : y < 32) (hc : c < 128) :
    (BluePill.setPixel x y (fun _ => 0) ((r / 8) * 128 + c)).testBit (r % 8)
      = decide (c = x ∧ r = y) := by
  unfold BluePill.setPixel
  rw [if_pos ⟨by simpa [BluePill.MAXX] using hx, by simpa [BluePill.MAXY] using hy⟩]
  unfold BluePill.frameOr
  simp only [BluePill.MAXX]
  by_cases hcell : r / 8 * 128 + c = y / 8 * 128 + x
  · rw [if_pos hcell, Nat.zero_or, Nat.mod_eq_of_lt (one_shiftLeft_and_seven_lt y), and_seven,
      Nat.one_shiftLeft, Nat.testBit_two_pow]
    have h1 : r / 8 = y / 8 ∧ c = x := by omega
    by_cases hb : y % 8 = r % 8
    · have : c = x ∧ r = y := ⟨h1.2, by omega⟩
      simp [hb, this]
    · have : ¬ (c = x ∧ r = y) := by
        rintro ⟨_, e⟩
        exact hb (by rw [e])
      simp [hb, this]
  · rw [if_neg hcell]
    have : ¬ (c = x ∧ r = y) := by
      rintro ⟨e1, e2⟩
      exact hcell (by rw [e1, e2])
    simp [this]

/-- C21. Display flush reproduces the frame buffer. On the Black Pill
`updscreen(y1, y2)` leaves the frame buffer as it was and, after the seven
command bytes, writes one 16-bit word per pixel of the full-width rows
`y1..y2`, row by row and left to right, word number `(y - y1) * 128 + x`
being the value of pixel `(x, y)`. On the Blue Pill `updscreen()` leaves the
frame buffer as it was and writes 4096 words, word number `r * 128 + c` being
`0xffff` exactly when bit `r mod 8` of `Frame[r / 8][c]` is set and `0x0000`
otherwise; so after `setPixel(x, y)` on a cleared frame the only `0xffff`
word is the one at index `y * 128 + x`. -/
theorem updscreen_reproduces_frame (y1 y2 : Nat) (l : Link) :
    ((BlackPill.Wire.updscreen y1 y2 l).frame = l.frame ∧
      (BlackPill.Wire.updscreen y1 y2 l).DR_written
        = l.DR_written ++ flushHeader l.DFF y1 y2 ++
            (colourWords y1 y2 l.frame).map pixelWrite ∧
      (colourWords y1 y2 l.frame).length = (y2 + 1 - y1) * 128 ∧
      ∀ x y, y1 ≤ y → y ≤ y2 → x < 128 →
        (colourWords y1 y2 l.frame)[(y - y1) * 128 + x]?
          = some (l.frame (y * BlackPill.MAXX + x))) ∧
    ((BluePill.Wire.updscreen l).frame = l.frame ∧
      (BluePill.Wire.updscreen l).DR_written
        = l.DR_written ++ flushHeader l.DFF 0 31 ++ (monoWords l.frame).map pixelWrite ∧
      (monoWords l.frame).length = 4096 ∧
      ∀ c r, c < 128 → r < 32 →
        ((monoWords l.frame)[r * 128 + c]?
            = some (if (l.frame ((r / 8) * BluePill.MAXX + c)).testBit (r % 8)
                then 0xffff else 0x0000) ∧
          ((monoWords l.frame)[r * 128 + c]? = some 0xffff ↔
            (l.frame ((r / 8) * BluePill.MAXX + c)).testBit (r % 8) = true))) ∧
    (∀ x y i, x < 128 → y < 32 →
      ((monoWords (BluePill.setPixel x y (fun _ => 0)))[i]? = some 0xffff ↔
        i = y * 128 + x)) := by
  have mono : ∀ (f : Nat → Nat) (c r : Nat), c < 128 → r < 32 →
      (monoWords f)[r * 128 + c]?
        = some (if (f ((r / 8) * 128 + c)).testBit (r % 8) then 0xffff else 0x0000) := by
    intro f c r hc hr
    have := rowMajor_getElem 0 31
      (fun c r => if (f ((r / 8) * 128 + c)).testBit (r % 8) then 0xffff else 0x0000)
      c r (Nat.zero_le r) (by omega) hc
    simpa [monoWords] using this
  have monolen : ∀ f : Nat → Nat, (monoWords f).length = 4096 := by
    intro f
    unfold monoWords
    rw [rowMajor_length]
  refine ⟨⟨?_, ?_, ?_, ?_⟩, ⟨?_, ?_, monolen l.frame, ?_⟩, ?_⟩
  · rw [BlackPill.updscreen_link]
  · rw [BlackPill.updscreen_link]
    rfl
  · unfold colourWords
    rw [rowMajor_length]
  · intro x y h1 h2 hx
    unfold colourWords
    rw [rowMajor_getElem y1 y2 _ x y h1 h2 hx]
    rfl
  · rw [BluePill.updscreen_link_blue]
  · rw [BluePill.updscreen_link_blue]
    rfl
  · intro c r hc hr
    refine ⟨mono l.frame c r hc hr, ?_⟩
    rw [mono l.frame c r hc hr]
    simp only [BluePill.MAXX]
    cases (l.frame (r / 8 * 128 + c)).testBit (r % 8) <;> simp
  · intro x y i hx hy
    by_cases hi : i < 4096
    · have e : i = (i / 128) * 128 + i % 128 := by omega
      have hc : i % 128 < 128 := Nat.mod_lt _ (by decide)
      have hr : i / 128 < 32 := by omega
      have hw := mono (BluePill.setPixel x y (fun _ => 0)) (i % 128) (i / 128) hc hr
      rw [← e, setPixel_zero_testBit x y _ _ hx hy hc] at hw
      rw [hw]
      by_cases hxy : i % 128 = x ∧ i / 128 = y
      · have hi2 : i = y * 128 + x := by omega
        rw [if_pos (by simpa using hxy)]
        exact ⟨fun _ => hi2, fun _ => rfl⟩
      · have hi2 : i ≠ y * 128 + x := by omega
        rw [if_neg (by simpa using hxy)]
        exact ⟨fun h => (by cases h), fun h => absurd h hi2⟩
    · have hnone : (monoWords (BluePill.setPixel x y (fun _ => 0)))[i]? = none := by
        rw [List.getElem?_eq_none_iff, monolen]
        omega
      rw [hnone]
      constructor
      · intro h
        cases h
      · intro h
        omega

end SpiOled

namespace SpiOled

/-! ## Monochrome pixel packing -/

theorem testBit_byte_high (v i : Nat) (hv : v < 256) (hi : 8 ≤ i) : v.testBit i = false := by
  apply Nat.testBit_lt_two_pow
  calc v < 2 ^ 8 := hv
    _ ≤ 2 ^ i := Nat.pow_le_pow_right (by decide) hi

namespace BluePill

theorem setPixel_lt (x y : Nat) (f : Frame) (hf : ∀ k, f k < 256) (k : Nat) :
    setPixel x y f k < 256 := by
  unfold setPixel
  by_cases h : x < MAXX ∧ y < MAXY
  · rw [if_pos h]
    show (if k = y / 8 * MAXX + x then (f k ||| 1 <<< (y &&& 7)) % 256 else f k) < 256
    by_cases hk : k = y / 8 * MAXX + x
    · rw [if_pos hk]
      exact Nat.mod_lt _ (show 0 < 256 by decide)
    · rw [if_neg hk]
      exact hf k
  · rw [if_neg h]
    exact hf k

theorem setPixel_testBit (x y : Nat) (f : Frame) (hx : x < 128) (hy : y < 32)
    (hf : ∀ k, f k < 256) (k i : Nat) :
    (setPixel x y f k).testBit i
      = ((f k).testBit i || decide (k = (y / 8) * 128 + x ∧ i = y % 8)) := by
  unfold setPixel
  rw [if_pos ⟨by simpa [MAXX] using hx, by simpa [MAXY] using hy⟩]
  unfold frameOr
  simp only [MAXX]
  by_cases hk : k = y / 8 * 128 + x
  · rw [if_pos hk, and_seven, Nat.one_shiftLeft,
      show (256 : Nat) = 2 ^ 8 from rfl, Nat.testBit_mod_two_pow, Nat.testBit_or,
      Nat.testBit_two_pow]
    have hy8 : y % 8 < 8 := Nat.mod_lt _ (by decide)
    by_cases hi : i < 8
    · by_cases hb : y % 8 = i
      · have hb' : i = y % 8 := hb.symm
        simp [hi, hb, hk]
      · have hb' : ¬ i = y % 8 := fun e => hb e.symm
        simp [hi, hb, hb']
    · have h0 : (f k).testBit i = false := testBit_byte_high _ _ (hf k) (by omega)
      have hb' : ¬ i = y % 8 := by omega
      simp [hi, h0, hb']
  · rw [if_neg hk]
    simp [hk]

theorem clrPixel_testBit (x y : Nat) (f : Frame) (hx : x < 128) (hy : y < 32)
    (hf : ∀ k, f k < 256) (k i : Nat) :
    (clrPixel x y f k).testBit i
      = ((f k).testBit i && !decide (k = (y / 8) * 128 + x ∧ i = y % 8)) := by
  unfold clrPixel
  rw [if_pos ⟨by simpa [MAXX] using hx, by simpa [MAXY] using hy⟩]
  unfold frameAnd
  simp only [MAXX]
  by_cases hk : k = y / 8 * 128 + x
  · rw [if_pos hk, and_seven, Nat.one_shiftLeft, Nat.testBit_and, Nat.testBit_xor,
      show (0xFF : Nat) = 2 ^ 8 - 1 from rfl, Nat.testBit_two_pow_sub_one,
      Nat.testBit_two_pow]
    have hy8 : y % 8 < 8 := Nat.mod_lt _ (by decide)
    by_cases hi : i < 8
    · by_cases hb : y % 8 = i
      · have hb' : i = y % 8 := hb.symm
        simp [hi, hb, hk]
      · have hb' : ¬ i = y % 8 := fun e => hb e.symm
        simp [hi, hb, hb']
    · have h0 : (f k).testBit i = false := testBit_byte_high _ _ (hf k) (by omega)
      have hb' : ¬ i = y % 8 := by omega
      simp [hi, h0, hb']
  · rw [if_neg hk]
    simp [hk]

end BluePill

/-- C23. Monochrome pixel packing: for x < 128, y < 32 and every frame of
bytes, `setPixel(x, y)` sets bit `y mod 8` of `Frame[y / 8][x]` and changes no
other bit of the frame, and `clrPixel(x, y)` clears that bit and changes no
other bit; so `setPixel` is idempotent, and `clrPixel` after `setPixel` on a
pixel that was clear restores the original frame. -/
theorem mono_pixel_packing (x y : Nat) (f : BluePill.Frame)
    (hx : x < 128) (hy : y < 32) (hf : ∀ k, f k < 256) :
    (∀ k i, (BluePill.setPixel x y f k).testBit i
      = ((f k).testBit i || decide (k = (y / 8) * BluePill.MAXX + x ∧ i = y % 8))) ∧
    (∀ k i, (BluePill.clrPixel x y f k).testBit i
      = ((f k).testBit i && !decide (k = (y / 8) * BluePill.MAXX + x ∧ i = y % 8))) ∧
    BluePill.setPixel x y (BluePill.setPixel x y f) = BluePill.setPixel x y f ∧
    ((f ((y / 8) * BluePill.MAXX + x)).testBit (y % 8) = false →
      BluePill.clrPixel x y (BluePill.setPixel x y f) = f) := by
  have hs := BluePill.setPixel_lt x y f hf
  refine ⟨BluePill.setPixel_testBit x y f hx hy hf, BluePill.clrPixel_testBit x y f hx hy hf,
    ?_, ?_⟩
  · funext k
    apply Nat.eq_of_testBit_eq
    intro i
    rw [BluePill.setPixel_testBit x y _ hx hy hs, BluePill.setPixel_testBit x y f hx hy hf]
    cases (f k).testBit i <;> cases decide (k = y / 8 * 128 + x ∧ i = y % 8) <;> rfl
  · intro hclear
    funext k
    apply Nat.eq_of_testBit_eq
    intro i
    rw [BluePill.clrPixel_testBit x y _ hx hy hs, BluePill.setPixel_testBit x y f hx hy hf]
    by_cases hki : k = y / 8 * 128 + x ∧ i = y % 8
    · obtain ⟨hk, hi⟩ := hki
      simp only [BluePill.MAXX] at hclear
      rw [hk, hi, hclear]
      simp
    · simp [hki]

theorem mono_pixel_packing_witness :
    (3 : Nat) < 128 ∧ (10 : Nat) < 32 ∧ (∀ k : Nat, (fun _ : Nat => (0 : Nat)) k < 256) ∧
    BluePill.setPixel 3 10 (BluePill.setPixel 3 10 (fun _ => 0))
      = BluePill.setPixel 3 10 (fun _ => 0) ∧
    BluePill.clrPixel 3 10 (BluePill.setPixel 3 10 (fun _ => 0)) = (fun _ => 0) :=
  ⟨by decide, by decide, fun _ => (by decide : (0 : Nat) < 256),
    (mono_pixel_packing 3 10 (fun _ => 0) (by decide) (by decide)
      (fun _ => (by decide : (0 : Nat) < 256))).2.2.1,
    (mono_pixel_packing 3 10 (fun _ => 0) (by decide) (by decide)
      (fun _ => (by decide : (0 : Nat) < 256))).2.2.2 (by decide)⟩

namespace BluePill

theorem foldl_congr_mem {α β : Type} (l : List α) (g h : β → α → β) (b : β)
    (e : ∀ (b : β) (a : α), a ∈ l → g b a = h b a) : l.foldl g b = l.foldl h b := by
  induction l generalizing b with
  | nil => rfl
  | cons a l ih =>
    rw [List.foldl_cons, List.foldl_cons, e b a (List.mem_cons_self a l)]
    exact ih _ (fun b c hc => e b c (List.mem_cons_of_mem a hc))

end BluePill

/-- C24. Monochrome line helpers replicate the pixel operation across the
span: for x2 < 128 and y < 32 (in particular for x1 <= x2 < 128),
`setHline(x1, x2, y)` gives the frame that `setPixel(x, y)` for every x in
x1..x2 gives, and `clrHline` the frame of `clrPixel` over the span; and for
all arguments (in particular x < 128 and y1 <= y2 < 32) `setVline` and
`clrVline` give the frames of `setPixel` and `clrPixel` for every y in
y1..y2. -/
theorem mono_lines_replicate_pixel (x1 x2 y x y1 y2 : Nat) (f : BluePill.Frame)
    (hx2 : x2 < 128) (hy : y < 32) :
    BluePill.setHline x1 x2 y f = BluePill.pixelsAcross BluePill.setPixel x1 x2 y f ∧
    BluePill.clrHline x1 x2 y f = BluePill.pixelsAcross BluePill.clrPixel x1 x2 y f ∧
    BluePill.setVline x y1 y2 f = BluePill.pixelsDown BluePill.setPixel x y1 y2 f ∧
    BluePill.clrVline x y1 y2 f = BluePill.pixelsDown BluePill.clrPixel x y1 y2 f := by
  refine ⟨?_, ?_, rfl, rfl⟩
  · unfold BluePill.setHline BluePill.pixelsAcross uintRange
    apply BluePill.foldl_congr_mem
    intro g a ha
    have ha' := List.mem_range'_1.mp ha
    unfold BluePill.setPixel
    rw [if_pos ⟨by simp only [BluePill.MAXX]; omega, by simpa [BluePill.MAXY] using hy⟩,
      Nat.mod_eq_of_lt (one_shiftLeft_and_seven_lt y)]
  · unfold BluePill.clrHline BluePill.pixelsAcross uintRange
    apply BluePill.foldl_congr_mem
    intro g a ha
    have ha' := List.mem_range'_1.mp ha
    unfold BluePill.clrPixel
    rw [if_pos ⟨by simp only [BluePill.MAXX]; omega, by simpa [BluePill.MAXY] using hy⟩]

theorem mono_lines_replicate_pixel_witness :
    (5 : Nat) < 128 ∧ (9 : Nat) < 32 ∧
    BluePill.setHline 2 5 9 (fun _ => 0)
      = BluePill.pixelsAcross BluePill.setPixel 2 5 9 (fun _ => 0) ∧
    BluePill.clrVline 7 4 20 (fun _ => 255)
      = BluePill.pixelsDown BluePill.clrPixel 7 4 20 (fun _ => 255) :=
  ⟨by decide, by decide,
    (mono_lines_replicate_pixel 2 5 9 7 4 20 (fun _ => 0) (by decide) (by decide)).1,
    (mono_lines_replicate_pixel 2 5 9 7 4 20 (fun _ => 255) (by decide) (by decide)).2.2.2⟩

end SpiOled

namespace SpiOled

/-! ## `renderBitmap` -/

namespace BlackPill

/-- A row of stores `Frame[y][x1 + j] = v j`, `j = 0 .. n - 1`. -/
theorem foldl_storeInt_row (n : Nat) (y x1 : Int) (v : Nat → Nat) (f : Frame) (k : Nat) :
    ((List.range n).foldl (fun (f : Frame) (j : Nat) =>
        frameStoreInt f y (x1 + (j : Int)) (v j)) f) k
      = if y * 128 + x1 ≤ (k : Int) ∧ (k : Int) < y * 128 + x1 + n then
          v ((k : Int) - (y * 128 + x1)).toNat
        else f k := by
  induction n with
  | zero =>
    rw [List.range_zero, List.foldl_nil, if_neg]
    omega
  | succ n ih =>
    rw [List.range_succ, List.foldl_append, List.foldl_cons, List.foldl_nil]
    show (if (k : Int) = y * ((128 : Nat) : Int) + (x1 + (n : Int)) then v n
      else ((List.range n).foldl (fun (f : Frame) (j : Nat) =>
        frameStoreInt f y (x1 + (j : Int)) (v j)) f) k) = _
    rw [ih]
    by_cases hk : (k : Int) = y * ((128 : Nat) : Int) + (x1 + (n : Int))
    · rw [if_pos hk, if_pos (by push_cast at hk ⊢; omega)]
      congr 1
      push_cast at hk
      omega
    · rw [if_neg hk]
      by_cases h : y * 128 + x1 ≤ (k : Int) ∧ (k : Int) < y * 128 + x1 + n
      · rw [if_pos h, if_pos (by push_cast at hk ⊢; omega)]
      · rw [if_neg h, if_neg (by push_cast at hk ⊢; omega)]

/-- The inner loop of `renderBitmap` is a row of stores. -/
theorem renderBitmap_row (n : Nat) (y x1 : Int) (cond : Nat → Prop) [DecidablePred cond]
    (fg bg : Nat) (f : Frame) :
    (List.range n).foldl (fun (f : Frame) (j : Nat) =>
        if cond j then frameStoreInt f y (x1 + (j : Int)) fg
        else frameStoreInt f y (x1 + (j : Int)) bg) f
      = (List.range n).foldl (fun (f : Frame) (j : Nat) =>
          frameStoreInt f y (x1 + (j : Int)) (if cond j then fg else bg)) f := by
  congr 1
  funext f j
  split_ifs <;> rfl

/-- Rows of stores, one under the other, inside the frame. -/
theorem foldl_storeInt_rows (m n x1 y1 : Nat) (v : Nat → Nat → Nat) (f : Frame)
    (X Y : Nat) (hn : x1 + n ≤ 128) (hX : X < 128) :
    ((List.range m).foldl (fun (f : Frame) (i : Nat) =>
        (List.range n).foldl (fun (f : Frame) (j : Nat) =>
          frameStoreInt f ((y1 : Int) + (i : Int)) ((x1 : Int) + (j : Int)) (v i j)) f) f)
        (Y * 128 + X)
      = if y1 ≤ Y ∧ Y < y1 + m ∧ x1 ≤ X ∧ X < x1 + n then v (Y - y1) (X - x1)
        else f (Y * 128 + X) := by
  induction m with
  | zero =>
    rw [List.range_zero, List.foldl_nil, if_neg]
    omega
  | succ m ih =>
    rw [List.range_succ, List.foldl_append, List.foldl_cons, List.foldl_nil,
      foldl_storeInt_row, ih]
    by_cases hrow : Y = y1 + m ∧ x1 ≤ X ∧ X < x1 + n
    · obtain ⟨hY, h1, h2⟩ := hrow
      rw [if_pos (by push_cast; omega), if_pos (by omega)]
      have e1 : Y - y1 = m := by omega
      have e2 : (((Y * 128 + X : Nat) : Int) - (((y1 : Int) + (m : Int)) * 128 + (x1 : Int))).toNat
          = X - x1 := by
        push_cast
        omega
      rw [e1, e2]
    · rw [if_neg (by push_cast; omega)]
      by_cases h : y1 ≤ Y ∧ Y < y1 + m ∧ x1 ≤ X ∧ X < x1 + n
      · rw [if_pos h, if_pos (by omega)]
      · rw [if_neg h, if_neg (by omega)]

/-- What `renderBitmap` leaves in the cell of pixel `(X, Y)` when the target
rectangle lies inside the frame columns. -/
theorem renderBitmap_pixel (x1 y1 wd ht : Nat) (bitmap : Int → Nat) (stride : Int)
    (fg bg : Nat) (f : Frame) (X Y : Nat) (hx : x1 + wd ≤ 128) (hX : X < 128) :
    renderBitmap (x1 : Int) (y1 : Int) (wd : Int) (ht : Int) bitmap stride fg bg f
        (Y * 128 + X)
      = if y1 ≤ Y ∧ Y < y1 + ht ∧ x1 ≤ X ∧ X < x1 + wd then
          (if (bitmap (stride * (((Y - y1) / 8 : Nat) : Int) + ((X - x1 : Nat) : Int))).testBit
              ((Y - y1) % 8) then fg else bg)
        else f (Y * 128 + X) := by
  unfold renderBitmap
  simp only
  have e1 : ((y1 : Int) + (ht : Int) - 1 + 1 - (y1 : Int)).toNat = ht := by omega
  have e2 : ((x1 : Int) + (wd : Int) - 1 + 1 - (x1 : Int)).toNat = wd := by omega
  rw [e1, e2]
  have hrows := foldl_storeInt_rows ht wd x1 y1
    (fun i j => if (bitmap (stride * ((i : Int) / 8) + (j : Int)) &&& ((1 : Nat) <<< (i % 8))) ≠ 0
      then fg else bg) f X Y hx hX
  have hbody : (fun (f : Frame) (i : Nat) =>
      (List.range wd).foldl (fun (f : Frame) (j : Nat) =>
        if (bitmap (stride * ((i : Int) / 8) + (j : Int)) &&& ((1 : Nat) <<< (i % 8))) ≠ 0 then
          frameStoreInt f ((y1 : Int) + (i : Int)) ((x1 : Int) + (j : Int)) fg
        else
          frameStoreInt f ((y1 : Int) + (i : Int)) ((x1 : Int) + (j : Int)) bg) f)
      = (fun (f : Frame) (i : Nat) =>
      (List.range wd).foldl (fun (f : Frame) (j : Nat) =>
        frameStoreInt f ((y1 : Int) + (i : Int)) ((x1 : Int) + (j : Int))
          (if (bitmap (stride * ((i : Int) / 8) + (j : Int)) &&& ((1 : Nat) <<< (i % 8))) ≠ 0
            then fg else bg)) f) := by
    funext f i
    exact renderBitmap_row wd _ _
      (fun j => (bitmap (stride * ((i : Int) / 8) + (j : Int)) &&& ((1 : Nat) <<< (i % 8))) ≠ 0)
      fg bg f
  rw [hbody, hrows]
  beta_reduce
  by_cases h : y1 ≤ Y ∧ Y < y1 + ht ∧ x1 ≤ X ∧ X < x1 + wd
  · rw [if_pos h, if_pos h]
    have e3 : (((Y - y1 : Nat) : Int) / 8) = (((Y - y1) / 8 : Nat) : Int) := by omega
    rw [e3]
    by_cases hb : (bitmap (stride * (((Y - y1) / 8 : Nat) : Int) + ((X - x1 : Nat) : Int))).testBit
        ((Y - y1) % 8) = true
    · rw [if_pos hb, if_pos ((and_one_shiftLeft_ne_zero _ _).mpr hb)]
    · rw [if_neg hb, if_neg (fun hne => hb ((and_one_shiftLeft_ne_zero _ _).mp hne))]
  · rw [if_neg h, if_neg h]

end BlackPill

end SpiOled

namespace RisibleRadar

/-- The two copies of `renderBitmap` are the same function. -/
theorem renderBitmap_eq_black :
    renderBitmap = SpiOled.BlackPill.renderBitmap := rfl

end RisibleRadar

namespace SpiOled

/-- C25. `renderBitmap` bit order (Black Pill and Risible Radar): for a
target rectangle inside the frame (x1 + wd <= 128; the frame being flat
memory, the rows need no bound), `renderBitmap(x1, y1, wd, ht, bitmap,
stride, fg, bg)` sets pixel `(x1 + j, y1 + i)`, for every 0 <= j < wd and
0 <= i < ht, to fg when bit `i mod 8` of `bitmap[stride * (i / 8) + j]` is 1
and to bg otherwise, and changes no pixel outside the rectangle. -/
theorem renderBitmap_bit_order (x1 y1 wd ht : Nat) (bitmap : Int → Nat) (stride : Int)
    (fg bg : Nat) (f : Nat → Nat) (hx : x1 + wd ≤ 128) :
    (∀ i j, i < ht → j < wd →
      BlackPill.renderBitmap (x1 : Int) (y1 : Int) (wd : Int) (ht : Int) bitmap stride fg bg f
          ((y1 + i) * BlackPill.MAXX + (x1 + j))
        = (if (bitmap (stride * ((i / 8 : Nat) : Int) + (j : Int))).testBit (i % 8) then fg
           else bg) ∧
      RisibleRadar.renderBitmap (x1 : Int) (y1 : Int) (wd : Int) (ht : Int) bitmap stride
          fg bg f ((y1 + i) * RisibleRadar.MAXX + (x1 + j))
        = (if (bitmap (stride * ((i / 8 : Nat) : Int) + (j : Int))).testBit (i % 8) then fg
           else bg)) ∧
    (∀ x y, x < 128 → ¬ (x1 ≤ x ∧ x < x1 + wd ∧ y1 ≤ y ∧ y < y1 + ht) →
      BlackPill.renderBitmap (x1 : Int) (y1 : Int) (wd : Int) (ht : Int) bitmap stride fg bg f
          (y * BlackPill.MAXX + x) = f (y * BlackPill.MAXX + x) ∧
      RisibleRadar.renderBitmap (x1 : Int) (y1 : Int) (wd : Int) (ht : Int) bitmap stride
          fg bg f (y * RisibleRadar.MAXX + x) = f (y * RisibleRadar.MAXX + x)) := by
  have hin : ∀ i j, i < ht → j < wd →
      BlackPill.renderBitmap (x1 : Int) (y1 : Int) (wd : Int) (ht : Int) bitmap stride fg bg f
          ((y1 + i) * 128 + (x1 + j))
        = (if (bitmap (stride * ((i / 8 : Nat) : Int) + (j : Int))).testBit (i % 8) then fg
           else bg) := by
    intro i j hi hj
    rw [BlackPill.renderBitmap_pixel x1 y1 wd ht bitmap stride fg bg f (x1 + j) (y1 + i) hx
      (by omega), if_pos (by omega)]
    have e1 : y1 + i - y1 = i := by omega
    have e2 : x1 + j - x1 = j := by omega
    rw [e1, e2]
  have hout : ∀ x y, x < 128 → ¬ (x1 ≤ x ∧ x < x1 + wd ∧ y1 ≤ y ∧ y < y1 + ht) →
      BlackPill.renderBitmap (x1 : Int) (y1 : Int) (wd : Int) (ht : Int) bitmap stride fg bg f
          (y * 128 + x) = f (y * 128 + x) := by
    intro x y hx' hn
    rw [BlackPill.renderBitmap_pixel x1 y1 wd ht bitmap stride fg bg f x y hx hx',
      if_neg (by omega)]
  refine ⟨fun i j hi hj => ⟨hin i j hi hj, ?_⟩, fun x y hx' hn => ⟨hout x y hx' hn, ?_⟩⟩
  · rw [RisibleRadar.renderBitmap_eq_black]
    exact hin i j hi hj
  · rw [RisibleRadar.renderBitmap_eq_black]
    exact hout x y hx' hn

theorem renderBitmap_bit_order_witness :
    (3 : Nat) + 2 ≤ 128 ∧
    BlackPill.renderBitmap ((3 : Nat) : Int) ((4 : Nat) : Int) ((2 : Nat) : Int)
        ((10 : Nat) : Int) (fun k => if k = 11 then 2 else 0) 10 7 5 (fun _ => 9)
        ((4 + 1) * BlackPill.MAXX + (3 + 1)) = 5 ∧
    RisibleRadar.renderBitmap ((3 : Nat) : Int) ((4 : Nat) : Int) ((2 : Nat) : Int)
        ((10 : Nat) : Int) (fun k => if k = 11 then 2 else 0) 10 7 5 (fun _ => 9)
        ((4 + 9) * RisibleRadar.MAXX + (3 + 1)) = 7 ∧
    BlackPill.renderBitmap ((3 : Nat) : Int) ((4 : Nat) : Int) ((2 : Nat) : Int)
        ((10 : Nat) : Int) (fun k => if k = 11 then 2 else 0) 10 7 5 (fun _ => 9)
        (4 * BlackPill.MAXX + 5) = 9 :=
  ⟨by decide,
    ((renderBitmap_bit_order 3 4 2 10 (fun k => if k = 11 then 2 else 0) 10 7 5 (fun _ => 9)
      (by decide)).1 1 1 (by decide) (by decide)).1.trans (by decide),
    ((renderBitmap_bit_order 3 4 2 10 (fun k => if k = 11 then 2 else 0) 10 7 5 (fun _ => 9)
      (by decide)).1 9 1 (by decide) (by decide)).2.trans (by decide),
    ((renderBitmap_bit_order 3 4 2 10 (fun k => if k = 11 then 2 else 0) 10 7 5 (fun _ => 9)
      (by decide)).2 5 4 (by decide) (by decide)).1⟩

end SpiOled

namespace SpiOled

/-! ## Style and colour -/

namespace BlackPill

theorem command_paired (a : Assets) (ch : Nat) (m : Main) (h : stylePaired m) :
    stylePaired (command a ch m) := by
  by_cases hn : ch = 'n'.toNat ∨ ch = 'N'.toNat
  · rcases hn with rfl | rfl <;> simp [command, stylePaired, defaultColour, PETROL_STATION_COLOUR]
  by_cases hv : ch = 'v'.toNat ∨ ch = 'V'.toNat
  · rcases hv with rfl | rfl <;> simp [command, stylePaired, defaultColour, VFD_COLOUR]
  by_cases hw : ch = 'w'.toNat ∨ ch = 'W'.toNat
  · rcases hw with rfl | rfl <;> simp [command, stylePaired, defaultColour, LED_COLOUR]
  by_cases hx : ch = 'x'.toNat ∨ ch = 'X'.toNat
  · rcases hx with rfl | rfl <;> simp [command, stylePaired, defaultColour, PANAPLEX_COLOUR]
  by_cases hy : ch = 'y'.toNat ∨ ch = 'Y'.toNat
  · rcases hy with rfl | rfl <;> simp [command, stylePaired, defaultColour, LED_COLOUR]
  have hs : (command a ch m).style = m.style := by
    simp only [command, apply_ite Main.style, renderCommand, updscreen, selectDigit,
      if_neg hn, if_neg hv, if_neg hw, if_neg hx, if_neg hy, ite_self]
  have hc : (command a ch m).colour = m.colour := by
    simp only [command, apply_ite Main.colour, renderCommand, updscreen, selectDigit,
      if_neg hn, if_neg hv, if_neg hw, if_neg hx, if_neg hy, ite_self]
  unfold stylePaired
  rw [hs, hc]
  exact h

theorem processByte_paired (a : Assets) (ch : Nat) (m : Main) (h : stylePaired m) :
    stylePaired (processByte a ch m) := by
  unfold processByte
  cases hst : m.state
  case NOT_SETTING_TIME => exact command_paired a ch m h
  all_goals
    simp only
    split_ifs <;> exact h

theorem stepEvent_paired (a : Assets) (m : Main) (ev : Event) (h : stylePaired m) :
    stylePaired (stepEvent a m ev) := by
  cases ev with
  | rtcTick => exact h
  | byte ch => exact processByte_paired a ch m h

theorem runEvents_paired (a : Assets) (evs : List Event) (m : Main) (h : stylePaired m) :
    stylePaired (runEvents a evs m) := by
  unfold runEvents
  induction evs generalizing m with
  | nil => exact h
  | cons ev evs ih => exact ih _ (stepEvent_paired a m ev h)

theorem serviceTick_paired (m : Main) (h : stylePaired m) : stylePaired (serviceTick m) := by
  unfold serviceTick
  simp only [updscreen]
  split_ifs <;> exact h

theorem serviceRtcTick_paired (a : Assets) (m : Main) (h : stylePaired m) :
    stylePaired (serviceRtcTick a m) := by
  unfold serviceRtcTick
  simp only [updscreen]
  split_ifs <;> exact h

theorem serviceUart_paired (a : Assets) (m : Main) (h : stylePaired m) :
    stylePaired (serviceUart a m) := by
  unfold serviceUart
  split_ifs
  · cases hrx : UART1RxByte m.uart.rx with
    | none => exact h
    | some p => exact processByte_paired a p.1 _ h
  · exact h

end BlackPill

/-- C26. Style and colour stay paired: in every state reachable from the
initial state (VFD style, cyan) by any sequence of input bytes, one-second
interrupts and passes of the main loop, the current colour is the default
colour of the current style: VFD -> cyan, LED-dot and LED-bar -> red,
Panaplex -> (RED | 0x03e0), petrol-station -> red. -/
theorem style_colour_paired (a : BlackPill.Assets) (bytes : List Nat)
    (evs : List BlackPill.Event) (n : Nat) :
    BlackPill.mainBoot.style = .VFD_STYLE ∧
    BlackPill.mainBoot.colour = BlackPill.SSD1351_CYAN ∧
    (BlackPill.feed a bytes BlackPill.mainBoot).colour
      = BlackPill.defaultColour (BlackPill.feed a bytes BlackPill.mainBoot).style ∧
    (BlackPill.runEvents a evs BlackPill.mainBoot).colour
      = BlackPill.defaultColour (BlackPill.runEvents a evs BlackPill.mainBoot).style ∧
    ((BlackPill.mainLoop a)^[n] (BlackPill.runEvents a evs BlackPill.mainBoot)).colour
      = BlackPill.defaultColour
          ((BlackPill.mainLoop a)^[n] (BlackPill.runEvents a evs BlackPill.mainBoot)).style := by
  have h0 : BlackPill.stylePaired BlackPill.mainBoot := rfl
  have hfeed : ∀ (bs : List Nat) (m : BlackPill.Main), BlackPill.stylePaired m →
      BlackPill.stylePaired (BlackPill.feed a bs m) := by
    intro bs
    unfold BlackPill.feed
    induction bs with
    | nil => exact fun m h => h
    | cons b bs ih => exact fun m h => ih _ (BlackPill.processByte_paired a b m h)
  have hloop : ∀ (k : Nat) (m : BlackPill.Main), BlackPill.stylePaired m →
      BlackPill.stylePaired ((BlackPill.mainLoop a)^[k] m) := by
    intro k
    induction k with
    | zero => exact fun m h => h
    | succ k ih =>
      intro m h
      rw [Function.iterate_succ_apply]
      exact ih _ (BlackPill.serviceUart_paired a _
        (BlackPill.serviceRtcTick_paired a _ (BlackPill.serviceTick_paired m h)))
  exact ⟨rfl, rfl, hfeed bytes _ h0, BlackPill.runEvents_paired a evs _ h0,
    hloop n _ (BlackPill.runEvents_paired a evs _ h0)⟩

end SpiOled

namespace RisibleRadar

open SpiOled

/-! ## Player movement and joystick -/

/-- C27. `movePlayer` keeps the player inside the playfield and moves at most
one pixel: for every position with x <= 255 and y <= 255 and every direction
code, `movePlayer` writes only `Player`, changes at most one coordinate, by at
most 1, the result still satisfies 0 <= x <= 255 and 0 <= y <= 255, and a move
against an edge (or an unknown direction code) leaves the position unchanged. -/
theorem movePlayer_bounds (dir : Int) (g : Game)
    (hx : g.Player.x ≤ 255) (hy : g.Player.y ≤ 255) :
    movePlayer dir g = { g with Player := (movePlayer dir g).Player } ∧
    ((movePlayer dir g).Player.x = g.Player.x ∨ (movePlayer dir g).Player.y = g.Player.y) ∧
    ((movePlayer dir g).Player.x ≤ g.Player.x + 1 ∧
      g.Player.x ≤ (movePlayer dir g).Player.x + 1) ∧
    ((movePlayer dir g).Player.y ≤ g.Player.y + 1 ∧
      g.Player.y ≤ (movePlayer dir g).Player.y + 1) ∧
    ((movePlayer dir g).Player.x ≤ 255 ∧ (movePlayer dir g).Player.y ≤ 255) ∧
    (dir = NORTH → g.Player.y = 0 → movePlayer dir g = g) ∧
    (dir = SOUTH → g.Player.y = 255 → movePlayer dir g = g) ∧
    (dir = WEST → g.Player.x = 0 → movePlayer dir g = g) ∧
    (dir = EAST → g.Player.x = 255 → movePlayer dir g = g) ∧
    (dir ≠ NORTH → dir ≠ SOUTH → dir ≠ WEST → dir ≠ EAST → movePlayer dir g = g) ∧
    (dir = NORTH → 0 < g.Player.y →
      (movePlayer dir g).Player.y = g.Player.y - 1 ∧
      (movePlayer dir g).Player.x = g.Player.x) ∧
    (dir = SOUTH → g.Player.y < 255 →
      (movePlayer dir g).Player.y = g.Player.y + 1 ∧
      (movePlayer dir g).Player.x = g.Player.x) ∧
    (dir = WEST → 0 < g.Player.x →
      (movePlayer dir g).Player.x = g.Player.x - 1 ∧
      (movePlayer dir g).Player.y = g.Player.y) ∧
    (dir = EAST → g.Player.x < 255 →
      (movePlayer dir g).Player.x = g.Player.x + 1 ∧
      (movePlayer dir g).Player.y = g.Player.y) := by
  have hN : NORTH = 1 := rfl
  have hS : SOUTH = 2 := rfl
  have hE : EAST = 3 := rfl
  have hW : WEST = 4 := rfl
  have hMX : MAXPLAYX = 256 := rfl
  have hMY : MAXPLAYY = 256 := rfl
  unfold movePlayer
  rw [hN, hS, hE, hW, hMX, hMY]
  by_cases h1 : dir = 1
  · subst h1
    simp only [if_true]
    by_cases hy0 : g.Player.y > 0
    · rw [if_pos hy0]
      simp
      omega
    · rw [if_neg hy0]
      simp
      omega
  by_cases h2 : dir = 2
  · subst h2
    simp only [show ((2 : Int) = 1) = False from by decide, if_false, if_true]
    by_cases hy0 : g.Player.y < 256 - 1
    · rw [if_pos hy0]
      have e : (g.Player.y + 1) % 4294967296 = g.Player.y + 1 := by omega
      simp [e]
      omega
    · rw [if_neg hy0]
      simp
      omega
  by_cases h4 : dir = 4
  · subst h4
    simp only [show ((4 : Int) = 1) = False from by decide,
      show ((4 : Int) = 2) = False from by decide, if_false, if_true]
    by_cases hx0 : g.Player.x > 0
    · rw [if_pos hx0]
      simp
      omega
    · rw [if_neg hx0]
      simp
      omega
  by_cases h3 : dir = 3
  · subst h3
    simp only [show ((3 : Int) = 1) = False from by decide,
      show ((3 : Int) = 2) = False from by decide,
      show ((3 : Int) = 4) = False from by decide, if_false, if_true]
    by_cases hx0 : g.Player.x < 256 - 1
    · rw [if_pos hx0]
      have e : (g.Player.x + 1) % 4294967296 = g.Player.x + 1 := by omega
      simp [e]
      omega
    · rw [if_neg hx0]
      simp
      omega
  rw [if_neg h1, if_neg h2, if_neg h4, if_neg h3]
  simp [h1, h2, h3, h4, hx, hy]

theorem movePlayer_bounds_witness :
    sampleGame.Player.x ≤ 255 ∧ sampleGame.Player.y ≤ 255 ∧
    (movePlayer EAST sampleGame).Player.x = 129 ∧
    (movePlayer EAST sampleGame).Player.y = 128 ∧
    (movePlayer EAST sampleGame).Player.x ≤ 255 :=
  ⟨by decide, by decide,
    ((movePlayer_bounds EAST sampleGame (by decide) (by decide)).2.2.2.2.2.2.2.2.2.2.2.2.2
      rfl (by decide)).1,
    ((movePlayer_bounds EAST sampleGame (by decide) (by decide)).2.2.2.2.2.2.2.2.2.2.2.2.2
      rfl (by decide)).2,
    (movePlayer_bounds EAST sampleGame (by decide) (by decide)).2.2.2.2.1.1⟩

/-- C28. Joystick dead band: for ADC readings x, y in 0..4095,
`getPlayerMove` returns no movement (0) exactly when both readings lie in the
dead band [1536, 2560] around mid-scale; otherwise it returns exactly one of
the four directions, the Y axis taking priority: NORTH if y < 1536, SOUTH if
y > 2560, otherwise WEST if x < 1536 and EAST if x > 2560. -/
theorem getPlayerMove_deadband (x y : Int)
    (hx : 0 ≤ x ∧ x ≤ 4095) (hy : 0 ≤ y ∧ y ≤ 4095) :
    (getPlayerMove x y = 0 ↔ (1536 ≤ x ∧ x ≤ 2560 ∧ 1536 ≤ y ∧ y ≤ 2560)) ∧
    (y < 1536 → getPlayerMove x y = NORTH) ∧
    (2560 < y → getPlayerMove x y = SOUTH) ∧
    (1536 ≤ y → y ≤ 2560 → x < 1536 → getPlayerMove x y = WEST) ∧
    (1536 ≤ y → y ≤ 2560 → 2560 < x → getPlayerMove x y = EAST) ∧
    (getPlayerMove x y = 0 ∨ getPlayerMove x y = NORTH ∨ getPlayerMove x y = SOUTH ∨
      getPlayerMove x y = EAST ∨ getPlayerMove x y = WEST) := by
  have hc : ADC_CENTRE - ADC_DEADBAND = 1536 := by decide
  have hd : ADC_CENTRE + ADC_DEADBAND = 2560 := by decide
  unfold getPlayerMove
  simp only [hc, hd, NORTH, SOUTH, EAST, WEST]
  by_cases h1 : y < 1536
  · rw [if_pos h1]
    refine ⟨⟨fun h => by omega, fun h => by omega⟩, fun _ => rfl, fun h => by omega,
      fun h => by omega, fun h => by omega, Or.inr (Or.inl rfl)⟩
  rw [if_neg h1]
  by_cases h2 : y > 2560
  · rw [if_pos h2]
    refine ⟨⟨fun h => by omega, fun h => by omega⟩, fun h => by omega, fun _ => rfl,
      fun h => by omega, fun h => by omega, Or.inr (Or.inr (Or.inl rfl))⟩
  rw [if_neg h2]
  by_cases h3 : x < 1536
  · rw [if_pos h3]
    refine ⟨⟨fun h => by omega, fun h => by omega⟩, fun h => by omega, fun h => by omega,
      fun _ _ _ => rfl, fun _ _ h => by omega, Or.inr (Or.inr (Or.inr (Or.inr rfl)))⟩
  rw [if_neg h3]
  by_cases h4 : x > 2560
  · rw [if_pos h4]
    refine ⟨⟨fun h => by omega, fun h => by omega⟩, fun h => by omega, fun h => by omega,
      fun _ _ h => by omega, fun _ _ _ => rfl, Or.inr (Or.inr (Or.inr (Or.inl rfl)))⟩
  rw [if_neg h4]
  refine ⟨⟨fun _ => by omega, fun _ => rfl⟩, fun h => by omega, fun h => by omega,
    fun _ _ h => by omega, fun _ _ h => by omega, Or.inl rfl⟩

theorem getPlayerMove_deadband_witness :
    ((0 : Int) ≤ 100 ∧ (100 : Int) ≤ 4095) ∧ ((0 : Int) ≤ 3000 ∧ (3000 : Int) ≤ 4095) ∧
    getPlayerMove 100 3000 = SOUTH ∧
    (getPlayerMove 100 3000 = 0 ↔
      ((1536 : Int) ≤ 100 ∧ (100 : Int) ≤ 2560 ∧ (1536 : Int) ≤ 3000 ∧ (3000 : Int) ≤ 2560)) :=
  ⟨by decide, by decide,
    (getPlayerMove_deadband 100 3000 (by decide) (by decide)).2.2.1 (by decide),
    (getPlayerMove_deadband 100 3000 (by decide) (by decide)).1⟩

end RisibleRadar

namespace RisibleRadar

open SpiOled

/-! ## Echo slots -/

theorem find_range_none (p : Nat → Bool) (n : Nat) :
    (List.range n).find? p = none ↔ ∀ j, j < n → p j = false := by
  rw [List.find?_eq_none]
  constructor
  · intro h j hj
    have := h j (List.mem_range.mpr hj)
    simpa using this
  · intro h j hj
    rw [h j (List.mem_range.mp hj)]
    simp

theorem find_range_some (p : Nat → Bool) (n e : Nat) :
    (List.range n).find? p = some e ↔ (e < n ∧ p e = true ∧ ∀ j, j < e → p j = false) := by
  induction n generalizing e with
  | zero => simp
  | succ n ih =>
    rw [List.range_succ, List.find?_append]
    cases hf : (List.range n).find? p with
    | some e' =>
      have he' := ((ih e').mp hf)
      simp only [Option.or, Option.some.injEq]
      constructor
      · rintro rfl
        exact ⟨by omega, he'.2.1, he'.2.2⟩
      · rintro ⟨h1, h2, h3⟩
        by_contra hne
        rcases Nat.lt_or_gt_of_ne hne with hlt | hgt
        · have := h3 e' hlt
          rw [he'.2.1] at this
          cases this
        · have := he'.2.2 e hgt
          rw [h2] at this
          cases this
    | none =>
      have hnone := (find_range_none p n).mp hf
      simp only [Option.or, List.find?_cons, List.find?_nil]
      cases hp : p n with
      | true =>
        simp only [Option.some.injEq]
        constructor
        · rintro rfl
          exact ⟨by omega, hp, hnone⟩
        · rintro ⟨h1, h2, h3⟩
          by_contra hne
          have hlt : e < n := by omega
          have := hnone e hlt
          rw [h2] at this
          cases this
      | false =>
        constructor
        · intro h
          cases h
        · rintro ⟨h1, h2, h3⟩
          have hlt : e < n := by
            rcases Nat.lt_or_ge e n with h | h
            · exact h
            · have : e = n := by omega
              rw [this, hp] at h2
              cases h2
          have := hnone e hlt
          rw [h2] at this
          cases this

theorem findEchoSlot_lowest (g : Game) (e : Nat) (he : e < NECHOES)
    (hfree : (g.Echo e).age ≤ 0) (hlive : ∀ j, j < e → 0 < (g.Echo j).age) :
    findEchoSlot g = e := by
  unfold findEchoSlot
  have : (List.range NECHOES).find? (fun e => decide ((g.Echo e).age ≤ 0)) = some e := by
    rw [find_range_some]
    refine ⟨he, by simpa using hfree, fun j hj => ?_⟩
    have := hlive j hj
    simp
    omega
  rw [this]

theorem findEchoSlot_all_live (g : Game) (hlive : ∀ j, j < NECHOES → 0 < (g.Echo j).age) :
    findEchoSlot g = 0 := by
  unfold findEchoSlot
  have : (List.range NECHOES).find? (fun e => decide ((g.Echo e).age ≤ 0)) = none := by
    rw [find_range_none]
    intro j hj
    have := hlive j hj
    simp
    omega
  rw [this]

theorem findEchoSlot_lt (g : Game) : findEchoSlot g < NECHOES := by
  unfold findEchoSlot
  cases hf : (List.range NECHOES).find? (fun e => decide ((g.Echo e).age ≤ 0)) with
  | none => decide
  | some e => exact ((find_range_some _ _ _).mp hf).1

theorem findEchoSlot_free (g : Game) (h : ∃ e, e < NECHOES ∧ (g.Echo e).age ≤ 0) :
    (g.Echo (findEchoSlot g)).age ≤ 0 ∧ ∀ j, j < findEchoSlot g → 0 < (g.Echo j).age := by
  unfold findEchoSlot
  cases hf : (List.range NECHOES).find? (fun e => decide ((g.Echo e).age ≤ 0)) with
  | none =>
    obtain ⟨e, he, hage⟩ := h
    have := (find_range_none _ _).mp hf e he
    simp at this
    omega
  | some e =>
    obtain ⟨_, h2, h3⟩ := (find_range_some _ _ _).mp hf
    refine ⟨by simpa using h2, fun j hj => ?_⟩
    have := h3 j hj
    simp at this
    exact this

/-- C29. `findEchoSlot` returns the lowest index e in 0..9 with
`Echo[e].age <= 0` when such a slot exists, and 0 (evicting slot 0) when every
slot is live; its result is always a valid index below NECHOES. -/
theorem findEchoSlot_spec (g : Game) :
    (∀ e, e < NECHOES → (g.Echo e).age ≤ 0 → (∀ j, j < e → 0 < (g.Echo j).age) →
      findEchoSlot g = e) ∧
    ((∃ e, e < NECHOES ∧ (g.Echo e).age ≤ 0) →
      (g.Echo (findEchoSlot g)).age ≤ 0 ∧ ∀ j, j < findEchoSlot g → 0 < (g.Echo j).age) ∧
    ((∀ j, j < NECHOES → 0 < (g.Echo j).age) → findEchoSlot g = 0) ∧
    findEchoSlot g < NECHOES ∧ NECHOES = 10 :=
  ⟨fun e he hfree hlive => findEchoSlot_lowest g e he hfree hlive,
    findEchoSlot_free g, findEchoSlot_all_live g, findEchoSlot_lt g, rfl⟩

end RisibleRadar

namespace RisibleRadar

open SpiOled

/-! ## Eviction of an echo -/

/-- The echo that `makeEcho` writes for target `t`. -/
theorem makeEcho_Echo (g : Game) (t e : Nat) :
    (makeEcho g t).Echo e
      = if e = findEchoSlot g then
          { x := u32 ((CENX : Int) + (((g.Target t).x : Int) - (g.Player.x : Int))),
            y := u32 ((CENY : Int) + (((g.Target t).y : Int) - (g.Player.y : Int))),
            age := 90,
            rad := ((g.Target t).siz : Int) }
        else g.Echo e := by
  unfold makeEcho
  simp only [setEcho, arraySet]
  by_cases h : e = findEchoSlot g
  · simp [h]
  · simp [h]

theorem pickUp_Echo (g : Game) (t : Nat) : (pickUp g t).Echo = g.Echo := rfl

theorem bonusPart_Echo (pickup : ℚ) (g : Game) (t : Nat) :
    (bonusPart pickup g t).Echo = g.Echo := by
  unfold bonusPart
  simp only [setTarget]
  split_ifs <;> rfl

theorem echoPart_Echo (r : Int) (frange pickup : ℚ) (g : Game) (t : Nat) :
    (echoPart r frange pickup g t).Echo
      = if ((floatToInt ((g.Target t).bearing - (r : ℚ))).natAbs : ℚ) < 6 ∧
            (g.Target t).range < frange then (makeEcho g t).Echo else g.Echo := by
  unfold echoPart
  by_cases h1 : ((floatToInt ((g.Target t).bearing - (r : ℚ))).natAbs : ℚ) < 6
  · rw [if_pos h1]
    by_cases h2 : (g.Target t).range < frange
    · rw [if_pos h2, if_pos (And.intro h1 h2)]
      simp only [makeEcho_Target]
      by_cases h3 : (g.Target t).range < pickup
      · rw [if_pos h3, pickUp_Echo]
      · rw [if_neg h3]
    · rw [if_neg h2, if_neg (fun h => h2 h.2)]
  · rw [if_neg h1, if_neg (fun h => h1 h.1)]

theorem echoPart_Player (r : Int) (frange pickup : ℚ) (g : Game) (t : Nat) :
    (echoPart r frange pickup g t).Player = g.Player := by
  unfold echoPart
  by_cases h1 : ((floatToInt ((g.Target t).bearing - (r : ℚ))).natAbs : ℚ) < 6
  · rw [if_pos h1]
    by_cases h2 : (g.Target t).range < frange
    · rw [if_pos h2]
      simp only [makeEcho_Target]
      by_cases h3 : (g.Target t).range < pickup
      · rw [if_pos h3]
        rfl
      · rw [if_neg h3]
        rfl
    · rw [if_neg h2]
  · rw [if_neg h1]

theorem bonusPart_Player (pickup : ℚ) (g : Game) (t : Nat) :
    (bonusPart pickup g t).Player = g.Player := by
  unfold bonusPart
  simp only [setTarget]
  split_ifs <;> rfl

theorem findNewEcho_Player (r : Int) (frange pickup : ℚ) (g : Game) (t : Nat) :
    (findNewEcho r frange pickup g t).Player = g.Player := by
  unfold findNewEcho
  split_ifs
  · rw [bonusPart_Player, echoPart_Player]
  · rfl

/-- The echoes after one pass of the loop of `findNewEchoes`. -/
theorem findNewEcho_Echo (r : Int) (frange pickup : ℚ) (g : Game) (t : Nat) :
    (findNewEcho r frange pickup g t).Echo
      = if (g.Target t).active = true ∧
            ((floatToInt ((g.Target t).bearing - (r : ℚ))).natAbs : ℚ) < 6 ∧
            (g.Target t).range < frange then (makeEcho g t).Echo else g.Echo := by
  unfold findNewEcho
  by_cases h : (g.Target t).active = true
  · rw [if_pos h, bonusPart_Echo, echoPart_Echo]
    by_cases h2 : ((floatToInt ((g.Target t).bearing - (r : ℚ))).natAbs : ℚ) < 6 ∧
        (g.Target t).range < frange
    · rw [if_pos h2, if_pos (And.intro h h2)]
    · rw [if_neg h2, if_neg (fun h3 => h2 h3.2)]
  · rw [if_neg h, if_neg (fun h3 => h h3.1)]

/-- With every slot live, a pass changes no slot but slot 0 and leaves every
slot live. -/
theorem findNewEcho_live (r : Int) (frange pickup : ℚ) (g : Game) (t : Nat)
    (hlive : ∀ j, j < NECHOES → 0 < (g.Echo j).age) :
    (∀ e, e ≠ 0 → (findNewEcho r frange pickup g t).Echo e = g.Echo e) ∧
    (∀ j, j < NECHOES → 0 < ((findNewEcho r frange pickup g t).Echo j).age) ∧
    (((findNewEcho r frange pickup g t).Echo 0).age = 90 ∨
      (findNewEcho r frange pickup g t).Echo 0 = g.Echo 0) := by
  have hslot := findEchoSlot_all_live g hlive
  rw [findNewEcho_Echo]
  by_cases h : (g.Target t).active = true ∧
      ((floatToInt ((g.Target t).bearing - (r : ℚ))).natAbs : ℚ) < 6 ∧
      (g.Target t).range < frange
  · rw [if_pos h]
    refine ⟨fun e he => ?_, fun j hj => ?_, Or.inl ?_⟩
    · rw [makeEcho_Echo, hslot, if_neg he]
    · rw [makeEcho_Echo, hslot]
      by_cases hj0 : j = 0
      · rw [if_pos hj0]
        show (0 : Int) < 90
        decide
      · rw [if_neg hj0]
        exact hlive j hj
    · rw [makeEcho_Echo, hslot, if_pos rfl]
  · rw [if_neg h]
    exact ⟨fun _ _ => rfl, hlive, Or.inr rfl⟩

/-- With every slot live, any number of passes changes no slot but slot 0
and leaves every slot live. -/
theorem foldl_findNewEcho_live (r : Int) (frange pickup : ℚ) (ts : List Nat) (g : Game)
    (hlive : ∀ j, j < NECHOES → 0 < (g.Echo j).age) :
    (∀ e, e ≠ 0 → (ts.foldl (findNewEcho r frange pickup) g).Echo e = g.Echo e) ∧
    (∀ j, j < NECHOES → 0 < ((ts.foldl (findNewEcho r frange pickup) g).Echo j).age) ∧
    ((g.Echo 0).age = 90 → ((ts.foldl (findNewEcho r frange pickup) g).Echo 0).age = 90) := by
  induction ts generalizing g with
  | nil => exact ⟨fun _ _ => rfl, hlive, fun h => h⟩
  | cons t ts ih =>
    obtain ⟨h1, h2, h3⟩ := findNewEcho_live r frange pickup g t hlive
    obtain ⟨i1, i2, i3⟩ := ih (findNewEcho r frange pickup g t) h2
    rw [List.foldl_cons]
    refine ⟨fun e he => by rw [i1 e he, h1 e he], i2, fun h90 => i3 ?_⟩
    rcases h3 with h | h
    · exact h
    · rw [h]
      exact h90

/-- With every slot live, `findNewEchoes` changes no slot but slot 0. -/
theorem findNewEchoes_echo_other (r radius nt : Int) (g : Game)
    (hlive : ∀ j, j < NECHOES → 0 < (g.Echo j).age) (e : Nat) (he : e ≠ 0) :
    (findNewEchoes r radius nt g).Echo e = g.Echo e := by
  unfold findNewEchoes
  exact (foldl_findNewEcho_live r _ _ _ g hlive).1 e he

/-- With every slot live, a target that spawns an echo leaves a fresh echo
in slot 0. -/
theorem findNewEchoes_echo_zero (r radius nt : Int) (g : Game) (t : Nat)
    (hlive : ∀ j, j < NECHOES → 0 < (g.Echo j).age)
    (ht : (t : Int) < nt)
    (hact : (g.Target t).active = true)
    (hbear : |(g.Target t).bearing - (r : ℚ)| < 6)
    (hrange : (g.Target t).range < (radius : ℚ)) :
    ((findNewEchoes r radius nt g).Echo 0).age = 90 ∧
    (findNewEcho r (radius : ℚ) ((radius : ℚ) / 3) (findNewEchoesBefore r radius t g) t).Echo 0
      = { x := u32 ((CENX : Int) + (((g.Target t).x : Int) - (g.Player.x : Int))),
          y := u32 ((CENY : Int) + (((g.Target t).y : Int) - (g.Player.y : Int))),
          age := 90,
          rad := ((g.Target t).siz : Int) } := by
  have hbefore : (findNewEchoesBefore r radius t g).Target t = g.Target t := by
    unfold findNewEchoesBefore
    apply foldl_keeps (fun g => g.Target t)
    intro g' a ha
    exact findNewEcho_target_other r _ _ g' t a (by
      have := List.mem_range.mp ha
      omega)
  have hplayer : (findNewEchoesBefore r radius t g).Player = g.Player := by
    unfold findNewEchoesBefore
    apply foldl_keeps (fun g => g.Player)
    intro g' a _
    exact findNewEcho_Player r _ _ g' a
  have hlive' : ∀ j, j < NECHOES → 0 < ((findNewEchoesBefore r radius t g).Echo j).age := by
    unfold findNewEchoesBefore
    exact (foldl_findNewEcho_live r (radius : ℚ) ((radius : ℚ) / 3) (List.range t) g hlive).2.1
  have hpass : (findNewEcho r (radius : ℚ) ((radius : ℚ) / 3)
      (findNewEchoesBefore r radius t g) t).Echo 0
      = { x := u32 ((CENX : Int) + (((g.Target t).x : Int) - (g.Player.x : Int))),
          y := u32 ((CENY : Int) + (((g.Target t).y : Int) - (g.Player.y : Int))),
          age := 90,
          rad := ((g.Target t).siz : Int) } := by
    rw [findNewEcho_Echo, hbefore, if_pos (And.intro hact (And.intro ((floatToInt_abs_lt _).mpr hbear) hrange)),
      makeEcho_Echo, findEchoSlot_all_live _ hlive', if_pos rfl, hbefore, hplayer]
  refine ⟨?_, hpass⟩
  unfold findNewEchoes
  simp only
  rw [range_split t nt.toNat (by omega), List.foldl_append, List.foldl_cons]
  have hl2 := (findNewEcho_live r (radius : ℚ) ((radius : ℚ) / 3)
    (findNewEchoesBefore r radius t g) t hlive').2.1
  apply (foldl_findNewEcho_live r (radius : ℚ) ((radius : ℚ) / 3) _ _ hl2).2.2
  have := congrArg echo_t.age hpass
  exact this

end RisibleRadar

namespace RisibleRadar

open SpiOled

/-- C30 as stated fails: in `crowdedGame` all ten slots are live, slot 1
holds the oldest echo (age 1, the smallest remaining age) and slot 0 the
newest (age 89); after `findNewEchoes` has spawned the echo of target 0, slot
1 still holds its echo and slot 0 holds the fresh one (age 90). -/
theorem eviction_not_oldest_counterexample :
    (∀ j, j < NECHOES → 0 < (crowdedGame.Echo j).age) ∧
    (∀ j, j < NECHOES → (crowdedGame.Echo 1).age ≤ (crowdedGame.Echo j).age) ∧
    (crowdedGame.Echo 1).age = 1 ∧
    (crowdedGame.Echo 0).age = 89 ∧
    (findNewEchoes 0 SCANNER_RADIUS NTARGETS crowdedGame).Echo 1 = crowdedGame.Echo 1 ∧
    ((findNewEchoes 0 SCANNER_RADIUS NTARGETS crowdedGame).Echo 0).age = 90 := by
  have hlive : ∀ j, j < NECHOES → 0 < (crowdedGame.Echo j).age := by decide
  refine ⟨hlive, by decide, rfl, rfl,
    findNewEchoes_echo_other 0 SCANNER_RADIUS NTARGETS crowdedGame hlive 1 (by decide),
    (findNewEchoes_echo_zero 0 SCANNER_RADIUS NTARGETS crowdedGame 0 hlive (by decide) rfl
      ?_ ?_).1⟩
  · simp only [crowdedGame]
    norm_num [abs_lt]
  · simp only [crowdedGame, SCANNER_RADIUS]
    norm_num

/-- C30, amended. When `findNewEchoes` spawns an echo while all ten echo
slots are live (age > 0), the echo that is overwritten is the one in slot 0,
whatever its age: `findEchoSlot` returns 0, the pass of the loop for a target
that is active, within 6 degrees of the sweep angle and within the scanner
radius writes its echo (age 90) to slot 0, slot 0 holds a fresh echo after
the call, and the other nine slots keep their echoes. -/
theorem echo_eviction_slot_zero (r radius nt : Int) (g : Game) (t : Nat)
    (hlive : ∀ j, j < NECHOES → 0 < (g.Echo j).age)
    (ht : (t : Int) < nt)
    (hact : (g.Target t).active = true)
    (hbear : |(g.Target t).bearing - (r : ℚ)| < 6)
    (hrange : (g.Target t).range < (radius : ℚ)) :
    findEchoSlot g = 0 ∧
    (findNewEcho r (radius : ℚ) ((radius : ℚ) / 3) (findNewEchoesBefore r radius t g) t).Echo 0
      = { x := u32 ((CENX : Int) + (((g.Target t).x : Int) - (g.Player.x : Int))),
          y := u32 ((CENY : Int) + (((g.Target t).y : Int) - (g.Player.y : Int))),
          age := 90,
          rad := ((g.Target t).siz : Int) } ∧
    ((findNewEchoes r radius nt g).Echo 0).age = 90 ∧
    (∀ e, e ≠ 0 → (findNewEchoes r radius nt g).Echo e = g.Echo e) :=
  ⟨findEchoSlot_all_live g hlive,
    (findNewEchoes_echo_zero r radius nt g t hlive ht hact hbear hrange).2,
    (findNewEchoes_echo_zero r radius nt g t hlive ht hact hbear hrange).1,
    fun e he => findNewEchoes_echo_other r radius nt g hlive e he⟩

theorem echo_eviction_slot_zero_witness :
    (∀ j, j < NECHOES → 0 < (crowdedGame.Echo j).age) ∧
    ((0 : Nat) : Int) < (NTARGETS : Int) ∧
    (crowdedGame.Target 0).active = true ∧
    |(crowdedGame.Target 0).bearing - ((3 : Int) : ℚ)| < 6 ∧
    (crowdedGame.Target 0).range < (SCANNER_RADIUS : ℚ) ∧
    findEchoSlot crowdedGame = 0 ∧
    ((findNewEchoes 3 SCANNER_RADIUS NTARGETS crowdedGame).Echo 0).age = 90 ∧
    (findNewEchoes 3 SCANNER_RADIUS NTARGETS crowdedGame).Echo 5 = crowdedGame.Echo 5 :=
  have h1 : ∀ j, j < NECHOES → 0 < (crowdedGame.Echo j).age := by decide
  have h2 : ((0 : Nat) : Int) < (NTARGETS : Int) := by decide
  have h3 : (crowdedGame.Target 0).active = true := rfl
  have h4 : |(crowdedGame.Target 0).bearing - ((3 : Int) : ℚ)| < 6 := by
    simp only [crowdedGame]
    norm_num [abs_lt]
  have h5 : (crowdedGame.Target 0).range < (SCANNER_RADIUS : ℚ) := by
    simp only [crowdedGame, SCANNER_RADIUS]
    norm_num
  ⟨h1, h2, h3, h4, h5,
    (echo_eviction_slot_zero 3 SCANNER_RADIUS NTARGETS crowdedGame 0 h1 h2 h3 h4 h5).1,
    (echo_eviction_slot_zero 3 SCANNER_RADIUS NTARGETS crowdedGame 0 h1 h2 h3 h4 h5).2.2.1,
    (echo_eviction_slot_zero 3 SCANNER_RADIUS NTARGETS crowdedGame 0 h1 h2 h3 h4 h5).2.2.2 5
      (by decide)⟩

end RisibleRadar

namespace Pbm2oled

/-! ## The PBM converters -/

theorem loopOpt_append {σ α : Type} (body : σ → α → Option σ) (l l' : List α) (s : σ) :
    loopOpt body (l ++ l') s
      = match loopOpt body l s with
        | none => none
        | some s' => loopOpt body l' s' := by
  induction l generalizing s with
  | nil => rfl
  | cons a l ih =>
    simp only [List.cons_append, loopOpt]
    cases body s a with
    | none => rfl
    | some s1 => exact ih s1

theorem and_bit_eq_zero (v b : Nat) : (v &&& (1 <<< b)) = 0 ↔ v.testBit b = false := by
  have := SpiOled.and_one_shiftLeft_ne_zero v b
  constructor
  · intro h
    cases hb : v.testBit b
    · rfl
    · exact absurd h (this.mpr hb)
  · intro h
    by_contra hne
    rw [this.mp hne] at h
    cases h

namespace Core

/-- What `clearRow` leaves in a cell. -/
theorem clearRow_apply (maxx y : Nat) (f : Nat → Nat) (k : Nat) :
    clearRow maxx y f k
      = if (y / 8) * maxx ≤ k ∧ k < (y / 8) * maxx + maxx then 0 else f k := by
  unfold clearRow
  generalize y / 8 * maxx = k0
  have key : ∀ n : Nat, ((List.range n).foldl
      (fun (f : Nat → Nat) (x : Nat) => fun k => if k = k0 + x then 0 else f k) f) k
      = if k0 ≤ k ∧ k < k0 + n then 0 else f k := by
    intro n
    induction n with
    | zero =>
      have hn : ¬ (k0 ≤ k ∧ k < k0 + 0) := by omega
      rw [List.range_zero, List.foldl_nil, if_neg hn]
    | succ n ih =>
      rw [List.range_succ, List.foldl_append, List.foldl_cons, List.foldl_nil]
      show (if k = k0 + n then 0 else ((List.range n).foldl
        (fun (f : Nat → Nat) (x : Nat) => fun k => if k = k0 + x then 0 else f k) f) k) = _
      rw [ih]
      clear ih
      split_ifs <;> first | rfl | (exfalso; omega)
  exact key maxx

/-- What `packRow` leaves in a cell. -/
theorem packRow_apply (maxx cols y i : Nat) (s : Reader) (k : Nat) :
    (packRow maxx cols y i s).frame k
      = if (y / 8) * maxx ≤ k ∧ k < (y / 8) * maxx + cols ∧
            (s.buf ((k - (y / 8) * maxx) / 8)).testBit (7 - (k - (y / 8) * maxx) % 8) = false
        then (s.frame k ||| (1 <<< i)) % 256 else s.frame k := by
  unfold packRow
  simp only
  generalize y / 8 * maxx = k0
  generalize s.frame = f
  have key : ∀ n : Nat, ((List.range n).foldl (fun (f : Nat → Nat) (x : Nat) =>
      if (s.buf (x / 8) &&& (1 <<< (7 - (x % 8)))) = 0 then
        fun k => if k = k0 + x then (f k ||| (1 <<< i)) % 256 else f k
      else f) f) k
      = if k0 ≤ k ∧ k < k0 + n ∧
            (s.buf ((k - k0) / 8)).testBit (7 - (k - k0) % 8) = false
        then (f k ||| (1 <<< i)) % 256 else f k := by
    intro n
    induction n with
    | zero =>
      have hn : ¬ (k0 ≤ k ∧ k < k0 + 0 ∧
          (s.buf ((k - k0) / 8)).testBit (7 - (k - k0) % 8) = false) := by
        rintro ⟨_, b, _⟩
        omega
      rw [List.range_zero, List.foldl_nil, if_neg hn]
    | succ n ih =>
      rw [List.range_succ, List.foldl_append, List.foldl_cons, List.foldl_nil]
      by_cases hb : (s.buf (n / 8) &&& (1 <<< (7 - (n % 8)))) = 0
      · rw [if_pos hb]
        show (if k = k0 + n then (((List.range n).foldl (fun (f : Nat → Nat) (x : Nat) =>
          if (s.buf (x / 8) &&& (1 <<< (7 - (x % 8)))) = 0 then
            fun k => if k = k0 + x then (f k ||| (1 <<< i)) % 256 else f k
          else f) f) k ||| (1 <<< i)) % 256 else ((List.range n).foldl
            (fun (f : Nat → Nat) (x : Nat) =>
          if (s.buf (x / 8) &&& (1 <<< (7 - (x % 8)))) = 0 then
            fun k => if k = k0 + x then (f k ||| (1 <<< i)) % 256 else f k
          else f) f) k) = _
        rw [ih]
        clear ih
        have hb' := (and_bit_eq_zero _ _).mp hb
        by_cases h1 : k = k0 + n
        · have e : k - k0 = n := by omega
          have hn : ¬ (k0 ≤ k ∧ k < k0 + n ∧
              (s.buf ((k - k0) / 8)).testBit (7 - (k - k0) % 8) = false) := by
            rintro ⟨_, b, _⟩
            omega
          have hp : k0 ≤ k ∧ k < k0 + (n + 1) ∧
              (s.buf ((k - k0) / 8)).testBit (7 - (k - k0) % 8) = false :=
            ⟨by omega, by omega, by rw [e]; exact hb'⟩
          rw [if_pos h1, if_neg hn, if_pos hp]
        · rw [if_neg h1]
          by_cases h2 : k0 ≤ k ∧ k < k0 + n ∧
              (s.buf ((k - k0) / 8)).testBit (7 - (k - k0) % 8) = false
          · have hp : k0 ≤ k ∧ k < k0 + (n + 1) ∧
                (s.buf ((k - k0) / 8)).testBit (7 - (k - k0) % 8) = false :=
              ⟨h2.1, by omega, h2.2.2⟩
            rw [if_pos h2, if_pos hp]
          · have hn : ¬ (k0 ≤ k ∧ k < k0 + (n + 1) ∧
                (s.buf ((k - k0) / 8)).testBit (7 - (k - k0) % 8) = false) := by
              rintro ⟨a, b, c⟩
              exact h2 ⟨a, by omega, c⟩
            rw [if_neg h2, if_neg hn]
      · rw [if_neg hb, ih]
        clear ih
        have hb' : (s.buf (n / 8)).testBit (7 - n % 8) ≠ false :=
          fun h => hb ((and_bit_eq_zero _ _).mpr h)
        by_cases h2 : k0 ≤ k ∧ k < k0 + n ∧
            (s.buf ((k - k0) / 8)).testBit (7 - (k - k0) % 8) = false
        · have hp : k0 ≤ k ∧ k < k0 + (n + 1) ∧
              (s.buf ((k - k0) / 8)).testBit (7 - (k - k0) % 8) = false :=
            ⟨h2.1, by omega, h2.2.2⟩
          rw [if_pos h2, if_pos hp]
        · have hn : ¬ (k0 ≤ k ∧ k < k0 + (n + 1) ∧
              (s.buf ((k - k0) / 8)).testBit (7 - (k - k0) % 8) = false) := by
            rintro ⟨a, b, c⟩
            by_cases h1 : k = k0 + n
            · have e : k - k0 = n := by omega
              rw [e] at c
              exact hb' c
            · exact h2 ⟨a, by omega, c⟩
          rw [if_neg h2, if_neg hn]
  exact key cols

theorem packRow_fp (maxx cols y i : Nat) (s : Reader) :
    (packRow maxx cols y i s).fp = s.fp := rfl

end Core

end Pbm2oled

namespace Pbm2oled

namespace Core

/-- A successful pass of the row loop reads row `R` of the data (or, at the
end of the data, takes a row of zero bytes) and packs it. -/
theorem readRow_some (maxx maxy L cols y i : Nat) (data : List Nat) (R : Nat) (s s' : Reader)
    (hL : L ≤ maxx) (hfp : s.fp = data.drop (R * L))
    (h : readRow maxx maxy L (L : Int) cols y i s = some s') :
    ∃ b : Nat → Nat, (∀ k, k < L → b k = rowByte data L R k) ∧
      s' = packRow maxx cols y i
        { frame := s.frame, buf := b, fp := data.drop ((R + 1) * L) } := by
  have hdrop : s.fp.drop L = data.drop ((R + 1) * L) := by
    rw [hfp, List.drop_drop]
    congr 1
    ring
  have hbyte : ∀ k, k < L → (s.fp.take L).getD k 0 = rowByte data L R k := by
    intro k hk
    unfold rowByte
    rw [List.getD_eq_getElem?_getD, List.getD_eq_getElem?_getD, List.getElem?_take, if_pos hk,
      hfp, List.getElem?_drop]
  unfold readRow at h
  simp only at h
  have hcount : (fread L s).1 = (s.fp.take L).length := rfl
  have hstate : (fread L s).2
      = { s with buf := fun k => if k < (s.fp.take L).length then (s.fp.take L).getD k 0
                                 else s.buf k,
                 fp := s.fp.drop L } := rfl
  rw [hcount, hstate] at h
  by_cases hnb : (((s.fp.take L).length : Nat) : Int) ≠ (L : Int)
  · rw [if_pos hnb] at h
    by_cases hz : (((s.fp.take L).length : Nat) : Int) = 0 ∧
        (maxy : Int) ≤ (y : Int) + (i : Int)
    · rw [if_pos hz] at h
      have hz0 : (s.fp.take L).length = 0 := by exact_mod_cast hz.1
      have hLpos : 0 < L := by
        rcases Nat.eq_zero_or_pos L with h0 | h0
        · exfalso
          apply hnb
          rw [hz0, h0]
        · exact h0
      have hnil : s.fp = [] := by
        rw [List.length_take] at hz0
        have : s.fp.length = 0 := by omega
        exact List.length_eq_zero.mp this
      have hshort : data.length ≤ R * L := by
        rw [hnil] at hfp
        exact List.drop_eq_nil_iff.mp hfp.symm
      refine ⟨memsetBuf maxx (fun k => if k < (s.fp.take L).length then (s.fp.take L).getD k 0
        else s.buf k), fun k hk => ?_, ?_⟩
      · have hkm : k < maxx := by omega
        have hnone : data[R * L + k]? = none := List.getElem?_eq_none (by omega)
        show (if k < maxx then 0 else _) = rowByte data L R k
        rw [if_pos hkm]
        unfold rowByte
        rw [List.getD_eq_getElem?_getD, hnone]
        rfl
      · rw [← Option.some.inj h, ← hdrop]
    · rw [if_neg hz] at h
      cases h
  · rw [if_neg hnb] at h
    have hfull : (s.fp.take L).length = L := by
      by_contra hne
      apply hnb
      intro hcast
      exact hne (by exact_mod_cast hcast)
    refine ⟨fun k => if k < (s.fp.take L).length then (s.fp.take L).getD k 0 else s.buf k,
      fun k hk => ?_, ?_⟩
    · show (if k < (s.fp.take L).length then (s.fp.take L).getD k 0 else s.buf k)
        = rowByte data L R k
      rw [hfull, if_pos hk]
      exact hbyte k hk
    · rw [← Option.some.inj h, ← hdrop]

end Core

end Pbm2oled

namespace Pbm2oled

namespace Core

theorem rowInv_step (maxx maxy L cols : Nat) (data : List Nat) (y R0 : Nat) (f0 : Nat → Nat)
    (i : Nat) (s s' : Reader) (hL : L ≤ maxx) (hcols : cols ≤ 8 * L) (hi : i < 8)
    (hinv : RowInv maxx L cols data y R0 f0 i s)
    (h : readRow maxx maxy L (L : Int) cols y i s = some s') :
    RowInv maxx L cols data y R0 f0 (i + 1) s' := by
  obtain ⟨hfp, hbits, hout⟩ := hinv
  obtain ⟨b, hb, hs'⟩ := readRow_some maxx maxy L cols y i data (R0 + i) s s' hL hfp h
  have hframe : ∀ k, s'.frame k
      = if (y / 8) * maxx ≤ k ∧ k < (y / 8) * maxx + cols ∧
            (b ((k - (y / 8) * maxx) / 8)).testBit (7 - (k - (y / 8) * maxx) % 8) = false
        then (s.frame k ||| (1 <<< i)) % 256 else s.frame k := by
    intro k
    rw [hs']
    exact packRow_apply maxx cols y i _ k
  refine ⟨?_, ?_, ?_⟩
  · rw [hs']
    show data.drop ((R0 + i + 1) * L) = data.drop ((R0 + (i + 1)) * L)
    rw [Nat.add_assoc]
  · intro x hx j
    have hx8 : x / 8 < L := by omega
    have e : (y / 8) * maxx + x - (y / 8) * maxx = x := by omega
    have hbit : (b (x / 8)).testBit (7 - x % 8) = inputBit data L (R0 + i) x := by
      rw [hb (x / 8) hx8]
      rfl
    rw [hframe, e, hbit]
    by_cases hib : inputBit data L (R0 + i) x = false
    · rw [if_pos ⟨by omega, by omega, hib⟩, show (256 : Nat) = 2 ^ 8 from rfl,
        Nat.testBit_mod_two_pow, Nat.testBit_or, hbits x hx, Nat.one_shiftLeft,
        Nat.testBit_two_pow]
      by_cases hj : j < i
      · have h1 : j < 8 := by omega
        have h2 : j < i + 1 := by omega
        have h3 : ¬ i = j := by omega
        simp [hj, h1, h2, h3]
      · by_cases hji : i = j
        · have h1 : j < 8 := by omega
          have h2 : j < i + 1 := by omega
          subst hji
          simp [h1, hib]
        · have h2 : ¬ j < i + 1 := by omega
          simp [hj, h2, hji]
    · have hib' : inputBit data L (R0 + i) x = true := by
        cases hv : inputBit data L (R0 + i) x
        · exact absurd hv hib
        · rfl
      have hn : ¬ ((y / 8) * maxx ≤ (y / 8) * maxx + x ∧
          (y / 8) * maxx + x < (y / 8) * maxx + cols ∧
          inputBit data L (R0 + i) x = false) := fun hc => hib hc.2.2
      rw [if_neg hn, hbits x hx]
      by_cases hj : j < i
      · have h2 : j < i + 1 := by omega
        simp [hj, h2]
      · by_cases hji : i = j
        · subst hji
          simp [hib']
        · have h2 : ¬ j < i + 1 := by omega
          simp [hj, h2]
  · intro k hk
    have hn : ¬ ((y / 8) * maxx ≤ k ∧ k < (y / 8) * maxx + cols ∧
        (b ((k - (y / 8) * maxx) / 8)).testBit (7 - (k - (y / 8) * maxx) % 8) = false) :=
      fun hc => hk ⟨hc.1, hc.2.1⟩
    rw [hframe, if_neg hn]
    exact hout k hk

theorem rowInv_loop (maxx maxy L cols : Nat) (data : List Nat) (y R0 : Nat) (f0 : Nat → Nat)
    (hL : L ≤ maxx) (hcols : cols ≤ 8 * L) (m : Nat) :
    ∀ (i : Nat) (s s' : Reader), i + m ≤ 8 →
      RowInv maxx L cols data y R0 f0 i s →
      loopOpt (fun s i => readRow maxx maxy L (L : Int) cols y i s) (List.range' i m) s
        = some s' →
      RowInv maxx L cols data y R0 f0 (i + m) s' := by
  induction m with
  | zero =>
    intro i s s' _ hinv h
    have e : s = s' := Option.some.inj h
    rw [← e]
    exact hinv
  | succ m ih =>
    intro i s s' him hinv h
    rw [List.range'_succ] at h
    simp only [loopOpt] at h
    cases hrow : readRow maxx maxy L (L : Int) cols y i s with
    | none =>
      rw [hrow] at h
      cases h
    | some s1 =>
      rw [hrow] at h
      have h1 := rowInv_step maxx maxy L cols data y R0 f0 i s s1 hL hcols (by omega) hinv hrow
      have := ih (i + 1) s1 s' (by omega) h1 h
      rw [show i + (m + 1) = i + 1 + m by omega]
      exact this

/-- A successful pass of the group loop at `y`, entered with the stream at
row `R0`. -/
theorem readGroup_some (maxx maxy L cols : Nat) (data : List Nat) (y R0 : Nat)
    (s s' : Reader) (hL : L ≤ maxx) (hcols : cols ≤ 8 * L) (hcm : cols ≤ maxx)
    (hfp : s.fp = data.drop (R0 * L))
    (h : readGroup maxx maxy L (L : Int) cols s y = some s') :
    s'.fp = data.drop ((R0 + 8) * L) ∧
    (∀ x, x < cols → ∀ j, (s'.frame ((y / 8) * maxx + x)).testBit j
      = (decide (j < 8) && !inputBit data L (R0 + j) x)) ∧
    (∀ k, ¬ ((y / 8) * maxx ≤ k ∧ k < (y / 8) * maxx + maxx) → s'.frame k = s.frame k) := by
  unfold readGroup at h
  rw [List.range_eq_range'] at h
  have hinv0 : RowInv maxx L cols data y R0 (clearRow maxx y s.frame) 0
      { s with frame := clearRow maxx y s.frame } := by
    refine ⟨hfp, fun x hx j => ?_, fun _ _ => rfl⟩
    show (clearRow maxx y s.frame ((y / 8) * maxx + x)).testBit j = _
    have hin : (y / 8) * maxx ≤ (y / 8) * maxx + x ∧
        (y / 8) * maxx + x < (y / 8) * maxx + maxx := by omega
    rw [clearRow_apply, if_pos hin]
    simp
  have h8 := rowInv_loop maxx maxy L cols data y R0 (clearRow maxx y s.frame) hL hcols 8 0
    _ s' (by omega) hinv0 h
  obtain ⟨a, b, c⟩ := h8
  refine ⟨by simpa using a, fun x hx j => by simpa using b x hx j, fun k hk => ?_⟩
  have hk' : ¬ ((y / 8) * maxx ≤ k ∧ k < (y / 8) * maxx + cols) := by omega
  rw [c k hk', clearRow_apply, if_neg hk]

end Core

end Pbm2oled

namespace Pbm2oled

namespace Core

theorem cell_lt_group (a g maxx x : Nat) (ha : a < g) (hx : x < maxx) :
    a * maxx + x < g * maxx := by
  calc a * maxx + x < a * maxx + maxx := by omega
    _ = (a + 1) * maxx := by ring
    _ ≤ g * maxx := Nat.mul_le_mul_right maxx ha

/-- The state of the group loop after `g` groups. -/
theorem groups_loop (maxx maxy L cols : Nat) (data : List Nat)
    (hL : L ≤ maxx) (hcols : cols ≤ 8 * L) (hcm : cols ≤ maxx) (G : Nat) :
    ∀ (s s' : Reader), s.fp = data →
      loopOpt (readGroup maxx maxy L (L : Int) cols) ((List.range G).map (fun k => 8 * k)) s
        = some s' →
      s'.fp = data.drop (8 * G * L) ∧
      ∀ r x, r < 8 * G → x < cols →
        (s'.frame ((r / 8) * maxx + x)).testBit (r % 8) = !inputBit data L r x := by
  induction G with
  | zero =>
    intro s s' hfp h
    have e : s = s' := Option.some.inj h
    rw [← e]
    refine ⟨by simpa using hfp, fun r x hr _ => ?_⟩
    omega
  | succ G ih =>
    intro s s' hfp h
    rw [List.range_succ, List.map_append, loopOpt_append] at h
    cases hprev : loopOpt (readGroup maxx maxy L (L : Int) cols)
        ((List.range G).map (fun k => 8 * k)) s with
    | none =>
      rw [hprev] at h
      cases h
    | some s1 =>
      rw [hprev] at h
      obtain ⟨hfp1, hbits1⟩ := ih s s1 hfp hprev
      simp only [List.map_cons, List.map_nil, loopOpt] at h
      cases hgrp : readGroup maxx maxy L (L : Int) cols s1 (8 * G) with
      | none =>
        rw [hgrp] at h
        cases h
      | some s2 =>
        rw [hgrp] at h
        have e : s2 = s' := Option.some.inj h
        rw [← e]
        obtain ⟨a, b, c⟩ := readGroup_some maxx maxy L cols data (8 * G) (8 * G) s1 s2 hL
          hcols hcm hfp1 hgrp
        have hy8 : 8 * G / 8 = G := by omega
        rw [hy8] at b c
        refine ⟨?_, fun r x hr hx => ?_⟩
        · rw [a]
          have e2 : (8 * G + 8) * L = 8 * (G + 1) * L := by ring
          rw [e2]
        · by_cases hold : r < 8 * G
          · have hlt : (r / 8) * maxx + x < G * maxx :=
              cell_lt_group (r / 8) G maxx x (by omega) (by omega)
            have hout : ¬ (G * maxx ≤ (r / 8) * maxx + x ∧
                (r / 8) * maxx + x < G * maxx + maxx) := by omega
            rw [c _ hout]
            exact hbits1 r x hold hx
          · have hr8 : r / 8 = G := by omega
            have hrr : 8 * G + r % 8 = r := by omega
            have hj : r % 8 < 8 := Nat.mod_lt _ (by decide)
            rw [hr8, b x hx (r % 8), hrr]
            simp [hj]

/-- The data loop: after a successful run, bit `r mod 8` of the cell of
`(x, r)` is set exactly when the input bit of `(x, r)` is 0. -/
theorem readData_bits (maxx maxy L cols : Nat) (data : List Nat) (ysize : Int)
    (s s' : Reader) (hL : L ≤ maxx) (hcols : cols ≤ 8 * L) (hcm : cols ≤ maxx)
    (hfp : s.fp = data)
    (h : readData maxx maxy L (L : Int) cols ysize s = some s')
    (r x : Nat) (hr : (r : Int) < ysize) (hx : x < cols) :
    (s'.frame ((r / 8) * maxx + x)).testBit (r % 8) = !inputBit data L r x := by
  unfold readData groupStarts at h
  have := (groups_loop maxx maxy L cols data hL hcols hcm _ s s' hfp h).2 r x (by omega) hx
  exact this

end Core

theorem readGroup_eq_core :
    readGroup = Core.readGroup 128 32 16 16 128 := rfl

theorem readGroup_eq_core_blue (xsize pbmlen : Int) :
    BluePill.readGroup xsize pbmlen
      = Core.readGroup 256 256 (size_t pbmlen) pbmlen xsize.toNat := rfl

theorem pbmlenOf_pos (xsize : Int) (h0 : 0 < xsize) (h1 : xsize ≤ 256) :
    BluePill.pbmlenOf xsize = (((xsize.toNat + 7) / 8 : Nat) : Int) ∧
    size_t (BluePill.pbmlenOf xsize) = (xsize.toNat + 7) / 8 := by
  obtain ⟨n, rfl⟩ := Int.eq_ofNat_of_zero_le (le_of_lt h0)
  have hn : n ≤ 256 := by exact_mod_cast h1
  have hn0 : 0 < n := by exact_mod_cast h0
  have e : BluePill.pbmlenOf (n : Int) = (((n + 7) / 8 : Nat) : Int) := by
    unfold BluePill.pbmlenOf
    have h1 : Int.tmod (n : Int) 8 = ((n % 8 : Nat) : Int) := by
      rw [Int.tmod_eq_emod (by omega) (by omega)]
      omega
    have h2 : Int.tdiv (n : Int) 8 = ((n / 8 : Nat) : Int) := by
      rw [Int.tdiv_eq_ediv (by omega) (by omega)]
      omega
    rw [h1, h2]
    split_ifs with hz
    · have : n % 8 = 0 := by exact_mod_cast hz
      omega
    · have : n % 8 ≠ 0 := fun hc => hz (by exact_mod_cast hc)
      omega
  refine ⟨by simpa using e, ?_⟩
  rw [e]
  unfold size_t
  simp only [Int.toNat_ofNat]
  omega

end Pbm2oled

namespace Pbm2oled

namespace Core

/-- Below the row limit a successful pass of the row loop has read a whole
row of `L` bytes. -/
theorem readRow_full (maxx maxy L cols y i : Nat) (s s' : Reader)
    (hy : y + i < maxy)
    (h : readRow maxx maxy L (L : Int) cols y i s = some s') :
    s'.fp.length + L = s.fp.length := by
  unfold readRow at h
  simp only at h
  have hcount : (fread L s).1 = (s.fp.take L).length := rfl
  have hfp2 : (fread L s).2.fp = s.fp.drop L := rfl
  by_cases hnb : (((fread L s).1 : Nat) : Int) ≠ (L : Int)
  · rw [if_pos hnb] at h
    have hz : ¬ ((((fread L s).1 : Nat) : Int) = 0 ∧ (maxy : Int) ≤ (y : Int) + (i : Int)) := by
      rintro ⟨_, hc⟩
      omega
    rw [if_neg hz] at h
    cases h
  · rw [if_neg hnb] at h
    have hfull : (s.fp.take L).length = L := by
      by_contra hne
      apply hnb
      intro hcast
      rw [hcount] at hcast
      exact hne (by exact_mod_cast hcast)
    rw [List.length_take] at hfull
    have e : s'.fp = s.fp.drop L := by
      rw [← Option.some.inj h, packRow_fp, hfp2]
    rw [e, List.length_drop]
    omega

theorem rows_full (maxx maxy L cols y : Nat) (m : Nat) :
    ∀ (i : Nat) (s s' : Reader), y + i + m ≤ maxy →
      loopOpt (fun s i => readRow maxx maxy L (L : Int) cols y i s) (List.range' i m) s
        = some s' →
      s'.fp.length + m * L = s.fp.length := by
  induction m with
  | zero =>
    intro i s s' _ h
    have e : s = s' := Option.some.inj h
    rw [← e]
    omega
  | succ m ih =>
    intro i s s' him h
    rw [List.range'_succ] at h
    simp only [loopOpt] at h
    cases hrow : readRow maxx maxy L (L : Int) cols y i s with
    | none =>
      rw [hrow] at h
      cases h
    | some s1 =>
      rw [hrow] at h
      have h1 := readRow_full maxx maxy L cols y i s s1 (by omega) hrow
      have h2 := ih (i + 1) s1 s' (by omega) h
      have e : (m + 1) * L = m * L + L := by ring
      omega

theorem readGroup_full (maxx maxy L cols y : Nat) (s s' : Reader) (hy : y + 8 ≤ maxy)
    (h : readGroup maxx maxy L (L : Int) cols s y = some s') :
    s'.fp.length + 8 * L = s.fp.length := by
  unfold readGroup at h
  rw [List.range_eq_range'] at h
  exact rows_full maxx maxy L cols y 8 0 { s with frame := clearRow maxx y s.frame } s'
    (by omega) h

theorem groups_full (maxx maxy L cols : Nat) (G : Nat) :
    ∀ (s s' : Reader), 8 * G ≤ maxy →
      loopOpt (readGroup maxx maxy L (L : Int) cols) ((List.range G).map (fun k => 8 * k)) s
        = some s' →
      s'.fp.length + 8 * G * L = s.fp.length := by
  induction G with
  | zero =>
    intro s s' _ h
    have e : s = s' := Option.some.inj h
    rw [← e]
    omega
  | succ G ih =>
    intro s s' hG h
    rw [List.range_succ, List.map_append, loopOpt_append] at h
    cases hprev : loopOpt (readGroup maxx maxy L (L : Int) cols)
        ((List.range G).map (fun k => 8 * k)) s with
    | none =>
      rw [hprev] at h
      cases h
    | some s1 =>
      rw [hprev] at h
      have h1 := ih s s1 (by omega) hprev
      simp only [List.map_cons, List.map_nil, loopOpt] at h
      cases hgrp : readGroup maxx maxy L (L : Int) cols s1 (8 * G) with
      | none =>
        rw [hgrp] at h
        cases h
      | some s2 =>
        rw [hgrp] at h
        have e : s2 = s' := Option.some.inj h
        rw [← e]
        have h2 := readGroup_full maxx maxy L cols (8 * G) s1 s2 (by omega) hgrp
        have e3 : 8 * (G + 1) * L = 8 * G * L + 8 * L := by ring
        omega

end Core

/-- The 128x32 converter succeeds on a file that holds exactly one image of
height 1..32 only if the rows of the image are 16 bytes long. -/
theorem readPBM_row_length (ysize : Int) (data : List Nat) (s s' : Reader) (P : Nat)
    (hfp : s.fp = data) (hy0 : 0 < ysize) (hy : ysize ≤ 32) (hP : P ≤ 16)
    (hlen : data.length = P * ysize.toNat)
    (h : loopOpt readGroup (groupStarts ysize) s = some s') : P = 16 := by
  rw [readGroup_eq_core] at h
  unfold groupStarts at h
  have hG : 8 * ((ysize + 7) / 8).toNat ≤ 32 := by omega
  have hfull := Core.groups_full 128 32 16 128 _ s s' hG h
  rw [hfp, hlen] at hfull
  have hY : ysize.toNat ≤ 8 * ((ysize + 7) / 8).toNat := by omega
  have hG0 : 0 < ((ysize + 7) / 8).toNat := by omega
  by_contra hne
  have hP15 : P ≤ 15 := by omega
  have h1 : P * ysize.toNat ≤ 15 * (8 * ((ysize + 7) / 8).toNat) :=
    Nat.mul_le_mul hP15 hY
  omega

end Pbm2oled

namespace Pbm2oled

theorem readHeader_le (io : Stdio) (xsize ysize : Int) (data : List Nat)
    (h : readHeader io = some (xsize, ysize, data)) : xsize ≤ 128 := by
  unfold readHeader at h
  cases hf : io.fopen with
  | none =>
    rw [hf] at h
    cases h
  | some fp =>
    rw [hf] at h
    simp only at h
    split_ifs at h
    all_goals
      have e := Option.some.inj h
      simp only [Prod.mk.injEq] at e
      obtain ⟨e1, e2, e3⟩ := e
      simp only [MAXX] at *
      omega

theorem readHeader_le_blue (io : Stdio) (xsize ysize : Int) (data : List Nat)
    (h : BluePill.readHeader io = some (xsize, ysize, data)) : xsize ≤ 256 ∧ ysize ≤ 256 := by
  unfold BluePill.readHeader at h
  cases hf : io.fopen with
  | none =>
    rw [hf] at h
    cases h
  | some fp =>
    rw [hf] at h
    simp only at h
    split_ifs at h
    all_goals
      have e := Option.some.inj h
      simp only [Prod.mk.injEq] at e
      obtain ⟨e1, e2, e3⟩ := e
      simp only [BluePill.MAXX, BluePill.MAXY] at *
      omega

/-- Bit transform of the two PBM converters. After a successful `readPBM`, for
every image column x and row r, bit `r mod 8` of `Frame[r / 8][x]` is set
exactly when bit `7 - x mod 8` (MSB first) of byte `x / 8` of input row r is
0: the MSB-first input row bytes are re-packed as 8 image rows per output
byte, LSB the topmost row. In `src/BluePill/pbm2oled.c` the input rows are
the `pbmlen` = ceil(xsize / 8) bytes long rows of the image; in
`src/pbm2oled.c`, which reads `MAXX / 8` = 16 bytes per row whatever the
width, they are rows of 16 bytes, and the property holds for all 128 columns
of the rows inside the frame; these are the rows of the image, because on a
file that holds exactly one image of height 1..32 that converter succeeds
only if the rows of the image are 16 bytes long. -/
theorem pbm_bit_transform (io io' : Stdio) (frame buf frame' buf' : Nat → Nat)
    (xsize ysize : Int) (data : List Nat) (img : BluePill.Image)
    (xsize' ysize' : Int) (data' : List Nat) (out : Nat → Nat)
    (hhead : BluePill.readHeader io = some (xsize, ysize, data))
    (hread : BluePill.readPBM io frame buf = some img)
    (hhead' : readHeader io' = some (xsize', ysize', data'))
    (hread' : readPBM io' frame' buf' = some out) :
    (img.wd = xsize ∧ img.ht = ysize ∧
      ∀ x r : Nat, (x : Int) < xsize → (r : Int) < ysize →
        (img.frame ((r / 8) * BluePill.MAXX + x)).testBit (r % 8)
          = !inputBit data ((xsize.toNat + 7) / 8) r x) ∧
    (xsize' ≤ 128 ∧
      (∀ x r : Nat, x < 128 → (r : Int) < ysize' → r < 32 →
        (out ((r / 8) * MAXX + x)).testBit (r % 8) = !inputBit data' 16 r x) ∧
      (0 < ysize' → ysize' ≤ 32 →
        data'.length = ((xsize'.toNat + 7) / 8) * ysize'.toNat →
        (xsize'.toNat + 7) / 8 = 16)) := by
  constructor
  · unfold BluePill.readPBM at hread
    rw [hhead] at hread
    simp only at hread
    cases hloop : loopOpt (BluePill.readGroup xsize (BluePill.pbmlenOf xsize))
        (groupStarts ysize) { frame := frame, buf := buf, fp := data } with
    | none =>
      rw [hloop] at hread
      cases hread
    | some s =>
      rw [hloop] at hread
      have e := Option.some.inj hread
      rw [← e]
      refine ⟨rfl, rfl, fun x r hx hr => ?_⟩
      have hx0 : 0 < xsize := by omega
      have hx256 := (readHeader_le_blue io xsize ysize data hhead).1
      obtain ⟨hlen, hsz⟩ := pbmlenOf_pos xsize hx0 hx256
      rw [readGroup_eq_core_blue, hsz, hlen] at hloop
      exact Core.readData_bits 256 256 ((xsize.toNat + 7) / 8) xsize.toNat data ysize _ s
        (by omega) (by omega) (by omega) rfl hloop r x hr (by omega)
  · refine ⟨readHeader_le io' xsize' ysize' data' hhead', ?_⟩
    unfold readPBM at hread'
    rw [hhead'] at hread'
    simp only at hread'
    cases hloop : loopOpt readGroup (groupStarts ysize')
        { frame := frame', buf := buf', fp := data' } with
    | none =>
      rw [hloop] at hread'
      cases hread'
    | some s =>
      rw [hloop] at hread'
      have e := Option.some.inj hread'
      rw [← e]
      have hx128 := readHeader_le io' xsize' ysize' data' hhead'
      refine ⟨fun x r hx hr _ => ?_, fun hy0 hy hlen => ?_⟩
      · rw [readGroup_eq_core] at hloop
        exact Core.readData_bits 128 32 16 128 data' ysize' _ s (by omega) (by omega)
          (by omega) rfl hloop r x hr hx
      · exact readPBM_row_length ysize' data' _ s _ rfl hy0 hy (by omega) hlen hloop

set_option maxRecDepth 100000 in
theorem pbm_bit_transform_witness :
    BluePill.readHeader sampleStdio = some (8, 8, [0, 1, 2, 3, 4, 5, 6, 7]) ∧
    readHeader sampleStdioWide = some (128, 8, List.replicate 128 0x0f) ∧
    (∃ img, BluePill.readPBM sampleStdio (fun _ => 0) (fun _ => 0) = some img ∧
      ∃ out, readPBM sampleStdioWide (fun _ => 0) (fun _ => 0) = some out ∧
        (img.frame ((1 / 8) * BluePill.MAXX + 0)).testBit (1 % 8) = true ∧
        (img.frame ((1 / 8) * BluePill.MAXX + 7)).testBit (1 % 8) = false ∧
        (out ((5 / 8) * MAXX + 3)).testBit (5 % 8) = true ∧
        (out ((5 / 8) * MAXX + 4)).testBit (5 % 8) = false) :=
  have h1 : BluePill.readHeader sampleStdio = some (8, 8, [0, 1, 2, 3, 4, 5, 6, 7]) := by
    decide
  have h2 : readHeader sampleStdioWide = some (128, 8, List.replicate 128 0x0f) := by decide
  have s1 : (BluePill.readPBM sampleStdio (fun _ => 0) (fun _ => 0)).isSome = true := by
    decide
  have s2 : (readPBM sampleStdioWide (fun _ => 0) (fun _ => 0)).isSome = true := by decide
  ⟨h1, h2,
    (Option.isSome_iff_exists.mp s1).elim (fun img hi =>
      (Option.isSome_iff_exists.mp s2).elim (fun out ho =>
        ⟨img, hi, out, ho,
          ((pbm_bit_transform sampleStdio sampleStdioWide _ _ _ _ 8 8 _ img 128 8 _ out
            h1 hi h2 ho).1.2.2 0 1 (by decide) (by decide)).trans (by decide),
          ((pbm_bit_transform sampleStdio sampleStdioWide _ _ _ _ 8 8 _ img 128 8 _ out
            h1 hi h2 ho).1.2.2 7 1 (by decide) (by decide)).trans (by decide),
          ((pbm_bit_transform sampleStdio sampleStdioWide _ _ _ _ 8 8 _ img 128 8 _ out
            h1 hi h2 ho).2.2.1 3 5 (by decide) (by decide) (by decide)).trans (by decide),
          ((pbm_bit_transform sampleStdio sampleStdioWide _ _ _ _ 8 8 _ img 128 8 _ out
            h1 hi h2 ho).2.2.1 4 5 (by decide) (by decide) (by decide)).trans (by decide)⟩))⟩

end Pbm2oled

namespace Pbm2oled

/-- What a successful `readPBM` of `src/pbm2oled.c` leaves in the frame
memory: the data is taken as rows of `MAXX / 8` = 16 bytes whatever the width
in the header, and bit `r mod 8` of cell `(r / 8) * MAXX + x` is set exactly
when pixel `x` of the 16-byte row `r` is 0. -/
theorem readPBM_rows16 (io : Stdio) (frame buf out : Nat → Nat) (xsize ysize : Int)
    (data : List Nat) (hhead : readHeader io = some (xsize, ysize, data))
    (hread : readPBM io frame buf = some out) (x r : Nat) (hx : x < 128)
    (hr : (r : Int) < ysize) :
    (out ((r / 8) * MAXX + x)).testBit (r % 8) = !inputBit data 16 r x := by
  unfold readPBM at hread
  rw [hhead] at hread
  simp only at hread
  cases hloop : loopOpt readGroup (groupStarts ysize)
      { frame := frame, buf := buf, fp := data } with
  | none =>
    rw [hloop] at hread
    cases hread
  | some s =>
    rw [hloop] at hread
    have e := Option.some.inj hread
    rw [← e]
    rw [readGroup_eq_core] at hloop
    exact Core.readData_bits 128 32 16 128 data ysize _ s (by omega) (by omega)
      (by omega) rfl hloop r x hr hx

/-- What a successful `readPBM` of `src/BluePill/pbm2oled.c` leaves in the
frame memory: the data is taken as rows of `pbmlen` = ceil(xsize / 8) bytes,
the rows of the image, and bit `r mod 8` of `Frame[r / 8][x]` is set exactly
when pixel `x` of row `r` is 0. -/
theorem readPBM_rows_blue (io : Stdio) (frame buf : Nat → Nat) (img : BluePill.Image)
    (xsize ysize : Int) (data : List Nat)
    (hhead : BluePill.readHeader io = some (xsize, ysize, data))
    (hread : BluePill.readPBM io frame buf = some img) (x r : Nat) (hx : (x : Int) < xsize)
    (hr : (r : Int) < ysize) :
    (img.frame ((r / 8) * BluePill.MAXX + x)).testBit (r % 8)
      = !inputBit data ((xsize.toNat + 7) / 8) r x := by
  unfold BluePill.readPBM at hread
  rw [hhead] at hread
  simp only at hread
  cases hloop : loopOpt (BluePill.readGroup xsize (BluePill.pbmlenOf xsize))
      (groupStarts ysize) { frame := frame, buf := buf, fp := data } with
  | none =>
    rw [hloop] at hread
    cases hread
  | some s =>
    rw [hloop] at hread
    have e := Option.some.inj hread
    rw [← e]
    have hx0 : 0 < xsize := by omega
    have hx256 := (readHeader_le_blue io xsize ysize data hhead).1
    obtain ⟨hlen, hsz⟩ := pbmlenOf_pos xsize hx0 hx256
    rw [readGroup_eq_core_blue, hsz, hlen] at hloop
    exact Core.readData_bits 256 256 ((xsize.toNat + 7) / 8) xsize.toNat data ysize _ s
      (by omega) (by omega) (by omega) rfl hloop r x hr (by omega)

set_option maxRecDepth 100000 in
/-- C22 holds for `src/BluePill/pbm2oled.c` and fails for `src/pbm2oled.c`.
After every successful `readPBM` of `src/BluePill/pbm2oled.c`, for every
column x and row r of the image, bit `r mod 8` of `Frame[r / 8][x]` is set
exactly when bit `7 - x mod 8` of byte `x / 8` of input row r is 0. The file
`sampleStdio64` is a 64x64 image, 64 rows of 8 bytes, whose pixel (0, 1) is
1. Both converters accept its header and return success. The converter of
`src/BluePill/pbm2oled.c` leaves bit 1 of `Frame[0][0]` clear. The converter
of `src/pbm2oled.c` reads 16 bytes per row whatever the width, so its row 1
is made of rows 2 and 3 of the image: it sets bit 1 of `Frame[0][0]`. It
does not check the height either: at the end of the file the rows 32..63 are
taken as zero and packed into the cells from `4 * MAXX` on, past the
`MAXROWS * MAXX` = 512 cells of `Frame`. -/
theorem pbm_narrow_image_misread :
    (∀ (io : Stdio) (frame buf : Nat → Nat) (img : BluePill.Image) (xsize ysize : Int)
        (data : List Nat), BluePill.readHeader io = some (xsize, ysize, data) →
      BluePill.readPBM io frame buf = some img →
      ∀ x r : Nat, (x : Int) < xsize → (r : Int) < ysize →
        (img.frame ((r / 8) * BluePill.MAXX + x)).testBit (r % 8)
          = !inputBit data ((xsize.toNat + 7) / 8) r x) ∧
    readHeader sampleStdio64 = some (64, 64, image64) ∧
    BluePill.readHeader sampleStdio64 = some (64, 64, image64) ∧
    image64.length = 8 * 64 ∧
    inputBit image64 8 1 0 = true ∧
    (∃ img, BluePill.readPBM sampleStdio64 (fun _ => 0) (fun _ => 0) = some img ∧
      (img.frame ((1 / 8) * BluePill.MAXX + 0)).testBit (1 % 8) = false) ∧
    (∃ out, readPBM sampleStdio64 (fun _ => 0) (fun _ => 0) = some out ∧
      (out ((1 / 8) * MAXX + 0)).testBit (1 % 8) = true ∧
      MAXROWS * MAXX ≤ (32 / 8) * MAXX + 0 ∧
      (out ((32 / 8) * MAXX + 0)).testBit (32 % 8) = true) :=
  have h1 : readHeader sampleStdio64 = some (64, 64, image64) := by decide
  have h2 : BluePill.readHeader sampleStdio64 = some (64, 64, image64) := by decide
  have s1 : (readPBM sampleStdio64 (fun _ => 0) (fun _ => 0)).isSome = true := by decide
  have s2 : (BluePill.readPBM sampleStdio64 (fun _ => 0) (fun _ => 0)).isSome = true := by
    decide
  ⟨fun io frame buf img xsize ysize data hhead hread x r hx hr =>
      readPBM_rows_blue io frame buf img xsize ysize data hhead hread x r hx hr,
    h1, h2, by decide, by decide,
    (Option.isSome_iff_exists.mp s2).elim (fun img hi =>
      ⟨img, hi,
        (readPBM_rows_blue sampleStdio64 _ _ img 64 64 image64 h2 hi 0 1 (by decide)
          (by decide)).trans (by decide)⟩),
    (Option.isSome_iff_exists.mp s1).elim (fun out ho =>
      ⟨out, ho,
        (readPBM_rows16 sampleStdio64 _ _ out 64 64 image64 h1 ho 0 1 (by decide)
          (by decide)).trans (by decide),
        by decide,
        (readPBM_rows16 sampleStdio64 _ _ out 64 64 image64 h1 ho 0 32 (by decide)
          (by decide)).trans (by decide)⟩)⟩

end Pbm2oled

namespace SpiOled

/-- C39. A byte received in any of the six `SETTING_TIME` states, digit or
not, is consumed by the time-setting state machine and never reaches the
command switch: on both boards it leaves the frame buffer, the panel traffic,
the current digit slot (`digit`, `x`), the style, the colour (Black Pill) and
the display mode unchanged. -/
theorem setting_time_bytes_not_commands (a : BlackPill.Assets) (ch : Nat)
    (m : BlackPill.Main) (mb : BluePill.Main)
    (h : m.state ≠ .NOT_SETTING_TIME) (hb : mb.state ≠ .NOT_SETTING_TIME) :
    ((BlackPill.processByte a ch m).frame = m.frame ∧
     (BlackPill.processByte a ch m).display = m.display ∧
     (BlackPill.processByte a ch m).digit = m.digit ∧
     (BlackPill.processByte a ch m).x = m.x ∧
     (BlackPill.processByte a ch m).style = m.style ∧
     (BlackPill.processByte a ch m).colour = m.colour ∧
     (BlackPill.processByte a ch m).displayMode = m.displayMode) ∧
    ((BluePill.processByte ch mb).frame = mb.frame ∧
     (BluePill.processByte ch mb).display = mb.display ∧
     (BluePill.processByte ch mb).digit = mb.digit ∧
     (BluePill.processByte ch mb).x = mb.x ∧
     (BluePill.processByte ch mb).style = mb.style ∧
     (BluePill.processByte ch mb).displayMode = mb.displayMode) := by
  constructor
  · unfold BlackPill.processByte
    cases hst : m.state
    case NOT_SETTING_TIME => exact absurd hst h
    all_goals (by_cases hd : isdigit ch = true <;> simp [hd])
  · unfold BluePill.processByte
    cases hst : mb.state
    case NOT_SETTING_TIME => exact absurd hst hb
    all_goals (by_cases hd : isdigit ch = true <;> simp [hd])

/-- Witness for C39: the byte `r` (the reset command when idle) arriving in
state `SETTING_TIME_3` on both boards. -/
theorem setting_time_bytes_not_commands_witness :
    ((BlackPill.processByte BlackPill.blankAssets 114
        { BlackPill.mainBoot with state := .SETTING_TIME_3 }).frame
        = BlackPill.mainBoot.frame ∧
     (BlackPill.processByte BlackPill.blankAssets 114
        { BlackPill.mainBoot with state := .SETTING_TIME_3 }).style
        = BlackPill.mainBoot.style) ∧
    ((BluePill.processByte 114
        { BluePill.mainBoot with state := .SETTING_TIME_3 }).frame
        = BluePill.mainBoot.frame) :=
  have h := setting_time_bytes_not_commands BlackPill.blankAssets 114
    { BlackPill.mainBoot with state := .SETTING_TIME_3 }
    { BluePill.mainBoot with state := .SETTING_TIME_3 }
    (by simp) (by simp)
  ⟨⟨h.1.1, h.1.2.2.2.2.1⟩, h.2.1⟩

end SpiOled

namespace SpiOled

set_option maxRecDepth 100000 in
/-- C37 fails for the hex digits 0xA..0xF. The atlas columns read for a digit
are `digit * DIGIT_WIDTH + j` with `0 <= j < DIGIT_WIDTH`; they all lie below
`DIGIT_STRIDE` exactly when `digit <= 9`. For digit 0xA the read leaves atlas
row 0: with an atlas whose only non-zero byte is at offset 210 (the first byte
of atlas row 1), rendering 0xA at slot 0 lights pixel (0, 0), while the all-zero
atlas, which agrees with it on the whole of row 0, leaves it black; the same
happens through the interpreter on the bytes `n`, `a`. -/
theorem petrol_glyph_overrun :
    (∀ digit : Int, 0 ≤ digit → digit ≤ 15 →
      ((∀ j : Int, 0 ≤ j → j < BlackPill.DIGIT_WIDTH →
          digit * BlackPill.DIGIT_WIDTH + j < BlackPill.DIGIT_STRIDE) ↔ digit ≤ 9)) ∧
    BlackPill.renderHexDigit (fun k => if k = 210 then 1 else 0) 0 0xA
      .PETROL_STATION_STYLE BlackPill.SSD1351_RED (fun _ => 0) 0 = BlackPill.SSD1351_RED ∧
    BlackPill.renderHexDigit (fun _ => 0) 0 0xA
      .PETROL_STATION_STYLE BlackPill.SSD1351_RED (fun _ => 0) 0 = BlackPill.SSD1351_BLACK ∧
    (BlackPill.feed { BlackPill.blankAssets with
        PetrolDigits := fun k => if k = 210 then 1 else 0 } [110, 97]
      BlackPill.mainBoot).frame 0 = BlackPill.PETROL_STATION_COLOUR ∧
    (BlackPill.feed { BlackPill.blankAssets with PetrolDigits := fun _ => 0 } [110, 97]
      BlackPill.mainBoot).frame 0 = BlackPill.SSD1351_BLACK := by
  refine ⟨?_, by decide, by decide, by decide, by decide⟩
  intro digit h0 h15
  simp only [BlackPill.DIGIT_WIDTH, BlackPill.DIGIT_STRIDE]
  constructor
  · intro h
    have := h 20 (by norm_num) (by norm_num)
    omega
  · intro h j hj0 hj
    omega

end SpiOled

namespace SpiOled

theorem u32_small (i : Int) (h0 : 0 ≤ i) (h : i ≤ 200) : ((u32 i : Nat) : Int) = i := by
  unfold u32
  omega

namespace BlackPill

theorem keep_setHline (x1 x2 y : Int) (c : Nat) (f : Frame) (k s : Nat) (hs : s ≤ 5)
    (hk : ¬ inSlot (21 * s) k)
    (h1 : 21 * (s : Int) ≤ x1 ∧ x1 ≤ 21 * (s : Int) + 20)
    (h2 : 21 * (s : Int) ≤ x2 ∧ x2 ≤ 21 * (s : Int) + 20) (h3 : 0 ≤ y ∧ y ≤ 31) :
    setHline (u32 x1) (u32 x2) (u32 y) c f k = f k := by
  rw [setHline_apply, if_neg]
  have e1 := u32_small x1 (by omega) (by omega)
  have e2 := u32_small x2 (by omega) (by omega)
  have e3 := u32_small y (by omega) (by omega)
  generalize u32 x1 = a at *
  generalize u32 x2 = b at *
  generalize u32 y = d at *
  unfold inSlot at hk
  simp only [MAXX] at *
  omega

theorem keep_setVline (x y1 y2 : Int) (c : Nat) (f : Frame) (k s : Nat) (hs : s ≤ 5)
    (hk : ¬ inSlot (21 * s) k)
    (h1 : 21 * (s : Int) ≤ x ∧ x ≤ 21 * (s : Int) + 20)
    (h2 : 0 ≤ y1 ∧ y1 ≤ 31) (h3 : 0 ≤ y2 ∧ y2 ≤ 31) :
    setVline (u32 x) (u32 y1) (u32 y2) c f k = f k := by
  unfold setVline
  rw [foldl_store_col, if_neg]
  rintro ⟨y, hy, e⟩
  rw [mem_uintRange] at hy
  have e1 := u32_small x (by omega) (by omega)
  have e2 := u32_small y1 (by omega) (by omega)
  have e3 := u32_small y2 (by omega) (by omega)
  generalize u32 x = a at *
  generalize u32 y1 = b at *
  generalize u32 y2 = d at *
  unfold inSlot at hk
  simp only [MAXX] at *
  omega


theorem keep_drawSegA (s : Nat) (hs : s ≤ 5) (style : STYLE) (c : Nat) (f : Frame)
    (k : Nat) (hk : ¬ inSlot (21 * s) k) :
    drawSegA ((s : Int) * width) style c f k = f k := by
  cases style <;> simp only [drawSegA, drawLed, width, WD, GY]
  all_goals repeat (first
    | rw [keep_setHline _ _ _ _ _ k s hs hk]
    | rw [keep_setVline _ _ _ _ _ k s hs hk])
  all_goals omega

theorem keep_drawSegB (s : Nat) (hs : s ≤ 5) (style : STYLE) (c : Nat) (f : Frame)
    (k : Nat) (hk : ¬ inSlot (21 * s) k) :
    drawSegB ((s : Int) * width) style c f k = f k := by
  cases style <;> simp only [drawSegB, drawLed, width, WD, GY]
  all_goals repeat (first
    | rw [keep_setHline _ _ _ _ _ k s hs hk]
    | rw [keep_setVline _ _ _ _ _ k s hs hk])
  all_goals omega

theorem keep_drawSegC (s : Nat) (hs : s ≤ 5) (style : STYLE) (c : Nat) (f : Frame)
    (k : Nat) (hk : ¬ inSlot (21 * s) k) :
    drawSegC ((s : Int) * width) style c f k = f k := by
  cases style <;> simp only [drawSegC, drawLed, width, WD, GY]
  all_goals repeat (first
    | rw [keep_setHline _ _ _ _ _ k s hs hk]
    | rw [keep_setVline _ _ _ _ _ k s hs hk])
  all_goals omega

theorem keep_drawSegD (s : Nat) (hs : s ≤ 5) (style : STYLE) (c : Nat) (f : Frame)
    (k : Nat) (hk : ¬ inSlot (21 * s) k) :
    drawSegD ((s : Int) * width) style c f k = f k := by
  cases style <;> simp only [drawSegD, drawLed, width, WD, GY]
  all_goals repeat (first
    | rw [keep_setHline _ _ _ _ _ k s hs hk]
    | rw [keep_setVline _ _ _ _ _ k s hs hk])
  all_goals omega

theorem keep_drawSegE (s : Nat) (hs : s ≤ 5) (style : STYLE) (c : Nat) (f : Frame)
    (k : Nat) (hk : ¬ inSlot (21 * s) k) :
    drawSegE ((s : Int) * width) style c f k = f k := by
  cases style <;> simp only [drawSegE, drawLed, width, WD, GY]
  all_goals repeat (first
    | rw [keep_setHline _ _ _ _ _ k s hs hk]
    | rw [keep_setVline _ _ _ _ _ k s hs hk])
  all_goals omega

theorem keep_drawSegF (s : Nat) (hs : s ≤ 5) (style : STYLE) (c : Nat) (f : Frame)
    (k : Nat) (hk : ¬ inSlot (21 * s) k) :
    drawSegF ((s : Int) * width) style c f k = f k := by
  cases style <;> simp only [drawSegF, drawLed, width, WD, GY]
  all_goals repeat (first
    | rw [keep_setHline _ _ _ _ _ k s hs hk]
    | rw [keep_setVline _ _ _ _ _ k s hs hk])
  all_goals omega

theorem keep_drawSegG (s : Nat) (hs : s ≤ 5) (style : STYLE) (c : Nat) (f : Frame)
    (k : Nat) (hk : ¬ inSlot (21 * s) k) :
    drawSegG ((s : Int) * width) style c f k = f k := by
  cases style <;> simp only [drawSegG, drawLed, width, WD, GY]
  all_goals repeat (first
    | rw [keep_setHline _ _ _ _ _ k s hs hk]
    | rw [keep_setVline _ _ _ _ _ k s hs hk])
  all_goals omega

theorem keep_drawSegH (s : Nat) (hs : s ≤ 5) (style : STYLE) (c : Nat) (f : Frame)
    (k : Nat) (hk : ¬ inSlot (21 * s) k) :
    drawSegH ((s : Int) * width) style c f k = f k := by
  cases style <;> simp only [drawSegH, drawLed, width, WD, GY]
  all_goals repeat (first
    | rw [keep_setHline _ _ _ _ _ k s hs hk]
    | rw [keep_setVline _ _ _ _ _ k s hs hk])
  all_goals omega

theorem keep_drawSegI (s : Nat) (hs : s ≤ 5) (style : STYLE) (c : Nat) (f : Frame)
    (k : Nat) (hk : ¬ inSlot (21 * s) k) :
    drawSegI ((s : Int) * width) style c f k = f k := by
  cases style <;> simp only [drawSegI, drawLed, width, WD, GY]
  all_goals repeat (first
    | rw [keep_setHline _ _ _ _ _ k s hs hk]
    | rw [keep_setVline _ _ _ _ _ k s hs hk])
  all_goals omega

theorem keep_drawSegJ (s : Nat) (hs : s ≤ 5) (style : STYLE) (c : Nat) (f : Frame)
    (k : Nat) (hk : ¬ inSlot (21 * s) k) :
    drawSegJ ((s : Int) * width) style c f k = f k := by
  cases style <;> simp only [drawSegJ, drawLed, width, WD, GY]
  all_goals repeat (first
    | rw [keep_setHline _ _ _ _ _ k s hs hk]
    | rw [keep_setVline _ _ _ _ _ k s hs hk])
  all_goals omega

theorem keep_drawSegK (s : Nat) (hs : s ≤ 5) (style : STYLE) (c : Nat) (f : Frame)
    (k : Nat) (hk : ¬ inSlot (21 * s) k) :
    drawSegK ((s : Int) * width) style c f k = f k := by
  cases style <;> simp only [drawSegK, drawLed, width, WD, GY]
  all_goals repeat (first
    | rw [keep_setHline _ _ _ _ _ k s hs hk]
    | rw [keep_setVline _ _ _ _ _ k s hs hk])
  all_goals omega

theorem keep_drawSegL (s : Nat) (hs : s ≤ 5) (style : STYLE) (c : Nat) (f : Frame)
    (k : Nat) (hk : ¬ inSlot (21 * s) k) :
    drawSegL ((s : Int) * width) style c f k = f k := by
  cases style <;> simp only [drawSegL, drawLed, width, WD, GY]
  all_goals repeat (first
    | rw [keep_setHline _ _ _ _ _ k s hs hk]
    | rw [keep_setVline _ _ _ _ _ k s hs hk])
  all_goals omega

theorem keep_drawSegM (s : Nat) (hs : s ≤ 5) (style : STYLE) (c : Nat) (f : Frame)
    (k : Nat) (hk : ¬ inSlot (21 * s) k) :
    drawSegM ((s : Int) * width) style c f k = f k := by
  cases style <;> simp only [drawSegM, drawLed, width, WD, GY]
  all_goals repeat (first
    | rw [keep_setHline _ _ _ _ _ k s hs hk]
    | rw [keep_setVline _ _ _ _ _ k s hs hk])
  all_goals omega

theorem keep_drawSegN (s : Nat) (hs : s ≤ 5) (style : STYLE) (c : Nat) (f : Frame)
    (k : Nat) (hk : ¬ inSlot (21 * s) k) :
    drawSegN ((s : Int) * width) style c f k = f k := by
  cases style <;> simp only [drawSegN, drawLed, width, WD, GY]
  all_goals repeat (first
    | rw [keep_setHline _ _ _ _ _ k s hs hk]
    | rw [keep_setVline _ _ _ _ _ k s hs hk])
  all_goals omega

theorem keep_drawSegDP (s : Nat) (hs : s ≤ 5) (style : STYLE) (c : Nat) (f : Frame)
    (k : Nat) (hk : ¬ inSlot (21 * s) k) :
    drawSegDP ((s : Int) * width) style c f k = f k := by
  cases style <;> simp only [drawSegDP, drawLed, width, WD, GY]
  all_goals repeat (first
    | rw [keep_setHline _ _ _ _ _ k s hs hk]
    | rw [keep_setVline _ _ _ _ _ k s hs hk])
  all_goals omega

theorem keep_drawSegCN (s : Nat) (hs : s ≤ 5) (style : STYLE) (c : Nat) (f : Frame)
    (k : Nat) (hk : ¬ inSlot (21 * s) k) :
    drawSegCN ((s : Int) * width) style c f k = f k := by
  cases style <;> simp only [drawSegCN, drawLed, width, WD, GY]
  all_goals repeat (first
    | rw [keep_setHline _ _ _ _ _ k s hs hk]
    | rw [keep_setVline _ _ _ _ _ k s hs hk])
  all_goals omega

theorem keep_drawSeg (sg : Segment) (s : Nat) (hs : s ≤ 5) (style : STYLE) (c : Nat)
    (f : Frame) (k : Nat) (hk : ¬ inSlot (21 * s) k) :
    drawSeg sg ((s : Int) * width) style c f k = f k := by
  cases sg
  · exact keep_drawSegA s hs style c f k hk
  · exact keep_drawSegB s hs style c f k hk
  · exact keep_drawSegC s hs style c f k hk
  · exact keep_drawSegD s hs style c f k hk
  · exact keep_drawSegE s hs style c f k hk
  · exact keep_drawSegF s hs style c f k hk
  · exact keep_drawSegG s hs style c f k hk
  · exact keep_drawSegH s hs style c f k hk
  · exact keep_drawSegI s hs style c f k hk
  · exact keep_drawSegJ s hs style c f k hk
  · exact keep_drawSegK s hs style c f k hk
  · exact keep_drawSegL s hs style c f k hk
  · exact keep_drawSegM s hs style c f k hk
  · exact keep_drawSegN s hs style c f k hk
  · exact keep_drawSegDP s hs style c f k hk
  · exact keep_drawSegCN s hs style c f k hk

theorem keep_drawSegs (segs : List Segment) (s : Nat) (hs : s ≤ 5) (style : STYLE) (c : Nat)
    (f : Frame) (k : Nat) (hk : ¬ inSlot (21 * s) k) :
    drawSegs segs ((s : Int) * width) style c f k = f k := by
  unfold drawSegs
  induction segs generalizing f with
  | nil => rfl
  | cons a l ih =>
    rw [List.foldl_cons, ih, keep_drawSeg a s hs style c f k hk]

theorem keep_renderBitmap_slot (bitmap : Int → Nat) (stride : Int) (fg bg : Nat) (s : Nat)
    (hs : s ≤ 5) (f : Frame) (k : Nat) (hk : ¬ inSlot (21 * s) k) :
    renderBitmap ((s : Int) * width) 0 DIGIT_WIDTH DIGIT_HEIGHT bitmap stride fg bg f k
      = f k := by
  have e : k = (k / 128) * 128 + k % 128 := by omega
  have hp := renderBitmap_pixel (21 * s) 0 21 32 bitmap stride fg bg f (k % 128) (k / 128)
    (by omega) (by omega)
  rw [← e] at hp
  have ex : (((21 * s : Nat) : Int)) = (s : Int) * width := by
    simp only [width, WD]
    push_cast
    ring
  rw [ex] at hp
  simp only [DIGIT_WIDTH, DIGIT_HEIGHT]
  rw [show ((0 : Nat) : Int) = 0 from rfl, show ((21 : Nat) : Int) = 21 from rfl,
    show ((32 : Nat) : Int) = 32 from rfl] at hp
  rw [hp, if_neg]
  unfold inSlot at hk
  simp only [MAXX] at hk
  omega

theorem keep_renderHexDigit (PetrolDigits : Int → Nat) (s : Nat) (hs : s ≤ 5) (digit : Int)
    (style : STYLE) (c : Nat) (f : Frame) (k : Nat) (hk : ¬ inSlot (21 * s) k) :
    renderHexDigit PetrolDigits ((s : Int) * width) digit style c f k = f k := by
  unfold renderHexDigit
  by_cases h : style = .PETROL_STATION_STYLE
  · rw [if_pos h]
    exact keep_renderBitmap_slot _ _ _ _ s hs f k hk
  · rw [if_neg h]
    exact keep_drawSegs _ s hs style c f k hk

end BlackPill

end SpiOled

namespace SpiOled

namespace BluePill

theorem foldl_keep_cell {α : Type} (step : Frame → α → Frame) (k : Nat) (l : List α)
    (hstep : ∀ (f : Frame) (a : α), a ∈ l → step f a k = f k) (f : Frame) :
    l.foldl step f k = f k := by
  induction l generalizing f with
  | nil => rfl
  | cons a l ih =>
    rw [List.foldl_cons, ih (fun f b hb => hstep f b (List.mem_cons_of_mem a hb)),
      hstep f a (List.mem_cons_self a l)]

theorem keep_setHline_blue (x1 x2 y : Int) (f : Frame) (k s : Nat) (hs : s ≤ 5)
    (hk : ¬ inSlot (21 * s) k)
    (h1 : 21 * (s : Int) ≤ x1 ∧ x1 ≤ 21 * (s : Int) + 20)
    (h2 : 21 * (s : Int) ≤ x2 ∧ x2 ≤ 21 * (s : Int) + 20) (h3 : 0 ≤ y ∧ y ≤ 31) :
    setHline (u32 x1) (u32 x2) (u32 y) f k = f k := by
  unfold setHline
  apply foldl_keep_cell
  intro f a ha
  rw [mem_uintRange] at ha
  show (if k = u32 y / 8 * MAXX + a then _ else f k) = f k
  rw [if_neg]
  have e1 := u32_small x1 (by omega) (by omega)
  have e2 := u32_small x2 (by omega) (by omega)
  have e3 := u32_small y (by omega) (by omega)
  generalize u32 x1 = a1 at *
  generalize u32 x2 = b at *
  generalize u32 y = d at *
  unfold inSlot at hk
  simp only [MAXX, MAXROWS] at *
  omega

theorem keep_setVline_blue (x y1 y2 : Int) (f : Frame) (k s : Nat) (hs : s ≤ 5)
    (hk : ¬ inSlot (21 * s) k)
    (h1 : 21 * (s : Int) ≤ x ∧ x ≤ 21 * (s : Int) + 20)
    (h2 : 0 ≤ y1 ∧ y1 ≤ 31) (h3 : 0 ≤ y2 ∧ y2 ≤ 31) :
    setVline (u32 x) (u32 y1) (u32 y2) f k = f k := by
  unfold setVline
  apply foldl_keep_cell
  intro f a ha
  rw [mem_uintRange] at ha
  unfold setPixel
  by_cases hc : u32 x < MAXX ∧ a < MAXY
  · rw [if_pos hc]
    show (if k = a / 8 * MAXX + u32 x then _ else f k) = f k
    rw [if_neg]
    have e1 := u32_small x (by omega) (by omega)
    have e2 := u32_small y1 (by omega) (by omega)
    have e3 := u32_small y2 (by omega) (by omega)
    generalize u32 x = a1 at *
    generalize u32 y1 = b at *
    generalize u32 y2 = d at *
    unfold inSlot at hk
    simp only [MAXX, MAXROWS, MAXY] at *
    omega
  · rw [if_neg hc]

theorem keep_drawSegA_blue (s : Nat) (hs : s ≤ 5) (style : STYLE) (f : Frame)
    (k : Nat) (hk : ¬ inSlot (21 * s) k) :
    drawSegA ((s : Int) * width) style f k = f k := by
  cases style <;> simp only [drawSegA, drawLed, width, WD, GY]
  all_goals repeat (first
    | rw [keep_setHline_blue _ _ _ _ k s hs hk]
    | rw [keep_setVline_blue _ _ _ _ k s hs hk])
  all_goals omega

theorem keep_drawSegB_blue (s : Nat) (hs : s ≤ 5) (style : STYLE) (f : Frame)
    (k : Nat) (hk : ¬ inSlot (21 * s) k) :
    drawSegB ((s : Int) * width) style f k = f k := by
  cases style <;> simp only [drawSegB, drawLed, width, WD, GY]
  all_goals repeat (first
    | rw [keep_setHline_blue _ _ _ _ k s hs hk]
    | rw [keep_setVline_blue _ _ _ _ k s hs hk])
  all_goals omega

theorem keep_drawSegC_blue (s : Nat) (hs : s ≤ 5) (style : STYLE) (f : Frame)
    (k : Nat) (hk : ¬ inSlot (21 * s) k) :
    drawSegC ((s : Int) * width) style f k = f k := by
  cases style <;> simp only [drawSegC, drawLed, width, WD, GY]
  all_goals repeat (first
    | rw [keep_setHline_blue _ _ _ _ k s hs hk]
    | rw [keep_setVline_blue _ _ _ _ k s hs hk])
  all_goals omega

theorem keep_drawSegD_blue (s : Nat) (hs : s ≤ 5) (style : STYLE) (f : Frame)
    (k : Nat) (hk : ¬ inSlot (21 * s) k) :
    drawSegD ((s : Int) * width) style f k = f k := by
  cases style <;> simp only [drawSegD, drawLed, width, WD, GY]
  all_goals repeat (first
    | rw [keep_setHline_blue _ _ _ _ k s hs hk]
    | rw [keep_setVline_blue _ _ _ _ k s hs hk])
  all_goals omega

theorem keep_drawSegE_blue (s : Nat) (hs : s ≤ 5) (style : STYLE) (f : Frame)
    (k : Nat) (hk : ¬ inSlot (21 * s) k) :
    drawSegE ((s : Int) * width) style f k = f k := by
  cases style <;> simp only [drawSegE, drawLed, width, WD, GY]
  all_goals repeat (first
    | rw [keep_setHline_blue _ _ _ _ k s hs hk]
    | rw [keep_setVline_blue _ _ _ _ k s hs hk])
  all_goals omega

theorem keep_drawSegF_blue (s : Nat) (hs : s ≤ 5) (style : STYLE) (f : Frame)
    (k : Nat) (hk : ¬ inSlot (21 * s) k) :
    drawSegF ((s : Int) * width) style f k = f k := by
  cases style <;> simp only [drawSegF, drawLed, width, WD, GY]
  all_goals repeat (first
    | rw [keep_setHline_blue _ _ _ _ k s hs hk]
    | rw [keep_setVline_blue _ _ _ _ k s hs hk])
  all_goals omega

theorem keep_drawSegG_blue (s : Nat) (hs : s ≤ 5) (style : STYLE) (f : Frame)
    (k : Nat) (hk : ¬ inSlot (21 * s) k) :
    drawSegG ((s : Int) * width) style f k = f k := by
  cases style <;> simp only [drawSegG, drawLed, width, WD, GY]
  all_goals repeat (first
    | rw [keep_setHline_blue _ _ _ _ k s hs hk]
    | rw [keep_setVline_blue _ _ _ _ k s hs hk])
  all_goals omega

theorem keep_drawSegH_blue (s : Nat) (hs : s ≤ 5) (style : STYLE) (f : Frame)
    (k : Nat) (hk : ¬ inSlot (21 * s) k) :
    drawSegH ((s : Int) * width) style f k = f k := by
  cases style <;> simp only [drawSegH, drawLed, width, WD, GY]
  all_goals repeat (first
    | rw [keep_setHline_blue _ _ _ _ k s hs hk]
    | rw [keep_setVline_blue _ _ _ _ k s hs hk])
  all_goals omega

theorem keep_drawSegI_blue (s : Nat) (hs : s ≤ 5) (style : STYLE) (f : Frame)
    (k : Nat) (hk : ¬ inSlot (21 * s) k) :
    drawSegI ((s : Int) * width) style f k = f k := by
  cases style <;> simp only [drawSegI, drawLed, width, WD, GY]
  all_goals repeat (first
    | rw [keep_setHline_blue _ _ _ _ k s hs hk]
    | rw [keep_setVline_blue _ _ _ _ k s hs hk])
  all_goals omega

theorem keep_drawSegJ_blue (s : Nat) (hs : s ≤ 5) (style : STYLE) (f : Frame)
    (k : Nat) (hk : ¬ inSlot (21 * s) k) :
    drawSegJ ((s : Int) * width) style f k = f k := by
  cases style <;> simp only [drawSegJ, drawLed, width, WD, GY]
  all_goals repeat (first
    | rw [keep_setHline_blue _ _ _ _ k s hs hk]
    | rw [keep_setVline_blue _ _ _ _ k s hs hk])
  all_goals omega

theorem keep_drawSegK_blue (s : Nat) (hs : s ≤ 5) (style : STYLE) (f : Frame)
    (k : Nat) (hk : ¬ inSlot (21 * s) k) :
    drawSegK ((s : Int) * width) style f k = f k := by
  cases style <;> simp only [drawSegK, drawLed, width, WD, GY]
  all_goals repeat (first
    | rw [keep_setHline_blue _ _ _ _ k s hs hk]
    | rw [keep_setVline_blue _ _ _ _ k s hs hk])
  all_goals omega

theorem keep_drawSegL_blue (s : Nat) (hs : s ≤ 5) (style : STYLE) (f : Frame)
    (k : Nat) (hk : ¬ inSlot (21 * s) k) :
    drawSegL ((s : Int) * width) style f k = f k := by
  cases style <;> simp only [drawSegL, drawLed, width, WD, GY]
  all_goals repeat (first
    | rw [keep_setHline_blue _ _ _ _ k s hs hk]
    | rw [keep_setVline_blue _ _ _ _ k s hs hk])
  all_goals omega

theorem keep_drawSegM_blue (s : Nat) (hs : s ≤ 5) (style : STYLE) (f : Frame)
    (k : Nat) (hk : ¬ inSlot (21 * s) k) :
    drawSegM ((s : Int) * width) style f k = f k := by
  cases style <;> simp only [drawSegM, drawLed, width, WD, GY]
  all_goals repeat (first
    | rw [keep_setHline_blue _ _ _ _ k s hs hk]
    | rw [keep_setVline_blue _ _ _ _ k s hs hk])
  all_goals omega

theorem keep_drawSegN_blue (s : Nat) (hs : s ≤ 5) (style : STYLE) (f : Frame)
    (k : Nat) (hk : ¬ inSlot (21 * s) k) :
    drawSegN ((s : Int) * width) style f k = f k := by
  cases style <;> simp only [drawSegN, drawLed, width, WD, GY]
  all_goals repeat (first
    | rw [keep_setHline_blue _ _ _ _ k s hs hk]
    | rw [keep_setVline_blue _ _ _ _ k s hs hk])
  all_goals omega

theorem keep_drawSegDP_blue (s : Nat) (hs : s ≤ 5) (style : STYLE) (f : Frame)
    (k : Nat) (hk : ¬ inSlot (21 * s) k) :
    drawSegDP ((s : Int) * width) style f k = f k := by
  cases style <;> simp only [drawSegDP, drawLed, width, WD, GY]
  all_goals repeat (first
    | rw [keep_setHline_blue _ _ _ _ k s hs hk]
    | rw [keep_setVline_blue _ _ _ _ k s hs hk])
  all_goals omega

theorem keep_drawSegCN_blue (s : Nat) (hs : s ≤ 5) (style : STYLE) (f : Frame)
    (k : Nat) (hk : ¬ inSlot (21 * s) k) :
    drawSegCN ((s : Int) * width) style f k = f k := by
  cases style <;> simp only [drawSegCN, drawLed, width, WD, GY]
  all_goals repeat (first
    | rw [keep_setHline_blue _ _ _ _ k s hs hk]
    | rw [keep_setVline_blue _ _ _ _ k s hs hk])
  all_goals omega

theorem keep_drawSeg_blue (sg : Segment) (s : Nat) (hs : s ≤ 5) (style : STYLE)
    (f : Frame) (k : Nat) (hk : ¬ inSlot (21 * s) k) :
    drawSeg sg ((s : Int) * width) style f k = f k := by
  cases sg
  · exact keep_drawSegA_blue s hs style f k hk
  · exact keep_drawSegB_blue s hs style f k hk
  · exact keep_drawSegC_blue s hs style f k hk
  · exact keep_drawSegD_blue s hs style f k hk
  · exact keep_drawSegE_blue s hs style f k hk
  · exact keep_drawSegF_blue s hs style f k hk
  · exact keep_drawSegG_blue s hs style f k hk
  · exact keep_drawSegH_blue s hs style f k hk
  · exact keep_drawSegI_blue s hs style f k hk
  · exact keep_drawSegJ_blue s hs style f k hk
  · exact keep_drawSegK_blue s hs style f k hk
  · exact keep_drawSegL_blue s hs style f k hk
  · exact keep_drawSegM_blue s hs style f k hk
  · exact keep_drawSegN_blue s hs style f k hk
  · exact keep_drawSegDP_blue s hs style f k hk
  · exact keep_drawSegCN_blue s hs style f k hk

theorem keep_renderHexDigit_blue (s : Nat) (hs : s ≤ 5) (digit : Int)
    (style : STYLE) (f : Frame) (k : Nat) (hk : ¬ inSlot (21 * s) k) :
    renderHexDigit ((s : Int) * width) digit style f k = f k := by
  unfold renderHexDigit drawSegs
  generalize renderHexDigitCalls digit style = segs
  induction segs generalizing f with
  | nil => rfl
  | cons a l ih =>
    rw [List.foldl_cons, ih, keep_drawSeg_blue a s hs style f k hk]

end BluePill

end SpiOled

namespace SpiOled

/-- C38. Digit rendering stays inside its slot, on both boards: for every
slot s in 0..5 (x = s * width = 21 s), every digit value, every style and
colour and every frame, `renderHexDigit`, `drawSegDP` and `drawSegCN` leave
every memory cell unchanged that is not a cell of the slot (columns
x .. x + 20 of pixel rows 0..31); every slot cell lies inside the frame array,
so no unchecked `setHline`/`setVline` write leaves the frame; and a cell of
another slot is never a cell of this slot, so it is never modified. -/
theorem digit_rendering_stays_in_slot (PetrolDigits : Int → Nat) (s : Nat) (digit : Int)
    (style : BlackPill.STYLE) (c : Nat) (f : BlackPill.Frame)
    (style' : BluePill.STYLE) (g : BluePill.Frame) (k : Nat) (hs : s ≤ 5) :
    (¬ BlackPill.inSlot (21 * s) k →
      BlackPill.renderHexDigit PetrolDigits ((s : Int) * BlackPill.width) digit style c f k
        = f k ∧
      BlackPill.drawSegDP ((s : Int) * BlackPill.width) style c f k = f k ∧
      BlackPill.drawSegCN ((s : Int) * BlackPill.width) style c f k = f k) ∧
    (¬ BluePill.inSlot (21 * s) k →
      BluePill.renderHexDigit ((s : Int) * BluePill.width) digit style' g k = g k ∧
      BluePill.drawSegDP ((s : Int) * BluePill.width) style' g k = g k ∧
      BluePill.drawSegCN ((s : Int) * BluePill.width) style' g k = g k) ∧
    (BlackPill.inSlot (21 * s) k → k < BlackPill.MAXY * BlackPill.MAXX) ∧
    (BluePill.inSlot (21 * s) k → k < BluePill.MAXROWS * BluePill.MAXX) ∧
    (∀ s' : Nat, s' ≠ s →
      (BlackPill.inSlot (21 * s') k → ¬ BlackPill.inSlot (21 * s) k) ∧
      (BluePill.inSlot (21 * s') k → ¬ BluePill.inSlot (21 * s) k)) := by
  refine ⟨fun hk => ⟨BlackPill.keep_renderHexDigit PetrolDigits s hs digit style c f k hk,
      BlackPill.keep_drawSegDP s hs style c f k hk,
      BlackPill.keep_drawSegCN s hs style c f k hk⟩,
    fun hk => ⟨BluePill.keep_renderHexDigit_blue s hs digit style' g k hk,
      BluePill.keep_drawSegDP_blue s hs style' g k hk,
      BluePill.keep_drawSegCN_blue s hs style' g k hk⟩, ?_, ?_, ?_⟩
  · unfold BlackPill.inSlot
    simp only [BlackPill.MAXX, BlackPill.MAXY]
    omega
  · unfold BluePill.inSlot
    simp only [BluePill.MAXX, BluePill.MAXROWS]
    omega
  · intro s' hne
    unfold BlackPill.inSlot BluePill.inSlot
    simp only [BlackPill.MAXX, BluePill.MAXX, BluePill.MAXROWS]
    constructor <;> omega

/-- Witness for C38: slot 2 (columns 42..62), digit 8 in VFD style; the cell
of pixel (63, 0), the first column of slot 3, keeps its value on both
boards. -/
theorem digit_rendering_stays_in_slot_witness :
    BlackPill.renderHexDigit (fun _ => 0) ((2 : Nat) * BlackPill.width) 8 .VFD_STYLE
        BlackPill.SSD1351_CYAN (fun _ => 7) 63 = 7 ∧
    BluePill.renderHexDigit ((2 : Nat) * BluePill.width) 8 .VFD_STYLE (fun _ => 7) 63 = 7 :=
  have h := digit_rendering_stays_in_slot (fun _ => 0) 2 8 .VFD_STYLE BlackPill.SSD1351_CYAN
    (fun _ => 7) .VFD_STYLE (fun _ => 7) 63 (by decide)
  ⟨(h.1 (by decide)).1, (h.2.1 (by decide)).1⟩

end SpiOled

namespace RisibleRadar

open SpiOled

theorem foldl_fixed {α β : Type} (step : β → α → β) (l : List α) (b : β)
    (h : ∀ a, a ∈ l → step b a = b) : l.foldl step b = b := by
  induction l with
  | nil => rfl
  | cons a l ih =>
    rw [List.foldl_cons, h a (List.mem_cons_self a l)]
    exact ih (fun c hc => h c (List.mem_cons_of_mem a hc))

theorem findNewEchoesBefore_target (r radius : Int) (t : Nat) (g : Game) :
    (findNewEchoesBefore r radius t g).Target t = g.Target t := by
  unfold findNewEchoesBefore
  apply foldl_keeps (fun g => g.Target t)
  intro g' a ha
  exact findNewEcho_target_other r _ _ g' t a (by
    have := List.mem_range.mp ha
    omega)

theorem echoPart_off_bearing (r : Int) (frange pickup : ℚ) (g : Game) (t : Nat)
    (h : ¬ |(g.Target t).bearing - (r : ℚ)| < 6) : echoPart r frange pickup g t = g := by
  unfold echoPart
  rw [if_neg (fun hb => h ((floatToInt_abs_lt _).mp hb))]

theorem bonusPart_far (pickup : ℚ) (g : Game) (t : Nat)
    (h : ¬ (g.Target t).range < pickup) : bonusPart pickup g t = g := by
  unfold bonusPart
  rw [if_neg h]

/-- C32 as stated fails at the 0/360 boundary: in `wrapGame` every target is
active, has bearing 358 and range 20 (below the scanner radius 33); the
angular distance between 358 and the sweep angle 0 is 2, yet
`findNewEchoes(0, SCANNER_RADIUS, NTARGETS)` changes nothing: no echo is
spawned, every echo slot still has age 0. -/
theorem bearing_wraparound_counterexample :
    (wrapGame.Target 0).active = true ∧
    (0 ≤ (wrapGame.Target 0).bearing ∧ (wrapGame.Target 0).bearing < 360) ∧
    (wrapGame.Target 0).range < (SCANNER_RADIUS : ℚ) ∧
    angularDistance (wrapGame.Target 0).bearing ((0 : Int) : ℚ) < 6 ∧
    findNewEchoes 0 SCANNER_RADIUS NTARGETS wrapGame = wrapGame ∧
    (∀ e, ((findNewEchoes 0 SCANNER_RADIUS NTARGETS wrapGame).Echo e).age = 0) := by
  have hfix : findNewEchoes 0 SCANNER_RADIUS NTARGETS wrapGame = wrapGame := by
    unfold findNewEchoes
    apply foldl_fixed
    intro t _
    have hb : ¬ |(wrapGame.Target t).bearing - ((0 : Int) : ℚ)| < 6 := by
      simp only [wrapGame]
      norm_num [abs_lt]
    have hr : ¬ (wrapGame.Target t).range < ((SCANNER_RADIUS : Int) : ℚ) / 3 := by
      simp only [wrapGame, SCANNER_RADIUS]
      norm_num
    unfold findNewEcho
    rw [if_pos (show (wrapGame.Target t).active = true from rfl),
      echoPart_off_bearing _ _ _ _ _ hb, bonusPart_far _ _ _ hr]
  refine ⟨rfl, ?_, ?_, ?_, hfix, ?_⟩
  · simp only [wrapGame]
    norm_num
  · simp only [wrapGame, SCANNER_RADIUS]
    norm_num
  · simp only [wrapGame, angularDistance]
    norm_num [abs_of_nonneg]
  · intro e
    rw [hfix]
    rfl

/-- C32, amended. For a target `t` that is active and within the scanner
radius, the pass of `findNewEchoes` for `t` spawns an echo exactly when the
plain difference of bearing and sweep angle satisfies |b - r| < 6, with no
wrap-around at the 0/360 boundary: if it does, the echoes after the pass are
those after "Make a new echo" (the slot chosen by `findEchoSlot` has age 90),
and if not, the echoes are unchanged. Any bearing that passes the test is
within an angular distance of 6 degrees of the sweep angle. -/
theorem bearing_tolerance_plain_difference (r : Int) (g : Game) (t : Nat)
    (hact : (g.Target t).active = true)
    (hrange : (g.Target t).range < (SCANNER_RADIUS : ℚ)) :
    (findNewEcho r (SCANNER_RADIUS : ℚ) ((SCANNER_RADIUS : ℚ) / 3)
        (findNewEchoesBefore r SCANNER_RADIUS t g) t).Echo
      = (if |(g.Target t).bearing - (r : ℚ)| < 6 then
          (makeEcho (findNewEchoesBefore r SCANNER_RADIUS t g) t).Echo
        else (findNewEchoesBefore r SCANNER_RADIUS t g).Echo) ∧
    ((makeEcho (findNewEchoesBefore r SCANNER_RADIUS t g) t).Echo
        (findEchoSlot (findNewEchoesBefore r SCANNER_RADIUS t g))).age = 90 ∧
    (|(g.Target t).bearing - (r : ℚ)| < 6 →
      angularDistance (g.Target t).bearing (r : ℚ) < 6) := by
  refine ⟨?_, ?_, ?_⟩
  · rw [findNewEcho_Echo, findNewEchoesBefore_target]
    by_cases hb : |(g.Target t).bearing - (r : ℚ)| < 6
    · rw [if_pos hb,
        if_pos (And.intro hact (And.intro ((floatToInt_abs_lt _).mpr hb) hrange))]
    · rw [if_neg hb, if_neg (fun h => hb ((floatToInt_abs_lt _).mp h.2.1))]
  · rw [makeEcho_Echo, if_pos rfl]
  · intro hb
    unfold angularDistance
    exact lt_of_le_of_lt (min_le_left _ _) hb

/-- Witness for C32 (amended): target 0 of `sampleGame` (bearing 0, range 0)
at sweep angle 3; the echo goes to slot 0, which then has age 90. -/
theorem bearing_tolerance_plain_difference_witness :
    (sampleGame.Target 0).active = true ∧
    (sampleGame.Target 0).range < (SCANNER_RADIUS : ℚ) ∧
    ((findNewEcho 3 (SCANNER_RADIUS : ℚ) ((SCANNER_RADIUS : ℚ) / 3)
        (findNewEchoesBefore 3 SCANNER_RADIUS 0 sampleGame) 0).Echo 0).age = 90 := by
  have hr : (sampleGame.Target 0).range < (SCANNER_RADIUS : ℚ) := by
    simp only [sampleGame, SCANNER_RADIUS]
    norm_num
  have h := bearing_tolerance_plain_difference 3 sampleGame 0 rfl hr
  have hb : |(sampleGame.Target 0).bearing - ((3 : Int) : ℚ)| < 6 := by
    simp only [sampleGame]
    norm_num [abs_lt]
  refine ⟨rfl, hr, ?_⟩
  rw [h.1, if_pos hb]
  exact h.2.1

end RisibleRadar

namespace RisibleRadar

open SpiOled

/-! ### What one pass of `findNewEchoes` does to the bonus state -/

theorem echoPart_cases (r : Int) (frange pickup : ℚ) (g : Game) (t : Nat) :
    echoPart r frange pickup g t = g ∨ echoPart r frange pickup g t = makeEcho g t ∨
    echoPart r frange pickup g t = pickUp (makeEcho g t) t := by
  unfold echoPart
  by_cases h1 : ((floatToInt ((g.Target t).bearing - (r : ℚ))).natAbs : ℚ) < 6
  · rw [if_pos h1]
    by_cases h2 : (g.Target t).range < frange
    · rw [if_pos h2]
      simp only [makeEcho_Target]
      by_cases h3 : (g.Target t).range < pickup
      · rw [if_pos h3]
        exact Or.inr (Or.inr rfl)
      · rw [if_neg h3]
        exact Or.inr (Or.inl rfl)
    · rw [if_neg h2]
      exact Or.inl rfl
  · rw [if_neg h1]
    exact Or.inl rfl

theorem pickUp_fields (g : Game) (t t' : Nat) :
    ((pickUp g t').Target t).x = (g.Target t).x ∧
    ((pickUp g t').Target t).bearing = (g.Target t).bearing ∧
    ((pickUp g t').Target t).range = (g.Target t).range ∧
    ((pickUp g t').Target t).siz = (g.Target t).siz ∧
    ((pickUp g t').Target t).rings = (g.Target t).rings ∧
    ((pickUp g t').Target t).axes = (g.Target t).axes ∧
    ((pickUp g t').Target t).time = (g.Target t).time := by
  by_cases h : t = t'
  · subst h
    simp [pickUp, setTarget, arraySet_same]
  · rw [pickUp_Target_other g t t' h]
    exact ⟨rfl, rfl, rfl, rfl, rfl, rfl, rfl⟩

theorem echoPart_fields (r : Int) (frange pickup : ℚ) (g : Game) (t t' : Nat) :
    ((echoPart r frange pickup g t').Target t).x = (g.Target t).x ∧
    ((echoPart r frange pickup g t').Target t).bearing = (g.Target t).bearing ∧
    ((echoPart r frange pickup g t').Target t).range = (g.Target t).range ∧
    ((echoPart r frange pickup g t').Target t).siz = (g.Target t).siz ∧
    ((echoPart r frange pickup g t').Target t).rings = (g.Target t).rings ∧
    ((echoPart r frange pickup g t').Target t).axes = (g.Target t).axes ∧
    ((echoPart r frange pickup g t').Target t).time = (g.Target t).time := by
  rcases echoPart_cases r frange pickup g t' with h | h | h
  · rw [h]
    exact ⟨rfl, rfl, rfl, rfl, rfl, rfl, rfl⟩
  · rw [h, makeEcho_Target]
    exact ⟨rfl, rfl, rfl, rfl, rfl, rfl, rfl⟩
  · rw [h]
    have := pickUp_fields (makeEcho g t') t t'
    rw [makeEcho_Target] at this
    exact this

theorem echoPart_globals (r : Int) (frange pickup : ℚ) (g : Game) (t : Nat) :
    (echoPart r frange pickup g t).GameDuration = g.GameDuration ∧
    (echoPart r frange pickup g t).Rings = g.Rings ∧
    (echoPart r frange pickup g t).Axes = g.Axes := by
  rcases echoPart_cases r frange pickup g t with h | h | h <;> rw [h] <;>
    exact ⟨rfl, rfl, rfl⟩

theorem bonusPart_GameDuration (pickup : ℚ) (g : Game) (t : Nat) :
    (bonusPart pickup g t).GameDuration
      = if (g.Target t).range < pickup ∧ (g.Target t).time = true ∧
            g.GameDuration < MAXGAMEDURATION then
          (g.GameDuration + 5) % 4294967296
        else g.GameDuration := by
  unfold bonusPart
  by_cases h1 : (g.Target t).range < pickup
  · rw [if_pos h1]
    by_cases hr : (g.Target t).rings = true <;> by_cases ha : (g.Target t).axes = true <;>
      by_cases ht : (g.Target t).time = true <;>
      by_cases hd : g.GameDuration < MAXGAMEDURATION <;>
      simp [hr, ha, ht, hd, h1, setTarget]
  · rw [if_neg h1, if_neg (fun h => h1 h.1)]

theorem bonusPart_time (pickup : ℚ) (g : Game) (t t' : Nat) :
    ((bonusPart pickup g t').Target t).time
      = if t = t' ∧ (g.Target t).range < pickup then false else (g.Target t).time := by
  by_cases h : t = t'
  · subst h
    unfold bonusPart
    by_cases h1 : (g.Target t).range < pickup
    · rw [if_pos h1, if_pos (And.intro rfl h1)]
      by_cases hr : (g.Target t).rings = true <;> by_cases ha : (g.Target t).axes = true <;>
        by_cases ht : (g.Target t).time = true <;>
        by_cases hd : g.GameDuration < MAXGAMEDURATION <;>
        simp [hr, ha, ht, hd, setTarget, arraySet_same]
    · rw [if_neg h1, if_neg (fun h => h1 h.2)]
  · rw [bonusPart_Target_other pickup g t t' h, if_neg (fun hh => h hh.1)]

theorem findNewEcho_GameDuration (r : Int) (frange pickup : ℚ) (g : Game) (t : Nat) :
    (findNewEcho r frange pickup g t).GameDuration
      = if (g.Target t).active = true ∧ (g.Target t).range < pickup ∧
            (g.Target t).time = true ∧ g.GameDuration < MAXGAMEDURATION then
          (g.GameDuration + 5) % 4294967296
        else g.GameDuration := by
  unfold findNewEcho
  by_cases hact : (g.Target t).active = true
  · rw [if_pos hact, bonusPart_GameDuration, (echoPart_globals r frange pickup g t).1,
      (echoPart_fields r frange pickup g t t).2.2.1,
      (echoPart_fields r frange pickup g t t).2.2.2.2.2.2]
    by_cases h : (g.Target t).range < pickup ∧ (g.Target t).time = true ∧
        g.GameDuration < MAXGAMEDURATION
    · rw [if_pos h, if_pos (And.intro hact h)]
    · rw [if_neg h, if_neg (fun hh => h hh.2)]
  · rw [if_neg hact, if_neg (fun hh => hact hh.1)]

theorem findNewEcho_time (r : Int) (frange pickup : ℚ) (g : Game) (t t' : Nat) :
    ((findNewEcho r frange pickup g t').Target t).time
      = if t = t' ∧ (g.Target t).active = true ∧ (g.Target t).range < pickup then false
        else (g.Target t).time := by
  unfold findNewEcho
  by_cases hact : (g.Target t').active = true
  · rw [if_pos hact, bonusPart_time, (echoPart_fields r frange pickup g t t').2.2.1,
      (echoPart_fields r frange pickup g t t').2.2.2.2.2.2]
    by_cases h : t = t'
    · subst h
      by_cases h1 : (g.Target t).range < pickup
      · rw [if_pos (And.intro rfl h1), if_pos (And.intro rfl (And.intro hact h1))]
      · rw [if_neg (fun hh => h1 hh.2), if_neg (fun hh => h1 hh.2.2)]
    · rw [if_neg (fun hh => h hh.1), if_neg (fun hh => h hh.1)]
  · rw [if_neg hact]
    by_cases h : t = t'
    · subst h
      rw [if_neg (fun hh => hact hh.2.1)]
    · rw [if_neg (fun hh => h hh.1)]

/-- The values `GameDuration` takes: 40, 45, 50, 55 or 60. -/
theorem findNewEcho_duration_steps (r : Int) (frange pickup : ℚ) (g : Game) (t : Nat)
    (h : ∃ k, k ≤ 4 ∧ g.GameDuration = 40 + 5 * k) :
    ∃ k, k ≤ 4 ∧ (findNewEcho r frange pickup g t).GameDuration = 40 + 5 * k := by
  obtain ⟨k, hk, e⟩ := h
  rw [findNewEcho_GameDuration]
  split_ifs with hc
  · have hlt := hc.2.2.2
    simp only [MAXGAMEDURATION] at hlt
    exact ⟨k + 1, by omega, by omega⟩
  · exact ⟨k, hk, e⟩

theorem foldl_inv {α β : Type} (P : β → Prop) (step : β → α → β) (l : List α) (b : β)
    (hb : P b) (h : ∀ (b : β) (a : α), a ∈ l → P b → P (step b a)) : P (l.foldl step b) := by
  induction l generalizing b with
  | nil => exact hb
  | cons a l ih =>
    rw [List.foldl_cons]
    exact ih _ (h b a (List.mem_cons_self a l) hb)
      (fun b c hc => h b c (List.mem_cons_of_mem a hc))

theorem findNewEchoes_duration_steps (r range nt : Int) (g : Game)
    (h : ∃ k, k ≤ 4 ∧ g.GameDuration = 40 + 5 * k) :
    ∃ k, k ≤ 4 ∧ (findNewEchoes r range nt g).GameDuration = 40 + 5 * k := by
  unfold findNewEchoes
  exact foldl_inv (fun g => ∃ k, k ≤ 4 ∧ g.GameDuration = 40 + 5 * k) _ _ g h
    (fun b a _ hb => findNewEcho_duration_steps r _ _ b a hb)

theorem reCalculateBearing_fields (L : Libm) (g : Game) (i t : Nat) :
    ((reCalculateBearing L g i).Target t).x = (g.Target t).x ∧
    ((reCalculateBearing L g i).Target t).y = (g.Target t).y ∧
    ((reCalculateBearing L g i).Target t).siz = (g.Target t).siz ∧
    ((reCalculateBearing L g i).Target t).active = (g.Target t).active ∧
    ((reCalculateBearing L g i).Target t).rings = (g.Target t).rings ∧
    ((reCalculateBearing L g i).Target t).axes = (g.Target t).axes ∧
    ((reCalculateBearing L g i).Target t).time = (g.Target t).time := by
  by_cases h : t = i
  · subst h
    unfold reCalculateBearing
    simp only [setTarget, arraySet_same]
    split_ifs <;> simp [arraySet_same]
  · rw [reCalculateBearing_target_other L g i t h]
    exact ⟨rfl, rfl, rfl, rfl, rfl, rfl, rfl⟩

theorem reCalculateBearing_globals (L : Libm) (g : Game) (i : Nat) :
    (reCalculateBearing L g i).GameDuration = g.GameDuration ∧
    (reCalculateBearing L g i).Rings = g.Rings ∧
    (reCalculateBearing L g i).Axes = g.Axes ∧
    (reCalculateBearing L g i).Gather_y = g.Gather_y ∧
    (reCalculateBearing L g i).Player = g.Player ∧
    (reCalculateBearing L g i).Echo = g.Echo := by
  unfold reCalculateBearing
  simp only [setTarget]
  split_ifs <;> exact ⟨rfl, rfl, rfl, rfl, rfl, rfl⟩

theorem reCalculateBearings_globals (L : Libm) (g : Game) :
    (reCalculateBearings L g).GameDuration = g.GameDuration ∧
    (reCalculateBearings L g).Rings = g.Rings ∧
    (reCalculateBearings L g).Axes = g.Axes ∧
    (reCalculateBearings L g).Gather_y = g.Gather_y ∧
    (reCalculateBearings L g).Player = g.Player ∧
    (reCalculateBearings L g).Echo = g.Echo := by
  unfold reCalculateBearings
  refine ⟨foldl_keeps (fun g => g.GameDuration) _ _ g
      (fun g' a _ => (reCalculateBearing_globals L g' a).1),
    foldl_keeps (fun g => g.Rings) _ _ g
      (fun g' a _ => (reCalculateBearing_globals L g' a).2.1),
    foldl_keeps (fun g => g.Axes) _ _ g
      (fun g' a _ => (reCalculateBearing_globals L g' a).2.2.1),
    foldl_keeps (fun g => g.Gather_y) _ _ g
      (fun g' a _ => (reCalculateBearing_globals L g' a).2.2.2.1),
    foldl_keeps (fun g => g.Player) _ _ g
      (fun g' a _ => (reCalculateBearing_globals L g' a).2.2.2.2.1),
    foldl_keeps (fun g => g.Echo) _ _ g
      (fun g' a _ => (reCalculateBearing_globals L g' a).2.2.2.2.2)⟩

theorem reCalculateBearings_fields (L : Libm) (g : Game) (t : Nat) :
    ((reCalculateBearings L g).Target t).x = (g.Target t).x ∧
    ((reCalculateBearings L g).Target t).y = (g.Target t).y ∧
    ((reCalculateBearings L g).Target t).siz = (g.Target t).siz ∧
    ((reCalculateBearings L g).Target t).active = (g.Target t).active ∧
    ((reCalculateBearings L g).Target t).rings = (g.Target t).rings ∧
    ((reCalculateBearings L g).Target t).axes = (g.Target t).axes ∧
    ((reCalculateBearings L g).Target t).time = (g.Target t).time := by
  unfold reCalculateBearings
  refine ⟨foldl_keeps (fun g => (g.Target t).x) _ _ g
      (fun g' a _ => (reCalculateBearing_fields L g' a t).1),
    foldl_keeps (fun g => (g.Target t).y) _ _ g
      (fun g' a _ => (reCalculateBearing_fields L g' a t).2.1),
    foldl_keeps (fun g => (g.Target t).siz) _ _ g
      (fun g' a _ => (reCalculateBearing_fields L g' a t).2.2.1),
    foldl_keeps (fun g => (g.Target t).active) _ _ g
      (fun g' a _ => (reCalculateBearing_fields L g' a t).2.2.2.1),
    foldl_keeps (fun g => (g.Target t).rings) _ _ g
      (fun g' a _ => (reCalculateBearing_fields L g' a t).2.2.2.2.1),
    foldl_keeps (fun g => (g.Target t).axes) _ _ g
      (fun g' a _ => (reCalculateBearing_fields L g' a t).2.2.2.2.2.1),
    foldl_keeps (fun g => (g.Target t).time) _ _ g
      (fun g' a _ => (reCalculateBearing_fields L g' a t).2.2.2.2.2.2)⟩

theorem movePlayer_keeps (dir : Int) (g : Game) :
    (movePlayer dir g).Target = g.Target ∧ (movePlayer dir g).Echo = g.Echo ∧
    (movePlayer dir g).GameDuration = g.GameDuration ∧
    (movePlayer dir g).Rings = g.Rings ∧ (movePlayer dir g).Axes = g.Axes ∧
    (movePlayer dir g).Gather_y = g.Gather_y := by
  unfold movePlayer
  split_ifs <;> exact ⟨rfl, rfl, rfl, rfl, rfl, rfl⟩

theorem tickMove_globals (L : Libm) (adc : Int × Int) (g : Game) :
    (tickMove L adc g).GameDuration = g.GameDuration ∧
    (tickMove L adc g).Rings = g.Rings ∧
    (tickMove L adc g).Axes = g.Axes ∧
    (tickMove L adc g).Gather_y = g.Gather_y ∧
    (tickMove L adc g).Echo = g.Echo ∧
    (tickMove L adc g).sweeps = g.sweeps := by
  unfold tickMove
  by_cases h1 : g.sweeps < g.GameDuration
  · rw [if_pos h1]
    by_cases h2 : getPlayerMove adc.1 adc.2 ≠ 0
    · simp only [if_pos h2]
      have hm := movePlayer_keeps (getPlayerMove adc.1 adc.2) g
      have hr := reCalculateBearings_globals L (movePlayer (getPlayerMove adc.1 adc.2) g)
      refine ⟨hr.1.trans hm.2.2.1, hr.2.1.trans hm.2.2.2.1, hr.2.2.1.trans hm.2.2.2.2.1,
        hr.2.2.2.1.trans hm.2.2.2.2.2, hr.2.2.2.2.2.trans hm.2.1, ?_⟩
      rw [reCalculateBearings_sweeps, movePlayer_sweeps]
    · simp only [if_neg h2, and_self]
  · rw [if_neg h1]
    exact ⟨rfl, rfl, rfl, rfl, rfl, rfl⟩

theorem tickMove_fields (L : Libm) (adc : Int × Int) (g : Game) (t : Nat) :
    ((tickMove L adc g).Target t).x = (g.Target t).x ∧
    ((tickMove L adc g).Target t).y = (g.Target t).y ∧
    ((tickMove L adc g).Target t).siz = (g.Target t).siz ∧
    ((tickMove L adc g).Target t).active = (g.Target t).active ∧
    ((tickMove L adc g).Target t).rings = (g.Target t).rings ∧
    ((tickMove L adc g).Target t).axes = (g.Target t).axes ∧
    ((tickMove L adc g).Target t).time = (g.Target t).time := by
  unfold tickMove
  by_cases h1 : g.sweeps < g.GameDuration
  · rw [if_pos h1]
    by_cases h2 : getPlayerMove adc.1 adc.2 ≠ 0
    · simp only [if_pos h2]
      have hr := reCalculateBearings_fields L (movePlayer (getPlayerMove adc.1 adc.2) g) t
      rw [(movePlayer_keeps (getPlayerMove adc.1 adc.2) g).1] at hr
      exact hr
    · simp only [if_neg h2, and_self]
  · rw [if_neg h1]
    exact ⟨rfl, rfl, rfl, rfl, rfl, rfl, rfl⟩

/-- The loop body of `game_loop` in terms of its three phases. -/
theorem game_tick_eq (L : Libm) (adc : Int × Int) (r : Int) (g : Game) :
    game_tick L adc r g
      = if r = 180 then
          { (List.range NECHOES).foldl ageEcho (tickScan L adc r g) with
            sweeps := (((List.range NECHOES).foldl ageEcho (tickScan L adc r g)).sweeps + 1)
              % 4294967296 }
        else (List.range NECHOES).foldl ageEcho (tickScan L adc r g) := rfl

theorem ageEcho_keeps (g : Game) (e : Nat) :
    (ageEcho g e).Target = g.Target ∧ (ageEcho g e).Player = g.Player ∧
    (ageEcho g e).GameDuration = g.GameDuration ∧ (ageEcho g e).Rings = g.Rings ∧
    (ageEcho g e).Axes = g.Axes ∧ (ageEcho g e).Gather_y = g.Gather_y ∧
    (ageEcho g e).sweeps = g.sweeps := ⟨rfl, rfl, rfl, rfl, rfl, rfl, rfl⟩

theorem aging_keeps (g : Game) :
    ((List.range NECHOES).foldl ageEcho g).Target = g.Target ∧
    ((List.range NECHOES).foldl ageEcho g).Player = g.Player ∧
    ((List.range NECHOES).foldl ageEcho g).GameDuration = g.GameDuration ∧
    ((List.range NECHOES).foldl ageEcho g).Rings = g.Rings ∧
    ((List.range NECHOES).foldl ageEcho g).Axes = g.Axes ∧
    ((List.range NECHOES).foldl ageEcho g).Gather_y = g.Gather_y ∧
    ((List.range NECHOES).foldl ageEcho g).sweeps = g.sweeps :=
  ⟨foldl_keeps (fun g => g.Target) _ _ g (fun _ _ _ => rfl),
   foldl_keeps (fun g => g.Player) _ _ g (fun _ _ _ => rfl),
   foldl_keeps (fun g => g.GameDuration) _ _ g (fun _ _ _ => rfl),
   foldl_keeps (fun g => g.Rings) _ _ g (fun _ _ _ => rfl),
   foldl_keeps (fun g => g.Axes) _ _ g (fun _ _ _ => rfl),
   foldl_keeps (fun g => g.Gather_y) _ _ g (fun _ _ _ => rfl),
   foldl_keeps (fun g => g.sweeps) _ _ g (fun _ _ _ => rfl)⟩

/-- What a tick keeps of the state in which its echo loop starts. -/
theorem game_tick_of_scan (L : Libm) (adc : Int × Int) (r : Int) (g : Game) :
    (game_tick L adc r g).Target = (tickScan L adc r g).Target ∧
    (game_tick L adc r g).Player = (tickScan L adc r g).Player ∧
    (game_tick L adc r g).GameDuration = (tickScan L adc r g).GameDuration ∧
    (game_tick L adc r g).Rings = (tickScan L adc r g).Rings ∧
    (game_tick L adc r g).Axes = (tickScan L adc r g).Axes ∧
    (game_tick L adc r g).Gather_y = (tickScan L adc r g).Gather_y ∧
    (game_tick L adc r g).Echo = ((List.range NECHOES).foldl ageEcho (tickScan L adc r g)).Echo := by
  rw [game_tick_eq]
  have h := aging_keeps (tickScan L adc r g)
  by_cases hr : r = 180
  · rw [if_pos hr]
    exact ⟨h.1, h.2.1, h.2.2.1, h.2.2.2.1, h.2.2.2.2.1, h.2.2.2.2.2.1, rfl⟩
  · rw [if_neg hr]
    exact ⟨h.1, h.2.1, h.2.2.1, h.2.2.2.1, h.2.2.2.2.1, h.2.2.2.2.2.1, rfl⟩

/-- What the `sweeps++` after pass 119 keeps: everything but `sweeps`. -/
theorem runTicks_succ (L : Libm) (adc : Nat → Int × Int) (n : Nat) (g : Game) :
    runTicks L adc (n + 1) g
      = if n % 120 = 119 then
          { game_tick L (adc n) (sweepAngle n) (runTicks L adc n g) with
            sweeps := ((game_tick L (adc n) (sweepAngle n) (runTicks L adc n g)).sweeps + 1)
              % 4294967296 }
        else game_tick L (adc n) (sweepAngle n) (runTicks L adc n g) := rfl

theorem runTicks_succ_of_tick (L : Libm) (adc : Nat → Int × Int) (n : Nat) (g : Game) :
    (runTicks L adc (n + 1) g).Target = (game_tick L (adc n) (sweepAngle n) (runTicks L adc n g)).Target ∧
    (runTicks L adc (n + 1) g).Player = (game_tick L (adc n) (sweepAngle n) (runTicks L adc n g)).Player ∧
    (runTicks L adc (n + 1) g).GameDuration
      = (game_tick L (adc n) (sweepAngle n) (runTicks L adc n g)).GameDuration ∧
    (runTicks L adc (n + 1) g).Rings = (game_tick L (adc n) (sweepAngle n) (runTicks L adc n g)).Rings ∧
    (runTicks L adc (n + 1) g).Axes = (game_tick L (adc n) (sweepAngle n) (runTicks L adc n g)).Axes ∧
    (runTicks L adc (n + 1) g).Gather_y
      = (game_tick L (adc n) (sweepAngle n) (runTicks L adc n g)).Gather_y ∧
    (runTicks L adc (n + 1) g).Echo = (game_tick L (adc n) (sweepAngle n) (runTicks L adc n g)).Echo := by
  rw [runTicks_succ]
  by_cases h : n % 120 = 119
  · rw [if_pos h]
    exact ⟨rfl, rfl, rfl, rfl, rfl, rfl, rfl⟩
  · rw [if_neg h]
    exact ⟨rfl, rfl, rfl, rfl, rfl, rfl, rfl⟩

theorem tickScan_duration_steps (L : Libm) (adc : Int × Int) (r : Int) (g : Game)
    (h : ∃ k, k ≤ 4 ∧ g.GameDuration = 40 + 5 * k) :
    ∃ k, k ≤ 4 ∧ (tickScan L adc r g).GameDuration = 40 + 5 * k := by
  unfold tickScan
  apply findNewEchoes_duration_steps
  rw [(tickMove_globals L adc g).1]
  exact h

theorem runTicks_duration_steps (L : Libm) (adc : Nat → Int × Int) (n : Nat) (g : Game)
    (h : ∃ k, k ≤ 4 ∧ g.GameDuration = 40 + 5 * k) :
    ∃ k, k ≤ 4 ∧ (runTicks L adc n g).GameDuration = 40 + 5 * k := by
  induction n with
  | zero => exact h
  | succ n ih =>
    rw [(runTicks_succ_of_tick L adc n g).2.2.1, (game_tick_of_scan L _ _ _).2.2.1]
    exact tickScan_duration_steps L _ _ _ ih

theorem setupTargets_globals (rnd : Nat → Int) (g : Game) (l : List Nat) :
    (l.foldl (fun g i =>
      setupTarget (rnd (3 * i)) (rnd (3 * i + 1)) (rnd (3 * i + 2)) g i) g).GameDuration
        = g.GameDuration ∧
    (l.foldl (fun g i =>
      setupTarget (rnd (3 * i)) (rnd (3 * i + 1)) (rnd (3 * i + 2)) g i) g).Echo = g.Echo ∧
    (l.foldl (fun g i =>
      setupTarget (rnd (3 * i)) (rnd (3 * i + 1)) (rnd (3 * i + 2)) g i) g).Gather_y
        = g.Gather_y ∧
    (l.foldl (fun g i =>
      setupTarget (rnd (3 * i)) (rnd (3 * i + 1)) (rnd (3 * i + 2)) g i) g).Rings = g.Rings ∧
    (l.foldl (fun g i =>
      setupTarget (rnd (3 * i)) (rnd (3 * i + 1)) (rnd (3 * i + 2)) g i) g).Axes = g.Axes ∧
    (l.foldl (fun g i =>
      setupTarget (rnd (3 * i)) (rnd (3 * i + 1)) (rnd (3 * i + 2)) g i) g).sweeps = g.sweeps :=
  ⟨foldl_keeps (fun g => g.GameDuration) _ _ g (fun _ _ _ => rfl),
   foldl_keeps (fun g => g.Echo) _ _ g (fun _ _ _ => rfl),
   foldl_keeps (fun g => g.Gather_y) _ _ g (fun _ _ _ => rfl),
   foldl_keeps (fun g => g.Rings) _ _ g (fun _ _ _ => rfl),
   foldl_keeps (fun g => g.Axes) _ _ g (fun _ _ _ => rfl),
   foldl_keeps (fun g => g.sweeps) _ _ g (fun _ _ _ => rfl)⟩

theorem placeBonuses_globals (i1 i2 i3 i4 : Nat) (g : Game) :
    (placeBonuses i1 i2 i3 i4 g).GameDuration = g.GameDuration ∧
    (placeBonuses i1 i2 i3 i4 g).Echo = g.Echo ∧
    (placeBonuses i1 i2 i3 i4 g).Gather_y = g.Gather_y ∧
    (placeBonuses i1 i2 i3 i4 g).Rings = g.Rings ∧
    (placeBonuses i1 i2 i3 i4 g).Axes = g.Axes ∧
    (placeBonuses i1 i2 i3 i4 g).sweeps = g.sweeps := ⟨rfl, rfl, rfl, rfl, rfl, rfl⟩

theorem placePlayer_globals (g : Game) :
    (placePlayer g).GameDuration = g.GameDuration ∧
    (placePlayer g).Echo = g.Echo ∧
    (placePlayer g).Gather_y = g.Gather_y ∧
    (placePlayer g).Rings = g.Rings ∧
    (placePlayer g).Axes = g.Axes ∧
    (placePlayer g).sweeps = g.sweeps ∧
    (placePlayer g).Target = g.Target := ⟨rfl, rfl, rfl, rfl, rfl, rfl, rfl⟩

theorem game_setup_eq (L : Libm) (rnd : Nat → Int) (g : Game) :
    game_setup L rnd g
      = reCalculateBearings L (placePlayer (placeBonuses (rnd 30).toNat
          (rnd 31).toNat (rnd 32).toNat (rnd 33).toNat ((List.range NTARGETS).foldl (fun g i =>
            setupTarget (rnd (3 * i)) (rnd (3 * i + 1)) (rnd (3 * i + 2)) g i) g))) := rfl

theorem game_setup_globals (L : Libm) (rnd : Nat → Int) (g : Game) :
    (game_setup L rnd g).GameDuration = g.GameDuration ∧
    (game_setup L rnd g).Echo = g.Echo ∧
    (game_setup L rnd g).Gather_y = g.Gather_y ∧
    (game_setup L rnd g).Rings = g.Rings ∧
    (game_setup L rnd g).Axes = g.Axes ∧
    (game_setup L rnd g).sweeps = g.sweeps := by
  have h := setupTargets_globals rnd g (List.range NTARGETS)
  rw [game_setup_eq]
  generalize (List.range NTARGETS).foldl (fun g i =>
      setupTarget (rnd (3 * i)) (rnd (3 * i + 1)) (rnd (3 * i + 2)) g i) g = g1 at h ⊢
  have hb := placeBonuses_globals (rnd 30).toNat (rnd 31).toNat (rnd 32).toNat (rnd 33).toNat g1
  generalize placeBonuses (rnd 30).toNat (rnd 31).toNat (rnd 32).toNat (rnd 33).toNat g1
    = g2 at hb ⊢
  have hp := placePlayer_globals g2
  generalize placePlayer g2 = g3 at hp ⊢
  have hr := reCalculateBearings_globals L g3
  have hs := reCalculateBearings_sweeps L g3
  generalize reCalculateBearings L g3 = g4 at hr hs ⊢
  refine ⟨?_, ?_, ?_, ?_, ?_, ?_⟩
  · rw [hr.1, hp.1, hb.1, h.1]
  · rw [hr.2.2.2.2.2, hp.2.1, hb.2.1, h.2.1]
  · rw [hr.2.2.2.1, hp.2.2.1, hb.2.2.1, h.2.2.1]
  · rw [hr.2.1, hp.2.2.2.1, hb.2.2.2.1, h.2.2.2.1]
  · rw [hr.2.2.1, hp.2.2.2.2.1, hb.2.2.2.2.1, h.2.2.2.2.1]
  · rw [hs, hp.2.2.2.2.2.1, hb.2.2.2.2.2, h.2.2.2.2.2]

end RisibleRadar

namespace RisibleRadar

open SpiOled

theorem findNewEcho_time_false (r : Int) (frange pickup : ℚ) (g : Game) (t t' : Nat)
    (h : (g.Target t).time = false) :
    ((findNewEcho r frange pickup g t').Target t).time = false := by
  rw [findNewEcho_time]
  split_ifs
  · rfl
  · exact h

theorem findNewEchoes_time_false (r range nt : Int) (g : Game) (t : Nat)
    (h : (g.Target t).time = false) : ((findNewEchoes r range nt g).Target t).time = false := by
  unfold findNewEchoes
  exact foldl_inv (fun g => (g.Target t).time = false) _ _ g h
    (fun b a _ hb => findNewEcho_time_false r _ _ b t a hb)

theorem tickScan_time_false (L : Libm) (adc : Int × Int) (r : Int) (g : Game) (t : Nat)
    (h : (g.Target t).time = false) : ((tickScan L adc r g).Target t).time = false := by
  unfold tickScan
  apply findNewEchoes_time_false
  rw [(tickMove_fields L adc g t).2.2.2.2.2.2]
  exact h

theorem game_tick_time_false (L : Libm) (adc : Int × Int) (r : Int) (g : Game) (t : Nat)
    (h : (g.Target t).time = false) : ((game_tick L adc r g).Target t).time = false := by
  rw [(game_tick_of_scan L adc r g).1]
  exact tickScan_time_false L adc r g t h

theorem runTicks_time_false (L : Libm) (adc : Nat → Int × Int) (n : Nat) (g : Game) (t : Nat)
    (h : (g.Target t).time = false) : ((runTicks L adc n g).Target t).time = false := by
  induction n with
  | zero => exact h
  | succ n ih =>
    rw [(runTicks_succ_of_tick L adc n g).1]
    exact game_tick_time_false L _ _ _ t ih

theorem findNewEchoes_duration_keep (r range nt : Int) (g : Game)
    (h : ∀ t, (g.Target t).time = false) :
    (findNewEchoes r range nt g).GameDuration = g.GameDuration := by
  unfold findNewEchoes
  have := foldl_inv (fun g' : Game => (∀ t, (g'.Target t).time = false) ∧
      g'.GameDuration = g.GameDuration)
    (findNewEcho r (range : ℚ) ((range : ℚ) / 3)) (List.range nt.toNat) g ⟨h, rfl⟩
    (fun b a _ hb => ⟨fun t => findNewEcho_time_false r _ _ b t a (hb.1 t), by
      rw [findNewEcho_GameDuration, if_neg, hb.2]
      intro hc
      rw [hb.1 a] at hc
      exact Bool.false_ne_true hc.2.2.1⟩)
  exact this.2

theorem runTicks_duration_keep (L : Libm) (adc : Nat → Int × Int) (n : Nat) (g : Game)
    (h : ∀ t, (g.Target t).time = false) :
    (runTicks L adc n g).GameDuration = g.GameDuration := by
  induction n with
  | zero => rfl
  | succ n ih =>
    rw [(runTicks_succ_of_tick L adc n g).2.2.1, (game_tick_of_scan L _ _ _).2.2.1]
    unfold tickScan
    rw [findNewEchoes_duration_keep, (tickMove_globals L _ _).1, ih]
    intro t
    rw [(tickMove_fields L _ _ t).2.2.2.2.2.2]
    exact runTicks_time_false L adc n g t (h t)

/-- C33. The time bonus is capped and fires once. (1) In every state the game
reaches from `game_setup` at a tick boundary, and in the state in which the
echo loop of the next tick starts, `GameDuration` is one of 40, 45, 50, 55,
60, hence between `DEFGAMEDURATION` and `MAXGAMEDURATION`. (2) The pass of
`findNewEchoes` for a target that is active, carries the time bonus and is
within pickup range adds 5 to `GameDuration` if it is below 60 and clears the
target's `time` flag. (3) Once the `time` flag of a target is clear, the pass
for that target leaves `GameDuration` unchanged, and the flag stays clear
through any number of ticks. (4) When no target carries the time bonus any
more, `GameDuration` stays the same through any number of ticks. -/
theorem time_bonus_capped_once (L : Libm) (rnd : Nat → Int) (adc : Nat → Int × Int)
    (n : Nat) (r : Int) (frange pickup : ℚ) (g : Game) (t : Nat) :
    ((DEFGAMEDURATION ≤ (runTicks L adc n (game_setup L rnd initialGlobals)).GameDuration ∧
      (runTicks L adc n (game_setup L rnd initialGlobals)).GameDuration ≤ MAXGAMEDURATION) ∧
     (DEFGAMEDURATION ≤ (tickScan L (adc n) (sweepAngle n)
        (runTicks L adc n (game_setup L rnd initialGlobals))).GameDuration ∧
      (tickScan L (adc n) (sweepAngle n)
        (runTicks L adc n (game_setup L rnd initialGlobals))).GameDuration
          ≤ MAXGAMEDURATION)) ∧
    ((g.Target t).active = true → (g.Target t).time = true → (g.Target t).range < pickup →
      g.GameDuration ≤ MAXGAMEDURATION →
      (findNewEcho r frange pickup g t).GameDuration
        = (if g.GameDuration < MAXGAMEDURATION then g.GameDuration + 5 else g.GameDuration) ∧
      ((findNewEcho r frange pickup g t).Target t).time = false) ∧
    ((g.Target t).time = false →
      (findNewEcho r frange pickup g t).GameDuration = g.GameDuration ∧
      ∀ m, ((runTicks L adc m g).Target t).time = false) ∧
    ((∀ t', (g.Target t').time = false) →
      ∀ m, (runTicks L adc m g).GameDuration = g.GameDuration) := by
  have h0 : ∃ k, k ≤ 4 ∧ (game_setup L rnd initialGlobals).GameDuration = 40 + 5 * k :=
    ⟨0, by omega, by rw [(game_setup_globals L rnd initialGlobals).1]; rfl⟩
  have h1 := runTicks_duration_steps L adc n _ h0
  have h2 := tickScan_duration_steps L (adc n) (sweepAngle n) _ h1
  refine ⟨⟨?_, ?_⟩, ?_, ?_, ?_⟩
  · obtain ⟨k, hk, e⟩ := h1
    rw [e]
    simp only [DEFGAMEDURATION, MAXGAMEDURATION]
    omega
  · obtain ⟨k, hk, e⟩ := h2
    rw [e]
    simp only [DEFGAMEDURATION, MAXGAMEDURATION]
    omega
  · intro hact htime hrange hle
    constructor
    · rw [findNewEcho_GameDuration]
      by_cases hlt : g.GameDuration < MAXGAMEDURATION
      · rw [if_pos (And.intro hact (And.intro hrange (And.intro htime hlt))), if_pos hlt]
        simp only [MAXGAMEDURATION] at hlt
        omega
      · rw [if_neg (fun hc => hlt hc.2.2.2), if_neg hlt]
    · rw [findNewEcho_time, if_pos (And.intro rfl (And.intro hact hrange))]
  · intro htime
    refine ⟨?_, fun m => runTicks_time_false L adc m g t htime⟩
    rw [findNewEcho_GameDuration, if_neg]
    intro hc
    rw [htime] at hc
    exact Bool.false_ne_true hc.2.2.1
  · intro hall m
    exact runTicks_duration_keep L adc m g hall

/-- Witness for C33: target 0 of `bonusGame` is active, carries the time
bonus and is at range 0; its pass raises `GameDuration` from 40 to 45 and
clears the flag. -/
theorem time_bonus_capped_once_witness :
    (findNewEcho 0 33 11 bonusGame 0).GameDuration = 45 ∧
    ((findNewEcho 0 33 11 bonusGame 0).Target 0).time = false := by
  have h := (time_bonus_capped_once zeroLibm (fun _ => 0) (fun _ => (0, 0)) 0 0 33 11
    bonusGame 0).2.1 rfl rfl (by simp only [bonusGame]; norm_num) (by decide)
  exact ⟨h.1.trans (by decide), h.2⟩

end RisibleRadar

namespace RisibleRadar

open SpiOled

/-! ### Ticks after game over -/

theorem bonusPart_id (pickup : ℚ) (g : Game) (t : Nat)
    (h : (g.Target t).range < pickup →
      ((g.Target t).rings = true → g.Rings = true) ∧
      ((g.Target t).axes = true → g.Axes = true) ∧ (g.Target t).time = false) :
    bonusPart pickup g t = g := by
  by_cases hr : (g.Target t).range < pickup
  · obtain ⟨h1, h2, h3⟩ := h hr
    unfold bonusPart
    rw [if_pos hr]
    have e1 : (if (g.Target t).rings = true then { g with Rings := true } else g) = g := by
      by_cases hh : (g.Target t).rings = true
      · rw [if_pos hh]
        have := h1 hh
        cases g
        simp only at this
        subst this
        rfl
      · rw [if_neg hh]
    have e2 : (if (g.Target t).axes = true then { g with Axes := true } else g) = g := by
      by_cases hh : (g.Target t).axes = true
      · rw [if_pos hh]
        have := h2 hh
        cases g
        simp only at this
        subst this
        rfl
      · rw [if_neg hh]
    simp only [e1, e2]
    rw [if_neg (by rw [h3]; exact Bool.false_ne_true)]
  · exact bonusPart_far _ g t hr

theorem echoPart_active_y (r : Int) (frange pickup : ℚ) (g : Game) (t : Nat)
    (h : ¬ (|(g.Target t).bearing - (r : ℚ)| < 6 ∧ (g.Target t).range < frange ∧
      (g.Target t).range < pickup)) :
    (echoPart r frange pickup g t).Target = g.Target ∧
    (echoPart r frange pickup g t).Gather_y = g.Gather_y := by
  unfold echoPart
  by_cases h1 : ((floatToInt ((g.Target t).bearing - (r : ℚ))).natAbs : ℚ) < 6
  · rw [if_pos h1]
    by_cases h2 : (g.Target t).range < frange
    · rw [if_pos h2]
      simp only [makeEcho_Target]
      by_cases h3 : (g.Target t).range < pickup
      · exact absurd (And.intro ((floatToInt_abs_lt _).mp h1) (And.intro h2 h3)) h
      · rw [if_neg h3]
        exact ⟨rfl, rfl⟩
    · rw [if_neg h2]
      exact ⟨rfl, rfl⟩
  · rw [if_neg h1]
    exact ⟨rfl, rfl⟩

/-- The fields of a target that no pass of `findNewEchoes` changes while the
bonuses are settled, together with the globals it keeps. -/
theorem findNewEcho_settled (r : Int) (g : Game) (t' : Nat) (ht' : t' < NTARGETS)
    (h : bonusSettled g) :
    bonusSettled (findNewEcho r (SCANNER_RADIUS : ℚ) ((SCANNER_RADIUS : ℚ) / 3) g t') ∧
    (findNewEcho r (SCANNER_RADIUS : ℚ) ((SCANNER_RADIUS : ℚ) / 3) g t').Player = g.Player ∧
    (findNewEcho r (SCANNER_RADIUS : ℚ) ((SCANNER_RADIUS : ℚ) / 3) g t').GameDuration
      = g.GameDuration ∧
    (findNewEcho r (SCANNER_RADIUS : ℚ) ((SCANNER_RADIUS : ℚ) / 3) g t').Rings = g.Rings ∧
    (findNewEcho r (SCANNER_RADIUS : ℚ) ((SCANNER_RADIUS : ℚ) / 3) g t').Axes = g.Axes ∧
    (∀ t,
      ((findNewEcho r (SCANNER_RADIUS : ℚ) ((SCANNER_RADIUS : ℚ) / 3) g t').Target t).x
        = (g.Target t).x ∧
      ((findNewEcho r (SCANNER_RADIUS : ℚ) ((SCANNER_RADIUS : ℚ) / 3) g t').Target t).bearing
        = (g.Target t).bearing ∧
      ((findNewEcho r (SCANNER_RADIUS : ℚ) ((SCANNER_RADIUS : ℚ) / 3) g t').Target t).range
        = (g.Target t).range ∧
      ((findNewEcho r (SCANNER_RADIUS : ℚ) ((SCANNER_RADIUS : ℚ) / 3) g t').Target t).siz
        = (g.Target t).siz ∧
      ((findNewEcho r (SCANNER_RADIUS : ℚ) ((SCANNER_RADIUS : ℚ) / 3) g t').Target t).rings
        = (g.Target t).rings ∧
      ((findNewEcho r (SCANNER_RADIUS : ℚ) ((SCANNER_RADIUS : ℚ) / 3) g t').Target t).axes
        = (g.Target t).axes ∧
      ((findNewEcho r (SCANNER_RADIUS : ℚ) ((SCANNER_RADIUS : ℚ) / 3) g t').Target t).time
        = (g.Target t).time) ∧
    (∀ t, ((findNewEcho r (SCANNER_RADIUS : ℚ) ((SCANNER_RADIUS : ℚ) / 3) g t').Target t).active
        = true → (g.Target t).active = true) := by
  by_cases hact : (g.Target t').active = true
  · have hf := echoPart_fields r (SCANNER_RADIUS : ℚ) ((SCANNER_RADIUS : ℚ) / 3) g
    have hg := echoPart_globals r (SCANNER_RADIUS : ℚ) ((SCANNER_RADIUS : ℚ) / 3) g t'
    have hp := echoPart_Player r (SCANNER_RADIUS : ℚ) ((SCANNER_RADIUS : ℚ) / 3) g t'
    have hact' : ∀ t, ((echoPart r (SCANNER_RADIUS : ℚ) ((SCANNER_RADIUS : ℚ) / 3) g t').Target t).active
        = true → (g.Target t).active = true := by
      intro t
      rcases echoPart_cases r (SCANNER_RADIUS : ℚ) ((SCANNER_RADIUS : ℚ) / 3) g t' with e | e | e
      · rw [e]
        exact id
      · rw [e, makeEcho_Target]
        exact id
      · rw [e]
        by_cases htt : t = t'
        · subst htt
          rw [(pickUp_Target_same _ t).1]
          intro hh
          exact absurd hh Bool.false_ne_true
        · rw [pickUp_Target_other _ t t' htt, makeEcho_Target]
          exact id
    have e : findNewEcho r (SCANNER_RADIUS : ℚ) ((SCANNER_RADIUS : ℚ) / 3) g t'
        = echoPart r (SCANNER_RADIUS : ℚ) ((SCANNER_RADIUS : ℚ) / 3) g t' := by
      unfold findNewEcho
      rw [if_pos hact]
      apply bonusPart_id
      intro hr
      rw [(hf t' t').2.2.1] at hr
      rw [(hf t' t').2.2.2.2.1, (hf t' t').2.2.2.2.2.1, (hf t' t').2.2.2.2.2.2, hg.2.1, hg.2.2]
      exact h t' ht' hact hr
    rw [e]
    refine ⟨?_, hp, hg.1, hg.2.1, hg.2.2, fun t => ?_, hact'⟩
    · intro t ht ha hr
      rw [(hf t t').2.2.1] at hr
      rw [(hf t t').2.2.2.2.1, (hf t t').2.2.2.2.2.1, (hf t t').2.2.2.2.2.2, hg.2.1, hg.2.2]
      exact h t ht (hact' t ha) hr
    · exact hf t t'
  · have e : findNewEcho r (SCANNER_RADIUS : ℚ) ((SCANNER_RADIUS : ℚ) / 3) g t' = g := by
      unfold findNewEcho
      rw [if_neg hact]
    rw [e]
    exact ⟨h, rfl, rfl, rfl, rfl, fun t => ⟨rfl, rfl, rfl, rfl, rfl, rfl, rfl⟩, fun t => id⟩

end RisibleRadar

namespace RisibleRadar

open SpiOled

theorem findNewEchoes_eq_fold (r : Int) (g : Game) :
    findNewEchoes r SCANNER_RADIUS NTARGETS g
      = (List.range NTARGETS).foldl
          (findNewEcho r (SCANNER_RADIUS : ℚ) ((SCANNER_RADIUS : ℚ) / 3)) g := by
  unfold findNewEchoes
  rw [Int.toNat_ofNat]

/-- While the bonuses are settled, `findNewEchoes` keeps the player, the
duration, the two display flags and, of every target, everything but `active`
and `y`; the bonuses stay settled and no target becomes active. -/
theorem findNewEchoes_settled (r : Int) (g : Game) (h : bonusSettled g) :
    bonusSettled (findNewEchoes r SCANNER_RADIUS NTARGETS g) ∧
    (findNewEchoes r SCANNER_RADIUS NTARGETS g).Player = g.Player ∧
    (findNewEchoes r SCANNER_RADIUS NTARGETS g).GameDuration = g.GameDuration ∧
    (findNewEchoes r SCANNER_RADIUS NTARGETS g).Rings = g.Rings ∧
    (findNewEchoes r SCANNER_RADIUS NTARGETS g).Axes = g.Axes ∧
    (∀ t,
      ((findNewEchoes r SCANNER_RADIUS NTARGETS g).Target t).x = (g.Target t).x ∧
      ((findNewEchoes r SCANNER_RADIUS NTARGETS g).Target t).bearing = (g.Target t).bearing ∧
      ((findNewEchoes r SCANNER_RADIUS NTARGETS g).Target t).range = (g.Target t).range ∧
      ((findNewEchoes r SCANNER_RADIUS NTARGETS g).Target t).siz = (g.Target t).siz ∧
      ((findNewEchoes r SCANNER_RADIUS NTARGETS g).Target t).rings = (g.Target t).rings ∧
      ((findNewEchoes r SCANNER_RADIUS NTARGETS g).Target t).axes = (g.Target t).axes ∧
      ((findNewEchoes r SCANNER_RADIUS NTARGETS g).Target t).time = (g.Target t).time) ∧
    (∀ t, ((findNewEchoes r SCANNER_RADIUS NTARGETS g).Target t).active = true →
      (g.Target t).active = true) := by
  rw [findNewEchoes_eq_fold]
  refine foldl_inv (fun g' : Game => bonusSettled g' ∧ g'.Player = g.Player ∧
      g'.GameDuration = g.GameDuration ∧ g'.Rings = g.Rings ∧ g'.Axes = g.Axes ∧
      (∀ t, (g'.Target t).x = (g.Target t).x ∧ (g'.Target t).bearing = (g.Target t).bearing ∧
        (g'.Target t).range = (g.Target t).range ∧ (g'.Target t).siz = (g.Target t).siz ∧
        (g'.Target t).rings = (g.Target t).rings ∧ (g'.Target t).axes = (g.Target t).axes ∧
        (g'.Target t).time = (g.Target t).time) ∧
      (∀ t, (g'.Target t).active = true → (g.Target t).active = true))
    _ _ g ⟨h, rfl, rfl, rfl, rfl, fun t => ⟨rfl, rfl, rfl, rfl, rfl, rfl, rfl⟩, fun t => id⟩ ?_
  intro b a ha hb
  obtain ⟨b1, b2, b3, b4, b5, b6, b7⟩ := hb
  obtain ⟨c1, c2, c3, c4, c5, c6, c7⟩ := findNewEcho_settled r b a (List.mem_range.mp ha) b1
  refine ⟨c1, c2.trans b2, c3.trans b3, c4.trans b4, c5.trans b5, fun t => ?_,
    fun t ht => b7 t (c7 t ht)⟩
  obtain ⟨d1, d2, d3, d4, d5, d6, d7⟩ := c6 t
  obtain ⟨e1, e2, e3, e4, e5, e6, e7⟩ := b6 t
  exact ⟨d1.trans e1, d2.trans e2, d3.trans e3, d4.trans e4, d5.trans e5, d6.trans e6,
    d7.trans e7⟩

/-- While the bonuses are settled and no pickup is due, `findNewEchoes`
changes nothing but the echoes. -/
theorem findNewEchoes_no_pickup (r : Int) (g : Game) (h : bonusSettled g)
    (hno : ∀ t, t < NTARGETS → ¬ pickupDue r g t) :
    (findNewEchoes r SCANNER_RADIUS NTARGETS g).Target = g.Target ∧
    (findNewEchoes r SCANNER_RADIUS NTARGETS g).Gather_y = g.Gather_y := by
  rw [findNewEchoes_eq_fold]
  have := foldl_inv (fun g' : Game => g'.Target = g.Target ∧ g'.Gather_y = g.Gather_y ∧
      g'.Rings = g.Rings ∧ g'.Axes = g.Axes)
    (findNewEcho r (SCANNER_RADIUS : ℚ) ((SCANNER_RADIUS : ℚ) / 3)) (List.range NTARGETS) g
    ⟨rfl, rfl, rfl, rfl⟩ (fun b a ha hb => by
      obtain ⟨b1, b2, b3, b4⟩ := hb
      have hset : bonusSettled b := by
        intro t ht
        unfold bonusSettledAt
        rw [b1, b3, b4]
        exact h t ht
      have ha' := List.mem_range.mp ha
      by_cases hact : (b.Target a).active = true
      · have e : findNewEcho r (SCANNER_RADIUS : ℚ) ((SCANNER_RADIUS : ℚ) / 3) b a
            = echoPart r (SCANNER_RADIUS : ℚ) ((SCANNER_RADIUS : ℚ) / 3) b a := by
          have hf := echoPart_fields r (SCANNER_RADIUS : ℚ) ((SCANNER_RADIUS : ℚ) / 3) b a a
          have hg := echoPart_globals r (SCANNER_RADIUS : ℚ) ((SCANNER_RADIUS : ℚ) / 3) b a
          unfold findNewEcho
          rw [if_pos hact]
          apply bonusPart_id
          intro hr
          rw [hf.2.2.1] at hr
          rw [hf.2.2.2.2.1, hf.2.2.2.2.2.1, hf.2.2.2.2.2.2, hg.2.1, hg.2.2]
          exact hset a ha' hact hr
        have hnot : ¬ (|(b.Target a).bearing - (r : ℚ)| < 6 ∧
            (b.Target a).range < (SCANNER_RADIUS : ℚ) ∧
            (b.Target a).range < (SCANNER_RADIUS : ℚ) / 3) := by
          intro hc
          apply hno a ha'
          unfold pickupDue
          rw [← b1]
          exact ⟨hact, hc.1, hc.2.2⟩
        have hk := echoPart_active_y r _ _ b a hnot
        have hg := echoPart_globals r (SCANNER_RADIUS : ℚ) ((SCANNER_RADIUS : ℚ) / 3) b a
        rw [e]
        exact ⟨hk.1.trans b1, hk.2.trans b2, hg.2.1.trans b3, hg.2.2.trans b4⟩
      · have e : findNewEcho r (SCANNER_RADIUS : ℚ) ((SCANNER_RADIUS : ℚ) / 3) b a = b := by
          unfold findNewEcho
          rw [if_neg hact]
        rw [e]
        exact ⟨b1, b2, b3, b4⟩)
  exact ⟨this.1, this.2.1⟩

/-! ### The bonuses are settled after every call of `findNewEchoes` -/

end RisibleRadar

namespace RisibleRadar

open SpiOled

/-! ### What `game_setup` and `reCalculateBearings` leave in a target -/

/-- A tick in which the player does not move, the bonuses are settled and no
pickup is due changes nothing of the game state but the echoes and the sweep
counter. -/
theorem quiet_tick (L : Libm) (adc : Int × Int) (r : Int) (g : Game)
    (hmove : tickMove L adc g = g) (hset : bonusSettled g)
    (hno : ∀ t, t < NTARGETS → ¬ pickupDue r g t) :
    (game_tick L adc r g).Target = g.Target ∧
    (game_tick L adc r g).Player = g.Player ∧
    (game_tick L adc r g).GameDuration = g.GameDuration ∧
    (game_tick L adc r g).Rings = g.Rings ∧
    (game_tick L adc r g).Axes = g.Axes ∧
    (game_tick L adc r g).Gather_y = g.Gather_y := by
  have hk := game_tick_of_scan L adc r g
  have hs := findNewEchoes_settled r g hset
  have hn := findNewEchoes_no_pickup r g hset hno
  unfold tickScan at hk
  rw [hmove] at hk
  exact ⟨hk.1.trans hn.1, hk.2.1.trans hs.2.1, hk.2.2.1.trans hs.2.2.1,
    hk.2.2.2.1.trans hs.2.2.2.1, hk.2.2.2.2.1.trans hs.2.2.2.2.1,
    hk.2.2.2.2.2.1.trans hn.2⟩

end RisibleRadar

namespace RisibleRadar

open SpiOled

/-! ### The concrete game `lateGame` -/

end RisibleRadar

namespace RisibleRadar

open SpiOled

theorem tickMove_centred (L : Libm) (g : Game) : tickMove L (2048, 2048) g = g := by
  unfold tickMove
  by_cases h : g.sweeps < g.GameDuration
  · rw [if_pos h]
    show (if getPlayerMove 2048 2048 ≠ 0 then _ else g) = g
    rw [if_neg (by decide)]
  · rw [if_neg h]

end RisibleRadar

namespace RisibleRadar

open SpiOled

end RisibleRadar

namespace RisibleRadar

open SpiOled

/-! ### Echo ages -/

theorem aging_Echo (n : Nat) (g : Game) (e : Nat) :
    ((List.range n).foldl ageEcho g).Echo e
      = if e < n then { g.Echo e with age := (g.Echo e).age - 1 } else g.Echo e := by
  induction n with
  | zero => simp
  | succ n ih =>
    rw [List.range_succ, List.foldl_append, List.foldl_cons, List.foldl_nil]
    show arraySet _ n _ e = _
    by_cases h : e = n
    · subst h
      rw [arraySet_same, ih, if_neg (by omega), if_pos (by omega)]
    · rw [arraySet_other _ _ _ _ h, ih]
      by_cases h2 : e < n
      · rw [if_pos h2, if_pos (by omega)]
      · rw [if_neg h2, if_neg (by omega)]

theorem ageEchoes_fold (g : Game) (n : Nat) :
    (List.range n).foldl (fun (s : Game × List Nat) e =>
      (ageEcho s.1 e, if (s.1.Echo e).age > 0 then s.2 ++ [e] else s.2)) (g, [])
      = ((List.range n).foldl ageEcho g,
         (List.range n).filter (fun e => decide (0 < (g.Echo e).age))) := by
  induction n with
  | zero => rfl
  | succ n ih =>
    rw [List.range_succ, List.foldl_append, List.foldl_cons, List.foldl_nil, ih,
      List.foldl_append, List.foldl_cons, List.foldl_nil, List.filter_append]
    have hn : ((List.range n).foldl ageEcho g).Echo n = g.Echo n := by
      rw [aging_Echo, if_neg (by omega)]
    simp only [hn]
    by_cases hpos : (g.Echo n).age > 0
    · rw [if_pos hpos]
      simp [hpos]
    · rw [if_neg hpos]
      simp [hpos]

/-- The echo loop with its drawing: the state it leaves is that of the loop
without drawing, and the slots drawn are those that are live when the loop
starts. -/
theorem ageEchoes_spec (g : Game) :
    (ageEchoes g).1 = (List.range NECHOES).foldl ageEcho g ∧
    ∀ e, e ∈ (ageEchoes g).2 ↔ e < NECHOES ∧ 0 < (g.Echo e).age := by
  unfold ageEchoes
  rw [ageEchoes_fold]
  refine ⟨rfl, fun e => ?_⟩
  simp [List.mem_filter]

theorem echoesDrawn_iff (L : Libm) (adc : Int × Int) (r : Int) (g : Game) (e : Nat) :
    e ∈ echoesDrawn L adc r g ↔ e < NECHOES ∧ 0 < ((tickScan L adc r g).Echo e).age :=
  (ageEchoes_spec _).2 e

/-- The echo in slot `e` when tick `n + 1` starts is the one the echo loop of
tick `n` met, one tick older. -/
theorem runTicks_succ_Echo (L : Libm) (adc : Nat → Int × Int) (n : Nat) (g : Game) (e : Nat)
    (he : e < NECHOES) :
    (runTicks L adc (n + 1) g).Echo e
      = { (tickScan L (adc n) (sweepAngle n) (runTicks L adc n g)).Echo e with
          age := ((tickScan L (adc n) (sweepAngle n) (runTicks L adc n g)).Echo e).age - 1 } := by
  rw [(runTicks_succ_of_tick L adc n g).2.2.2.2.2.2, (game_tick_of_scan L _ _ _).2.2.2.2.2.2,
    aging_Echo, if_pos he]

theorem findNewEcho_age_le (r : Int) (frange pickup : ℚ) (g : Game) (t : Nat)
    (h : ∀ e, (g.Echo e).age ≤ 90) : ∀ e, ((findNewEcho r frange pickup g t).Echo e).age ≤ 90 := by
  intro e
  rw [findNewEcho_Echo]
  split_ifs
  · rw [makeEcho_Echo]
    split_ifs
    · exact le_refl _
    · exact h e
  · exact h e

theorem findNewEchoes_age_le (r range nt : Int) (g : Game)
    (h : ∀ e, (g.Echo e).age ≤ 90) : ∀ e, ((findNewEchoes r range nt g).Echo e).age ≤ 90 := by
  unfold findNewEchoes
  exact foldl_inv (fun g => ∀ e, (g.Echo e).age ≤ 90) _ _ g h
    (fun b a _ hb => findNewEcho_age_le r _ _ b a hb)

theorem tickScan_age_le (L : Libm) (adc : Int × Int) (r : Int) (g : Game)
    (h : ∀ e, (g.Echo e).age ≤ 90) : ∀ e, ((tickScan L adc r g).Echo e).age ≤ 90 := by
  unfold tickScan
  apply findNewEchoes_age_le
  rw [(tickMove_globals L adc g).2.2.2.2.1]
  exact h

theorem runTicks_age_le (L : Libm) (adc : Nat → Int × Int) (n : Nat) (g : Game)
    (h : ∀ e, (g.Echo e).age ≤ 90) : ∀ e, ((runTicks L adc n g).Echo e).age ≤ 90 := by
  induction n with
  | zero => exact h
  | succ n ih =>
    intro e
    rw [(runTicks_succ_of_tick L adc n g).2.2.2.2.2.2, (game_tick_of_scan L _ _ _).2.2.2.2.2.2,
      aging_Echo]
    have := tickScan_age_le L (adc n) (sweepAngle n) _ ih e
    split_ifs
    · show _ - 1 ≤ 90
      omega
    · exact this

end RisibleRadar

namespace RisibleRadar

open SpiOled

/-- The age of an echo that is not overwritten, tick by tick: `j` ticks after
the tick whose scan left it with age 90, the echo loop meets it with age
`90 - j`. -/
theorem echo_age_countdown (L : Libm) (adc : Nat → Int × Int) (g : Game) (n0 e m : Nat)
    (he : e < NECHOES)
    (hspawn : ((tickScan L (adc n0) (sweepAngle n0) (runTicks L adc n0 g)).Echo e).age = 90)
    (hkeep : ∀ j, 1 ≤ j → j ≤ m →
      (tickScan L (adc (n0 + j)) (sweepAngle (n0 + j)) (runTicks L adc (n0 + j) g)).Echo e
        = (runTicks L adc (n0 + j) g).Echo e)
    (j : Nat) (hj : j ≤ m) :
    ((tickScan L (adc (n0 + j)) (sweepAngle (n0 + j)) (runTicks L adc (n0 + j) g)).Echo e).age
      = 90 - (j : Int) := by
  induction j with
  | zero =>
    rw [Nat.add_zero, hspawn]
    rfl
  | succ j ih =>
    rw [hkeep (j + 1) (by omega) hj, show n0 + (j + 1) = (n0 + j) + 1 from rfl,
      runTicks_succ_Echo L adc (n0 + j) g e he]
    show _ - 1 = _
    rw [ih (by omega)]
    push_cast
    ring

/-- With every target inactive `findNewEchoes` changes nothing. -/
theorem findNewEchoes_all_inactive (r : Int) (g : Game)
    (h : ∀ t, t < NTARGETS → (g.Target t).active = false) :
    findNewEchoes r SCANNER_RADIUS NTARGETS g = g := by
  rw [findNewEchoes_eq_fold]
  apply foldl_fixed
  intro t ht
  unfold findNewEcho
  rw [if_neg (by rw [h t (List.mem_range.mp ht)]; exact Bool.false_ne_true)]

theorem runTicks_all_inactive (L : Libm) (adc : Nat → Int × Int) (n1 n : Nat) (g : Game)
    (h : ∀ t, t < NTARGETS → ((runTicks L adc n1 g).Target t).active = false) (hn : n1 ≤ n) :
    (∀ t, t < NTARGETS → ((runTicks L adc n g).Target t).active = false) ∧
    (tickScan L (adc n) (sweepAngle n) (runTicks L adc n g)).Echo = (runTicks L adc n g).Echo := by
  have hall : ∀ t, t < NTARGETS → ((runTicks L adc n g).Target t).active = false := by
    induction n, hn using Nat.le_induction with
    | base => exact h
    | succ n _ ih =>
      intro t ht
      rw [(runTicks_succ_of_tick L adc n g).1, (game_tick_of_scan L _ _ _).1]
      unfold tickScan
      rw [findNewEchoes_all_inactive _ _ (fun t ht => by
        rw [(tickMove_fields L _ _ t).2.2.2.1]
        exact ih t ht), (tickMove_fields L _ _ t).2.2.2.1]
      exact ih t ht
  refine ⟨hall, ?_⟩
  unfold tickScan
  rw [findNewEchoes_all_inactive _ _ (fun t ht => by
    rw [(tickMove_fields L _ _ t).2.2.2.1]
    exact hall t ht), (tickMove_globals L _ _).2.2.2.2.1]

/-- C31. Echo lifetime. Let the scan of tick `n0` leave age 90 in slot `e`
(an echo spawned in that tick), and let no later spawn overwrite the slot in
the `m` ticks that follow. Then `j` ticks later (`j <= m`) the echo loop meets
it with age `90 - j`, so `circle` is called for it in tick `n0 + j` exactly
when `j < 90`: the spawning tick and the following 89, and no later tick. From
tick `n0 + 90` on (`90 <= j <= m`) its age at the start of the tick is at most
0, `findEchoSlot` returns this slot or a lower free one, and the slot it
returns is free. In every state the game reaches from `game_setup`, at the
start of a tick and when its echo loop starts, every echo has age at most
90. -/
theorem echo_lifetime (L : Libm) (rnd : Nat → Int) (adc : Nat → Int × Int) (g : Game)
    (n0 e m : Nat) (he : e < NECHOES)
    (hspawn : ((tickScan L (adc n0) (sweepAngle n0) (runTicks L adc n0 g)).Echo e).age = 90)
    (hkeep : ∀ j, 1 ≤ j → j ≤ m →
      (tickScan L (adc (n0 + j)) (sweepAngle (n0 + j)) (runTicks L adc (n0 + j) g)).Echo e
        = (runTicks L adc (n0 + j) g).Echo e) :
    (∀ j, j ≤ m →
      ((tickScan L (adc (n0 + j)) (sweepAngle (n0 + j)) (runTicks L adc (n0 + j) g)).Echo e).age
        = 90 - (j : Int) ∧
      (e ∈ echoesDrawn L (adc (n0 + j)) (sweepAngle (n0 + j)) (runTicks L adc (n0 + j) g)
        ↔ j < 90)) ∧
    (∀ j, 90 ≤ j → j ≤ m →
      ((runTicks L adc (n0 + j) g).Echo e).age ≤ 0 ∧
      findEchoSlot (runTicks L adc (n0 + j) g) ≤ e ∧
      ((runTicks L adc (n0 + j) g).Echo (findEchoSlot (runTicks L adc (n0 + j) g))).age ≤ 0) ∧
    (∀ n e',
      ((runTicks L adc n (game_setup L rnd initialGlobals)).Echo e').age ≤ 90 ∧
      ((tickScan L (adc n) (sweepAngle n)
        (runTicks L adc n (game_setup L rnd initialGlobals))).Echo e').age ≤ 90) := by
  refine ⟨fun j hj => ?_, fun j h90 hj => ?_, fun n e' => ?_⟩
  · have hage := echo_age_countdown L adc g n0 e m he hspawn hkeep j hj
    refine ⟨hage, ?_⟩
    rw [echoesDrawn_iff, hage]
    constructor
    · rintro ⟨_, h⟩
      omega
    · intro h
      exact ⟨he, by omega⟩
  · have hage := echo_age_countdown L adc g n0 e m he hspawn hkeep j hj
    rw [hkeep j (by omega) hj] at hage
    have hfree : ((runTicks L adc (n0 + j) g).Echo e).age ≤ 0 := by
      rw [hage]
      omega
    have hslot := findEchoSlot_free (runTicks L adc (n0 + j) g) ⟨e, he, hfree⟩
    refine ⟨hfree, ?_, hslot.1⟩
    by_contra hlt
    have := hslot.2 e (by omega)
    omega
  · have h0 : ∀ e, ((game_setup L rnd initialGlobals).Echo e).age ≤ 90 := by
      intro e
      rw [(game_setup_globals L rnd initialGlobals).2.1]
      show (0 : Int) ≤ 90
      decide
    have h1 := runTicks_age_le L adc n _ h0
    exact ⟨h1 e', tickScan_age_le L (adc n) (sweepAngle n) _ h1 e'⟩

/-- Witness for C31: `sampleGame` with the joystick centred. In tick 0 every
target is in the sweep and in pickup range, so target 0 spawns its echo in
slot 0 and every target is picked up; no echo is spawned afterwards. The echo
of slot 0 is drawn in tick 89 and not in tick 90, where `findEchoSlot` returns
slot 0 again. -/
theorem echo_lifetime_witness :
    0 ∈ echoesDrawn zeroLibm (2048, 2048) (sweepAngle 89)
      (runTicks zeroLibm (fun _ => (2048, 2048)) 89 sampleGame) ∧
    0 ∉ echoesDrawn zeroLibm (2048, 2048) (sweepAngle 90)
      (runTicks zeroLibm (fun _ => (2048, 2048)) 90 sampleGame) ∧
    findEchoSlot (runTicks zeroLibm (fun _ => (2048, 2048)) 90 sampleGame) = 0 := by
  have hbear : ∀ t, |(sampleGame.Target t).bearing - ((0 : Int) : ℚ)| < 6 := by
    intro t
    simp only [sampleGame]
    norm_num [abs_lt]
  have hrange : ∀ t, (sampleGame.Target t).range < (SCANNER_RADIUS : ℚ) / 3 := by
    intro t
    simp only [sampleGame, SCANNER_RADIUS]
    norm_num
  have hrange' : ∀ t, (sampleGame.Target t).range < (SCANNER_RADIUS : ℚ) := by
    intro t
    simp only [sampleGame, SCANNER_RADIUS]
    norm_num
  have hscan0 : tickScan zeroLibm (2048, 2048) 0 sampleGame
      = findNewEchoes 0 SCANNER_RADIUS NTARGETS sampleGame := by
    unfold tickScan
    rw [tickMove_centred]
  -- slot 0 holds a fresh echo after the scan of tick 0
  have hspawn : ((tickScan zeroLibm (2048, 2048) (sweepAngle 0)
      (runTicks zeroLibm (fun _ => (2048, 2048)) 0 sampleGame)).Echo 0).age = 90 := by
    show ((tickScan zeroLibm (2048, 2048) 0 sampleGame).Echo 0).age = 90
    rw [hscan0, findNewEchoes_eq_fold]
    have hfirst : ((findNewEcho 0 (SCANNER_RADIUS : ℚ) ((SCANNER_RADIUS : ℚ) / 3)
        sampleGame 0).Echo 0).age = 90 := by
      rw [findNewEcho_Echo, if_pos (And.intro (show (sampleGame.Target 0).active = true from rfl)
        (And.intro ((floatToInt_abs_lt _).mpr (hbear 0)) (hrange' 0))), makeEcho_Echo,
        if_pos (findEchoSlot_lowest sampleGame 0 (by decide) (by decide)
          (fun j hj => absurd hj (Nat.not_lt_zero j))).symm]
    rw [show List.range NTARGETS = 0 :: List.range' 1 9 from by decide, List.foldl_cons]
    exact foldl_inv (fun g : Game => (g.Echo 0).age = 90) _ _ _ hfirst
      (fun b a _ hb => by
        show ((findNewEcho 0 _ _ b a).Echo 0).age = 90
        rw [findNewEcho_Echo]
        split_ifs
        · rw [makeEcho_Echo]
          split_ifs
          · rfl
          · exact hb
        · exact hb)
  -- every target is inactive from tick 1 on
  have hinactive : ∀ t, t < NTARGETS →
      ((runTicks zeroLibm (fun _ => (2048, 2048)) 1 sampleGame).Target t).active = false := by
    intro t ht
    rw [(runTicks_succ_of_tick zeroLibm _ 0 sampleGame).1, (game_tick_of_scan zeroLibm _ _ _).1]
    show ((tickScan zeroLibm (2048, 2048) 0 sampleGame).Target t).active = false
    rw [hscan0]
    exact (findNewEchoes_pickup 0 SCANNER_RADIUS NTARGETS sampleGame t
      (by exact_mod_cast ht) (by decide) rfl (hbear t) (hrange t)).1
  have hkeep : ∀ j, 1 ≤ j → j ≤ 90 →
      (tickScan zeroLibm (2048, 2048) (sweepAngle (0 + j))
          (runTicks zeroLibm (fun _ => (2048, 2048)) (0 + j) sampleGame)).Echo 0
        = (runTicks zeroLibm (fun _ => (2048, 2048)) (0 + j) sampleGame).Echo 0 := by
    intro j hj1 _
    rw [(runTicks_all_inactive zeroLibm (fun _ => (2048, 2048)) 1 (0 + j) sampleGame hinactive
      (by omega)).2]
  have h := echo_lifetime zeroLibm (fun _ => 0) (fun _ => (2048, 2048)) sampleGame 0 0 90
    (by decide) hspawn hkeep
  refine ⟨((h.1 89 (by decide)).2).mpr (by decide), fun hin => ?_, ?_⟩
  · exact absurd (((h.1 90 (by decide)).2).mp hin) (by decide)
  · have := (h.2.1 90 (by decide) (by decide)).2.1
    exact Nat.le_zero.mp this

end RisibleRadar

namespace RisibleRadar

open SpiOled

theorem runTicks_eq_fold (L : Libm) (adc : Nat → Int × Int) (n : Nat) (hn : n ≤ 119) (g : Game) :
    runTicks L adc n g
      = (List.range n).foldl (fun g k => game_tick L (adc k) (3 * (k : Int)) g) g := by
  induction n with
  | zero => rfl
  | succ n ih =>
    rw [runTicks_succ, if_neg (by omega), List.range_succ, List.foldl_append, List.foldl_cons,
      List.foldl_nil, ih (by omega)]
    unfold sweepAngle
    rw [Nat.mod_eq_of_lt (by omega)]

/-- The first 120 ticks are one call of `game_loop`. -/
theorem runTicks_game_loop (L : Libm) (adc : Nat → Int × Int) (g : Game) :
    runTicks L adc 120 g = game_loop L adc g := by
  have h := runTicks_succ L adc 119 g
  rw [if_pos (by decide), runTicks_eq_fold L adc 119 (by omega)] at h
  have hr : List.range 120 = List.range 119 ++ [119] := List.range_succ 119
  unfold game_loop
  rw [hr, List.foldl_append, List.foldl_cons, List.foldl_nil]
  exact h

end RisibleRadar

namespace RisibleRadar

open SpiOled

/-! ### The two passes of `circle` -/

theorem circlePass_log_acc (n : Nat) (x y d : Int) (acc : List (Int × Int)) :
    circlePass (fun x y l => l ++ [(x, y)]) n x y d acc
      = (circlePass (fun x y l => l ++ [(x, y)]) n x y d []).map (fun l => acc ++ l) := by
  induction n generalizing x y d acc with
  | zero => rfl
  | succ n ih =>
    unfold circlePass
    by_cases hxy : x < y
    · rw [if_pos hxy, if_pos hxy]
      by_cases hd : d < 0
      · simp only [if_pos hd]
        rw [ih _ _ _ (acc ++ [(x, y)]), ih _ _ _ ([] ++ [(x, y)])]
        cases circlePass (fun x y l => l ++ [(x, y)]) n (x + 1) y (d + ((4 * x) + 6)) [] with
        | none => rfl
        | some l => simp
      · simp only [if_neg hd]
        rw [ih _ _ _ (acc ++ [(x, y)]), ih _ _ _ ([] ++ [(x, y)])]
        cases circlePass (fun x y l => l ++ [(x, y)]) n (x + 1) (y - 1)
            (d + ((4 * (x - y)) + 10)) [] with
        | none => rfl
        | some l => simp
    · rw [if_neg hxy, if_neg hxy]
      by_cases he : x = y
      · simp [he]
      · simp [he]

/-- A pass of `circle` plots at the pairs of its trace, in order. -/
theorem circlePass_eq_fold {σ : Type} (plot : Int → Int → σ → σ) (n : Nat) (x y d : Int)
    (s : σ) :
    circlePass plot n x y d s
      = (circlePass (fun x y l => l ++ [(x, y)]) n x y d []).map
          (fun l => l.foldl (fun s p => plot p.1 p.2 s) s) := by
  induction n generalizing x y d s with
  | zero => rfl
  | succ n ih =>
    unfold circlePass
    by_cases hxy : x < y
    · rw [if_pos hxy, if_pos hxy]
      by_cases hd : d < 0
      · simp only [if_pos hd]
        rw [ih, circlePass_log_acc n _ _ _ ([] ++ [(x, y)])]
        cases circlePass (fun x y l => l ++ [(x, y)]) n (x + 1) y (d + ((4 * x) + 6)) [] with
        | none => rfl
        | some l => simp
      · simp only [if_neg hd]
        rw [ih, circlePass_log_acc n _ _ _ ([] ++ [(x, y)])]
        cases circlePass (fun x y l => l ++ [(x, y)]) n (x + 1) (y - 1)
            (d + ((4 * (x - y)) + 10)) [] with
        | none => rfl
        | some l => simp
    · rw [if_neg hxy, if_neg hxy]
      by_cases he : x = y
      · simp [he]
      · simp [he]

/-- Michener's invariant. From a state with `d = 2 (x^2 + y^2 - r^2) + 4 x -
2 y + 3` and, while `x <= y`, `4 x - 4 y + 3 <= d <= 4 x + 3`, a pass with
enough fuel ends, and every pair `(x, y)` it plots has `0 <= x <= y <= r` and
`|x^2 + y^2 - r^2| <= y`; it plots at most `y - x + 1` pairs, the first being
the starting pair when `x <= y`. -/
theorem circlePass_inv (r : Int) (n : Nat) (x y d : Int)
    (h0 : 0 ≤ x) (h1 : x ≤ y + 1) (h2 : y ≤ r)
    (hd : d = 2 * (x * x + y * y - r * r) + 4 * x - 2 * y + 3)
    (hb : x ≤ y → 4 * x - 4 * y + 3 ≤ d ∧ d ≤ 4 * x + 3)
    (hn : (y - x).toNat + 1 ≤ n) :
    ∃ pts, circlePass (fun x y l => l ++ [(x, y)]) n x y d [] = some pts ∧
      (∀ p ∈ pts, 0 ≤ p.1 ∧ p.1 ≤ p.2 ∧ p.2 ≤ r ∧
        -p.2 ≤ p.1 * p.1 + p.2 * p.2 - r * r ∧ p.1 * p.1 + p.2 * p.2 - r * r ≤ p.2) ∧
      pts.length ≤ (y + 1 - x).toNat ∧
      (x ≤ y → pts.head? = some (x, y)) := by
  induction n generalizing x y d with
  | zero => omega
  | succ n ih =>
    have hgood : x ≤ y → 0 ≤ x ∧ x ≤ y ∧ y ≤ r ∧
        -y ≤ x * x + y * y - r * r ∧ x * x + y * y - r * r ≤ y := by
      intro hxy
      obtain ⟨b1, b2⟩ := hb hxy
      generalize x * x + y * y - r * r = e at hd ⊢
      omega
    unfold circlePass
    by_cases hxy : x < y
    · rw [if_pos hxy]
      obtain ⟨b1, b2⟩ := hb (by omega)
      by_cases hdneg : d < 0
      · simp only [if_pos hdneg]
        obtain ⟨pts, e, hp, hl, hh⟩ := ih (x + 1) y (d + ((4 * x) + 6)) (by omega) (by omega) h2
          (by rw [hd]; ring)
          (fun _ => by
            generalize x * x + y * y - r * r = e at hd
            omega)
          (by omega)
        rw [circlePass_log_acc, e]
        refine ⟨[(x, y)] ++ pts, rfl, ?_, ?_, fun _ => rfl⟩
        · intro p hp'
          rcases List.mem_append.mp hp' with h | h
          · rw [List.mem_singleton.mp h]
            exact hgood (by omega)
          · exact hp p h
        · rw [List.length_append, List.length_singleton]
          omega
      · simp only [if_neg hdneg]
        obtain ⟨pts, e, hp, hl, hh⟩ := ih (x + 1) (y - 1) (d + ((4 * (x - y)) + 10))
          (by omega) (by omega) (by omega)
          (by rw [hd]; ring)
          (fun _ => by
            generalize x * x + y * y - r * r = e at hd
            omega)
          (by omega)
        rw [circlePass_log_acc, e]
        refine ⟨[(x, y)] ++ pts, rfl, ?_, ?_, fun _ => rfl⟩
        · intro p hp'
          rcases List.mem_append.mp hp' with h | h
          · rw [List.mem_singleton.mp h]
            exact hgood (by omega)
          · exact hp p h
        · rw [List.length_append, List.length_singleton]
          omega
    · rw [if_neg hxy]
      by_cases he : x = y
      · rw [if_pos he]
        refine ⟨[] ++ [(x, y)], rfl, ?_, ?_, fun _ => rfl⟩
        · intro p hp'
          rw [List.nil_append, List.mem_singleton] at hp'
          rw [hp']
          exact hgood (by omega)
        · rw [List.nil_append, List.length_singleton]
          omega
      · rw [if_neg he]
        exact ⟨[], rfl, fun p hp' => absurd hp' (List.not_mem_nil p), by simp,
          fun h => absurd h (by omega)⟩

/-- The trace of a pass of `circle` for a radius `r >= 0`, given fuel for
`r + 1` tests of its loop condition. -/
theorem circleSteps_spec (r : Int) (hr : 0 ≤ r) (fuel : Nat) (hfuel : r.toNat + 1 ≤ fuel) :
    ∃ pts, circleSteps fuel r = some pts ∧
      (∀ p ∈ pts, 0 ≤ p.1 ∧ p.1 ≤ p.2 ∧ p.2 ≤ r ∧
        -p.2 ≤ p.1 * p.1 + p.2 * p.2 - r * r ∧ p.1 * p.1 + p.2 * p.2 - r * r ≤ p.2) ∧
      pts.length ≤ r.toNat + 1 ∧ (0, r) ∈ pts := by
  obtain ⟨pts, e, hp, hl, hh⟩ := circlePass_inv r fuel 0 r (3 - (2 * r)) (le_refl 0)
    (by omega) (le_refl r) (by ring) (fun _ => by omega) (by omega)
  refine ⟨pts, e, hp, by omega, ?_⟩
  have := hh hr
  cases pts with
  | nil => simp at this
  | cons a l =>
    simp only [List.head?_cons, Option.some.injEq] at this
    rw [this]
    exact List.mem_cons_self _ _

end RisibleRadar

namespace RisibleRadar

open SpiOled

/-! ### The frame after `drawPixel`, `drawHline`, `cpts8`, `cfill` -/

theorem foldl_cell_unchanged {α : Type} (step : Frame → α → Frame) (k : Nat) (l : List α)
    (hstep : ∀ (f : Frame) (a : α), a ∈ l → step f a k = f k) (f : Frame) :
    l.foldl step f k = f k := by
  induction l generalizing f with
  | nil => rfl
  | cons a l ih =>
    rw [List.foldl_cons, ih (fun f b hb => hstep f b (List.mem_cons_of_mem a hb)),
      hstep f a (List.mem_cons_self a l)]

theorem drawPixel_apply (x y c : Nat) (f : Frame) (k : Nat) :
    drawPixel x y c f k = if (x < MAXX ∧ y < MAXY) ∧ k = y * MAXX + x then c else f k := by
  unfold drawPixel
  by_cases h : x < MAXX ∧ y < MAXY
  · rw [if_pos h]
    show (if k = y * MAXX + x then c else f k) = _
    by_cases hk : k = y * MAXX + x
    · rw [if_pos hk, if_pos (And.intro h hk)]
    · rw [if_neg hk, if_neg (fun hh => hk hh.2)]
  · rw [if_neg h, if_neg (fun hh => h hh.1)]

/-- After a series of `drawPixel` calls in one colour, every pixel named in a
call that passed the bounds check has that colour. -/
theorem drawPixels_colour (c : Nat) (l : List (Int × Int)) (f : Frame) (p : Int × Int)
    (hp : p ∈ l) (hx : u32 p.1 < MAXX) (hy : u32 p.2 < MAXY) :
    l.foldl (fun f q => drawPixel (u32 q.1) (u32 q.2) c f) f (u32 p.2 * MAXX + u32 p.1) = c := by
  induction l using List.reverseRecOn with
  | nil => exact absurd hp (List.not_mem_nil p)
  | append_singleton l a ih =>
    rw [List.foldl_append, List.foldl_cons, List.foldl_nil, drawPixel_apply]
    by_cases hcell : (u32 a.1 < MAXX ∧ u32 a.2 < MAXY) ∧
        u32 p.2 * MAXX + u32 p.1 = u32 a.2 * MAXX + u32 a.1
    · rw [if_pos hcell]
    · rw [if_neg hcell]
      rcases List.mem_append.mp hp with h | h
      · exact ih h
      · rw [List.mem_singleton] at h
        subst h
        exact absurd (And.intro (And.intro hx hy) rfl) hcell

theorem cpts8_eq_fold (x0 y0 x y c : Int) (f : Frame) :
    cpts8 x0 y0 x y c f
      = (cpts8Calls x0 y0 x y).foldl (fun f q => drawPixel (u32 q.1) (u32 q.2) (u16 c) f) f :=
  rfl

theorem foldl_flatMap_calls {σ : Type} (step : σ → Int × Int → σ)
    (calls : Int × Int → List (Int × Int)) (l : List (Int × Int)) (s : σ) :
    (l.flatMap calls).foldl step s = l.foldl (fun s p => (calls p).foldl step s) s := by
  induction l generalizing s with
  | nil => rfl
  | cons a l ih =>
    rw [List.flatMap_cons, List.foldl_append, List.foldl_cons, ih]

/-- The edge pass of `circle` is the series of `drawPixel` calls listed by
`circleEdgeCalls`. -/
theorem edge_pass_eq (fuel : Nat) (x0 y0 r ec : Int) (f : Frame) :
    circlePass (fun x y f => cpts8 x0 y0 x y ec f) fuel 0 r (3 - (2 * r)) f
      = (circleEdgeCalls fuel x0 y0 r).map
          (fun l => l.foldl (fun f q => drawPixel (u32 q.1) (u32 q.2) (u16 ec) f) f) := by
  rw [circlePass_eq_fold]
  unfold circleEdgeCalls circleSteps
  rw [Option.map_map]
  congr 1
  funext l
  show _ = (l.flatMap _).foldl _ f
  rw [foldl_flatMap_calls]
  rfl

theorem foldl_store_row_rr (y c : Nat) (xs : List Nat) (f : Frame) (k : Nat) :
    (xs.foldl (fun f x => frameStore f y x c) f) k
      = if ∃ x ∈ xs, k = y * MAXX + x then c else f k := by
  induction xs generalizing f with
  | nil => simp
  | cons a xs ih =>
    rw [List.foldl_cons, ih]
    by_cases h1 : ∃ x ∈ xs, k = y * MAXX + x
    · have h2 : ∃ x ∈ a :: xs, k = y * MAXX + x := by
        obtain ⟨x, hx, e⟩ := h1
        exact ⟨x, List.mem_cons_of_mem a hx, e⟩
      rw [if_pos h1, if_pos h2]
    · rw [if_neg h1]
      show (if k = y * MAXX + a then c else f k) = _
      by_cases h3 : k = y * MAXX + a
      · rw [if_pos h3, if_pos ⟨a, List.mem_cons_self a xs, h3⟩]
      · rw [if_neg h3, if_neg]
        rintro ⟨x, hx, e⟩
        rcases List.mem_cons.mp hx with h | h
        · exact h3 (h ▸ e)
        · exact h1 ⟨x, h, e⟩

theorem drawHline_apply (x1 x2 y c : Nat) (f : Frame) (k : Nat) :
    drawHline x1 x2 y c f k
      = if y * MAXX + x1 ≤ k ∧ k ≤ y * MAXX + x2 then c else f k := by
  unfold drawHline
  rw [foldl_store_row_rr]
  by_cases h : y * MAXX + x1 ≤ k ∧ k ≤ y * MAXX + x2
  · rw [if_pos h, if_pos]
    exact ⟨k - y * MAXX, (mem_uintRange _ _ _).mpr (by omega), by omega⟩
  · rw [if_neg h, if_neg]
    rintro ⟨x, hx, e⟩
    rw [mem_uintRange] at hx
    omega

/-- A row of `cfill` stays inside the bounding square of the circle. -/
theorem drawHline_in_square (x0 y0 r a b : Int) (c : Nat) (f : Frame) (k : Nat)
    (hx0 : r ≤ x0) (hx1 : x0 + r < 128) (hy0 : r ≤ y0) (hy1 : y0 + r < 128)
    (ha : 0 ≤ a ∧ a ≤ r) (hb : -r ≤ b ∧ b ≤ r) (hk : ¬ inSquare x0 y0 r k) :
    drawHline (u32 (x0 - a)) (u32 (x0 + a)) (u32 (y0 + b)) c f k = f k := by
  rw [drawHline_apply, if_neg]
  have e1 := u32_small (x0 - a) (by omega) (by omega)
  have e2 := u32_small (x0 + a) (by omega) (by omega)
  have e3 := u32_small (y0 + b) (by omega) (by omega)
  generalize u32 (x0 - a) = u1 at *
  generalize u32 (x0 + a) = u2 at *
  generalize u32 (y0 + b) = u3 at *
  unfold inSquare at hk
  simp only [MAXX] at *
  omega

theorem drawPixel_in_square (x0 y0 r a b : Int) (c : Nat) (f : Frame) (k : Nat)
    (hx0 : r ≤ x0) (hx1 : x0 + r < 128) (hy0 : r ≤ y0) (hy1 : y0 + r < 128)
    (ha : -r ≤ a ∧ a ≤ r) (hb : -r ≤ b ∧ b ≤ r) (hk : ¬ inSquare x0 y0 r k) :
    drawPixel (u32 (x0 + a)) (u32 (y0 + b)) c f k = f k := by
  rw [drawPixel_apply, if_neg]
  have e1 := u32_small (x0 + a) (by omega) (by omega)
  have e3 := u32_small (y0 + b) (by omega) (by omega)
  generalize u32 (x0 + a) = u1 at *
  generalize u32 (y0 + b) = u3 at *
  unfold inSquare at hk
  simp only [MAXX, MAXY] at *
  omega

theorem cfill_in_square (x0 y0 r x y c : Int) (f : Frame) (k : Nat)
    (hx0 : r ≤ x0) (hx1 : x0 + r < 128) (hy0 : r ≤ y0) (hy1 : y0 + r < 128)
    (hx : 0 ≤ x ∧ x ≤ r) (hy : 0 ≤ y ∧ y ≤ r) (hk : ¬ inSquare x0 y0 r k) :
    cfill x0 y0 x y c f k = f k := by
  unfold cfill
  rw [show y0 - x = y0 + -x from by ring, show y0 - y = y0 + -y from by ring,
    drawHline_in_square x0 y0 r y (-x) _ _ k hx0 hx1 hy0 hy1 hy (by omega) hk,
    drawHline_in_square x0 y0 r y x _ _ k hx0 hx1 hy0 hy1 hy (by omega) hk,
    drawHline_in_square x0 y0 r x (-y) _ _ k hx0 hx1 hy0 hy1 hx (by omega) hk,
    drawHline_in_square x0 y0 r x y _ _ k hx0 hx1 hy0 hy1 hx (by omega) hk]

theorem cpts4_in_square (x0 y0 r x y c : Int) (f : Frame) (k : Nat)
    (hx0 : r ≤ x0) (hx1 : x0 + r < 128) (hy0 : r ≤ y0) (hy1 : y0 + r < 128)
    (hx : 0 ≤ x ∧ x ≤ r) (hy : 0 ≤ y ∧ y ≤ r) (hk : ¬ inSquare x0 y0 r k) :
    cpts4 x0 y0 x y c f k = f k := by
  unfold cpts4
  rw [show x0 - x = x0 + -x from by ring, show y0 - y = y0 + -y from by ring,
    drawPixel_in_square x0 y0 r (-x) (-y) _ _ k hx0 hx1 hy0 hy1 (by omega) (by omega) hk,
    drawPixel_in_square x0 y0 r x (-y) _ _ k hx0 hx1 hy0 hy1 (by omega) (by omega) hk,
    drawPixel_in_square x0 y0 r (-x) y _ _ k hx0 hx1 hy0 hy1 (by omega) (by omega) hk,
    drawPixel_in_square x0 y0 r x y _ _ k hx0 hx1 hy0 hy1 (by omega) (by omega) hk]

theorem cpts8_in_square (x0 y0 r x y c : Int) (f : Frame) (k : Nat)
    (hx0 : r ≤ x0) (hx1 : x0 + r < 128) (hy0 : r ≤ y0) (hy1 : y0 + r < 128)
    (hx : 0 ≤ x ∧ x ≤ r) (hy : 0 ≤ y ∧ y ≤ r) (hk : ¬ inSquare x0 y0 r k) :
    cpts8 x0 y0 x y c f k = f k := by
  unfold cpts8
  rw [cpts4_in_square x0 y0 r y x c _ k hx0 hx1 hy0 hy1 hy hx hk,
    cpts4_in_square x0 y0 r x y c _ k hx0 hx1 hy0 hy1 hx hy hk]

/-- A pass of `circle` whose plotting function stays inside the bounding
square ends, given fuel for `r + 1` tests, and leaves every cell outside the
square unchanged. -/
theorem circlePass_in_square (plot : Int → Int → Frame → Frame) (r : Int) (fuel : Nat)
    (hr : 0 ≤ r) (hfuel : r.toNat + 1 ≤ fuel) (k : Nat)
    (hplot : ∀ (x y : Int) (f : Frame), 0 ≤ x ∧ x ≤ r → 0 ≤ y ∧ y ≤ r → plot x y f k = f k)
    (f : Frame) :
    ∃ f', circlePass plot fuel 0 r (3 - (2 * r)) f = some f' ∧ f' k = f k := by
  obtain ⟨pts, e, hp, _, _⟩ := circleSteps_spec r hr fuel hfuel
  unfold circleSteps at e
  rw [circlePass_eq_fold, e]
  refine ⟨_, rfl, ?_⟩
  apply foldl_cell_unchanged
  intro f' p hpm
  obtain ⟨p1, p2, p3, _, _⟩ := hp p hpm
  exact hplot p.1 p.2 f' ⟨p1, by omega⟩ ⟨by omega, p3⟩

end RisibleRadar

namespace RisibleRadar

open SpiOled

theorem circle_eq (fuel : Nat) (x0 y0 r ec fc : Int) (f : Frame) (pts : List (Int × Int))
    (e : circleSteps fuel r = some pts) :
    circle fuel x0 y0 r ec fc f
      = some ((pts.flatMap (fun p => cpts8Calls x0 y0 p.1 p.2)).foldl
          (fun f q => drawPixel (u32 q.1) (u32 q.2) (u16 ec) f)
          (if fc ≥ 0 then pts.foldl (fun f p => cfill x0 y0 p.1 p.2 fc f) f else f)) := by
  have hedge : ∀ f1 : Frame,
      circlePass (fun x y f => cpts8 x0 y0 x y ec f) fuel 0 r (3 - (2 * r)) f1
        = some ((pts.flatMap (fun p => cpts8Calls x0 y0 p.1 p.2)).foldl
            (fun f q => drawPixel (u32 q.1) (u32 q.2) (u16 ec) f) f1) := by
    intro f1
    rw [edge_pass_eq]
    unfold circleEdgeCalls
    rw [e]
    rfl
  unfold circle
  by_cases hfc : fc ≥ 0
  · simp only [if_pos hfc]
    rw [circlePass_eq_fold]
    unfold circleSteps at e
    rw [e]
    exact hedge _
  · simp only [if_neg hfc]
    exact hedge _

/-- C36. Integer circle accuracy. For every radius `r >= 0`, with fuel for
`r + 1` tests of the loop condition, `circle` ends, and every call of
`drawPixel` of its edge pass names a pixel at an offset `(dx, dy)` from the
centre with `|dx^2 + dy^2 - r^2| <= r`; the calls include the four
axis-extreme pixels `(x0 + r, y0), (x0 - r, y0)` and `(x0, y0 + r), (x0, y0 - r)`; and in the frame
`circle` returns, every pixel named in a call that passed the bounds check of
`drawPixel` has the edge colour. Only integer additions, subtractions and
multiplications by constants are used by the loop; the `int` arithmetic is
taken without overflow. -/
theorem circle_accuracy (fuel : Nat) (x0 y0 r ec fc : Int) (f : Frame) (hr : 0 ≤ r)
    (hfuel : r.toNat + 1 ≤ fuel) :
    ∃ calls f', circleEdgeCalls fuel x0 y0 r = some calls ∧
      circle fuel x0 y0 r ec fc f = some f' ∧
      (∀ p ∈ calls, |(p.1 - x0) * (p.1 - x0) + (p.2 - y0) * (p.2 - y0) - r * r| ≤ r) ∧
      ((x0 + r, y0) ∈ calls ∧ (x0 - r, y0) ∈ calls ∧
        (x0, y0 + r) ∈ calls ∧ (x0, y0 - r) ∈ calls) ∧
      (∀ p ∈ calls, u32 p.1 < MAXX → u32 p.2 < MAXY →
        f' (u32 p.2 * MAXX + u32 p.1) = u16 ec) := by
  obtain ⟨pts, e, hp, _, h0r⟩ := circleSteps_spec r hr fuel hfuel
  refine ⟨pts.flatMap (fun p => cpts8Calls x0 y0 p.1 p.2), _, ?_, circle_eq fuel x0 y0 r ec fc f pts e,
    ?_, ?_, ?_⟩
  · unfold circleEdgeCalls
    rw [e]
    rfl
  · intro p hpm
    obtain ⟨q, hq, hmem⟩ := List.mem_flatMap.mp hpm
    obtain ⟨_, _, q3, q4, q5⟩ := hp q hq
    have hsq : (p.1 - x0) * (p.1 - x0) + (p.2 - y0) * (p.2 - y0) - r * r
        = q.1 * q.1 + q.2 * q.2 - r * r := by
      simp only [cpts8Calls, cpts4Calls, List.mem_append, List.mem_cons, List.mem_singleton,
        List.mem_nil_iff, or_false] at hmem
      rcases hmem with (h | h | h | h) | (h | h | h | h) <;> rw [h] <;> ring
    rw [hsq, abs_le]
    constructor <;> omega
  · refine ⟨?_, ?_, ?_, ?_⟩ <;>
      exact List.mem_flatMap.mpr ⟨(0, r), h0r, by simp [cpts8Calls, cpts4Calls]⟩
  · intro p hpm hx hy
    exact drawPixels_colour (u16 ec) _ _ p hpm hx hy

/-- Witness for C36: radius 5 about (10, 10); the pixel (15, 10) has the
edge colour. -/
theorem circle_accuracy_witness :
    ∃ calls f', circleEdgeCalls 6 10 10 5 = some calls ∧
      circle 6 10 10 5 7 (-1) (fun _ => 0) = some f' ∧ (15, 10) ∈ calls ∧
      f' (10 * 128 + 15) = 7 := by
  obtain ⟨calls, f', h1, h2, _, h4, h5⟩ :=
    circle_accuracy 6 10 10 5 7 (-1) (fun _ => 0) (by decide) (by decide)
  exact ⟨calls, f', h1, h2, h4.1, h5 (15, 10) h4.1 (by decide) (by decide)⟩

/-- C40. `circle` is confined to its bounding square and terminates. For a
centre and a radius `r >= 0` with `r <= x0`, `x0 + r < 128`, `r <= y0`,
`y0 + r < 128`, and any colours, `circle` ends given fuel for `r + 1` tests of
the loop condition of each pass (so a pass makes at most `r` iterations and at
most `r + 1` plotting calls); the frame it returns is the frame it was given
in every cell that is not a pixel of `[x0 - r, x0 + r] x [y0 - r, y0 + r]`;
every cell of that square is a cell of the frame array, so no `drawHline` of
`cfill` writes outside the frame; and with `fc < 0` the result is that of the
edge pass alone. -/
theorem circle_confined (fuel : Nat) (x0 y0 r ec fc : Int) (f : Frame) (hr : 0 ≤ r)
    (hx0 : r ≤ x0) (hx1 : x0 + r < 128) (hy0 : r ≤ y0) (hy1 : y0 + r < 128)
    (hfuel : r.toNat + 1 ≤ fuel) :
    ∃ f', circle fuel x0 y0 r ec fc f = some f' ∧
      (∀ k, ¬ inSquare x0 y0 r k → f' k = f k) ∧
      (∀ k, inSquare x0 y0 r k → k < MAXY * MAXX) ∧
      (∃ pts, circleSteps fuel r = some pts ∧ pts.length ≤ r.toNat + 1) ∧
      (fc < 0 → circle fuel x0 y0 r ec fc f
        = circlePass (fun x y f => cpts8 x0 y0 x y ec f) fuel 0 r (3 - (2 * r)) f) := by
  obtain ⟨pts, e, hp, hlen, _⟩ := circleSteps_spec r hr fuel hfuel
  have hfill : ∀ k, ¬ inSquare x0 y0 r k →
      (if fc ≥ 0 then pts.foldl (fun f p => cfill x0 y0 p.1 p.2 fc f) f else f) k = f k := by
    intro k hk
    by_cases hfc : fc ≥ 0
    · rw [if_pos hfc]
      apply foldl_cell_unchanged
      intro f' p hpm
      obtain ⟨p1, p2, p3, _, _⟩ := hp p hpm
      exact cfill_in_square x0 y0 r p.1 p.2 fc f' k hx0 hx1 hy0 hy1 ⟨p1, by omega⟩
        ⟨by omega, p3⟩ hk
    · rw [if_neg hfc]
  refine ⟨_, circle_eq fuel x0 y0 r ec fc f pts e, fun k hk => ?_, fun k hk => ?_,
    ⟨pts, e, hlen⟩, fun hfc => ?_⟩
  · rw [foldl_flatMap_calls]
    have := foldl_cell_unchanged
      (fun (f : Frame) (p : Int × Int) => (cpts8Calls x0 y0 p.1 p.2).foldl
        (fun f q => drawPixel (u32 q.1) (u32 q.2) (u16 ec) f) f) k pts
      (fun f' p hpm => by
        obtain ⟨p1, p2, p3, _, _⟩ := hp p hpm
        show cpts8 x0 y0 p.1 p.2 ec f' k = f' k
        exact cpts8_in_square x0 y0 r p.1 p.2 ec f' k hx0 hx1 hy0 hy1 ⟨p1, by omega⟩
          ⟨by omega, p3⟩ hk)
      (if fc ≥ 0 then pts.foldl (fun f p => cfill x0 y0 p.1 p.2 fc f) f else f)
    rw [this, hfill k hk]
  · unfold inSquare at hk
    simp only [MAXX, MAXY] at *
    omega
  · unfold circle
    simp only [if_neg (show ¬ fc ≥ 0 from by omega)]

/-- Witness for C40: radius 5 about (10, 10), filled; the pixel (16, 10),
just right of the square, keeps its value. -/
theorem circle_confined_witness :
    ∃ f', circle 6 10 10 5 7 3 (fun _ => 9) = some f' ∧ f' (10 * 128 + 16) = 9 := by
  obtain ⟨f', h1, h2, _⟩ := circle_confined 6 10 10 5 7 3 (fun _ => 9) (by decide) (by decide)
    (by decide) (by decide) (by decide) (by decide)
  exact ⟨f', h1, h2 (10 * 128 + 16) (by unfold inSquare; decide)⟩

end RisibleRadar

namespace RisibleRadar

open SpiOled

theorem lineLoop_log_acc (i1 i2 inc stop : Int) (n : Nat) (major minor d : Int)
    (acc : List (Int × Int)) (sw : Bool) :
    lineLoop (fun a b l => l ++ [if sw then (b, a) else (a, b)]) i1 i2 inc stop n major minor d acc
      = acc ++ lineLoop (fun a b l => l ++ [if sw then (b, a) else (a, b)]) i1 i2 inc stop n
          major minor d [] := by
  induction n generalizing major minor d acc with
  | zero => simp [lineLoop]
  | succ n ih =>
    unfold lineLoop
    by_cases hm : major < stop
    · rw [if_pos hm, if_pos hm]
      by_cases hd : d < 0
      · simp only [if_pos hd]
        rw [ih _ _ _ (acc ++ _), ih _ _ _ ([] ++ _)]
        simp
      · simp only [if_neg hd]
        rw [ih _ _ _ (acc ++ _), ih _ _ _ ([] ++ _)]
        simp
    · rw [if_neg hm, if_neg hm]
      simp

set_option maxRecDepth 100000 in
/-- C35 fails on the diagonals that run to the left: when |x2 - x1| =
|y2 - y1| and x1 > x2, `drawLine` does not exchange the end points, starts at
`(x2, y2)` and steps `y` by the sign of `y2 - y1`, away from `(x1, y1)`.
`drawLine(5, 5, 0, 0, c)` calls `drawPixel` for (0, 0), (1, -1), ..., (5, -5):
it never names the end point (5, 5), which keeps its colour, and only its
first call passes the bounds check; the same segment given as
`drawLine(0, 0, 5, 5, c)` is drawn from end to end. The scan vector of
`drawRadarVector` at 225 degrees, `drawLine(64, 64, 42, 42, c)`, runs from
(42, 42) to (64, 20) and leaves the centre (64, 64) unpainted. -/
theorem drawLine_left_diagonal :
    drawLineCalls 5 5 0 0 = [(0, 0), (1, -1), (2, -2), (3, -3), (4, -4), (5, -5)] ∧
    (5, 5) ∉ drawLineCalls 5 5 0 0 ∧
    drawLine 5 5 0 0 SSD1351_GREEN (fun _ => 0) (5 * MAXX + 5) = 0 ∧
    drawLine 5 5 0 0 SSD1351_GREEN (fun _ => 0) (0 * MAXX + 0) = SSD1351_GREEN ∧
    drawLineCalls 0 0 5 5 = [(0, 0), (1, 1), (2, 2), (3, 3), (4, 4), (5, 5)] ∧
    drawLine 0 0 5 5 SSD1351_GREEN (fun _ => 0) (5 * MAXX + 5) = SSD1351_GREEN ∧
    (drawLineCalls 64 64 42 42).head? = some (42, 42) ∧
    (drawLineCalls 64 64 42 42).getLast? = some (64, 20) ∧
    (64, 64) ∉ drawLineCalls 64 64 42 42 ∧
    drawLine 64 64 42 42 SSD1351_GREEN (fun _ => 0) (64 * MAXX + 64) = 0 := by
  refine ⟨by decide, by decide, by decide, by decide, by decide, by decide, by decide,
    by decide, by decide, by decide⟩

end RisibleRadar

namespace RisibleRadar

open SpiOled

/-! ### `drawLine` away from the left-running diagonals -/

theorem lineLoop_log (mk : Int → Int → Int × Int) (i1 i2 inc stop : Int) (n : Nat)
    (major minor d : Int) (acc : List (Int × Int)) :
    lineLoop (fun a b l => l ++ [mk a b]) i1 i2 inc stop n major minor d acc
      = acc ++ lineLoop (fun a b l => l ++ [mk a b]) i1 i2 inc stop n major minor d [] := by
  induction n generalizing major minor d acc with
  | zero => simp [lineLoop]
  | succ n ih =>
    unfold lineLoop
    by_cases hm : major < stop
    · rw [if_pos hm, if_pos hm]
      by_cases hd : d < 0
      · simp only [if_pos hd]
        rw [ih _ _ _ (acc ++ _), ih _ _ _ ([] ++ _)]
        simp
      · simp only [if_neg hd]
        rw [ih _ _ _ (acc ++ _), ih _ _ _ ([] ++ _)]
        simp
    · rw [if_neg hm, if_neg hm]
      simp

/-- Bresenham's invariant. After `k` passes with `c` steps of the minor
coordinate, `d = 2 a - b + 2 k a - 2 c b` and `2 a - 2 b <= d < 2 a`, where
`a <= b` are the minor and major extents; the remaining `b - k` passes plot
one point each, every point next to the one before, and end at
`(M + b, m + inc * a)`. -/
theorem lineLoop_run (mk : Int → Int → Int × Int) (adj : Int × Int → Int × Int → Prop)
    (hadj : ∀ p q : Int, adj (mk p q) (mk (p + 1) q))
    (a b inc M m : Int) (hadj' : ∀ p q : Int, adj (mk p q) (mk (p + 1) (q + inc)))
    (ha : 0 ≤ a) (hab : a ≤ b)
    (n : Nat) (k c d : Int) (hk : k + (n : Int) = b) (hk0 : 0 ≤ k) (hc0 : 0 ≤ c) (hck : c ≤ k)
    (hd : d = 2 * a - b + 2 * k * a - 2 * c * b) (hlo : 2 * a - 2 * b ≤ d)
    (hhi : d < 2 * a ∨ b = 0) :
    (lineLoop (fun p q l => l ++ [mk p q]) (2 * a) (2 * (a - b)) inc (M + b) n (M + k)
        (m + inc * c) d []).length = n ∧
    List.Chain adj (mk (M + k) (m + inc * c))
      (lineLoop (fun p q l => l ++ [mk p q]) (2 * a) (2 * (a - b)) inc (M + b) n (M + k)
        (m + inc * c) d []) ∧
    (mk (M + k) (m + inc * c) ::
      lineLoop (fun p q l => l ++ [mk p q]) (2 * a) (2 * (a - b)) inc (M + b) n (M + k)
        (m + inc * c) d []).getLast? = some (mk (M + b) (m + inc * a)) := by
  induction n generalizing k c d with
  | zero =>
    have hkb : k = b := by omega
    have hca : c = a := by
      rcases hhi with hhi | hb0
      · subst hkb
        by_contra hne
        rcases lt_or_gt_of_ne hne with hlt | hgt
        · have h1 : c + 1 ≤ a := by omega
          have h2 : 0 ≤ k := hk0
          nlinarith [mul_le_mul_of_nonneg_right h1 h2]
        · have h1 : a + 1 ≤ c := by omega
          have h2 : 0 ≤ k := hk0
          nlinarith [mul_le_mul_of_nonneg_right h1 h2]
      · omega
    subst hkb hca
    refine ⟨rfl, List.Chain.nil, rfl⟩
  | succ n ih =>
    have hlt : M + k < M + b := by omega
    have hbpos : b ≠ 0 := by omega
    have hhi' : d < 2 * a := by
      rcases hhi with h | h
      · exact h
      · exact absurd h hbpos
    unfold lineLoop
    rw [if_pos hlt]
    by_cases hdneg : d < 0
    · simp only [if_pos hdneg]
      rw [lineLoop_log]
      have e1 : M + k + 1 = M + (k + 1) := by ring
      rw [e1]
      obtain ⟨i1, i2, i3⟩ := ih (k + 1) c (d + 2 * a) (by push_cast at hk; omega) (by omega) hc0
        (by omega) (by rw [hd]; ring) (by omega) (Or.inl (by omega))
      refine ⟨?_, ?_, ?_⟩
      · simp only [List.nil_append, List.singleton_append, List.length_cons, i1]
      · simp only [List.nil_append, List.singleton_append]
        refine List.Chain.cons ?_ i2
        rw [← e1]
        exact hadj _ _
      · simp only [List.nil_append, List.singleton_append]
        rw [List.getLast?_cons_cons]
        exact i3
    · simp only [if_neg hdneg]
      rw [lineLoop_log]
      have e1 : M + k + 1 = M + (k + 1) := by ring
      have e2 : m + inc * c + inc = m + inc * (c + 1) := by ring
      rw [e1, e2]
      obtain ⟨i1, i2, i3⟩ := ih (k + 1) (c + 1) (d + 2 * (a - b)) (by push_cast at hk; omega)
        (by omega) (by omega) (by omega) (by rw [hd]; ring) (by omega) (Or.inl (by omega))
      refine ⟨?_, ?_, ?_⟩
      · simp only [List.nil_append, List.singleton_append, List.length_cons, i1]
      · simp only [List.nil_append, List.singleton_append]
        refine List.Chain.cons ?_ i2
        rw [← e1, ← e2]
        exact hadj' _ _
      · simp only [List.nil_append, List.singleton_append]
        rw [List.getLast?_cons_cons]
        exact i3

end RisibleRadar

namespace RisibleRadar

open SpiOled

theorem absInt_sub_comm (a b : Int) : absInt (a - b) = absInt (b - a) := by
  unfold absInt
  split_ifs <;> omega

theorem absInt_nonneg (a : Int) : 0 ≤ absInt a := by
  unfold absInt
  split_ifs <;> omega

theorem drawLineCalls_steep_up (x1 y1 x2 y2 : Int)
    (hsteep : absInt (x2 - x1) < absInt (y2 - y1)) (hy : y1 < y2) :
    drawLineCalls x1 y1 x2 y2
      = (x1, y1) :: lineLoop (fun p q l => l ++ [(q, p)]) (2 * absInt (x2 - x1))
          (2 * (absInt (x2 - x1) - absInt (y2 - y1))) (if x1 > x2 then -1 else 1) y2
          (y2 - y1).toNat y1 x1 (2 * absInt (x2 - x1) - absInt (y2 - y1)) [] := by
  have hsw : decide (((y1 > y2) ∧ (absInt (x2 - x1) < absInt (y2 - y1))) ∨
      ((x1 > x2) ∧ (absInt (x2 - x1) > absInt (y2 - y1)))) = false := by
    rw [decide_eq_false_iff_not]
    omega
  have hny : ¬ y1 > y2 := by omega
  have hst : absInt (y2 - y1) > absInt (x2 - x1) := hsteep
  unfold drawLineCalls drawLineWith
  simp only [hsw, Bool.false_eq_true, if_false, if_pos hst, if_neg hny]
  rw [lineLoop_log (fun p q => (q, p))]
  rfl

theorem drawLineCalls_shallow_right (x1 y1 x2 y2 : Int)
    (hshallow : absInt (y2 - y1) ≤ absInt (x2 - x1)) (hx : x1 ≤ x2) :
    drawLineCalls x1 y1 x2 y2
      = (x1, y1) :: lineLoop (fun p q l => l ++ [(p, q)]) (2 * absInt (y2 - y1))
          (2 * (absInt (y2 - y1) - absInt (x2 - x1))) (if y1 > y2 then -1 else 1) x2
          (x2 - x1).toNat x1 y1 (2 * absInt (y2 - y1) - absInt (x2 - x1)) [] := by
  have hsw : decide (((y1 > y2) ∧ (absInt (x2 - x1) < absInt (y2 - y1))) ∨
      ((x1 > x2) ∧ (absInt (x2 - x1) > absInt (y2 - y1)))) = false := by
    rw [decide_eq_false_iff_not]
    omega
  have hnx : ¬ x1 > x2 := by omega
  have hst : ¬ absInt (y2 - y1) > absInt (x2 - x1) := by omega
  unfold drawLineCalls drawLineWith
  simp only [hsw, Bool.false_eq_true, if_false, if_neg hst, if_neg hnx]
  rw [lineLoop_log (fun p q => (p, q))]
  rfl

/-- When `drawLine` exchanges its end points, it draws what it draws for the
end points given in the other order. -/
theorem drawLineCalls_swap (x1 y1 x2 y2 : Int)
    (h : (y1 > y2 ∧ absInt (x2 - x1) < absInt (y2 - y1)) ∨
      (x1 > x2 ∧ absInt (x2 - x1) > absInt (y2 - y1))) :
    drawLineCalls x1 y1 x2 y2 = drawLineCalls x2 y2 x1 y1 := by
  have hsw : decide (((y1 > y2) ∧ (absInt (x2 - x1) < absInt (y2 - y1))) ∨
      ((x1 > x2) ∧ (absInt (x2 - x1) > absInt (y2 - y1)))) = true := by
    rw [decide_eq_true_iff]
    exact h
  have hsw' : decide (((y2 > y1) ∧ (absInt (x2 - x1) < absInt (y2 - y1))) ∨
      ((x2 > x1) ∧ (absInt (x2 - x1) > absInt (y2 - y1)))) = false := by
    rw [decide_eq_false_iff_not]
    omega
  unfold drawLineCalls drawLineWith
  simp only [absInt_sub_comm x1 x2, absInt_sub_comm y1 y2, hsw, hsw', Bool.false_eq_true,
    if_false, if_true]

end RisibleRadar

namespace RisibleRadar

open SpiOled

theorem neighbours8_major_x (inc : Int) (hinc : inc = 1 ∨ inc = -1) (p q : Int) :
    neighbours8 (p, q) (p + 1, q) ∧ neighbours8 (p, q) (p + 1, q + inc) := by
  unfold neighbours8
  refine ⟨⟨fun h => ?_, ?_, ?_⟩, ⟨fun h => ?_, ?_, ?_⟩⟩
  · have := congrArg Prod.fst h
    simp only at this
    omega
  · simp only
    rw [abs_le]
    constructor <;> omega
  · simp only
    rw [abs_le]
    constructor <;> omega
  · have := congrArg Prod.fst h
    simp only at this
    omega
  · simp only
    rw [abs_le]
    constructor <;> omega
  · simp only
    rw [abs_le]
    rcases hinc with h | h <;> constructor <;> omega

theorem neighbours8_major_y (inc : Int) (hinc : inc = 1 ∨ inc = -1) (p q : Int) :
    neighbours8 (q, p) (q, p + 1) ∧ neighbours8 (q, p) (q + inc, p + 1) := by
  unfold neighbours8
  refine ⟨⟨fun h => ?_, ?_, ?_⟩, ⟨fun h => ?_, ?_, ?_⟩⟩
  · have := congrArg Prod.snd h
    simp only at this
    omega
  · simp only
    rw [abs_le]
    constructor <;> omega
  · simp only
    rw [abs_le]
    constructor <;> omega
  · have := congrArg Prod.snd h
    simp only at this
    omega
  · simp only
    rw [abs_le]
    rcases hinc with h | h <;> constructor <;> omega
  · simp only
    rw [abs_le]
    constructor <;> omega

/-- The calls of `drawLine` when the end points need no exchange and are not
on a left-running diagonal: a steep line given top to bottom, or a shallow
line (a diagonal included) given left to right. -/
theorem drawLineCalls_forward (x1 y1 x2 y2 : Int)
    (h : (absInt (x2 - x1) < absInt (y2 - y1) ∧ y1 < y2) ∨
      (absInt (y2 - y1) ≤ absInt (x2 - x1) ∧ x1 ≤ x2)) :
    (drawLineCalls x1 y1 x2 y2).length
      = (max (absInt (x2 - x1)) (absInt (y2 - y1))).toNat + 1 ∧
    List.Chain' neighbours8 (drawLineCalls x1 y1 x2 y2) ∧
    (drawLineCalls x1 y1 x2 y2).head? = some (x1, y1) ∧
    (drawLineCalls x1 y1 x2 y2).getLast? = some (x2, y2) := by
  rcases h with ⟨hsteep, hy⟩ | ⟨hshallow, hx⟩
  · rw [drawLineCalls_steep_up x1 y1 x2 y2 hsteep hy]
    have hdy : absInt (y2 - y1) = y2 - y1 := by
      unfold absInt
      rw [if_neg (by omega)]
    have hinc : (if x1 > x2 then (-1 : Int) else 1) = 1 ∨ (if x1 > x2 then (-1 : Int) else 1) = -1 := by
      split_ifs
      · exact Or.inr rfl
      · exact Or.inl rfl
    have hend : x1 + (if x1 > x2 then (-1 : Int) else 1) * absInt (x2 - x1) = x2 := by
      unfold absInt
      split_ifs <;> omega
    have hrun := lineLoop_run (fun p q => (q, p)) neighbours8
      (fun p q => (neighbours8_major_y _ hinc p q).1)
      (absInt (x2 - x1)) (absInt (y2 - y1)) (if x1 > x2 then -1 else 1) y1 x1
      (fun p q => (neighbours8_major_y _ hinc p q).2)
      (absInt_nonneg _) (le_of_lt hsteep) (y2 - y1).toNat 0 0
      (2 * absInt (x2 - x1) - absInt (y2 - y1))
      (by rw [hdy]; omega) (le_refl 0) (le_refl 0) (le_refl 0) (by ring)
      (by have := absInt_nonneg (y2 - y1); omega) (Or.inl (by omega))
    simp only [mul_zero, add_zero] at hrun
    rw [hdy] at hrun ⊢
    have e1 : y1 + (y2 - y1) = y2 := by ring
    rw [e1, ← hdy, hend] at hrun
    rw [← hdy]
    obtain ⟨r1, r2, r3⟩ := hrun
    refine ⟨?_, r2, rfl, r3⟩
    rw [List.length_cons, r1, max_eq_right (le_of_lt hsteep), hdy]
  · rw [drawLineCalls_shallow_right x1 y1 x2 y2 hshallow hx]
    have hdx : absInt (x2 - x1) = x2 - x1 := by
      unfold absInt
      rw [if_neg (by omega)]
    have hinc : (if y1 > y2 then (-1 : Int) else 1) = 1 ∨ (if y1 > y2 then (-1 : Int) else 1) = -1 := by
      split_ifs
      · exact Or.inr rfl
      · exact Or.inl rfl
    have hend : y1 + (if y1 > y2 then (-1 : Int) else 1) * absInt (y2 - y1) = y2 := by
      unfold absInt
      split_ifs <;> omega
    have hrun := lineLoop_run (fun p q => (p, q)) neighbours8
      (fun p q => (neighbours8_major_x _ hinc p q).1)
      (absInt (y2 - y1)) (absInt (x2 - x1)) (if y1 > y2 then -1 else 1) x1 y1
      (fun p q => (neighbours8_major_x _ hinc p q).2)
      (absInt_nonneg _) hshallow (x2 - x1).toNat 0 0
      (2 * absInt (y2 - y1) - absInt (x2 - x1))
      (by rw [hdx]; omega) (le_refl 0) (le_refl 0) (le_refl 0) (by ring)
      (by have := absInt_nonneg (x2 - x1); omega)
      (by
        by_cases hz : absInt (x2 - x1) = 0
        · exact Or.inr hz
        · have := absInt_nonneg (x2 - x1)
          exact Or.inl (by omega))
    simp only [mul_zero, add_zero] at hrun
    rw [hdx] at hrun ⊢
    have e1 : x1 + (x2 - x1) = x2 := by ring
    rw [e1, ← hdx, hend] at hrun
    rw [← hdx]
    obtain ⟨r1, r2, r3⟩ := hrun
    refine ⟨?_, r2, rfl, r3⟩
    rw [List.length_cons, r1, max_eq_left hshallow, hdx]

end RisibleRadar

namespace RisibleRadar

open SpiOled

theorem lineLoop_eq_fold {σ : Type} (pl : Int × Int → σ → σ) (mk : Int → Int → Int × Int)
    (i1 i2 inc stop : Int) (n : Nat) (major minor d : Int) (s : σ) :
    lineLoop (fun a b s => pl (mk a b) s) i1 i2 inc stop n major minor d s
      = (lineLoop (fun a b l => l ++ [mk a b]) i1 i2 inc stop n major minor d []).foldl
          (fun s p => pl p s) s := by
  induction n generalizing major minor d s with
  | zero => rfl
  | succ n ih =>
    unfold lineLoop
    by_cases hm : major < stop
    · rw [if_pos hm, if_pos hm]
      by_cases hd : d < 0
      · simp only [if_pos hd]
        rw [ih, lineLoop_log mk _ _ _ _ _ _ _ _ ([] ++ _)]
        simp
      · simp only [if_neg hd]
        rw [ih, lineLoop_log mk _ _ _ _ _ _ _ _ ([] ++ _)]
        simp
    · rw [if_neg hm, if_neg hm]
      rfl

theorem drawLineWith_eq_fold {σ : Type} (pl : Int × Int → σ → σ) (x1 y1 x2 y2 : Int) (s : σ) :
    drawLineWith (fun x y s => pl (x, y) s) x1 y1 x2 y2 s
      = (drawLineWith (fun x y l => l ++ [(x, y)]) x1 y1 x2 y2 []).foldl
          (fun s p => pl p s) s := by
  unfold drawLineWith
  simp only
  by_cases hst : absInt (y2 - y1) > absInt (x2 - x1)
  · simp only [if_pos hst]
    rw [lineLoop_log (fun a b => (b, a)), List.foldl_append]
    exact lineLoop_eq_fold pl (fun a b => (b, a)) _ _ _ _ _ _ _ _ _
  · simp only [if_neg hst]
    rw [lineLoop_log (fun a b => (a, b)), List.foldl_append]
    exact lineLoop_eq_fold pl (fun a b => (a, b)) _ _ _ _ _ _ _ _ _

/-- The function `drawLine` makes the calls of `drawPixel` listed by
`drawLineCalls`, in order. -/
theorem drawLine_eq_fold (x1 y1 x2 y2 c : Int) (f : Frame) :
    drawLine x1 y1 x2 y2 c f
      = (drawLineCalls x1 y1 x2 y2).foldl
          (fun f q => drawPixel (u32 q.1) (u32 q.2) (u16 c) f) f :=
  drawLineWith_eq_fold (fun (q : Int × Int) (f : Frame) =>
    drawPixel (u32 q.1) (u32 q.2) (u16 c) f) x1 y1 x2 y2 f

/-- Away from the left-running diagonals `drawLine` joins its end points: if
it is not the case that |x2 - x1| = |y2 - y1| and x1 > x2, the calls of
`drawPixel` number max(|x2 - x1|, |y2 - y1|) + 1, each names a neighbour of
the pixel before, the first and the last are the two end points (in one order
or the other), and an end point that passes the bounds check of `drawPixel`
has colour `c` afterwards. -/
theorem drawLine_joins_otherwise (x1 y1 x2 y2 c : Int) (f : Frame)
    (hok : ¬ (absInt (x2 - x1) = absInt (y2 - y1) ∧ x1 > x2)) :
    (drawLineCalls x1 y1 x2 y2).length
      = (max (absInt (x2 - x1)) (absInt (y2 - y1))).toNat + 1 ∧
    List.Chain' neighbours8 (drawLineCalls x1 y1 x2 y2) ∧
    (((drawLineCalls x1 y1 x2 y2).head? = some (x1, y1) ∧
        (drawLineCalls x1 y1 x2 y2).getLast? = some (x2, y2)) ∨
      ((drawLineCalls x1 y1 x2 y2).head? = some (x2, y2) ∧
        (drawLineCalls x1 y1 x2 y2).getLast? = some (x1, y1))) ∧
    (u32 x1 < MAXX → u32 y1 < MAXY →
      drawLine x1 y1 x2 y2 c f (u32 y1 * MAXX + u32 x1) = u16 c) ∧
    (u32 x2 < MAXX → u32 y2 < MAXY →
      drawLine x1 y1 x2 y2 c f (u32 y2 * MAXX + u32 x2) = u16 c) := by
  have hcalls : (drawLineCalls x1 y1 x2 y2).length
        = (max (absInt (x2 - x1)) (absInt (y2 - y1))).toNat + 1 ∧
      List.Chain' neighbours8 (drawLineCalls x1 y1 x2 y2) ∧
      (((drawLineCalls x1 y1 x2 y2).head? = some (x1, y1) ∧
          (drawLineCalls x1 y1 x2 y2).getLast? = some (x2, y2)) ∨
        ((drawLineCalls x1 y1 x2 y2).head? = some (x2, y2) ∧
          (drawLineCalls x1 y1 x2 y2).getLast? = some (x1, y1))) := by
    by_cases hfwd : (absInt (x2 - x1) < absInt (y2 - y1) ∧ y1 < y2) ∨
        (absInt (y2 - y1) ≤ absInt (x2 - x1) ∧ x1 ≤ x2)
    · obtain ⟨r1, r2, r3, r4⟩ := drawLineCalls_forward x1 y1 x2 y2 hfwd
      exact ⟨r1, r2, Or.inl ⟨r3, r4⟩⟩
    · have hy0 : absInt (y2 - y1) = 0 → y1 = y2 := by
        unfold absInt
        split_ifs <;> omega
      have hnn := absInt_nonneg (x2 - x1)
      have hsw : (y1 > y2 ∧ absInt (x2 - x1) < absInt (y2 - y1)) ∨
          (x1 > x2 ∧ absInt (x2 - x1) > absInt (y2 - y1)) := by
        by_cases hst : absInt (x2 - x1) < absInt (y2 - y1)
        · have hne : y1 ≠ y2 := by
            intro e
            rw [e, sub_self] at hst
            have : absInt 0 = 0 := rfl
            omega
          exact Or.inl ⟨by omega, hst⟩
        · exact Or.inr ⟨by omega, by omega⟩
      have hfwd' : (absInt (x1 - x2) < absInt (y1 - y2) ∧ y2 < y1) ∨
          (absInt (y1 - y2) ≤ absInt (x1 - x2) ∧ x2 ≤ x1) := by
        rw [absInt_sub_comm x1 x2, absInt_sub_comm y1 y2]
        rcases hsw with ⟨h1, h2⟩ | ⟨h1, h2⟩
        · exact Or.inl ⟨h2, h1⟩
        · exact Or.inr ⟨by omega, by omega⟩
      obtain ⟨r1, r2, r3, r4⟩ := drawLineCalls_forward x2 y2 x1 y1 hfwd'
      rw [drawLineCalls_swap x1 y1 x2 y2 hsw, absInt_sub_comm x2 x1, absInt_sub_comm y2 y1]
      exact ⟨r1, r2, Or.inr ⟨r3, r4⟩⟩
  obtain ⟨c1, c2, c3⟩ := hcalls
  have hmem1 : (x1, y1) ∈ drawLineCalls x1 y1 x2 y2 := by
    rcases c3 with ⟨h, _⟩ | ⟨_, h⟩
    · exact List.mem_of_mem_head? h
    · exact List.mem_of_mem_getLast? h
  have hmem2 : (x2, y2) ∈ drawLineCalls x1 y1 x2 y2 := by
    rcases c3 with ⟨_, h⟩ | ⟨h, _⟩
    · exact List.mem_of_mem_getLast? h
    · exact List.mem_of_mem_head? h
  refine ⟨c1, c2, c3, fun hx hy => ?_, fun hx hy => ?_⟩
  · rw [drawLine_eq_fold]
    exact drawPixels_colour (u16 c) _ f (x1, y1) hmem1 hx hy
  · rw [drawLine_eq_fold]
    exact drawPixels_colour (u16 c) _ f (x2, y2) hmem2 hx hy

end RisibleRadar
